import Mathlib

/-!
# SS02 / SS03 slot replay: a shallow embedding of the cascade core

The development embeds the matching, scoring, elimination, gravity and replay
functions of `SlotPay.cpp`, `SS02Pay.cpp` and `SS03Pay.cpp`, the board validator of
`SS03Pay.cpp`, the script loop of the analysis harness (`SS02_test.cpp`,
`SS03_test.cpp`) and the reel conversion of `SS02_convertpay.cpp`.

Modelling conventions
* `Board` is `std::vector<std::vector<int>>`: a list of rows of integers.  A read
  outside the vector is undefined in the source; the embedding returns `0` there and
  a write outside the vector changes nothing.  On the board shapes the source assumes
  (5x6 for SS02, 5x5 for SS03) no read or write of the embedded functions falls outside.
* `MatchPatterns` is `std::unordered_map<int, std::vector<std::pair<int,int>>>`: an
  association list with at most one entry per key, read through `MatchPatterns.find`
  and written through `MatchPatterns.assign` (`m[k] = v`) and `MatchPatterns.push`
  (`m[k].emplace_back(p)`).  Row and column indices are natural numbers.
* Scores: every entry of both paytables is a whole number, so every `float` the scoring
  code produces is whole and is written as an integer.  The functions named after the
  source (`get_score`, `steps`) carry the scores in exact integer arithmetic.  Their
  `_machine` companions carry them as the source does: an `int` operation has no value on
  signed overflow, a `float` operation rounds to 24 significant bits (`float_round`).
  The two agree while the values are at most 2^24 in magnitude, in particular on every
  map the matchers return.
-/

namespace Slot

/-! ## Data model (`SlotPay.hpp`) -/

/-- Grid of integer cell codes, a list of rows. -/
abbrev Board := List (List Int)

/-- Ordered list of matched `(row, col)` positions. -/
abbrev MatchPattern := List (Nat × Nat)

/-- Map from symbol to its matched positions, as an association list. -/
abbrev MatchPatterns := List (Int × MatchPattern)

/-- Paytable `symbol → (count → payout)`, as nested association lists. -/
abbrev PayTable := List (Int × List (Int × Int))

/-- Read `board[row][col]`. -/
def Board.cell (b : Board) (row col : Nat) : Int := (b.getD row []).getD col 0

/-- Write `board[row][col] = v`. -/
def Board.put (b : Board) (row col : Nat) (v : Int) : Board :=
  b.set row ((b.getD row []).set col v)

/-- Board of `h` rows, each of width `w`. -/
def Board.hasShape (b : Board) (h w : Nat) : Prop :=
  b.length = h ∧ ∀ r ∈ b, r.length = w

instance (b : Board) (h w : Nat) : Decidable (b.hasShape h w) := by
  unfold Board.hasShape; infer_instance

/-- Lookup `m.find(k)`: the first entry stored under key `k`. -/
def MatchPatterns.find : MatchPatterns → Int → Option MatchPattern
  | [], _ => none
  | (k', v) :: t, k => if k' = k then some v else MatchPatterns.find t k

/-- Assignment `m[k] = v`: overwrite the entry of `k`, or add one. -/
def MatchPatterns.assign : MatchPatterns → Int → MatchPattern → MatchPatterns
  | [], k, v => [(k, v)]
  | (k', v') :: t, k, v =>
    if k' = k then (k, v) :: t else (k', v') :: MatchPatterns.assign t k v

/-- Append `m[k].emplace_back(p)`: extend the entry of `k`, created empty when absent. -/
def MatchPatterns.push : MatchPatterns → Int → Nat × Nat → MatchPatterns
  | [], k, p => [(k, [p])]
  | (k', v') :: t, k, p =>
    if k' = k then (k', v' ++ [p]) :: t else (k', v') :: MatchPatterns.push t k p

/-- Keys of the map. -/
def MatchPatterns.keys (m : MatchPatterns) : List Int := m.map Prod.fst

/-- Paytable lookup `pay_table[symbol][count]`, `none` when either key is absent. -/
def PayTable.lookup (t : PayTable) (symbol count : Int) : Option Int :=
  match List.lookup symbol t with
  | none => none
  | some row => List.lookup count row

/-! ## `SlotBase` (`SlotPay.cpp`) -/

namespace SlotBase

/-- Source `SlotBase::eliminate_matches`: every matched position becomes `-1`. -/
def eliminate_matches (board : Board) (patterns : MatchPatterns) : Board :=
  patterns.foldl
    (fun result entry => entry.2.foldl (fun result pos => result.put pos.1 pos.2 (-1)) result)
    board

/-- The function `SlotBase::get_score` read in exact arithmetic: the paytable entry of
`(symbol, count)`, else `symbol * count`, summed as integers.  The source sums in `float`
and multiplies in `int`; `SlotBase.get_score_machine` is that function, and the two agree
while the values are exact (`SlotBase.base_score_machine_exact`), as on every map of the
Variant A matcher (`ss02_matcher_score_machine`). -/
def get_score (pay_table : PayTable) (patterns : MatchPatterns) : Int :=
  patterns.foldl
    (fun total_score entry =>
      if entry.2 ≠ [] then
        let count : Int := entry.2.length
        match pay_table.lookup entry.1 count with
        | some pay => total_score + pay
        | none => total_score + entry.1 * count
      else total_score)
    0

end SlotBase

/-! ## `SlotSS02` (`SS02Pay.cpp`) -/

namespace SlotSS02

/-- Configured `board_height`. -/
def board_height : Nat := 5

/-- Configured `board_width`. -/
def board_width : Nat := 6

/-- Configured symbol alphabet. -/
def symbols : List Int := [0, 1, 2, 3, 4, 5, 6, 7, 8]

/-- Configured `min_match_size`. -/
def min_match_size : Nat := 8

/-- Multiplier symbol `MULTIPLIER` of the free game. -/
def MULTIPLIER : Int := 202

/-- Source `init_ss02_pay_table`. -/
def pay_table : PayTable := [
  (0, [(8, 200), (9, 200), (10, 500), (11, 500), (12, 1000), (13, 1000), (14, 1000), (15, 1000), (16, 1000), (17, 1000), (18, 1000), (19, 1000), (20, 1000), (21, 1000), (22, 1000), (23, 1000), (24, 1000), (25, 1000), (26, 1000), (27, 1000), (28, 1000), (29, 1000), (30, 1000)]),
  (1, [(8, 50), (9, 50), (10, 200), (11, 200), (12, 500), (13, 500), (14, 500), (15, 500), (16, 500), (17, 500), (18, 500), (19, 500), (20, 500), (21, 500), (22, 500), (23, 500), (24, 500), (25, 500), (26, 500), (27, 500), (28, 500), (29, 500), (30, 500)]),
  (2, [(8, 40), (9, 40), (10, 100), (11, 100), (12, 300), (13, 300), (14, 300), (15, 300), (16, 300), (17, 300), (18, 300), (19, 300), (20, 300), (21, 300), (22, 300), (23, 300), (24, 300), (25, 300), (26, 300), (27, 300), (28, 300), (29, 300), (30, 300)]),
  (3, [(8, 30), (9, 30), (10, 40), (11, 40), (12, 240), (13, 240), (14, 240), (15, 240), (16, 240), (17, 240), (18, 240), (19, 240), (20, 240), (21, 240), (22, 240), (23, 240), (24, 240), (25, 240), (26, 240), (27, 240), (28, 240), (29, 240), (30, 240)]),
  (4, [(8, 20), (9, 20), (10, 30), (11, 30), (12, 200), (13, 200), (14, 200), (15, 200), (16, 200), (17, 200), (18, 200), (19, 200), (20, 200), (21, 200), (22, 200), (23, 200), (24, 200), (25, 200), (26, 200), (27, 200), (28, 200), (29, 200), (30, 200)]),
  (5, [(8, 16), (9, 16), (10, 24), (11, 24), (12, 160), (13, 160), (14, 160), (15, 160), (16, 160), (17, 160), (18, 160), (19, 160), (20, 160), (21, 160), (22, 160), (23, 160), (24, 160), (25, 160), (26, 160), (27, 160), (28, 160), (29, 160), (30, 160)]),
  (6, [(8, 10), (9, 10), (10, 20), (11, 20), (12, 100), (13, 100), (14, 100), (15, 100), (16, 100), (17, 100), (18, 100), (19, 100), (20, 100), (21, 100), (22, 100), (23, 100), (24, 100), (25, 100), (26, 100), (27, 100), (28, 100), (29, 100), (30, 100)]),
  (7, [(8, 8), (9, 8), (10, 18), (11, 18), (12, 80), (13, 80), (14, 80), (15, 80), (16, 80), (17, 80), (18, 80), (19, 80), (20, 80), (21, 80), (22, 80), (23, 80), (24, 80), (25, 80), (26, 80), (27, 80), (28, 80), (29, 80), (30, 80)]),
  (8, [(8, 5), (9, 5), (10, 15), (11, 15), (12, 40), (13, 40), (14, 40), (15, 40), (16, 40), (17, 40), (18, 40), (19, 40), (20, 40), (21, 40), (22, 40), (23, 40), (24, 40), (25, 40), (26, 40), (27, 40), (28, 40), (29, 40), (30, 40)])]

/-- Inner loops of `SlotSS02::find_matches`: positions of `symbol`, rows outer, columns inner. -/
def positions_of (board : Board) (symbol : Int) : MatchPattern :=
  (List.range board_height).foldl
    (fun positions row =>
      (List.range board_width).foldl
        (fun positions col =>
          if board.cell row col = symbol then positions ++ [(row, col)] else positions)
        positions)
    []

/-- Source `SlotSS02::find_matches`: cluster matching, `min_match_size` anywhere on the board. -/
def find_matches (board : Board) : MatchPatterns × Bool :=
  symbols.foldl
    (fun acc symbol =>
      let positions := positions_of board symbol
      if min_match_size ≤ positions.length then (acc.1.assign symbol positions, true) else acc)
    ([], false)

/-- One column of `SlotSS02::apply_gravity`: collect, clear, place at the bottom. -/
def gravity_column (result : Board) (col : Nat) : Board :=
  let non_empty : List Int :=
    (List.range board_height).foldl
      (fun acc row => if result.cell row col ≠ -1 then acc ++ [result.cell row col] else acc) []
  let cleared := (List.range board_height).foldl (fun r row => r.put row col (-1)) result
  let start_row := board_height - non_empty.length
  (List.range non_empty.length).foldl
    (fun r i => r.put (start_row + i) col (non_empty.getD i 0)) cleared

/-- Source `SlotSS02::apply_gravity`. -/
def apply_gravity (board : Board) : Board :=
  (List.range board_width).foldl gravity_column board

end SlotSS02

/-! ## `SlotSS03` (`SS03Pay.cpp`) -/

namespace SlotSS03

/-- Configured `board_height`. -/
def board_height : Nat := 5

/-- Configured `board_width`. -/
def board_width : Nat := 5

/-- Configured symbol alphabet. -/
def symbols : List Int := [0, 1, 2, 3, 4, 5, 6, 7, 8]

/-- Configured `min_match_size`. -/
def min_match_size : Nat := 3

/-- Column heights of the irregular board, `COLUMN_HEIGHTS`. -/
def COLUMN_HEIGHTS : List Nat := [4, 5, 5, 5, 4]

/-- Height of column `col`, `COLUMN_HEIGHTS[col]`. -/
def column_height (col : Nat) : Nat := COLUMN_HEIGHTS.getD col 0

/-- Padding code `PADDING_CELL`. -/
def PADDING_CELL : Int := -2

/-- Wild code `WILD`. -/
def WILD : Int := 202

/-- Scatter code `SCATTER`. -/
def SCATTER : Int := 201

/-- Source `init_ss03_pay_table`. -/
def pay_table : PayTable := [
  (1, [(3, 10), (4, 25), (5, 50)]),
  (2, [(3, 8), (4, 20), (5, 40)]),
  (3, [(3, 6), (4, 15), (5, 30)]),
  (4, [(3, 5), (4, 10), (5, 15)]),
  (5, [(3, 3), (4, 5), (5, 12)]),
  (6, [(3, 3), (4, 5), (5, 12)]),
  (7, [(3, 2), (4, 4), (5, 10)]),
  (8, [(3, 1), (4, 3), (5, 6)]),
  (9, [(3, 1), (4, 3), (5, 6)])]

/-- First loop of `SlotSS03::find_matches`: column 0 seeds the table `dp`. -/
def seed_column (board : Board) : MatchPatterns :=
  (List.range (column_height 0)).foldl
    (fun dp row =>
      let symbol := board.cell row 0
      if 0 < symbol ∧ symbol < 100 then dp.push symbol (row, 0)
      else if 100 ≤ symbol ∧ symbol < 200 then dp.push (symbol - 100) (row, 0)
      else dp)
    []

/-- Row scan of columns 1 and 2: cells equal to `symbol`, to `symbol + 100`, or `WILD`
(the source keeps the guard `col >= 1` on `WILD` here). -/
def current_positions_low (board : Board) (col : Nat) (symbol : Int) : MatchPattern :=
  (List.range (column_height col)).foldl
    (fun current_positions row =>
      let current_symbol := board.cell row col
      if current_symbol = symbol ∨ current_symbol - 100 = symbol ∨
          (current_symbol = WILD ∧ 1 ≤ col) then
        current_positions ++ [(row, col)]
      else current_positions)
    []

/-- Row scan of columns 3 and 4: cells equal to `symbol`, to `symbol + 100`, or `WILD`. -/
def current_positions_high (board : Board) (col : Nat) (symbol : Int) : MatchPattern :=
  (List.range (column_height col)).foldl
    (fun current_positions row =>
      let current_symbol := board.cell row col
      if current_symbol = symbol ∨ current_symbol - 100 = symbol ∨ current_symbol = WILD then
        current_positions ++ [(row, col)]
      else current_positions)
    []

/-- Loop state of `find_matches`: the table `dp`, `match_patterns` and `has_match`. -/
structure MatchState where
  /-- Table of the live chains. -/
  dp : MatchPatterns
  /-- Committed patterns. -/
  match_patterns : MatchPatterns
  /-- Flag set by every commit. -/
  has_match : Bool
deriving DecidableEq

/-- Body of the column loop of `find_matches` for one column `col` in `1..4`. -/
def process_column (board : Board) (st : MatchState) (col : Nat) : MatchState :=
  if col ≤ 2 then
    let next_dp : MatchPatterns :=
      st.dp.foldl
        (fun next_dp entry =>
          let current_positions := current_positions_low board col entry.1
          if current_positions ≠ [] then next_dp.assign entry.1 (entry.2 ++ current_positions)
          else next_dp)
        []
    { dp := next_dp, match_patterns := st.match_patterns, has_match := st.has_match }
  else
    let acc : MatchState :=
      st.dp.foldl
        (fun acc entry =>
          let acc1 : MatchState :=
            if min_match_size ≤ entry.2.length then
              { dp := acc.dp, match_patterns := acc.match_patterns.assign entry.1 entry.2,
                has_match := true }
            else acc
          let current_positions := current_positions_high board col entry.1
          if current_positions ≠ [] then
            { dp := acc1.dp.assign entry.1 (entry.2 ++ current_positions),
              match_patterns := acc1.match_patterns, has_match := acc1.has_match }
          else acc1)
        { dp := [], match_patterns := st.match_patterns, has_match := st.has_match }
    acc

/-- Final loop of `find_matches`: commit every surviving chain of sufficient length. -/
def collect_remaining (st : MatchState) : MatchPatterns × Bool :=
  st.dp.foldl
    (fun acc entry =>
      if min_match_size ≤ entry.2.length then (acc.1.assign entry.1 entry.2, true) else acc)
    (st.match_patterns, st.has_match)

/-- Source `SlotSS03::find_matches`: ways-to-win matching over columns `0..4`. -/
def find_matches (board : Board) : MatchPatterns × Bool :=
  collect_remaining
    ((List.range' 1 (board_width - 1)).foldl (process_column board)
      { dp := seed_column board, match_patterns := [], has_match := false })

/-- Source `SlotSS03::eliminate_matches`: golden cells become `WILD`, the others `-1`. -/
def eliminate_matches (board : Board) (patterns : MatchPatterns) : Board :=
  patterns.foldl
    (fun result entry =>
      entry.2.foldl
        (fun result pos =>
          let original_value := board.cell pos.1 pos.2
          if 100 ≤ original_value ∧ original_value < 200 then result.put pos.1 pos.2 WILD
          else result.put pos.1 pos.2 (-1))
        result)
    board

/-- One column of `SlotSS03::apply_gravity`. -/
def gravity_column (result : Board) (col : Nat) : Board :=
  let non_empty : List Int :=
    (List.range (column_height col)).foldl
      (fun acc row =>
        if result.cell row col ≠ -1 ∧ result.cell row col ≠ PADDING_CELL then
          acc ++ [result.cell row col]
        else acc) []
  let cleared := (List.range (column_height col)).foldl (fun r row => r.put row col (-1)) result
  let start_row := column_height col - non_empty.length
  let placed := (List.range non_empty.length).foldl
    (fun r i => r.put (start_row + i) col (non_empty.getD i 0)) cleared
  (List.range' (column_height col) (board_height - column_height col)).foldl
    (fun r row => r.put row col PADDING_CELL) placed

/-- Source `SlotSS03::apply_gravity`. -/
def apply_gravity (board : Board) : Board :=
  (List.range board_width).foldl gravity_column board

/-- Step 1 of `SlotSS03::get_score`: the five per-column counters. -/
def column_counts (positions : MatchPattern) : List Nat :=
  positions.foldl (fun cc pos => cc.set pos.2 (cc.getD pos.2 0 + 1)) [0, 0, 0, 0, 0]

/-- Step 2 of `SlotSS03::get_score`: count columns from column 0 until the first gap.
The pair holds the counter and whether the loop is still running (no `break` yet). -/
def consecutive_columns (cc : List Nat) : Nat :=
  ((List.range 5).foldl
    (fun (acc : Nat × Bool) col =>
      if acc.2 then (if 0 < cc.getD col 0 then (acc.1 + 1, true) else (acc.1, false))
      else acc)
    (0, true)).1

/-- Step 3 of `SlotSS03::get_score`: product of the counters of the run. -/
def ways (cc : List Nat) (consecutive : Nat) : Nat :=
  (List.range consecutive).foldl (fun w col => w * cc.getD col 0) 1

/-- The function `SlotSS03::get_score` read in exact arithmetic.  The source has an `int`
product `ways` and a `float` total; `SlotSS03.get_score_machine` is that function, and the
two agree while the values are exact (`SlotSS03.ways_score_machine_exact`), as on every map
of the Variant B matcher (`ss03_matcher_score_machine`). -/
def get_score (patterns : MatchPatterns) : Int :=
  patterns.foldl
    (fun total_score entry =>
      if entry.2 = [] then total_score
      else
        let cc := column_counts entry.2
        let consecutive := consecutive_columns cc
        if consecutive < 3 then total_score
        else
          let payout : Int :=
            match pay_table.lookup entry.1 consecutive with
            | some pay => pay
            | none => 0
          total_score + payout * (ways cc consecutive : Nat))
    0

end SlotSS03

/-! ## Script replay (`steps`) -/

/-- The virtual interface the replay loop calls. -/
structure Engine where
  /-- Matcher of the variant. -/
  find_matches : Board → MatchPatterns × Bool
  /-- Scorer of the variant. -/
  get_score : MatchPatterns → Int
  /-- Elimination of the variant. -/
  eliminate_matches : Board → MatchPatterns → Board
  /-- Gravity of the variant. -/
  apply_gravity : Board → Board

/-- Source `SlotBase::is_terminal`: no match on the board. -/
def Engine.is_terminal (E : Engine) (board : Board) : Bool := !(E.find_matches board).2

/-- Methods `SlotSS03::steps` resolves to. -/
def SlotSS03.engine : Engine where
  find_matches := SlotSS03.find_matches
  get_score := SlotSS03.get_score
  eliminate_matches := SlotSS03.eliminate_matches
  apply_gravity := SlotSS03.apply_gravity

/-- Methods `SlotSS02::steps` resolves to. -/
def SlotSS02.engine : Engine where
  find_matches := SlotSS02.find_matches
  get_score := SlotBase.get_score SlotSS02.pay_table
  eliminate_matches := SlotBase.eliminate_matches
  apply_gravity := SlotSS02.apply_gravity

/-- Local variables of `steps`. -/
structure StepsState where
  /-- Board the loop is looking at. -/
  current_board : Board
  /-- Accumulated score. -/
  total_score : Int
  /-- Index of the current script board. -/
  actual_stop : Nat
  /-- Patterns of every step so far. -/
  all_patterns : List MatchPatterns
  /-- Cleared by the first failed comparison. -/
  all_cascade_match : Bool
deriving DecidableEq

/-- Result tuple of `steps`. -/
structure StepsResult where
  /-- Final board. -/
  final_board : Board
  /-- Total score. -/
  total_score : Int
  /-- Stop index `actual_stop + 1`. -/
  stop : Nat
  /-- Patterns per step. -/
  all_patterns : List MatchPatterns
  /-- Cascade flag of the whole run. -/
  all_steps_cascade_matched : Bool
deriving DecidableEq

/-- Comparison loop of `steps`: every non `-1` cell of `current_board` against `next_board`. -/
def cascade_match (current_board next_board : Board) : Bool :=
  (List.range current_board.length).foldl
    (fun step_cascade_match row =>
      (List.range (current_board.getD row []).length).foldl
        (fun step_cascade_match col =>
          if current_board.cell row col ≠ -1 then
            if current_board.cell row col ≠ next_board.cell row col then false
            else step_cascade_match
          else step_cascade_match)
        step_cascade_match)
    true

/-- Body of the `while` loop of `steps` (the same statements in both variants), with the
total accumulated in exact arithmetic; `Engine.loop_body_machine` accumulates it as the
source does. -/
def Engine.loop_body (E : Engine) (script : List Board) (st : StepsState) : StepsState :=
  let patterns := (E.find_matches st.current_board).1
  let step_score := E.get_score patterns
  let eliminated := E.eliminate_matches st.current_board patterns
  let fallen := E.apply_gravity eliminated
  let next_board := script.getD (st.actual_stop + 1) []
  let step_cascade_match := cascade_match fallen next_board
  { current_board := next_board
    total_score := st.total_score + step_score
    actual_stop := st.actual_stop + 1
    all_patterns := st.all_patterns ++ [patterns]
    all_cascade_match := if step_cascade_match then st.all_cascade_match else false }

/-- The `while` loop of `steps`, with an iteration budget. -/
def Engine.run_loop (E : Engine) (script : List Board) : Nat → StepsState → StepsState
  | 0, st => st
  | fuel + 1, st =>
    if E.is_terminal st.current_board = false ∧ st.actual_stop < script.length - 1 then
      Engine.run_loop E script fuel (E.loop_body script st)
    else st

/-- State of `steps` when the `while` loop exits; the budget is the script length. -/
def Engine.replay (E : Engine) (script : List Board) : StepsState :=
  E.run_loop script script.length
    { current_board := script.getD 0 [], total_score := 0, actual_stop := 0,
      all_patterns := [], all_cascade_match := true }

/-- The function `SlotSS03::steps` with the total in exact arithmetic.  The function
`SlotSS03.steps_machine` has the `float` total of the source; it returns this result
while the total is at most 2^24 (`Engine.run_loop_machine_exact`). -/
def SlotSS03.steps (script : List Board) : StepsResult :=
  if script = [] then
    { final_board := [], total_score := 0, stop := 0, all_patterns := [],
      all_steps_cascade_matched := true }
  else
    let st := SlotSS03.engine.replay script
    { final_board := st.current_board, total_score := st.total_score,
      stop := st.actual_stop + 1, all_patterns := st.all_patterns,
      all_steps_cascade_matched := st.all_cascade_match }

/-- Count of `MULTIPLIER` cells on the board, the post-loop scan of `SlotSS02::steps`. -/
def SlotSS02.multiplier_count (current_board : Board) : Nat :=
  (List.range SlotSS02.board_height).foldl
    (fun count row =>
      (List.range SlotSS02.board_width).foldl
        (fun count col =>
          if current_board.cell row col = SlotSS02.MULTIPLIER then count + 1 else count)
        count)
    0

/-- The function `SlotSS02::steps` with the total in exact arithmetic.  The function
`SlotSS02.steps_machine` has the `int` total of the source, multiplied in `int` and
returned as a `float`; it returns this result while the values are exact
(`Engine.run_loop_machine_exact`). -/
def SlotSS02.steps (game_type : String) (script : List Board) (special_multipliers : Int) :
    StepsResult :=
  if script = [] then
    { final_board := [], total_score := 0, stop := 0, all_patterns := [],
      all_steps_cascade_matched := true }
  else
    let st := SlotSS02.engine.replay script
    let total_score : Int :=
      if game_type = "free" then
        let multiplier_count := SlotSS02.multiplier_count st.current_board
        if 0 < multiplier_count then st.total_score * (multiplier_count * special_multipliers)
        else st.total_score
      else st.total_score
    { final_board := st.current_board, total_score := total_score,
      stop := st.actual_stop + 1, all_patterns := st.all_patterns,
      all_steps_cascade_matched := st.all_cascade_match }

/-- Score of the step taken on board `i` of the script. -/
def Engine.step_score (E : Engine) (script : List Board) (i : Nat) : Int :=
  E.get_score (E.find_matches (script.getD i [])).1

/-- Patterns of the step taken on board `i` of the script. -/
def Engine.step_patterns (E : Engine) (script : List Board) (i : Nat) : MatchPatterns :=
  (E.find_matches (script.getD i [])).1

/-- Post-gravity board `G_i` the engine computes from board `i` of the script. -/
def Engine.fallen (E : Engine) (script : List Board) (i : Nat) : Board :=
  E.apply_gravity (E.eliminate_matches (script.getD i []) (E.find_matches (script.getD i [])).1)

/-- Stop-index contract: `r.stop - 1` is the least index whose board is terminal or last. -/
def stop_index_contract (E : Engine) (script : List Board) (r : StepsResult) : Prop :=
  1 ≤ r.stop ∧ r.stop ≤ script.length ∧
  (∀ i, i + 1 < r.stop → E.is_terminal (script.getD i []) = false) ∧
  (E.is_terminal (script.getD (r.stop - 1) []) = true ∨ r.stop = script.length) ∧
  (∀ k, k < script.length →
    (E.is_terminal (script.getD k []) = true ∨ k = script.length - 1) → r.stop - 1 ≤ k) ∧
  (E.is_terminal r.final_board = false → r.stop = script.length)

/-- Every cell of `g` that is not `-1` equals the cell of `next` at the same position. -/
def cells_agree (g next : Board) : Prop :=
  ∀ row col, row < g.length → col < (g.getD row []).length →
    g.cell row col ≠ -1 → g.cell row col = next.cell row col

/-- The win board of the `SS03Pay.cpp` self-test (three-column ways-to-win match). -/
def sample_board_ss03 : Board :=
  [[1, 1, 1, 2, 3], [2, 1, 1, 4, 6], [3, 2, 1, 5, 7], [4, 3, 2, 6, 8], [-2, 5, 4, 7, -2]]

/-- The no-match board of the `SS03Pay.cpp` self-test. -/
def quiet_board_ss03 : Board :=
  [[1, 2, 3, 4, 5], [6, 107, 8, 1, 2], [2, 3, 108, 5, 3], [7, 8, 1, 2, 4], [-2, 5, 6, 7, -2]]

/-- A two-board script for the replay loop. -/
def sample_script : List Board := [sample_board_ss03, quiet_board_ss03]

/-- Row-major enumeration of the positions of an `h` by `w` grid. -/
def all_positions (h w : Nat) : List (Nat × Nat) :=
  (List.range h).flatMap (fun row => (List.range w).map (fun col => (row, col)))

/-- Positions of the 5x6 board holding exactly `s`, in row-major order. -/
def SlotSS02.occurrences (board : Board) (s : Int) : MatchPattern :=
  (all_positions 5 6).filter (fun p => decide (board.cell p.1 p.2 = s))

/-- Cells of column 0 (rows `0..3`) that seed the chain of `s` in `SlotSS03::find_matches`:
a plain `s` under the guard `0 < s < 100`, or the golden encoding `s + 100`. -/
def SlotSS03.seed_positions (board : Board) (s : Int) : MatchPattern :=
  ((List.range 4).filter (fun row => decide
    ((0 < board.cell row 0 ∧ board.cell row 0 < 100 ∧ board.cell row 0 = s) ∨
     (100 ≤ board.cell row 0 ∧ board.cell row 0 < 200 ∧ board.cell row 0 = s + 100)))).map
    (fun row => (row, 0))

/-- Cells of column `col` within its height that hold `s`, `s + 100` or `WILD`, top to
bottom. -/
def SlotSS03.column_matches (board : Board) (col : Nat) (s : Int) : MatchPattern :=
  ((List.range (SlotSS03.column_height col)).filter (fun row => decide
    (board.cell row col = s ∨ board.cell row col = s + 100 ∨ board.cell row col = 202))).map
    (fun row => (row, col))

/-- The chain of `s` as the column loop leaves it: seeded in column 0, it must be continued
in columns 1 and 2, and then takes columns 3 and 4 as long as they continue it. -/
def SlotSS03.chain (board : Board) (s : Int) : Option MatchPattern :=
  if SlotSS03.seed_positions board s = [] ∨ SlotSS03.column_matches board 1 s = [] ∨
      SlotSS03.column_matches board 2 s = [] then none
  else if SlotSS03.column_matches board 3 s = [] then
    some (SlotSS03.seed_positions board s ++ SlotSS03.column_matches board 1 s ++
      SlotSS03.column_matches board 2 s)
  else if SlotSS03.column_matches board 4 s = [] then
    some (SlotSS03.seed_positions board s ++ SlotSS03.column_matches board 1 s ++
      SlotSS03.column_matches board 2 s ++ SlotSS03.column_matches board 3 s)
  else
    some (SlotSS03.seed_positions board s ++ SlotSS03.column_matches board 1 s ++
      SlotSS03.column_matches board 2 s ++ SlotSS03.column_matches board 3 s ++
      SlotSS03.column_matches board 4 s)

/-- A valid base-game board whose column 0 holds a plain `0` at row 0 and the golden `100`
at row 1, while columns 1 and 2 hold a plain `0` at row 0. -/
def zero_mixed_board : Board :=
  [[0, 0, 0, 2, 3], [100, 1, 1, 4, 6], [3, 2, 7, 5, 7], [4, 3, 2, 6, 8], [-2, 5, 4, 7, -2]]

/-- A valid base-game board with a plain `0` in each of columns 0, 1 and 2 (row 0) and no
other chain that reaches column 2. -/
def zero_row_board : Board :=
  [[0, 0, 0, 2, 3], [6, 1, 1, 4, 6], [3, 2, 7, 5, 7], [4, 3, 2, 6, 8], [-2, 5, 4, 7, -2]]

/-- A valid base-game board with a plain `0` at `(1, 0)` and at row 0 of columns 1 and 2. -/
def zero_inner_board : Board :=
  [[6, 0, 0, 2, 3], [0, 1, 1, 4, 6], [3, 2, 7, 5, 7], [4, 3, 2, 6, 8], [-2, 5, 4, 7, -2]]

/-- Number `n_s(c)` of positions of the pattern that lie in column `c`. -/
def SlotSS03.column_count (positions : MatchPattern) (c : Nat) : Nat :=
  (positions.filter (fun p => decide (p.2 = c))).length

/-- Number `k_s` of leading columns `0, 1, ...` of the five with a positive count, stopping
at the first column whose count is 0. -/
def SlotSS03.run_length (positions : MatchPattern) : Nat :=
  ((List.range 5).takeWhile (fun c => decide (0 < SlotSS03.column_count positions c))).length

/-- Payout `pay(s, k)`: the entry `pay_table[s][k]`, or 0 when the table has none. -/
def SlotSS03.pay (s : Int) (k : Nat) : Int :=
  (SlotSS03.pay_table.lookup s k).getD 0

/-- Contribution of one symbol to the ways-to-win score, as the specification words it:
`[k_s >= 3] * pay(s, k_s) * product over c < k_s of n_s(c)`. -/
def SlotSS03.symbol_score (s : Int) (positions : MatchPattern) : Int :=
  if 3 ≤ SlotSS03.run_length positions then
    SlotSS03.pay s (SlotSS03.run_length positions) *
      (((List.range (SlotSS03.run_length positions)).map
        (SlotSS03.column_count positions)).prod : Nat)
  else 0

/-- A patterns map for the scorer: symbol 1 in columns 0 to 2 (one, two and one cells) and
symbol 2 in columns 0, 1 and 3 only. -/
def sample_patterns : MatchPatterns :=
  [(1, [(0, 0), (0, 1), (1, 1), (2, 2)]), (2, [(1, 0), (2, 1), (0, 3)])]

/-! ## Further source functions (`SS03Pay.cpp`, `SS02Pay.cpp`) -/

/-- Source `SlotSS03::is_padding_cell`, with the source's guard `col < -1`.  For `col = -1`
the source reads outside `COLUMN_HEIGHTS`; the embedding reads the height of column 0. -/
def SlotSS03.is_padding_cell (row col : Int) : Bool :=
  if col < -1 ∨ (SlotSS03.board_width : Int) ≤ col then true
  else decide ((SlotSS03.column_height col.toNat : Int) ≤ row)

/-- Source `SlotSS03::is_valid_padding`: the size test looks at the row count and at the
width of row 0 only; the scan returns false at the first cell whose padding status differs
from the profile. -/
def SlotSS03.is_valid_padding (board : Board) : Bool :=
  if board.length ≠ SlotSS03.board_height ∨
      (board.getD 0 []).length ≠ SlotSS03.board_width then false
  else
    (List.range SlotSS03.board_height).all (fun row =>
      (List.range SlotSS03.board_width).all (fun col =>
        decide (SlotSS03.is_padding_cell row col =
          decide (board.cell row col = SlotSS03.PADDING_CELL))))

/-- Source `SlotSS03::refill`: every `-1` cell takes the cell of `script[current_stop + 1]`
when that position lies inside the next board.  The sizes of `result` never change, so the
row loop runs over the rows of `current_board`. -/
def SlotSS03.refill (current_board : Board) (current_stop : Nat) (script : List Board) :
    Board :=
  let next_board := script.getD (current_stop + 1) []
  (List.range current_board.length).foldl
    (fun result row =>
      (List.range (result.getD row []).length).foldl
        (fun result col =>
          if result.cell row col = -1 then
            if row < next_board.length ∧ col < (next_board.getD row []).length then
              result.put row col (next_board.cell row col)
            else result
          else result)
        result)
    current_board

/-- Source `SlotSS02::refill`, the same statements as `SlotSS03::refill`. -/
def SlotSS02.refill (current_board : Board) (current_stop : Nat) (script : List Board) :
    Board :=
  let next_board := script.getD (current_stop + 1) []
  (List.range current_board.length).foldl
    (fun result row =>
      (List.range (result.getD row []).length).foldl
        (fun result col =>
          if result.cell row col = -1 then
            if row < next_board.length ∧ col < (next_board.getD row []).length then
              result.put row col (next_board.cell row col)
            else result
          else result)
        result)
    current_board

/-- Source `SlotSS03::step`; `cascade` is the configured cascade flag. -/
def SlotSS03.step (cascade : Bool) (board : Board) : Board × Int :=
  let found := SlotSS03.find_matches board
  if found.2 = false then (board, 0)
  else
    let board_score := SlotSS03.get_score found.1
    let result_board := SlotSS03.eliminate_matches board found.1
    if cascade then (SlotSS03.apply_gravity result_board, board_score)
    else (result_board, board_score)

/-! ## Specification-side definitions for elimination, gravity and scoring -/

/-- Contribution of one symbol to the Variant A score, as the specification words it: the
paytable entry of `(s, n)` when there is one, `s * n` otherwise, and 0 for no position. -/
def SlotBase.symbol_score (pay_table : PayTable) (s : Int) (positions : MatchPattern) : Int :=
  if positions = [] then 0
  else
    match pay_table.lookup s positions.length with
    | some pay => pay
    | none => s * positions.length

/-- Row lengths of a board, its dimensions. -/
def Board.dims (b : Board) : List Nat := b.map List.length

/-- Position `(row, col)` occurs in some pattern of the map. -/
def MatchPatterns.covers (patterns : MatchPatterns) (row col : Nat) : Prop :=
  ∃ e ∈ patterns, (row, col) ∈ e.2

/-- Every position of the map lies inside the board. -/
def MatchPatterns.inside (patterns : MatchPatterns) (board : Board) : Prop :=
  ∀ e ∈ patterns, ∀ p ∈ e.2, p.1 < board.length ∧ p.2 < (board.getD p.1 []).length

instance (patterns : MatchPatterns) (board : Board) : Decidable (patterns.inside board) := by
  unfold MatchPatterns.inside; infer_instance

/-- Values of rows `0..h-1` of column `c` that are neither `-1` nor `-2`, top to bottom. -/
def SlotSS03.column_values (board : Board) (c : Nat) : List Int :=
  ((List.range (SlotSS03.column_height c)).map (fun row => board.cell row c)).filter
    (fun x => decide (x ≠ -1 ∧ x ≠ -2))

/-- Cell `(r, c)` of a column after gravity, as the specification words it: `-1` above the
values, the values `v` at the bottom of the height range, `-2` below the height. -/
def SlotSS03.settled_cell (board : Board) (c r : Nat) : Int :=
  if r < SlotSS03.column_height c - (SlotSS03.column_values board c).length then -1
  else if r < SlotSS03.column_height c then
    (SlotSS03.column_values board c).getD
      (r - (SlotSS03.column_height c - (SlotSS03.column_values board c).length)) 0
  else -2

/-- A 5x6 board with eight `0` and nine `1`. -/
def cluster_board_ss02 : Board :=
  [[1, 1, 1, 1, 1, 1], [1, 1, 2, 3, 4, 5], [0, 0, 0, 0, 0, 0], [0, 0, 1, 2, 3, 4],
   [5, 6, 7, 8, 7, 6]]

/-- A 5x6 board without a cluster and without a multiplier symbol. -/
def quiet_board_ss02 : Board :=
  [[0, 1, 2, 3, 4, 5], [6, 7, 8, 0, 1, 2], [3, 4, 5, 6, 7, 8], [0, 1, 2, 3, 4, 5],
   [6, 7, 8, 0, 1, 2]]

/-- A free-game script: one winning board, then a terminal board with no multiplier. -/
def free_script_ss02 : List Board := [cluster_board_ss02, quiet_board_ss02]

/-- The golden-tile board of the elimination self-test of `SS03Pay.cpp`. -/
def golden_board_ss03 : Board :=
  [[4, 104, 4, 2, 3], [4, 4, 104, 4, 6], [3, 2, 4, 5, 7], [4, 3, 2, 6, 8], [-2, 6, 3, 7, -2]]

/-- The board with holes of the gravity self-test of `SS03Pay.cpp`. -/
def holes_board_ss03 : Board :=
  [[-1, 1, -1, 2, -1], [2, -1, 3, -1, 5], [-1, 3, -1, 4, 6], [4, 2, 5, 1, 7],
   [-2, 6, 7, 8, -2]]

/-- A 5x5 board with misplaced padding: data at `(4, 0)` and `(4, 4)` and a `-2` inside
the profile. -/
def misplaced_padding_board : Board :=
  [[1, 2, 3, 4, 5], [6, -2, 8, 1, 2], [2, 3, 4, 5, 3], [7, 8, 1, 2, 4], [1, 2, 3, 4, 5]]

/-! ## The board validator (`SlotSS03::is_valid_board`, `create_padded_board`) -/

/-- Content of a `BoardValidationError`: which rule failed and the values the message
names. -/
inductive BoardValidationError where
  /-- Wrong number of rows. -/
  | wrong_height (expected got : Nat)
  /-- Wrong width at a row. -/
  | wrong_width (row expected got : Nat)
  /-- Padding cells do not follow the height profile. -/
  | incorrect_padding
  /-- Golden tile in the first or last board row. -/
  | gold_first_or_last_row (row col : Nat)
  /-- Cell value outside the symbol range. -/
  | invalid_symbol (cell_value : Int) (row col : Nat)
  /-- Free game: the collected non-golden cells of the third column. -/
  | non_gold_in_third_column (positions : List (Nat × Nat))
  /-- More than 2 golden tiles in a column. -/
  | too_many_golden (count col : Nat)
deriving DecidableEq

/-- Text `positions` built by the message loop of the free-game rule. -/
def positions_text : List (Nat × Nat) → String
  | [] => ""
  | [p] => "(" ++ toString p.1 ++ "," ++ toString p.2 ++ ")"
  | p :: q :: rest =>
    "(" ++ toString p.1 ++ "," ++ toString p.2 ++ "), " ++ positions_text (q :: rest)

/-- Message `e.what()` of the error. -/
def BoardValidationError.what : BoardValidationError → String
  | .wrong_height expected got =>
    "Invalid board: wrong height. Expected " ++ toString expected ++ ", got " ++ toString got
  | .wrong_width row expected got =>
    "Invalid board: wrong width at row " ++ toString row ++ ". Expected " ++
      toString expected ++ ", got " ++ toString got
  | .incorrect_padding => "Invalid board: incorrect padding"
  | .gold_first_or_last_row row col =>
    "Invalid board: gold tile appears in first or last row at (" ++ toString row ++ "," ++
      toString col ++ ")"
  | .invalid_symbol cell_value row col =>
    "Invalid board: invalid symbol " ++ toString cell_value ++ " at position (" ++
      toString row ++ "," ++ toString col ++ ")"
  | .non_gold_in_third_column positions =>
    "Invalid board: In free game, non-gold tile(s) in 3rd column at " ++
      positions_text positions
  | .too_many_golden count col =>
    "Invalid board: More than 2 golden tiles (" ++ toString count ++ ") in column " ++
      toString col

/-- How a call of `is_valid_board` ends: it returns a boolean or throws. -/
inductive ValidationResult where
  /-- The call returns `b`. -/
  | returned (b : Bool)
  /-- The call throws `BoardValidationError` with content `e`. -/
  | thrown (e : BoardValidationError)
deriving DecidableEq

/-- The statement pair `if (throw_on_error) throw BoardValidationError(..); return false;`
found at every rejection site. -/
def validation_failure (throw_on_error : Bool) (e : BoardValidationError) :
    ValidationResult :=
  if throw_on_error then .thrown e else .returned false

namespace SlotSS03

/-- Accumulators of the cell scan of `is_valid_board`. -/
structure ScanState where
  /-- Golden tiles seen per column, `golden_tile_counts`. -/
  golden_tile_counts : List Nat
  /-- Non-golden cells of column 2 seen in the free game, `non_golden_in_col2`. -/
  non_golden_in_col2 : List (Nat × Nat)
deriving DecidableEq

/-- The cell scan either goes on with its accumulators or has left the function. -/
inductive ScanResult where
  /-- The loops go on. -/
  | running (st : ScanState)
  /-- The function has returned or thrown. -/
  | stopped (result : ValidationResult)

/-- Body of the cell loops of `is_valid_board` for one cell. -/
def scan_cell (game_type : String) (board : Board) (throw_on_error : Bool) (st : ScanState)
    (row col : Nat) : ScanResult :=
  if is_padding_cell row col = true then .running st
  else
    let cell_value := board.cell row col
    let is_golden : Prop := 100 ≤ cell_value ∧ cell_value < 200
    let is_first_or_last_row : Prop := row = 0 ∨ row = board_height - 1
    let is_free_game : Prop := game_type = "free"
    if cell_value = -1 ∨ cell_value = SCATTER then .running st
    else
      let st1 : ScanState :=
        if is_golden then
          { golden_tile_counts :=
              st.golden_tile_counts.set col (st.golden_tile_counts.getD col 0 + 1)
            non_golden_in_col2 := st.non_golden_in_col2 }
        else st
      let st2 : ScanState :=
        if is_free_game ∧ col = 2 ∧ ¬ is_golden then
          { golden_tile_counts := st1.golden_tile_counts
            non_golden_in_col2 := st1.non_golden_in_col2 ++ [(row, col)] }
        else st1
      if is_golden ∧ is_first_or_last_row ∧ ¬ (is_free_game ∧ col = 2) then
        .stopped (validation_failure throw_on_error (.gold_first_or_last_row row col))
      else if cell_value = WILD ∨ cell_value = SCATTER then .running st2
      else
        let base_symbol := if is_golden then cell_value - 100 else cell_value
        if base_symbol ∈ symbols then .running st2
        else .stopped (validation_failure throw_on_error (.invalid_symbol cell_value row col))

/-- One iteration of the cell loops: nothing happens once the function has left. -/
def scan_step (game_type : String) (board : Board) (throw_on_error : Bool) (acc : ScanResult)
    (row col : Nat) : ScanResult :=
  match acc with
  | .running st => scan_cell game_type board throw_on_error st row col
  | .stopped result => .stopped result

/-- The cell loops of `is_valid_board`, rows outer and columns inner. -/
def scan (game_type : String) (board : Board) (throw_on_error : Bool) : ScanResult :=
  (List.range board_height).foldl
    (fun acc row =>
      (List.range board_width).foldl
        (fun acc col => scan_step game_type board throw_on_error acc row col) acc)
    (.running { golden_tile_counts := [0, 0, 0, 0, 0], non_golden_in_col2 := [] })

/-- Source `SlotSS03::is_valid_board`. -/
def is_valid_board (game_type : String) (board : Board) (throw_on_error : Bool) :
    ValidationResult :=
  if board.length ≠ board_height then
    validation_failure throw_on_error (.wrong_height board_height board.length)
  else
    match (List.range board.length).find?
        (fun i => decide ((board.getD i []).length ≠ board_width)) with
    | some i =>
      validation_failure throw_on_error
        (.wrong_width i board_width (board.getD i []).length)
    | none =>
      if is_valid_padding board = false then
        validation_failure throw_on_error .incorrect_padding
      else
        match scan game_type board throw_on_error with
        | .stopped result => result
        | .running st =>
          if st.non_golden_in_col2 ≠ [] then
            validation_failure throw_on_error
              (.non_gold_in_third_column st.non_golden_in_col2)
          else
            match (List.range board_width).find?
                (fun col => decide (¬ (game_type = "free" ∧ col = 2) ∧
                  2 < st.golden_tile_counts.getD col 0)) with
            | some col =>
              validation_failure throw_on_error
                (.too_many_golden (st.golden_tile_counts.getD col 0) col)
            | none => .returned true

/-- Source `SlotSS03::init_board_padding`. -/
def init_board_padding (board : Board) : Board :=
  (List.range board_width).foldl
    (fun board col =>
      (List.range' (column_height col) (board_height - column_height col)).foldl
        (fun board row => board.put row col PADDING_CELL) board)
    board

/-- Source `SlotSS03::create_padded_board`. -/
def create_padded_board : Board :=
  init_board_padding (List.replicate board_height (List.replicate board_width (-1)))

end SlotSS03

/-- Validator self-test 3: the value 99 at `(2, 2)`. -/
def invalid_symbol_board : Board :=
  [[1, 2, 3, 4, 5], [6, 7, 8, 1, 2], [2, 3, 99, 5, 3], [7, 8, 1, 2, 4], [-2, 1, 2, 3, -2]]

/-- Validator self-test 4: a golden tile in the first row. -/
def gold_first_row_board : Board :=
  [[105, 2, 3, 4, 5], [6, 7, 8, 1, 2], [2, 3, 4, 5, 3], [7, 8, 1, 2, 4], [-2, 1, 2, 3, -2]]

/-- Validator self-test 5: free game, third column all golden. -/
def free_game_board : Board :=
  [[1, 2, 105, 4, 5], [6, 7, 108, 1, 2], [2, 3, 104, 5, 3], [7, 8, 101, 2, 4],
   [-2, 5, 106, 7, -2]]

/-- Validator self-test 6: free game, plain tiles in the third column. -/
def free_game_invalid_board : Board :=
  [[1, 2, 5, 4, 5], [6, 7, 108, 1, 2], [2, 3, 5, 5, 3], [7, 8, 101, 2, 4], [-2, 5, 5, 7, -2]]

/-- Validator self-test 7: three golden tiles in the second column. -/
def base_game_gold_board : Board :=
  [[1, 2, 5, 4, 5], [6, 107, 8, 1, 2], [2, 103, 4, 5, 3], [7, 102, 1, 2, 4],
   [-2, 5, 6, 7, -2]]

/-- A board with a golden tile in row 3 of column 0, the last row of that column, and no
other fault. -/
def gold_last_row_board : Board :=
  [[1, 2, 3, 4, 5], [6, 7, 8, 1, 2], [2, 3, 4, 5, 3], [107, 8, 1, 2, 4], [-2, 5, 6, 7, -2]]

/-! ## Specification-side definitions for the validator -/

/-- Violation the scan reports at one cell, if any: a golden tile in board row 0 or 4
(outside column 2 of the free game), or a value that is neither `WILD` nor a base or golden
symbol.  Padding, empty and scatter cells are never reported. -/
def SlotSS03.cell_violation (game_type : String) (board : Board) (row col : Nat) :
    Option BoardValidationError :=
  if SlotSS03.is_padding_cell row col = true then none
  else if board.cell row col = -1 ∨ board.cell row col = SlotSS03.SCATTER then none
  else if (100 ≤ board.cell row col ∧ board.cell row col < 200) ∧
      (row = 0 ∨ row = SlotSS03.board_height - 1) ∧ ¬ (game_type = "free" ∧ col = 2) then
    some (.gold_first_or_last_row row col)
  else if board.cell row col = SlotSS03.WILD ∨ board.cell row col = SlotSS03.SCATTER then none
  else if (if 100 ≤ board.cell row col ∧ board.cell row col < 200 then board.cell row col - 100
      else board.cell row col) ∈ SlotSS03.symbols then none
  else some (.invalid_symbol (board.cell row col) row col)

/-- The cell is counted as a golden tile: not padding and in `[100, 200)`. -/
def SlotSS03.counts_golden (board : Board) (row col : Nat) : Prop :=
  SlotSS03.is_padding_cell row col = false ∧
    100 ≤ board.cell row col ∧ board.cell row col < 200

instance (board : Board) (row col : Nat) : Decidable (SlotSS03.counts_golden board row col) := by
  unfold SlotSS03.counts_golden; infer_instance

/-- The cell is collected by the free-game rule: column 2, not padding, not empty, not
scatter and not golden. -/
def SlotSS03.notes_plain (game_type : String) (board : Board) (row col : Nat) : Prop :=
  SlotSS03.is_padding_cell row col = false ∧ board.cell row col ≠ -1 ∧
    board.cell row col ≠ SlotSS03.SCATTER ∧ game_type = "free" ∧ col = 2 ∧
    ¬ (100 ≤ board.cell row col ∧ board.cell row col < 200)

instance (game_type : String) (board : Board) (row col : Nat) :
    Decidable (SlotSS03.notes_plain game_type board row col) := by
  unfold SlotSS03.notes_plain; infer_instance

/-- Accumulator update of the scan at one cell, without the rejection tests. -/
def SlotSS03.cell_update (game_type : String) (board : Board) (st : SlotSS03.ScanState)
    (row col : Nat) : SlotSS03.ScanState :=
  { golden_tile_counts :=
      if SlotSS03.counts_golden board row col then
        st.golden_tile_counts.set col (st.golden_tile_counts.getD col 0 + 1)
      else st.golden_tile_counts
    non_golden_in_col2 :=
      if SlotSS03.notes_plain game_type board row col then st.non_golden_in_col2 ++ [(row, col)]
      else st.non_golden_in_col2 }

/-- Accumulators of the scan after all 25 cells, when no cell is rejected. -/
def SlotSS03.scanned (game_type : String) (board : Board) : SlotSS03.ScanState :=
  (all_positions 5 5).foldl (fun st p => SlotSS03.cell_update game_type board st p.1 p.2)
    { golden_tile_counts := [0, 0, 0, 0, 0], non_golden_in_col2 := [] }

/-- The first rule the validator finds broken, in the order of its tests, or `none` for a
board it accepts. -/
def SlotSS03.first_violation (game_type : String) (board : Board) :
    Option BoardValidationError :=
  if board.length ≠ SlotSS03.board_height then
    some (.wrong_height SlotSS03.board_height board.length)
  else
    match (List.range board.length).find?
        (fun i => decide ((board.getD i []).length ≠ SlotSS03.board_width)) with
    | some i => some (.wrong_width i SlotSS03.board_width (board.getD i []).length)
    | none =>
      if SlotSS03.is_valid_padding board = false then some .incorrect_padding
      else
        match (all_positions 5 5).findSome?
            (fun p => SlotSS03.cell_violation game_type board p.1 p.2) with
        | some e => some e
        | none =>
          if (SlotSS03.scanned game_type board).non_golden_in_col2 ≠ [] then
            some (.non_gold_in_third_column (SlotSS03.scanned game_type board).non_golden_in_col2)
          else
            match (List.range SlotSS03.board_width).find?
                (fun col => decide (¬ (game_type = "free" ∧ col = 2) ∧
                  2 < (SlotSS03.scanned game_type board).golden_tile_counts.getD col 0)) with
            | some col =>
              some (.too_many_golden
                ((SlotSS03.scanned game_type board).golden_tile_counts.getD col 0) col)
            | none => none

/-- Number of golden tiles the validator counts in column `col`: cells inside the profile
with a value in `[100, 200)`. -/
def SlotSS03.golden_count (board : Board) (col : Nat) : Nat :=
  ((List.range 5).filter (fun row => decide (SlotSS03.counts_golden board row col))).length

/-- Rows of column 2 the free-game rule objects to, in increasing order. -/
def SlotSS03.plain_rows (game_type : String) (board : Board) : List Nat :=
  (List.range 5).filter (fun row => decide (SlotSS03.notes_plain game_type board row 2))

/-- Values a cell inside the profile may hold: empty, scatter, wild, a base symbol or the
golden encoding of a base symbol. -/
def SlotSS03.known_value (v : Int) : Prop :=
  v = -1 ∨ v = SlotSS03.SCATTER ∨ v = SlotSS03.WILD ∨ (0 ≤ v ∧ v ≤ 8) ∨ (100 ≤ v ∧ v ≤ 108)

instance (v : Int) : Decidable (SlotSS03.known_value v) := by
  unfold SlotSS03.known_value; infer_instance

/-- The per-cell rules of the scan: a known value, and a golden tile not in board row 0 or 4
unless the game type is "free" and the column is 2. -/
def SlotSS03.cell_allowed (game_type : String) (row col : Nat) (v : Int) : Prop :=
  SlotSS03.known_value v ∧
    ((100 ≤ v ∧ v < 200) → (row = 0 ∨ row = 4) → (game_type = "free" ∧ col = 2))

instance (game_type : String) (row col : Nat) (v : Int) :
    Decidable (SlotSS03.cell_allowed game_type row col v) := by
  unfold SlotSS03.cell_allowed; infer_instance

/-- Validator self-test 7 with one golden tile less: two golden tiles in the second
column. -/
def two_golden_board : Board :=
  [[1, 2, 5, 4, 5], [6, 107, 8, 1, 2], [2, 103, 4, 5, 3], [7, 2, 1, 2, 4],
   [-2, 5, 6, 7, -2]]

/-- A valid base-game board on which symbol 5 occurs once in each of columns 0, 1 and 2 and
not in column 3. -/
def single_win_board : Board :=
  [[1, 5, 3, 4, 6], [5, 2, 4, 1, 2], [2, 3, 5, 6, 3], [7, 8, 1, 2, 4], [-2, 6, 7, 8, -2]]

/-! ## The analysis harness (`analyzeScriptSet` of `SS02_test.cpp` and `SS03_test.cpp`,
`BoardAnalyzer.h`, `ScriptConfig.h`)

Printing is left out; `displayCount` only limits printing.  Payouts are whole numbers: the
`double` casts of `int payout` and of the integral score are exact, so they are `Int` here. -/

/-- Fields of `ScriptApp::ScriptData` the harness reads. -/
structure ScriptData where
  /-- Boards of the script. -/
  script : List Board
  /-- Recorded stop. -/
  stop : Int
  /-- Recorded payout. -/
  payout : Int
  /-- Recorded special multiplier. -/
  special_multipliers : Int
deriving DecidableEq

/-- Source `PatternInfo`. -/
structure PatternInfo where
  /-- Symbol of the pattern. -/
  symbol : Int
  /-- Number of positions. -/
  count : Nat
deriving DecidableEq

/-- Source `ScriptResult`. -/
structure ScriptResult where
  /-- Key of the script in the collection. -/
  index : Int
  /-- Recorded payout. -/
  expectedPayout : Int
  /-- Payout computed by `steps`. -/
  calculatedPayout : Int
  /-- Recorded stop. -/
  expectedStop : Int
  /-- Stop index returned by `steps`. -/
  actualStop : Int
  /-- Payout flag. -/
  payoutMismatch : Bool
  /-- Stop flag. -/
  stopMismatch : Bool
  /-- Cascade flag. -/
  cascadingMismatch : Bool
  /-- Patterns of the first board. -/
  firstBoardPatterns : List PatternInfo
deriving DecidableEq

/-- Source `AnalysisContext`. -/
structure AnalysisContext where
  /-- Count of stop mismatches. -/
  stopMismatches : Nat
  /-- Count of cascade mismatches. -/
  cascadingMismatches : Nat
  /-- Count of scripts whose last board is terminal. -/
  terminalLastBoardScripts : Nat
  /-- Sum of recorded payouts. -/
  totalPayout : Int
  /-- Sum of computed payouts. -/
  totalCalculatedPayout : Int
  /-- Count of payout mismatches. -/
  payoutMismatches : Nat
  /-- Records of all script sets analysed so far. -/
  allResults : List ScriptResult
deriving DecidableEq

/-- How the `try` block of the script loop ends: `steps` returns its tuple, or an exception
reaches the `catch` clause. -/
inductive ReplayOutcome where
  /-- The call `game.steps(..)` returns. -/
  | completed (result : StepsResult)
  /-- An exception with message `what` is caught. -/
  | raised (what : String)
deriving DecidableEq

/-- Locals of `analyzeScriptSet` during the script loop; `returned` records the `return`
taken inside the loop at an empty script. -/
structure ScriptSetLocals where
  /-- Local `stopMismatches`. -/
  stopMismatches : Nat
  /-- Local `cascadingMismatches`. -/
  cascadingMismatches : Nat
  /-- Local `terminalLastBoardScripts`. -/
  terminalLastBoardScripts : Nat
  /-- Local `totalPayout`. -/
  totalPayout : Int
  /-- Local `totalCalculatedPayout`. -/
  totalCalculatedPayout : Int
  /-- Local `payoutMismatches`. -/
  payoutMismatches : Nat
  /-- Local `results`. -/
  results : List ScriptResult
  /-- The function has executed `return` inside the loop. -/
  returned : Bool
deriving DecidableEq

/-- The loop filling `firstBoardPatterns`: the non-empty entries of `patterns[0]`, if any. -/
def first_board_patterns (patterns : List MatchPatterns) : List PatternInfo :=
  match patterns with
  | [] => []
  | first :: _ =>
    first.foldl
      (fun acc e => if e.2 ≠ [] then acc ++ [{ symbol := e.1, count := e.2.length }] else acc)
      []

/-- The record pushed to `results` for a script whose replay returned `r`. -/
def script_record (index : Int) (scriptData : ScriptData) (r : StepsResult) : ScriptResult :=
  let stopMismatch : Bool := decide ((r.stop : Int) ≠ scriptData.stop)
  let expectedPayout : Int := scriptData.payout
  let calculatedPayout : Int := r.total_score
  let payoutMismatch : Bool := decide (expectedPayout ≠ calculatedPayout)
  { index := index
    expectedPayout := expectedPayout
    calculatedPayout := calculatedPayout
    expectedStop := scriptData.stop
    actualStop := r.stop
    payoutMismatch := payoutMismatch
    stopMismatch := stopMismatch
    cascadingMismatch := !r.all_steps_cascade_matched
    firstBoardPatterns := first_board_patterns r.all_patterns }

/-- Body of the script loop of `analyzeScriptSet` for one `(index, scriptData)`. -/
def script_loop_body (replay : ScriptData → ReplayOutcome) (is_terminal : Board → Bool)
    (st : ScriptSetLocals) (index : Int) (scriptData : ScriptData) : ScriptSetLocals :=
  if st.returned = true then st
  else if scriptData.script = [] then
    { stopMismatches := st.stopMismatches
      cascadingMismatches := st.cascadingMismatches
      terminalLastBoardScripts := st.terminalLastBoardScripts
      totalPayout := st.totalPayout
      totalCalculatedPayout := st.totalCalculatedPayout
      payoutMismatches := st.payoutMismatches
      results := st.results
      returned := true }
  else
    match replay scriptData with
    | .raised _ => st
    | .completed r =>
      let record := script_record index scriptData r
      { stopMismatches := st.stopMismatches + (if record.stopMismatch = true then 1 else 0)
        cascadingMismatches :=
          st.cascadingMismatches + (if r.all_steps_cascade_matched = false then 1 else 0)
        terminalLastBoardScripts :=
          st.terminalLastBoardScripts +
            (if is_terminal (scriptData.script.getLastD []) = true then 1 else 0)
        totalPayout := st.totalPayout + record.expectedPayout
        totalCalculatedPayout := st.totalCalculatedPayout + record.calculatedPayout
        payoutMismatches :=
          st.payoutMismatches + (if record.payoutMismatch = true then 1 else 0)
        results := st.results ++ [record]
        returned := false }

/-- Source `analyzeScriptSet`, for a replay `game.steps(..)` and its `is_terminal`; `scripts`
lists the entries of the `std::map` in key order. -/
def analyzeScriptSetWith (replay : ScriptData → ReplayOutcome) (is_terminal : Board → Bool)
    (scripts : List (Int × ScriptData)) (context : AnalysisContext) : AnalysisContext :=
  if scripts = [] then context
  else
    let st := scripts.foldl
      (fun st e => script_loop_body replay is_terminal st e.1 e.2)
      { stopMismatches := 0, cascadingMismatches := 0, terminalLastBoardScripts := 0,
        totalPayout := 0, totalCalculatedPayout := 0, payoutMismatches := 0, results := [],
        returned := false }
    if st.returned = true then context
    else
      { stopMismatches := context.stopMismatches + st.stopMismatches
        cascadingMismatches := context.cascadingMismatches + st.cascadingMismatches
        terminalLastBoardScripts :=
          context.terminalLastBoardScripts + st.terminalLastBoardScripts
        totalPayout := context.totalPayout + st.totalPayout
        totalCalculatedPayout := context.totalCalculatedPayout + st.totalCalculatedPayout
        payoutMismatches := context.payoutMismatches + st.payoutMismatches
        allResults := context.allResults ++ st.results }

/-- Source `analyzeScriptSet` of `SS03_test.cpp`: the replay is `SlotSS03::steps`.  The
game type configures the validator only, which `steps` does not call. -/
def SS03_test.analyzeScriptSet (scripts : List (Int × ScriptData)) (gameType : String)
    (context : AnalysisContext) : AnalysisContext :=
  let _ := gameType
  analyzeScriptSetWith (fun scriptData => .completed (SlotSS03.steps scriptData.script))
    SlotSS03.engine.is_terminal scripts context

/-- Source `analyzeScriptSet` of `SS02_test.cpp`: the replay is `SlotSS02::steps` with the
script's special multiplier. -/
def SS02_test.analyzeScriptSet (scripts : List (Int × ScriptData)) (gameType : String)
    (context : AnalysisContext) : AnalysisContext :=
  analyzeScriptSetWith
    (fun scriptData =>
      .completed (SlotSS02.steps gameType scriptData.script scriptData.special_multipliers))
    SlotSS02.engine.is_terminal scripts context

/-- An empty analysis context, as after `reset()`. -/
def fresh_context : AnalysisContext :=
  { stopMismatches := 0, cascadingMismatches := 0, terminalLastBoardScripts := 0,
    totalPayout := 0, totalCalculatedPayout := 0, payoutMismatches := 0, allResults := [] }

/-- A set of two SS03 scripts: script 3 records the stop and the payout that the replay
computes, but its second board does not continue the first; script 7 is a single quiet
board with a recorded stop that differs from the replay. -/
def sample_script_set : List (Int × ScriptData) :=
  [(3, { script := sample_script, stop := 2, payout := 80, special_multipliers := 1 }),
   (7, { script := [quiet_board_ss03], stop := 4, payout := 0, special_multipliers := 1 })]

/-! ## The smart reel conversion (`SS02_convertpay.cpp`) -/

/-- The subsequence scan of `findBoardOverlap`: number `matchCount` of leading elements of
the prefix found, in order, in `previous`, the part of `previousBoard` from `prevIndex` on.
Each element is searched from the current position; when it is missing the scan breaks. -/
def greedy_match : List Int → List Int → Nat
  | _, [] => 0
  | previous, x :: rest =>
    match previous.dropWhile (fun y => decide (y ≠ x)) with
    | [] => 0
    | _ :: later => 1 + greedy_match later rest

/-- The test `endsWithEliminatedSymbol` of `findBoardOverlap`: some pattern of `lastSymbol`
has a position in column `currentCol`. -/
def ends_with_eliminated (eliminationPatterns : MatchPatterns) (currentCol : Nat)
    (lastSymbol : Int) : Bool :=
  eliminationPatterns.any (fun e =>
    e.2.any (fun p => decide (p.2 = currentCol ∧ e.1 = lastSymbol)))

/-- Source `findBoardOverlap`: the first prefix length, from `|currentBoard|` down to 1, whose
last symbol is not eliminated in the column and whose prefix is matched entirely by the
subsequence scan; 0 when there is none. -/
def findBoardOverlap (previousBoard currentBoard : List Int)
    (eliminationPatterns : MatchPatterns) (currentCol : Nat) : Nat :=
  (((List.range currentBoard.length).reverse.map (fun n => n + 1)).find? (fun prefixLen =>
    !ends_with_eliminated eliminationPatterns currentCol
        (currentBoard.getD (prefixLen - 1) 0) &&
      decide (greedy_match previousBoard (currentBoard.take prefixLen) = prefixLen))).getD 0

/-- Column `col` of a board read from the last row up, skipping rows too short to have it. -/
def column_bottom_up (board : Board) (col : Nat) : List Int :=
  (List.range board.length).reverse.foldl
    (fun column row =>
      if col < (board.getD row []).length then column ++ [board.cell row col] else column)
    []

/-- The reel `finalReel` that `convertJsonFormatAdvanced` writes for column `col` of a
script, given the per-step patterns of its replay. -/
def final_reel (script : List Board) (elimination_data : List MatchPatterns) (col : Nat) :
    List Int :=
  (List.range script.length).foldl
    (fun finalReel boardIdx =>
      let currentBoardColumn := column_bottom_up (script.getD boardIdx []) col
      if boardIdx = 0 then finalReel ++ currentBoardColumn
      else
        let previousBoardColumn := column_bottom_up (script.getD (boardIdx - 1) []) col
        let eliminationPatterns : MatchPatterns :=
          if boardIdx - 1 < elimination_data.length then elimination_data.getD (boardIdx - 1) []
          else []
        let maxOverlap :=
          findBoardOverlap previousBoardColumn currentBoardColumn eliminationPatterns col
        finalReel ++ currentBoardColumn.drop maxOverlap)
    []

/-- Sum `total_reel_symbols` of the six reel lengths of a script, the reels being those of
the smart conversion run with the patterns of `SlotSS02::steps`. -/
def total_reel_symbols (script : List Board) (special_multipliers : Int) : Nat :=
  ((List.range 6).map (fun col =>
    (final_reel script (SlotSS02.steps "base" script special_multipliers).all_patterns
      col).length)).sum

/-- Count `total_eliminated_symbols` of `testSymbolEliminationWithReelData`: the positions
of all patterns of all steps. -/
def total_eliminated_symbols (patterns : List MatchPatterns) : Nat :=
  patterns.foldl
    (fun total step_patterns => step_patterns.foldl (fun total e => total + e.2.length) total)
    0

/-- A two-board SS02 script whose first board has no cluster and whose second board shares
no symbol with it. -/
def unrelated_script_ss02 : List Board :=
  [quiet_board_ss02, List.replicate 5 (List.replicate 6 9)]

/-- The board that follows `cluster_board_ss02` in a cascade: the eight `0` and nine `1`
are removed, the rest has fallen, and the seventeen cells freed on top are filled with 3, 4
and 5. -/
def cascade_next_board_ss02 : Board :=
  [[3, 4, 5, 3, 4, 5], [3, 4, 5, 3, 4, 5], [3, 4, 5, 3, 4, 5], [4, 5, 2, 2, 3, 4],
   [5, 6, 7, 8, 7, 6]]

/-- A two-board SS02 script that is a cascade. -/
def cascade_script_ss02 : List Board := [cluster_board_ss02, cascade_next_board_ss02]

/-- Values of column `c` of a 5-row board that are not `-1`, top to bottom. -/
def SlotSS02.column_values (board : Board) (c : Nat) : List Int :=
  ((List.range 5).map (fun row => board.cell row c)).filter (fun x => decide (x ≠ -1))

/-- Cell `(r, c)` of a column after Variant A gravity, as the specification words it: `-1`
above, then the values of the column in their order. -/
def SlotSS02.settled_cell (board : Board) (c r : Nat) : Int :=
  if r < 5 - (SlotSS02.column_values board c).length then -1
  else (SlotSS02.column_values board c).getD
    (r - (5 - (SlotSS02.column_values board c).length)) 0

/-- Symbols that `SlotSS02::find_matches` matches on the board: alphabet symbols with at
least `min_match_size` occurrences. -/
def SlotSS02.matched_symbols (board : Board) : List Int :=
  SlotSS02.symbols.filter
    (fun s => decide (SlotSS02.min_match_size ≤ (SlotSS02.occurrences board s).length))

/-- Number of cells of column `c` holding a matched symbol. -/
def SlotSS02.eliminated_in_column (board : Board) (c : Nat) : Nat :=
  ((List.range 5).filter
    (fun r => decide (board.cell r c ∈ SlotSS02.matched_symbols board))).length

/-- A replay for the script loop that raises on the scripts whose recorded stop is 4 and
runs `SlotSS03::steps` on the others. -/
def raising_replay (scriptData : ScriptData) : ReplayOutcome :=
  if scriptData.stop = 4 then .raised "replay failed"
  else .completed (SlotSS03.steps scriptData.script)

/-- The sample set with a script without boards between its two scripts. -/
def broken_script_set : List (Int × ScriptData) :=
  [(3, { script := sample_script, stop := 2, payout := 80, special_multipliers := 1 }),
   (5, { script := [], stop := 1, payout := 0, special_multipliers := 1 }),
   (7, { script := [quiet_board_ss03], stop := 4, payout := 0, special_multipliers := 1 })]

/-- A context that already holds the results of an earlier script set. -/
def used_context : AnalysisContext :=
  { stopMismatches := 2, cascadingMismatches := 1, terminalLastBoardScripts := 4,
    totalPayout := 120, totalCalculatedPayout := 95, payoutMismatches := 3,
    allResults := [script_record 1
      { script := [quiet_board_ss03], stop := 1, payout := 0, special_multipliers := 1 }
      (SlotSS03.steps [quiet_board_ss03])] }

/-- Script 3 of the sample set. -/
def sample_script_3 : ScriptData :=
  { script := sample_script, stop := 2, payout := 80, special_multipliers := 1 }

/-- Script 7 of the sample set. -/
def sample_script_7 : ScriptData :=
  { script := [quiet_board_ss03], stop := 4, payout := 0, special_multipliers := 1 }


/-- Positions that `SlotSS02::refill` overwrites: the cells of `current_board` that hold
`-1` and lie inside `script[current_stop + 1]`, in the order of its two loops. -/
def SlotSS02.refill_drawn (current_board : Board) (current_stop : Nat)
    (script : List Board) : MatchPattern :=
  let next_board := script.getD (current_stop + 1) []
  (List.range current_board.length).flatMap (fun row =>
    ((List.range (current_board.getD row []).length).filter (fun col =>
      decide (current_board.cell row col = -1 ∧ row < next_board.length ∧
        col < (next_board.getD row []).length))).map (fun col => (row, col)))

/-- The cluster board with the `2` of row 1 replaced by an empty cell. -/
def holed_cluster_board_ss02 : Board :=
  [[1, 1, 1, 1, 1, 1], [1, 1, -1, 3, 4, 5], [0, 0, 0, 0, 0, 0], [0, 0, 1, 2, 3, 4],
   [5, 6, 7, 8, 7, 6]]

/-- A two-board SS02 script that starts with the holed cluster board. -/
def holed_script_ss02 : List Board := [holed_cluster_board_ss02, cascade_next_board_ss02]


/-- State of `steps` before the first iteration of the `while` loop. -/
def Engine.initial (script : List Board) : StepsState :=
  { current_board := script.getD 0 [], total_score := 0, actual_stop := 0,
    all_patterns := [], all_cascade_match := true }

/-- The loop body of `steps` with the adoption `current_board = next_board` replaced by the
refill of the post-gravity board, as the specification words the alternative. -/
def Engine.loop_body_refill (E : Engine) (refill : Board → Nat → List Board → Board)
    (script : List Board) (st : StepsState) : StepsState :=
  let patterns := (E.find_matches st.current_board).1
  let step_score := E.get_score patterns
  let eliminated := E.eliminate_matches st.current_board patterns
  let fallen := E.apply_gravity eliminated
  let next_board := script.getD (st.actual_stop + 1) []
  let step_cascade_match := cascade_match fallen next_board
  { current_board := refill fallen st.actual_stop script
    total_score := st.total_score + step_score
    actual_stop := st.actual_stop + 1
    all_patterns := st.all_patterns ++ [patterns]
    all_cascade_match := if step_cascade_match then st.all_cascade_match else false }

/-- The `while` loop of `steps` over the refilling body, with an iteration budget. -/
def Engine.run_loop_refill (E : Engine) (refill : Board → Nat → List Board → Board)
    (script : List Board) : Nat → StepsState → StepsState
  | 0, st => st
  | fuel + 1, st =>
    if E.is_terminal st.current_board = false ∧ st.actual_stop < script.length - 1 then
      Engine.run_loop_refill E refill script fuel (E.loop_body_refill refill script st)
    else st

/-- The specification's refilling variant of `SlotSS03::steps`. -/
def SlotSS03.steps_refill (script : List Board) : StepsResult :=
  if script = [] then
    { final_board := [], total_score := 0, stop := 0, all_patterns := [],
      all_steps_cascade_matched := true }
  else
    let st := SlotSS03.engine.run_loop_refill SlotSS03.refill script script.length
      (Engine.initial script)
    { final_board := st.current_board, total_score := st.total_score,
      stop := st.actual_stop + 1, all_patterns := st.all_patterns,
      all_steps_cascade_matched := st.all_cascade_match }

/-- The specification's refilling variant of `SlotSS02::steps`. -/
def SlotSS02.steps_refill (game_type : String) (script : List Board)
    (special_multipliers : Int) : StepsResult :=
  if script = [] then
    { final_board := [], total_score := 0, stop := 0, all_patterns := [],
      all_steps_cascade_matched := true }
  else
    let st := SlotSS02.engine.run_loop_refill SlotSS02.refill script script.length
      (Engine.initial script)
    let total_score : Int :=
      if game_type = "free" then
        let multiplier_count := SlotSS02.multiplier_count st.current_board
        if 0 < multiplier_count then st.total_score * (multiplier_count * special_multipliers)
        else st.total_score
      else st.total_score
    { final_board := st.current_board, total_score := total_score,
      stop := st.actual_stop + 1, all_patterns := st.all_patterns,
      all_steps_cascade_matched := st.all_cascade_match }

/-- The board that follows `sample_board_ss03` in a cascade: the `1` and `2` of the win are
removed, the rest has fallen, and the freed cells are filled with 6 to 9. -/
def cascade_next_board_ss03 : Board :=
  [[6, 7, 8, 9, 3], [7, 8, 9, 4, 6], [3, 6, 7, 5, 7], [4, 3, 6, 6, 8], [-2, 5, 4, 7, -2]]

/-- A two-board SS03 script that is a cascade. -/
def cascade_script_ss03 : List Board := [sample_board_ss03, cascade_next_board_ss03]


/-! ## Machine arithmetic of the scores (`int`, `float`) -/

/-- Largest value of `int`. -/
def INT_MAX : Int := 2147483647

/-- Smallest value of `int`. -/
def INT_MIN : Int := -2147483648

/-- Largest magnitude up to which every integer is a `float` (2^24). -/
def FLOAT_EXACT : Int := 16777216

/-- Result of an `int` operation whose mathematical value is `x`: `x` when it is an `int`.
Signed overflow is undefined in the source and has no value here. -/
def int_result (x : Int) : Option Int :=
  if INT_MIN ≤ x ∧ x ≤ INT_MAX then some x else none

/-- Conversion `static_cast<int>` of a `size_t`: reduction modulo 2^32 into the range of
`int`. -/
def size_to_int (n : Nat) : Int := ((n : Int) + 2147483648) % 4294967296 - 2147483648

/-- Exponent of the unit in the last place of a `float` of magnitude `a`: the number of
halvings that bring `a` below 2^24, at most the budget. -/
def float_ulp_exponent : Nat → Nat → Nat
  | 0, _ => 0
  | fuel + 1, a => if a < 16777216 then 0 else float_ulp_exponent fuel (a / 2) + 1

/-- The `float` (IEEE 754 binary32) nearest to the integer `x`, ties to the even
significand: integers of magnitude up to 2^24 are floats; above, the magnitude is rounded to
24 significant bits.  A magnitude that rounds to 2^128 or more is not a finite float and
has no value here. -/
def float_round (x : Int) : Option Int :=
  if x.natAbs ≤ 16777216 then some x
  else
    let e := float_ulp_exponent 128 x.natAbs
    let q := x.natAbs / 2 ^ e
    let r := x.natAbs % 2 ^ e
    let q_rounded := if 2 ^ e < 2 * r ∨ (2 * r = 2 ^ e ∧ q % 2 = 1) then q + 1 else q
    let y := q_rounded * 2 ^ e
    if 2 ^ 128 ≤ y then none
    else if x < 0 then some (-(y : Int)) else some (y : Int)

/-- Sum `a + b` of two floats: the exact sum, rounded. -/
def float_add (a b : Int) : Option Int := float_round (a + b)

/-- Product `a * b` of two floats: the exact product, rounded. -/
def float_mul (a b : Int) : Option Int := float_round (a * b)

/-- Conversion of an `int` to `float`. -/
def int_to_float (x : Int) : Option Int := float_round x

/-- Conversion of a whole-valued `float` to `int`; out of the range of `int` it is
undefined in the source. -/
def float_to_int (x : Int) : Option Int := int_result x

/-- Source `SlotBase::get_score` with the arithmetic of the source: `count` is a
`static_cast<int>` of the size, the fallback `symbol * count` is an `int` product converted
to `float`, the paytable entry is a `float`, and `total_score` is a `float` sum. -/
def SlotBase.get_score_machine (pay_table : PayTable) (patterns : MatchPatterns) :
    Option Int :=
  patterns.foldlM
    (fun total_score entry =>
      if entry.2 ≠ [] then
        let count : Int := size_to_int entry.2.length
        match pay_table.lookup entry.1 count with
        | some pay => (float_round pay).bind (fun pay => float_add total_score pay)
        | none =>
          (int_result (entry.1 * count)).bind (fun product =>
            (int_to_float product).bind (fun term => float_add total_score term))
      else some total_score)
    0

/-- Step 1 of `SlotSS03::get_score` on `int` counters: `column_counts[col]++` has no value
once a counter passes `INT_MAX`. -/
def SlotSS03.column_counts_machine (positions : MatchPattern) : Option (List Nat) :=
  if (SlotSS03.column_counts positions).all (fun n => decide ((n : Int) ≤ INT_MAX)) then
    some (SlotSS03.column_counts positions)
  else none

/-- Step 3 of `SlotSS03::get_score` on `int ways`: every product `ways *= count` is an
`int` product. -/
def SlotSS03.ways_machine (cc : List Nat) (consecutive : Nat) : Option Int :=
  (List.range consecutive).foldlM (fun ways col => int_result (ways * (cc.getD col 0 : Nat))) 1

/-- Source `SlotSS03::get_score` with the arithmetic of the source: `int` counters, an
`int ways` product, `payout * ways` a `float` product of the payout and the converted
`ways`, and `total_score` a `float` sum. -/
def SlotSS03.get_score_machine (patterns : MatchPatterns) : Option Int :=
  patterns.foldlM
    (fun total_score entry =>
      if entry.2 = [] then some total_score
      else
        (SlotSS03.column_counts_machine entry.2).bind (fun cc =>
          let consecutive := SlotSS03.consecutive_columns cc
          if consecutive < 3 then some total_score
          else
            (SlotSS03.ways_machine cc consecutive).bind (fun ways =>
              let payout : Int :=
                match SlotSS03.pay_table.lookup entry.1 consecutive with
                | some pay => pay
                | none => 0
              (int_to_float ways).bind (fun ways_float =>
                (float_mul payout ways_float).bind (fun term =>
                  float_add total_score term)))))
    0

/-- Body of the `while` loop of `steps` with the arithmetic of the source: `score` is the
`get_score` of the variant and `accumulate` its statement `total_score += step_score`. -/
def Engine.loop_body_machine (E : Engine) (score : MatchPatterns → Option Int)
    (accumulate : Int → Int → Option Int) (script : List Board) (st : StepsState) :
    Option StepsState :=
  let patterns := (E.find_matches st.current_board).1
  (score patterns).bind (fun step_score =>
    (accumulate st.total_score step_score).bind (fun total_score =>
      let eliminated := E.eliminate_matches st.current_board patterns
      let fallen := E.apply_gravity eliminated
      let next_board := script.getD (st.actual_stop + 1) []
      let step_cascade_match := cascade_match fallen next_board
      some
        { current_board := next_board
          total_score := total_score
          actual_stop := st.actual_stop + 1
          all_patterns := st.all_patterns ++ [patterns]
          all_cascade_match := if step_cascade_match then st.all_cascade_match else false }))

/-- The `while` loop of `steps` with the arithmetic of the source, with an iteration
budget. -/
def Engine.run_loop_machine (E : Engine) (score : MatchPatterns → Option Int)
    (accumulate : Int → Int → Option Int) (script : List Board) :
    Nat → StepsState → Option StepsState
  | 0, st => some st
  | fuel + 1, st =>
    if E.is_terminal st.current_board = false ∧ st.actual_stop < script.length - 1 then
      (E.loop_body_machine score accumulate script st).bind
        (Engine.run_loop_machine E score accumulate script fuel)
    else some st

/-- Statement `total_score += step_score` of `SlotSS02::steps`, an `int` accumulator and a
`float` score: the accumulator is converted to `float`, the sum is a `float` sum and the
result is converted back to `int`. -/
def SlotSS02.accumulate (total_score step_score : Int) : Option Int :=
  (int_to_float total_score).bind (fun total_float =>
    (float_add total_float step_score).bind float_to_int)

/-- Source `SlotSS03::steps` with the arithmetic of the source: a `float` total. -/
def SlotSS03.steps_machine (script : List Board) : Option StepsResult :=
  if script = [] then
    some { final_board := [], total_score := 0, stop := 0, all_patterns := [],
           all_steps_cascade_matched := true }
  else
    (SlotSS03.engine.run_loop_machine SlotSS03.get_score_machine float_add script
      script.length
      { current_board := script.getD 0 [], total_score := 0, actual_stop := 0,
        all_patterns := [], all_cascade_match := true }).bind (fun st =>
      some { final_board := st.current_board, total_score := st.total_score,
             stop := st.actual_stop + 1, all_patterns := st.all_patterns,
             all_steps_cascade_matched := st.all_cascade_match })

/-- Source `SlotSS02::steps` with the arithmetic of the source: an `int` total that takes
the `float` step scores, is multiplied in `int` in the free game and is returned as a
`float`. -/
def SlotSS02.steps_machine (game_type : String) (script : List Board)
    (special_multipliers : Int) : Option StepsResult :=
  if script = [] then
    some { final_board := [], total_score := 0, stop := 0, all_patterns := [],
           all_steps_cascade_matched := true }
  else
    (SlotSS02.engine.run_loop_machine (SlotBase.get_score_machine SlotSS02.pay_table)
      SlotSS02.accumulate script script.length
      { current_board := script.getD 0 [], total_score := 0, actual_stop := 0,
        all_patterns := [], all_cascade_match := true }).bind (fun st =>
      let total_score : Option Int :=
        if game_type = "free" then
          let multiplier_count := SlotSS02.multiplier_count st.current_board
          if 0 < multiplier_count then
            (int_result ((multiplier_count : Int) * special_multipliers)).bind (fun factor =>
              int_result (st.total_score * factor))
          else some st.total_score
        else some st.total_score
      total_score.bind (fun total_score =>
        (int_to_float total_score).bind (fun returned_score =>
          some { final_board := st.current_board, total_score := returned_score,
                 stop := st.actual_stop + 1, all_patterns := st.all_patterns,
                 all_steps_cascade_matched := st.all_cascade_match })))


/-- A patterns map for the scorer of Variant B: symbol 1 with 30 positions in each of the
five columns. -/
def wide_patterns : MatchPatterns := [(1, all_positions 30 5)]

/-- A patterns map for the scorer of Variant B: symbol 1 with 74 positions in each of the
five columns. -/
def overflow_patterns : MatchPatterns := [(1, all_positions 74 5)]

/-- A patterns map for the scorer of Variant A: symbol 0 with eight positions, which has a
paytable entry, and symbol 12 with two positions, which has none. -/
def mixed_patterns_ss02 : MatchPatterns :=
  [(0, [(0, 0), (0, 1), (0, 2), (0, 3), (0, 4), (0, 5), (1, 0), (1, 1)]),
   (12, [(2, 0), (2, 1)])]

/-- A patterns map for the scorer of Variant A: the symbol 2^24 + 1, outside the paytable,
with one position. -/
def odd_symbol_patterns : MatchPatterns := [(16777217, [(0, 0)])]

/-- A patterns map for the scorer of Variant A: the symbol 2^30, outside the paytable, with
two positions. -/
def large_symbol_patterns : MatchPatterns := [(1073741824, [(0, 0), (0, 1)])]

/-- A valid SS03 board that holds symbol 1 in every cell of the profile: 2000 ways of five
columns. -/
def full_board_ss03 : Board :=
  [[1, 1, 1, 1, 1], [1, 1, 1, 1, 1], [1, 1, 1, 1, 1], [1, 1, 1, 1, 1], [-2, 1, 1, 1, -2]]

/-- A valid SS03 board whose only win is one way of symbol 8 over columns 0 to 2. -/
def small_win_board_ss03 : Board :=
  [[8, 8, 8, 1, 1], [1, 4, 1, 2, 2], [2, 5, 2, 3, 3], [3, 6, 3, 4, 4], [-2, 7, 4, 5, -2]]

/-- A script of 170 boards: 168 times the full board, then the board with the small win,
then a board without a win. -/
def long_script_ss03 : List Board :=
  List.replicate 168 full_board_ss03 ++ [small_win_board_ss03, quiet_board_ss03]

/-- A 5x6 board whose only cluster is eight cells of symbol 8. -/
def eights_board_ss02 : Board :=
  [[8, 8, 8, 8, 8, 8], [8, 8, 0, 1, 2, 3], [4, 5, 6, 7, 0, 1], [2, 3, 4, 5, 6, 7],
   [0, 1, 2, 3, 4, 5]]

/-- A 5x6 board without a cluster that holds the multiplier symbol once. -/
def one_multiplier_board_ss02 : Board :=
  [[202, 1, 2, 3, 4, 5], [6, 7, 8, 0, 1, 2], [3, 4, 5, 6, 7, 8], [0, 1, 2, 3, 4, 5],
   [6, 7, 8, 0, 1, 2]]

/-- A free-game script: a board that wins 5, then a terminal board with one multiplier
symbol. -/
def rounding_script_ss02 : List Board := [eights_board_ss02, one_multiplier_board_ss02]

/-! # Theorems -/

/-! ## Replay loop: shared lemmas -/

theorem cascade_inner_fold (current_board next_board : Board) (row : Nat) (cols : List Nat)
    (ok : Bool) :
    cols.foldl
        (fun step_cascade_match col =>
          if current_board.cell row col ≠ -1 then
            if current_board.cell row col ≠ next_board.cell row col then false
            else step_cascade_match
          else step_cascade_match) ok
      = (ok && cols.all (fun col => decide (current_board.cell row col ≠ -1 →
          current_board.cell row col = next_board.cell row col))) := by
  induction cols generalizing ok with
  | nil => simp
  | cons c cs ih =>
    rw [List.foldl_cons, ih]
    by_cases h1 : current_board.cell row c = -1
    · simp [h1]
    · by_cases h2 : current_board.cell row c = next_board.cell row c
      · simp [h1, h2]
      · simp [h1, h2]

theorem cascade_outer_fold (f : Nat → Bool) (rows : List Nat) (ok : Bool)
    (g : Bool → Nat → Bool) (hg : ∀ b r, g b r = (b && f r)) :
    rows.foldl g ok = (ok && rows.all f) := by
  induction rows generalizing ok with
  | nil => simp
  | cons r rs ih => rw [List.foldl_cons, ih, hg]; simp [Bool.and_assoc]

/-- The comparison loop succeeds exactly when every non `-1` cell agrees. -/
theorem cascade_match_iff (current_board next_board : Board) :
    cascade_match current_board next_board = true ↔
      ∀ row col, row < current_board.length → col < (current_board.getD row []).length →
        current_board.cell row col ≠ -1 →
        current_board.cell row col = next_board.cell row col := by
  unfold cascade_match
  rw [cascade_outer_fold
    (fun row => (List.range (current_board.getD row []).length).all
      (fun col => decide (current_board.cell row col ≠ -1 →
          current_board.cell row col = next_board.cell row col)))
    _ _ _ (fun b r => cascade_inner_fold current_board next_board r _ b)]
  simp only [Bool.true_and, List.all_eq_true, List.mem_range, decide_eq_true_eq]
  constructor
  · intro h row col hr hc; exact h row hr col hc
  · intro h row hr col hc; exact h row col hr hc

theorem Engine.run_loop_spec (E : Engine) (script : List Board) :
    ∀ (fuel : Nat) (st : StepsState),
      st.current_board = script.getD st.actual_stop [] →
      st.actual_stop ≤ script.length - 1 →
      script.length - 1 ≤ st.actual_stop + fuel →
      ∃ j, st.actual_stop ≤ j ∧ j ≤ script.length - 1 ∧
        (∀ i, st.actual_stop ≤ i → i < j → E.is_terminal (script.getD i []) = false) ∧
        (E.is_terminal (script.getD j []) = true ∨ j = script.length - 1) ∧
        E.run_loop script fuel st =
          { current_board := script.getD j []
            total_score := st.total_score +
              ((List.range' st.actual_stop (j - st.actual_stop)).map (E.step_score script)).sum
            actual_stop := j
            all_patterns := st.all_patterns ++
              (List.range' st.actual_stop (j - st.actual_stop)).map (E.step_patterns script)
            all_cascade_match := (st.all_cascade_match &&
              (List.range' st.actual_stop (j - st.actual_stop)).all
                (fun i => cascade_match (E.fallen script i) (script.getD (i + 1) []))) } := by
  intro fuel
  induction fuel with
  | zero =>
    intro st hcur hle hfuel
    refine ⟨st.actual_stop, le_refl _, hle, ?_, Or.inr (by omega), ?_⟩
    · intro i h1 h2; omega
    · cases st; simp_all [Engine.run_loop]
  | succ fuel ih =>
    intro st hcur hle hfuel
    by_cases hc : E.is_terminal st.current_board = false ∧ st.actual_stop < script.length - 1
    · have hrun : E.run_loop script (fuel + 1) st
          = E.run_loop script fuel (E.loop_body script st) := by
        simp only [Engine.run_loop]; rw [if_pos hc]
      obtain ⟨j, hj1, hj2, hj3, hj4, hj5⟩ := ih (E.loop_body script st) rfl
        (by simp only [Engine.loop_body]; omega) (by simp only [Engine.loop_body]; omega)
      simp only [Engine.loop_body] at hj1 hj3 hj5
      refine ⟨j, by omega, hj2, ?_, hj4, ?_⟩
      · intro i h1 h2
        by_cases hi : i = st.actual_stop
        · subst hi; rw [← hcur]; exact hc.1
        · exact hj3 i (by omega) h2
      · rw [hrun]
        simp only [Engine.loop_body]
        rw [hj5]
        have hsplit : j - st.actual_stop = (j - (st.actual_stop + 1)) + 1 := by omega
        rw [hsplit, List.range'_succ]
        simp only [List.map_cons, List.sum_cons, List.all_cons, Engine.step_score,
          Engine.step_patterns, Engine.fallen, ← hcur]
        congr 1
        · ring
        · simp
        · cases cascade_match (E.apply_gravity (E.eliminate_matches st.current_board
            (E.find_matches st.current_board).1)) (script.getD (st.actual_stop + 1) []) <;> simp
    · refine ⟨st.actual_stop, le_refl _, hle, ?_, ?_, ?_⟩
      · intro i h1 h2; omega
      · rw [← hcur]
        by_cases ht : E.is_terminal st.current_board = true
        · exact Or.inl ht
        · right
          have : ¬ st.actual_stop < script.length - 1 := fun h => hc ⟨by simpa using ht, h⟩
          omega
      · have hrun : E.run_loop script (fuel + 1) st = st := by
          simp only [Engine.run_loop]; rw [if_neg hc]
        rw [hrun]; cases st; simpa using hcur

/-- The loop of `steps` on a non-empty script: it exits by its own condition at the least
index `j` that is terminal or last, having scored and compared boards `0..j-1`. -/
theorem Engine.replay_spec (E : Engine) (script : List Board) :
    ∃ j, j ≤ script.length - 1 ∧
      (∀ i, i < j → E.is_terminal (script.getD i []) = false) ∧
      (E.is_terminal (script.getD j []) = true ∨ j = script.length - 1) ∧
      E.replay script =
        { current_board := script.getD j []
          total_score := ((List.range j).map (E.step_score script)).sum
          actual_stop := j
          all_patterns := (List.range j).map (E.step_patterns script)
          all_cascade_match := (List.range j).all
            (fun i => cascade_match (E.fallen script i) (script.getD (i + 1) [])) } := by
  obtain ⟨j, _, h2, h3, h4, h5⟩ := E.run_loop_spec script script.length
    { current_board := script.getD 0 [], total_score := 0, actual_stop := 0,
      all_patterns := [], all_cascade_match := true } rfl (Nat.zero_le _) (by simp)
  refine ⟨j, h2, fun i hi => h3 i (Nat.zero_le _) hi, h4, ?_⟩
  unfold Engine.replay
  rw [h5]
  simp [List.range_eq_range']

theorem ss03_steps_spec (script : List Board) (h : script ≠ []) :
    ∃ j, j ≤ script.length - 1 ∧
      (∀ i, i < j → SlotSS03.engine.is_terminal (script.getD i []) = false) ∧
      (SlotSS03.engine.is_terminal (script.getD j []) = true ∨ j = script.length - 1) ∧
      SlotSS03.steps script =
        { final_board := script.getD j []
          total_score := ((List.range j).map (SlotSS03.engine.step_score script)).sum
          stop := j + 1
          all_patterns := (List.range j).map (SlotSS03.engine.step_patterns script)
          all_steps_cascade_matched := (List.range j).all
            (fun i => cascade_match (SlotSS03.engine.fallen script i)
              (script.getD (i + 1) [])) } := by
  obtain ⟨j, h1, h2, h3, h4⟩ := SlotSS03.engine.replay_spec script
  refine ⟨j, h1, h2, h3, ?_⟩
  unfold SlotSS03.steps
  rw [if_neg h, h4]

theorem ss02_steps_spec (game_type : String) (script : List Board)
    (special_multipliers : Int) (h : script ≠ []) :
    ∃ j, j ≤ script.length - 1 ∧
      (∀ i, i < j → SlotSS02.engine.is_terminal (script.getD i []) = false) ∧
      (SlotSS02.engine.is_terminal (script.getD j []) = true ∨ j = script.length - 1) ∧
      SlotSS02.steps game_type script special_multipliers =
        { final_board := script.getD j []
          total_score :=
            if game_type = "free" then
              if 0 < SlotSS02.multiplier_count (script.getD j []) then
                ((List.range j).map (SlotSS02.engine.step_score script)).sum *
                  (SlotSS02.multiplier_count (script.getD j []) * special_multipliers)
              else ((List.range j).map (SlotSS02.engine.step_score script)).sum
            else ((List.range j).map (SlotSS02.engine.step_score script)).sum
          stop := j + 1
          all_patterns := (List.range j).map (SlotSS02.engine.step_patterns script)
          all_steps_cascade_matched := (List.range j).all
            (fun i => cascade_match (SlotSS02.engine.fallen script i)
              (script.getD (i + 1) [])) } := by
  obtain ⟨j, h1, h2, h3, h4⟩ := SlotSS02.engine.replay_spec script
  refine ⟨j, h1, h2, h3, ?_⟩
  unfold SlotSS02.steps
  rw [if_neg h, h4]

theorem stop_index_contract_of_spec (E : Engine) (script : List Board) (h : script ≠ [])
    (r : StepsResult) (j : Nat) (h1 : j ≤ script.length - 1)
    (h2 : ∀ i, i < j → E.is_terminal (script.getD i []) = false)
    (h3 : E.is_terminal (script.getD j []) = true ∨ j = script.length - 1)
    (hs : r.stop = j + 1) (hb : r.final_board = script.getD j []) :
    stop_index_contract E script r := by
  have hn : 0 < script.length := List.length_pos.mpr h
  refine ⟨by omega, by omega, ?_, ?_, ?_, ?_⟩
  · intro i hi; exact h2 i (by omega)
  · rw [hs, Nat.add_sub_cancel]
    rcases h3 with h3 | h3
    · exact Or.inl h3
    · right; omega
  · intro k _ hk
    rw [hs, Nat.add_sub_cancel]
    by_contra hlt
    have hkj : k < j := by omega
    rcases hk with hk | hk
    · rw [h2 k hkj] at hk; exact Bool.false_ne_true hk
    · omega
  · intro hnt
    rw [hb] at hnt
    rcases h3 with h3 | h3
    · rw [h3] at hnt; exact absurd hnt (by decide)
    · omega

/-- C1: for both engines and every non-empty script, the stop index `s` returned by
`steps` satisfies `1 ≤ s ≤ n`, no board before `s - 1` is terminal, board `s - 1` is
terminal or `s = n`, `s - 1` is the least such index, and a non-terminal final board
means `s = n`. -/
theorem steps_stop_index (script : List Board) (game_type : String) (special_multipliers : Int)
    (h : script ≠ []) :
    stop_index_contract SlotSS03.engine script (SlotSS03.steps script) ∧
    stop_index_contract SlotSS02.engine script
      (SlotSS02.steps game_type script special_multipliers) := by
  constructor
  · obtain ⟨j, h1, h2, h3, h4⟩ := ss03_steps_spec script h
    exact stop_index_contract_of_spec _ script h _ j h1 h2 h3 (by rw [h4]) (by rw [h4])
  · obtain ⟨j, h1, h2, h3, h4⟩ := ss02_steps_spec game_type script special_multipliers h
    exact stop_index_contract_of_spec _ script h _ j h1 h2 h3 (by rw [h4]) (by rw [h4])

/-- The stop-index contract on the two-board sample script. -/
theorem steps_stop_index_witness :
    sample_script ≠ [] ∧
    (stop_index_contract SlotSS03.engine sample_script (SlotSS03.steps sample_script) ∧
     stop_index_contract SlotSS02.engine sample_script
      (SlotSS02.steps "free" sample_script 3)) :=
  ⟨by decide, steps_stop_index sample_script "free" 3 (by decide)⟩

/-- In exact arithmetic the total of `steps` is the sum over `i = 0..s-2` of the exact
scores of the recorded boards `script[i]`, for Variant B and for Variant A in the base
game. -/
theorem steps_total_score_exact (script : List Board) (special_multipliers : Int)
    (h : script ≠ []) :
    (SlotSS03.steps script).total_score =
      ((List.range ((SlotSS03.steps script).stop - 1)).map
        (fun i => SlotSS03.get_score (SlotSS03.find_matches (script.getD i [])).1)).sum ∧
    (SlotSS02.steps "base" script special_multipliers).total_score =
      ((List.range ((SlotSS02.steps "base" script special_multipliers).stop - 1)).map
        (fun i => SlotBase.get_score SlotSS02.pay_table
          (SlotSS02.find_matches (script.getD i [])).1)).sum := by
  constructor
  · obtain ⟨j, _, _, _, h4⟩ := ss03_steps_spec script h
    rw [h4]; rfl
  · obtain ⟨j, _, _, _, h4⟩ := ss02_steps_spec "base" script special_multipliers h
    rw [h4]
    have hne : ¬ ("base" = "free") := by decide
    simp only [if_neg hne]
    rfl

/-- C3: for both engines and every non-empty script, the cascade flag returned by `steps`
is true exactly when, for every `i` in `0..s-2`, every cell of the post-gravity board
`G_i` that is not `-1` equals the cell of `script[i+1]` at the same position. -/
theorem steps_cascade_flag (script : List Board) (game_type : String)
    (special_multipliers : Int) (h : script ≠ []) :
    ((SlotSS03.steps script).all_steps_cascade_matched = true ↔
      ∀ i, i + 1 < (SlotSS03.steps script).stop →
        cells_agree
          (SlotSS03.apply_gravity (SlotSS03.eliminate_matches (script.getD i [])
            (SlotSS03.find_matches (script.getD i [])).1))
          (script.getD (i + 1) [])) ∧
    ((SlotSS02.steps game_type script special_multipliers).all_steps_cascade_matched = true ↔
      ∀ i, i + 1 < (SlotSS02.steps game_type script special_multipliers).stop →
        cells_agree
          (SlotSS02.apply_gravity (SlotBase.eliminate_matches (script.getD i [])
            (SlotSS02.find_matches (script.getD i [])).1))
          (script.getD (i + 1) [])) := by
  constructor
  · obtain ⟨j, _, _, _, h4⟩ := ss03_steps_spec script h
    rw [h4]
    simp only [List.all_eq_true, List.mem_range, cascade_match_iff, Nat.add_lt_add_iff_right,
      cells_agree, Engine.fallen, SlotSS03.engine]
  · obtain ⟨j, _, _, _, h4⟩ := ss02_steps_spec game_type script special_multipliers h
    rw [h4]
    simp only [List.all_eq_true, List.mem_range, cascade_match_iff, Nat.add_lt_add_iff_right,
      cells_agree, Engine.fallen, SlotSS02.engine]

/-- The cascade-flag equivalence on the two-board sample script. -/
theorem steps_cascade_flag_witness :
    sample_script ≠ [] ∧
    (((SlotSS03.steps sample_script).all_steps_cascade_matched = true ↔
      ∀ i, i + 1 < (SlotSS03.steps sample_script).stop →
        cells_agree
          (SlotSS03.apply_gravity (SlotSS03.eliminate_matches (sample_script.getD i [])
            (SlotSS03.find_matches (sample_script.getD i [])).1))
          (sample_script.getD (i + 1) [])) ∧
    ((SlotSS02.steps "base" sample_script 1).all_steps_cascade_matched = true ↔
      ∀ i, i + 1 < (SlotSS02.steps "base" sample_script 1).stop →
        cells_agree
          (SlotSS02.apply_gravity (SlotBase.eliminate_matches (sample_script.getD i [])
            (SlotSS02.find_matches (sample_script.getD i [])).1))
          (sample_script.getD (i + 1) []))) :=
  ⟨by decide, steps_cascade_flag sample_script "base" 1 (by decide)⟩

/-- C4: for both engines and every non-empty script, the final board returned by `steps`
is the recorded board `script[s-1]`, and the pattern list has length `s - 1` with entry
`i` equal to `find_matches(script[i]).patterns`. -/
theorem steps_final_board_and_patterns (script : List Board) (game_type : String)
    (special_multipliers : Int) (h : script ≠ []) :
    ((SlotSS03.steps script).final_board = script.getD ((SlotSS03.steps script).stop - 1) [] ∧
     (SlotSS03.steps script).all_patterns.length = (SlotSS03.steps script).stop - 1 ∧
     ∀ i, i < (SlotSS03.steps script).stop - 1 →
       (SlotSS03.steps script).all_patterns.get? i =
         some (SlotSS03.find_matches (script.getD i [])).1) ∧
    ((SlotSS02.steps game_type script special_multipliers).final_board =
       script.getD ((SlotSS02.steps game_type script special_multipliers).stop - 1) [] ∧
     (SlotSS02.steps game_type script special_multipliers).all_patterns.length =
       (SlotSS02.steps game_type script special_multipliers).stop - 1 ∧
     ∀ i, i < (SlotSS02.steps game_type script special_multipliers).stop - 1 →
       (SlotSS02.steps game_type script special_multipliers).all_patterns.get? i =
         some (SlotSS02.find_matches (script.getD i [])).1) := by
  constructor
  · obtain ⟨j, _, _, _, h4⟩ := ss03_steps_spec script h
    rw [h4]
    refine ⟨by simp, by simp, ?_⟩
    intro i hi
    simp only [Nat.add_sub_cancel] at hi
    simp [hi, Engine.step_patterns, SlotSS03.engine]
  · obtain ⟨j, _, _, _, h4⟩ := ss02_steps_spec game_type script special_multipliers h
    rw [h4]
    refine ⟨by simp, by simp, ?_⟩
    intro i hi
    simp only [Nat.add_sub_cancel] at hi
    simp [hi, Engine.step_patterns, SlotSS02.engine]

/-- The final board and pattern list on the two-board sample script. -/
theorem steps_final_board_and_patterns_witness :
    sample_script ≠ [] ∧
    (((SlotSS03.steps sample_script).final_board =
        sample_script.getD ((SlotSS03.steps sample_script).stop - 1) [] ∧
     (SlotSS03.steps sample_script).all_patterns.length = (SlotSS03.steps sample_script).stop - 1 ∧
     ∀ i, i < (SlotSS03.steps sample_script).stop - 1 →
       (SlotSS03.steps sample_script).all_patterns.get? i =
         some (SlotSS03.find_matches (sample_script.getD i [])).1) ∧
    ((SlotSS02.steps "free" sample_script 2).final_board =
       sample_script.getD ((SlotSS02.steps "free" sample_script 2).stop - 1) [] ∧
     (SlotSS02.steps "free" sample_script 2).all_patterns.length =
       (SlotSS02.steps "free" sample_script 2).stop - 1 ∧
     ∀ i, i < (SlotSS02.steps "free" sample_script 2).stop - 1 →
       (SlotSS02.steps "free" sample_script 2).all_patterns.get? i =
         some (SlotSS02.find_matches (sample_script.getD i [])).1)) :=
  ⟨by decide, steps_final_board_and_patterns sample_script "free" 2 (by decide)⟩

/-! ## Maps: shared lemmas -/

theorem MatchPatterns.find_assign (m : MatchPatterns) (k : Int) (v : MatchPattern) (s : Int) :
    (m.assign k v).find s = if k = s then some v else m.find s := by
  induction m with
  | nil => simp [MatchPatterns.assign, MatchPatterns.find]
  | cons e t ih =>
    obtain ⟨k', v'⟩ := e
    by_cases h : k' = k
    · subst h
      by_cases h2 : k' = s <;> simp [MatchPatterns.assign, MatchPatterns.find, h2]
    · by_cases h2 : k' = s
      · subst h2
        have h3 : ¬ k = k' := fun e => h e.symm
        simp [MatchPatterns.assign, MatchPatterns.find, h, h3]
      · simp [MatchPatterns.assign, MatchPatterns.find, h, h2, ih]

theorem MatchPatterns.find_push (m : MatchPatterns) (k : Int) (p : Nat × Nat) (s : Int) :
    (m.push k p).find s = if k = s then some ((m.find k).getD [] ++ [p]) else m.find s := by
  induction m with
  | nil => simp [MatchPatterns.push, MatchPatterns.find]
  | cons e t ih =>
    obtain ⟨k', v'⟩ := e
    by_cases h : k' = k
    · subst h
      by_cases h2 : k' = s <;> simp [MatchPatterns.push, MatchPatterns.find, h2]
    · by_cases h2 : k' = s
      · subst h2
        have h3 : ¬ k = k' := fun e => h e.symm
        simp [MatchPatterns.push, MatchPatterns.find, h, h3]
      · simp [MatchPatterns.push, MatchPatterns.find, h, h2, ih]

theorem MatchPatterns.mem_keys_iff (m : MatchPatterns) (s : Int) :
    s ∈ m.keys ↔ m.find s ≠ none := by
  induction m with
  | nil => simp [MatchPatterns.keys, MatchPatterns.find]
  | cons e t ih =>
    obtain ⟨k', v'⟩ := e
    by_cases h : k' = s
    · simp [MatchPatterns.keys, MatchPatterns.find, h]
    · have h3 : ¬ s = k' := fun e => h e.symm
      simp only [MatchPatterns.keys] at ih
      simp [MatchPatterns.keys, MatchPatterns.find, h, h3, ih]

theorem MatchPatterns.assign_ne_nil (m : MatchPatterns) (k : Int) (v : MatchPattern) :
    m.assign k v ≠ [] := by
  cases m with
  | nil => simp [MatchPatterns.assign]
  | cons e t =>
    obtain ⟨k', v'⟩ := e
    by_cases h : k' = k <;> simp [MatchPatterns.assign, h]

theorem MatchPatterns.keys_assign_nodup (m : MatchPatterns) (k : Int) (v : MatchPattern)
    (h : m.keys.Nodup) : (m.assign k v).keys.Nodup := by
  induction m with
  | nil => simp [MatchPatterns.assign, MatchPatterns.keys]
  | cons e t ih =>
    obtain ⟨k', v'⟩ := e
    simp only [MatchPatterns.keys, List.map_cons, List.nodup_cons] at h
    by_cases hk : k' = k
    · subst hk
      simp only [MatchPatterns.assign, if_pos, MatchPatterns.keys, List.map_cons, List.nodup_cons]
      exact h
    · simp only [MatchPatterns.assign, if_neg hk, MatchPatterns.keys, List.map_cons,
        List.nodup_cons]
      refine ⟨?_, ih h.2⟩
      intro hmem
      have h1 := (MatchPatterns.mem_keys_iff (MatchPatterns.assign t k v) k').mp hmem
      rw [MatchPatterns.find_assign] at h1
      have h3 : ¬ k = k' := fun e => hk e.symm
      rw [if_neg h3] at h1
      exact h.1 ((MatchPatterns.mem_keys_iff t k').mpr h1)

/-- A loop that appends the image of every accepted element builds the filtered list. -/
theorem foldl_append_filter {α β : Type} (p : α → Prop) [DecidablePred p] (f : α → β)
    (l : List α) (init : List β) :
    l.foldl (fun acc x => if p x then acc ++ [f x] else acc) init
      = init ++ (l.filter (fun x => decide (p x))).map f := by
  induction l generalizing init with
  | nil => simp
  | cons a t ih =>
    rw [List.foldl_cons, ih]
    by_cases h : p a <;> simp [h]

theorem foldl_append_flatMap {α β : Type} (g : α → List β) (body : List β → α → List β)
    (hbody : ∀ acc a, body acc a = acc ++ g a) (l : List α) (init : List β) :
    l.foldl body init = init ++ l.flatMap g := by
  induction l generalizing init with
  | nil => simp
  | cons a t ih => rw [List.foldl_cons, ih, hbody]; simp

/-! ## Variant A matcher -/

theorem SlotSS02.positions_of_eq (board : Board) (s : Int) :
    SlotSS02.positions_of board s = SlotSS02.occurrences board s := by
  unfold SlotSS02.positions_of SlotSS02.occurrences all_positions
  rw [foldl_append_flatMap
    (fun row => ((List.range SlotSS02.board_width).filter
      (fun col => decide (board.cell row col = s))).map (fun col => (row, col)))
    _ (fun acc row => foldl_append_filter (fun col => board.cell row col = s)
      (fun col => (row, col)) _ acc)]
  rw [List.filter_flatMap]
  simp only [List.nil_append, SlotSS02.board_height, SlotSS02.board_width, List.filter_map]
  rfl

theorem SlotSS02.mem_occurrences (board : Board) (s : Int) (row col : Nat) :
    (row, col) ∈ SlotSS02.occurrences board s ↔ row < 5 ∧ col < 6 ∧ board.cell row col = s := by
  unfold SlotSS02.occurrences all_positions
  simp only [List.mem_filter, List.mem_flatMap, List.mem_range, List.mem_map, Prod.mk.injEq,
    decide_eq_true_eq]
  constructor
  · rintro ⟨⟨r, hr, c, hc, rfl, rfl⟩, h⟩; exact ⟨hr, hc, h⟩
  · rintro ⟨hr, hc, h⟩; exact ⟨⟨row, hr, col, hc, rfl, rfl⟩, h⟩

theorem all_positions_nodup (h w : Nat) : (all_positions h w).Nodup := by
  unfold all_positions
  rw [List.nodup_flatMap]
  constructor
  · intro r _
    exact (List.nodup_range w).map (fun a b hab => by simpa using hab)
  · refine (List.nodup_range h).pairwise_of_forall_ne ?_
    intro a _ b _ hab
    simp only [Function.onFun, List.Disjoint, List.mem_map, List.mem_range]
    rintro ⟨r, c⟩ ⟨c1, _, h1⟩ ⟨c2, _, h2⟩
    simp only [Prod.mk.injEq] at h1 h2
    exact hab (h1.1.trans h2.1.symm)

/-- Effect of the symbol loop of `SlotSS02::find_matches` on the map, the key set and the
flag, for any list of symbols and any starting accumulator. -/
theorem SlotSS02.symbol_loop_spec (board : Board) (syms : List Int)
    (init : MatchPatterns × Bool) (s : Int) :
    let r := syms.foldl
      (fun acc symbol =>
        let positions := SlotSS02.positions_of board symbol
        if SlotSS02.min_match_size ≤ positions.length then
          (acc.1.assign symbol positions, true) else acc) init
    (r.1.find s =
      if s ∈ syms ∧ SlotSS02.min_match_size ≤ (SlotSS02.positions_of board s).length then
        some (SlotSS02.positions_of board s) else init.1.find s) ∧
    ((init.2 = true ↔ init.1 ≠ []) → (r.2 = true ↔ r.1 ≠ [])) := by
  induction syms generalizing init with
  | nil => simp
  | cons a t ih =>
    simp only [List.foldl_cons]
    have := ih (if SlotSS02.min_match_size ≤ (SlotSS02.positions_of board a).length then
          (init.1.assign a (SlotSS02.positions_of board a), true) else init)
    simp only at this
    obtain ⟨h1, h2⟩ := this
    refine ⟨?_, ?_⟩
    · rw [h1]
      by_cases hs : s ∈ t ∧ SlotSS02.min_match_size ≤ (SlotSS02.positions_of board s).length
      · have : s ∈ a :: t ∧ SlotSS02.min_match_size ≤ (SlotSS02.positions_of board s).length :=
          ⟨List.mem_cons_of_mem _ hs.1, hs.2⟩
        rw [if_pos hs, if_pos this]
      · rw [if_neg hs]
        by_cases ha : SlotSS02.min_match_size ≤ (SlotSS02.positions_of board a).length
        · rw [if_pos ha]
          simp only [MatchPatterns.find_assign]
          by_cases hsa : a = s
          · subst hsa; simp [ha]
          · have hne : ¬ s = a := fun e => hsa e.symm
            simp only [if_neg hsa, List.mem_cons, hne, false_or]
            rw [if_neg hs]
        · rw [if_neg ha]
          by_cases hsa : a = s
          · subst hsa; simp [ha]
          · have hne : ¬ s = a := fun e => hsa e.symm
            simp only [List.mem_cons, hne, false_or]
            rw [if_neg hs]
    · intro hinit
      apply h2
      by_cases ha : SlotSS02.min_match_size ≤ (SlotSS02.positions_of board a).length
      · rw [if_pos ha]
        simp [MatchPatterns.assign_ne_nil]
      · rw [if_neg ha]; exact hinit

/-- C5: Variant A matcher.  The keys of the returned map are exactly the alphabet symbols
`0..8` with at least 8 occurrences on the board; the pattern of such a symbol is the list
of all positions holding it, each once, in row-major order; `has_match` holds exactly
when the map is non-empty, that is when some symbol qualifies.  No adjacency is asked. -/
theorem ss02_find_matches_spec (board : Board) :
    (∀ s : Int, s ∈ (SlotSS02.find_matches board).1.keys ↔
      (0 ≤ s ∧ s ≤ 8 ∧ 8 ≤ (SlotSS02.occurrences board s).length)) ∧
    (∀ s : Int, s ∈ (SlotSS02.find_matches board).1.keys →
      (SlotSS02.find_matches board).1.find s = some (SlotSS02.occurrences board s)) ∧
    (∀ (s : Int) (row col : Nat), (row, col) ∈ SlotSS02.occurrences board s ↔
      row < 5 ∧ col < 6 ∧ board.cell row col = s) ∧
    (∀ s : Int, (SlotSS02.occurrences board s).Nodup ∧
      SlotSS02.occurrences board s =
        (all_positions 5 6).filter (fun p => decide (board.cell p.1 p.2 = s))) ∧
    ((SlotSS02.find_matches board).2 = true ↔ (SlotSS02.find_matches board).1 ≠ []) ∧
    ((SlotSS02.find_matches board).2 = true ↔
      ∃ s : Int, 0 ≤ s ∧ s ≤ 8 ∧ 8 ≤ (SlotSS02.occurrences board s).length) := by
  have hfind : ∀ s : Int, (SlotSS02.find_matches board).1.find s =
      if (0 ≤ s ∧ s ≤ 8) ∧ 8 ≤ (SlotSS02.occurrences board s).length then
        some (SlotSS02.occurrences board s) else none := by
    intro s
    have h := (SlotSS02.symbol_loop_spec board SlotSS02.symbols ([], false) s).1
    simp only [SlotSS02.positions_of_eq] at h
    have hmem : s ∈ SlotSS02.symbols ↔ (0 ≤ s ∧ s ≤ 8) := by
      simp only [SlotSS02.symbols, List.mem_cons, List.mem_singleton, List.not_mem_nil, or_false]
      omega
    unfold SlotSS02.find_matches
    simp only [SlotSS02.positions_of_eq]
    rw [h]
    simp only [hmem, SlotSS02.min_match_size, MatchPatterns.find]
  have hkeys : ∀ s : Int, s ∈ (SlotSS02.find_matches board).1.keys ↔
      (0 ≤ s ∧ s ≤ 8 ∧ 8 ≤ (SlotSS02.occurrences board s).length) := by
    intro s
    rw [MatchPatterns.mem_keys_iff, hfind]
    by_cases hc : (0 ≤ s ∧ s ≤ 8) ∧ 8 ≤ (SlotSS02.occurrences board s).length
    · rw [if_pos hc]; simp; exact ⟨hc.1.1, hc.1.2, hc.2⟩
    · rw [if_neg hc]
      simp only [ne_eq, not_true_eq_false, false_iff]
      intro h3; exact hc ⟨⟨h3.1, h3.2.1⟩, h3.2.2⟩
  have hflag : (SlotSS02.find_matches board).2 = true ↔ (SlotSS02.find_matches board).1 ≠ [] :=
    (SlotSS02.symbol_loop_spec board SlotSS02.symbols ([], false) 0).2 (by simp)
  refine ⟨hkeys, ?_, SlotSS02.mem_occurrences board, ?_, hflag, ?_⟩
  · intro s hs
    rw [hfind]
    rw [hkeys] at hs
    rw [if_pos ⟨⟨hs.1, hs.2.1⟩, hs.2.2⟩]
  · intro s
    exact ⟨(all_positions_nodup 5 6).filter _, rfl⟩
  · rw [hflag]
    constructor
    · intro hne
      obtain ⟨e, t, he⟩ := List.exists_cons_of_ne_nil hne
      have : e.1 ∈ (SlotSS02.find_matches board).1.keys := by
        rw [he]; simp [MatchPatterns.keys]
      exact ⟨e.1, (hkeys e.1).mp this⟩
    · rintro ⟨s, hs⟩ hnil
      have := (hkeys s).mpr hs
      rw [hnil] at this
      simp [MatchPatterns.keys] at this

/-! ## Variant B matcher -/

theorem MatchPatterns.keys_push_nodup (m : MatchPatterns) (k : Int) (p : Nat × Nat)
    (h : m.keys.Nodup) : (m.push k p).keys.Nodup := by
  induction m with
  | nil => simp [MatchPatterns.push, MatchPatterns.keys]
  | cons e t ih =>
    obtain ⟨k', v'⟩ := e
    simp only [MatchPatterns.keys, List.map_cons, List.nodup_cons] at h
    by_cases hk : k' = k
    · subst hk
      simp only [MatchPatterns.push, if_pos, MatchPatterns.keys, List.map_cons, List.nodup_cons]
      exact h
    · simp only [MatchPatterns.push, if_neg hk, MatchPatterns.keys, List.map_cons,
        List.nodup_cons]
      refine ⟨?_, ih h.2⟩
      intro hmem
      have h1 := (MatchPatterns.mem_keys_iff (MatchPatterns.push t k p) k').mp hmem
      rw [MatchPatterns.find_push] at h1
      have h3 : ¬ k = k' := fun e => hk e.symm
      rw [if_neg h3] at h1
      exact h.1 ((MatchPatterns.mem_keys_iff t k').mpr h1)

/-- A property kept by every iteration holds after the loop. -/
theorem foldl_keeps {σ α : Type} (I : σ → Prop) (F : σ → α → σ)
    (hF : ∀ st a, I st → I (F st a)) (l : List α) (init : σ) (h : I init) :
    I (l.foldl F init) := by
  induction l generalizing init with
  | nil => exact h
  | cons a t ih => exact ih (F init a) (hF init a h)

/-- A loop over the entries of a map with distinct keys, whose body changes the view of key
`s` only at the entry of `s`, changes it by that entry alone. -/
theorem foldl_keyed_view {σ : Type} (F : σ → Int × MatchPattern → σ)
    (view : σ → Option MatchPattern) (s : Int)
    (upd : MatchPattern → Option MatchPattern → Option MatchPattern)
    (hF : ∀ st e, view (F st e) = if e.1 = s then upd e.2 (view st) else view st)
    (l : MatchPatterns) (hnd : l.keys.Nodup) (init : σ) :
    view (l.foldl F init) =
      match l.find s with
      | some prev => upd prev (view init)
      | none => view init := by
  induction l generalizing init with
  | nil => simp [MatchPatterns.find]
  | cons e t ih =>
    obtain ⟨k, v⟩ := e
    simp only [MatchPatterns.keys, List.map_cons, List.nodup_cons] at hnd
    rw [List.foldl_cons, ih hnd.2, hF]
    by_cases hk : k = s
    · subst hk
      have hnone : MatchPatterns.find t k = none := by
        by_contra hne
        exact hnd.1 ((MatchPatterns.mem_keys_iff t k).mpr hne)
      simp [MatchPatterns.find, hnone]
    · simp [MatchPatterns.find, hk]

/-- The seeding loop, followed at the key `s`: it gathers the seeding rows in order. -/
theorem SlotSS03.seed_fold (board : Board) (s : Int) (rows : List Nat) (dp : MatchPatterns)
    (acc : MatchPattern) (hdp : dp.find s = if acc = [] then none else some acc) :
    (rows.foldl
      (fun dp row =>
        let symbol := board.cell row 0
        if 0 < symbol ∧ symbol < 100 then dp.push symbol (row, 0)
        else if 100 ≤ symbol ∧ symbol < 200 then dp.push (symbol - 100) (row, 0)
        else dp) dp).find s =
      if acc ++ (rows.filter (fun row => decide
          ((0 < board.cell row 0 ∧ board.cell row 0 < 100 ∧ board.cell row 0 = s) ∨
           (100 ≤ board.cell row 0 ∧ board.cell row 0 < 200 ∧
             board.cell row 0 = s + 100)))).map (fun row => (row, 0)) = [] then none
      else some (acc ++ (rows.filter (fun row => decide
          ((0 < board.cell row 0 ∧ board.cell row 0 < 100 ∧ board.cell row 0 = s) ∨
           (100 ≤ board.cell row 0 ∧ board.cell row 0 < 200 ∧
             board.cell row 0 = s + 100)))).map (fun row => (row, 0))) := by
  induction rows generalizing dp acc with
  | nil => simpa using hdp
  | cons r t ih =>
    rw [List.foldl_cons]
    have hget : (dp.find s).getD [] = acc := by
      rw [hdp]; by_cases ha : acc = [] <;> simp [ha]
    by_cases h1 : 0 < board.cell r 0 ∧ board.cell r 0 < 100
    · by_cases h2 : board.cell r 0 = s
      · have hc : (0 < board.cell r 0 ∧ board.cell r 0 < 100 ∧ board.cell r 0 = s) ∨
            (100 ≤ board.cell r 0 ∧ board.cell r 0 < 200 ∧ board.cell r 0 = s + 100) :=
          Or.inl ⟨h1.1, h1.2, h2⟩
        have := ih (dp.push (board.cell r 0) (r, 0)) (acc ++ [(r, 0)])
          (by rw [MatchPatterns.find_push, if_pos h2, h2, hget]; simp)
        simp only [h1, and_self, if_true]
        rw [this]
        simp [List.filter_cons, hc]
      · have hc : ¬ ((0 < board.cell r 0 ∧ board.cell r 0 < 100 ∧ board.cell r 0 = s) ∨
            (100 ≤ board.cell r 0 ∧ board.cell r 0 < 200 ∧ board.cell r 0 = s + 100)) := by
          omega
        have := ih (dp.push (board.cell r 0) (r, 0)) acc
          (by rw [MatchPatterns.find_push, if_neg h2, hdp])
        simp only [h1, and_self, if_true]
        rw [this]
        simp [List.filter_cons, hc]
    · by_cases h3 : 100 ≤ board.cell r 0 ∧ board.cell r 0 < 200
      · by_cases h2 : board.cell r 0 - 100 = s
        · have hc : (0 < board.cell r 0 ∧ board.cell r 0 < 100 ∧ board.cell r 0 = s) ∨
              (100 ≤ board.cell r 0 ∧ board.cell r 0 < 200 ∧ board.cell r 0 = s + 100) :=
            Or.inr ⟨h3.1, h3.2, by omega⟩
          have := ih (dp.push (board.cell r 0 - 100) (r, 0)) (acc ++ [(r, 0)])
            (by rw [MatchPatterns.find_push, if_pos h2, h2, hget]; simp)
          simp only [h1, h3, and_self, if_true, if_false]
          rw [this]
          simp [List.filter_cons, hc]
        · have hc : ¬ ((0 < board.cell r 0 ∧ board.cell r 0 < 100 ∧ board.cell r 0 = s) ∨
              (100 ≤ board.cell r 0 ∧ board.cell r 0 < 200 ∧ board.cell r 0 = s + 100)) := by
            omega
          have := ih (dp.push (board.cell r 0 - 100) (r, 0)) acc
            (by rw [MatchPatterns.find_push, if_neg h2, hdp])
          simp only [h1, h3, and_self, if_true, if_false]
          rw [this]
          simp [List.filter_cons, hc]
      · have hc : ¬ ((0 < board.cell r 0 ∧ board.cell r 0 < 100 ∧ board.cell r 0 = s) ∨
            (100 ≤ board.cell r 0 ∧ board.cell r 0 < 200 ∧ board.cell r 0 = s + 100)) := by
          omega
        have := ih dp acc hdp
        simp only [h1, h3, if_false]
        rw [this]
        simp [List.filter_cons, hc]

theorem SlotSS03.seed_column_find (board : Board) (s : Int) :
    (SlotSS03.seed_column board).find s =
      if SlotSS03.seed_positions board s = [] then none
      else some (SlotSS03.seed_positions board s) := by
  have h := SlotSS03.seed_fold board s (List.range 4) [] [] (by simp [MatchPatterns.find])
  simpa [SlotSS03.seed_column, SlotSS03.seed_positions, SlotSS03.column_height,
    SlotSS03.COLUMN_HEIGHTS] using h

theorem SlotSS03.seed_column_nodup (board : Board) : (SlotSS03.seed_column board).keys.Nodup := by
  unfold SlotSS03.seed_column
  apply foldl_keeps (fun dp : MatchPatterns => dp.keys.Nodup)
  · intro st a hst
    simp only
    split_ifs
    · exact MatchPatterns.keys_push_nodup _ _ _ hst
    · exact MatchPatterns.keys_push_nodup _ _ _ hst
    · exact hst
  · simp [MatchPatterns.keys]

theorem SlotSS03.current_positions_low_eq (board : Board) (col : Nat) (s : Int)
    (hcol : 1 ≤ col) :
    SlotSS03.current_positions_low board col s = SlotSS03.column_matches board col s := by
  unfold SlotSS03.current_positions_low SlotSS03.column_matches
  simp only
  rw [foldl_append_filter (fun row => board.cell row col = s ∨ board.cell row col - 100 = s ∨
    (board.cell row col = SlotSS03.WILD ∧ 1 ≤ col)) (fun row => (row, col))]
  simp only [List.nil_append]
  congr 1
  apply List.filter_congr
  intro row _
  simp only [SlotSS03.WILD, hcol, and_true, decide_eq_decide]
  omega

theorem SlotSS03.current_positions_high_eq (board : Board) (col : Nat) (s : Int) :
    SlotSS03.current_positions_high board col s = SlotSS03.column_matches board col s := by
  unfold SlotSS03.current_positions_high SlotSS03.column_matches
  simp only
  rw [foldl_append_filter (fun row => board.cell row col = s ∨ board.cell row col - 100 = s ∨
    board.cell row col = SlotSS03.WILD) (fun row => (row, col))]
  simp only [List.nil_append]
  congr 1
  apply List.filter_congr
  intro row _
  simp only [SlotSS03.WILD, decide_eq_decide]
  omega

/-- Columns 1 and 2: the chain of `s` survives exactly when the column continues it, and
the committed patterns and the flag are untouched. -/
theorem SlotSS03.process_column_low (board : Board) (st : MatchState) (col : Nat)
    (h1 : 1 ≤ col) (h2 : col ≤ 2) (hnd : st.dp.keys.Nodup) (s : Int) :
    (SlotSS03.process_column board st col).dp.find s =
      (match st.dp.find s with
       | some prev =>
         if SlotSS03.column_matches board col s = [] then none
         else some (prev ++ SlotSS03.column_matches board col s)
       | none => none) ∧
    (SlotSS03.process_column board st col).dp.keys.Nodup ∧
    (SlotSS03.process_column board st col).match_patterns = st.match_patterns ∧
    (SlotSS03.process_column board st col).has_match = st.has_match := by
  unfold SlotSS03.process_column
  rw [if_pos h2]
  refine ⟨?_, ?_, rfl, rfl⟩
  · simp only
    rw [foldl_keyed_view _ (fun nd : MatchPatterns => nd.find s) s
      (fun prev old => if SlotSS03.column_matches board col s = [] then old
        else some (prev ++ SlotSS03.column_matches board col s)) _ st.dp hnd []]
    · cases st.dp.find s <;> simp [MatchPatterns.find]
    · intro nd e
      simp only [SlotSS03.current_positions_low_eq board col _ h1]
      by_cases hk : e.1 = s
      · subst hk
        by_cases hc : SlotSS03.column_matches board col e.1 = []
        · simp [hc]
        · simp [hc, MatchPatterns.find_assign]
      · by_cases hc : SlotSS03.column_matches board col e.1 = []
        · simp [hc, hk]
        · simp [hc, hk, MatchPatterns.find_assign]
  · simp only
    apply foldl_keeps (fun nd : MatchPatterns => nd.keys.Nodup)
    · intro nd e hnd2
      split_ifs
      · exact MatchPatterns.keys_assign_nodup _ _ _ hnd2
      · exact hnd2
    · simp [MatchPatterns.keys]

/-- Columns 3 and 4: every live chain of length at least 3 is committed first, then the
chain survives exactly when the column continues it. -/
theorem SlotSS03.process_column_high (board : Board) (st : MatchState) (col : Nat)
    (h2 : 2 < col) (hnd : st.dp.keys.Nodup)
    (hflag : st.has_match = true ↔ st.match_patterns ≠ []) (s : Int) :
    (SlotSS03.process_column board st col).dp.find s =
      (match st.dp.find s with
       | some prev =>
         if SlotSS03.column_matches board col s = [] then none
         else some (prev ++ SlotSS03.column_matches board col s)
       | none => none) ∧
    (SlotSS03.process_column board st col).match_patterns.find s =
      (match st.dp.find s with
       | some prev => if 3 ≤ prev.length then some prev else st.match_patterns.find s
       | none => st.match_patterns.find s) ∧
    (SlotSS03.process_column board st col).dp.keys.Nodup ∧
    ((SlotSS03.process_column board st col).has_match = true ↔
      (SlotSS03.process_column board st col).match_patterns ≠ []) := by
  unfold SlotSS03.process_column
  rw [if_neg (by omega)]
  simp only [SlotSS03.current_positions_high_eq, SlotSS03.min_match_size]
  refine ⟨?_, ?_, ?_, ?_⟩
  · rw [foldl_keyed_view _ (fun a : MatchState => a.dp.find s) s
      (fun prev old => if SlotSS03.column_matches board col s = [] then old
        else some (prev ++ SlotSS03.column_matches board col s)) _ st.dp hnd]
    · cases st.dp.find s <;> simp [MatchPatterns.find]
    · intro a e
      by_cases hk : e.1 = s
      · subst hk
        by_cases hc : SlotSS03.column_matches board col e.1 = [] <;>
          by_cases hl : 3 ≤ e.2.length <;> simp [hc, hl, MatchPatterns.find_assign]
      · by_cases hc : SlotSS03.column_matches board col e.1 = [] <;>
          by_cases hl : 3 ≤ e.2.length <;> simp [hc, hl, hk, MatchPatterns.find_assign]
  · rw [foldl_keyed_view _ (fun a : MatchState => a.match_patterns.find s) s
      (fun prev old => if 3 ≤ prev.length then some prev else old) _ st.dp hnd]
    · intro a e
      by_cases hk : e.1 = s
      · subst hk
        by_cases hc : SlotSS03.column_matches board col e.1 = [] <;>
          by_cases hl : 3 ≤ e.2.length <;> simp [hc, hl, MatchPatterns.find_assign]
      · by_cases hc : SlotSS03.column_matches board col e.1 = [] <;>
          by_cases hl : 3 ≤ e.2.length <;> simp [hc, hl, hk, MatchPatterns.find_assign]
  · apply foldl_keeps (fun a : MatchState => a.dp.keys.Nodup)
    · intro a e ha
      by_cases hc : SlotSS03.column_matches board col e.1 = [] <;>
        by_cases hl : 3 ≤ e.2.length <;>
        simp [hc, hl, ha, MatchPatterns.keys_assign_nodup]
    · simp [MatchPatterns.keys]
  · apply foldl_keeps (fun a : MatchState => a.has_match = true ↔ a.match_patterns ≠ [])
    · intro a e ha
      by_cases hc : SlotSS03.column_matches board col e.1 = [] <;>
        by_cases hl : 3 ≤ e.2.length <;>
        simp [hc, hl, ha, MatchPatterns.assign_ne_nil]
    · exact hflag

/-- Final loop: every surviving chain of length at least 3 is committed over what was
committed before. -/
theorem SlotSS03.collect_remaining_spec (st : MatchState) (hnd : st.dp.keys.Nodup)
    (hflag : st.has_match = true ↔ st.match_patterns ≠ []) (s : Int) :
    (SlotSS03.collect_remaining st).1.find s =
      (match st.dp.find s with
       | some prev => if 3 ≤ prev.length then some prev else st.match_patterns.find s
       | none => st.match_patterns.find s) ∧
    ((SlotSS03.collect_remaining st).2 = true ↔ (SlotSS03.collect_remaining st).1 ≠ []) := by
  unfold SlotSS03.collect_remaining
  simp only [SlotSS03.min_match_size]
  refine ⟨?_, ?_⟩
  · rw [foldl_keyed_view _ (fun a : MatchPatterns × Bool => a.1.find s) s
      (fun prev old => if 3 ≤ prev.length then some prev else old) _ st.dp hnd]
    intro a e
    by_cases hk : e.1 = s
    · subst hk
      by_cases hl : 3 ≤ e.2.length <;> simp [hl, MatchPatterns.find_assign]
    · by_cases hl : 3 ≤ e.2.length <;> simp [hl, hk, MatchPatterns.find_assign]
  · apply foldl_keeps (fun a : MatchPatterns × Bool => a.2 = true ↔ a.1 ≠ [])
    · intro a e ha
      by_cases hl : 3 ≤ e.2.length <;> simp [hl, ha, MatchPatterns.assign_ne_nil]
    · exact hflag

/-- The matcher, read at one symbol: the returned map holds for `s` exactly the chain of
`s`, and the flag tells whether the map is non-empty. -/
theorem SlotSS03.find_matches_find (board : Board) :
    (∀ s : Int, (SlotSS03.find_matches board).1.find s = SlotSS03.chain board s) ∧
    ((SlotSS03.find_matches board).2 = true ↔ (SlotSS03.find_matches board).1 ≠ []) := by
  have hrange : List.range' 1 (SlotSS03.board_width - 1) = [1, 2, 3, 4] := by decide
  unfold SlotSS03.find_matches
  rw [hrange]
  simp only [List.foldl_cons, List.foldl_nil]
  generalize hst0 : MatchState.mk (SlotSS03.seed_column board) [] false = st0
  have hnd0 : st0.dp.keys.Nodup := by rw [← hst0]; exact SlotSS03.seed_column_nodup board
  have hm0 : st0.match_patterns = [] := by rw [← hst0]
  have hf0 : st0.has_match = false := by rw [← hst0]
  have hd0 : ∀ s, st0.dp.find s = if SlotSS03.seed_positions board s = [] then none
      else some (SlotSS03.seed_positions board s) := by
    intro s; rw [← hst0]; exact SlotSS03.seed_column_find board s
  have l1 := SlotSS03.process_column_low board st0 1 (by decide) (by decide) hnd0
  generalize SlotSS03.process_column board st0 1 = st1 at l1 ⊢
  have hnd1 := (l1 0).2.1
  have l2 := SlotSS03.process_column_low board st1 2 (by decide) (by decide) hnd1
  generalize SlotSS03.process_column board st1 2 = st2 at l2 ⊢
  have hnd2 := (l2 0).2.1
  have hflag2 : st2.has_match = true ↔ st2.match_patterns ≠ [] := by
    rw [(l2 0).2.2.2, (l2 0).2.2.1, (l1 0).2.2.2, (l1 0).2.2.1, hm0, hf0]; simp
  have l3 := SlotSS03.process_column_high board st2 3 (by decide) hnd2 hflag2
  generalize SlotSS03.process_column board st2 3 = st3 at l3 ⊢
  have hnd3 := (l3 0).2.2.1
  have hflag3 := (l3 0).2.2.2
  have l4 := SlotSS03.process_column_high board st3 4 (by decide) hnd3 hflag3
  generalize SlotSS03.process_column board st3 4 = st4 at l4 ⊢
  have hnd4 := (l4 0).2.2.1
  have hflag4 := (l4 0).2.2.2
  refine ⟨?_, (SlotSS03.collect_remaining_spec st4 hnd4 hflag4 0).2⟩
  intro s
  rw [(SlotSS03.collect_remaining_spec st4 hnd4 hflag4 s).1, (l4 s).1, (l4 s).2.1, (l3 s).1,
    (l3 s).2.1, (l2 s).1, (l2 s).2.2.1, (l1 s).1, (l1 s).2.2.1, hm0, hd0 s]
  unfold SlotSS03.chain
  by_cases c0 : SlotSS03.seed_positions board s = []
  · simp [c0, MatchPatterns.find]
  · by_cases c1 : SlotSS03.column_matches board 1 s = []
    · simp [c0, c1, MatchPatterns.find]
    · by_cases c2 : SlotSS03.column_matches board 2 s = []
      · simp [c0, c1, c2, MatchPatterns.find]
      · have p0 := List.length_pos.mpr c0
        have p1 := List.length_pos.mpr c1
        have p2 := List.length_pos.mpr c2
        have hlen : 3 ≤ (SlotSS03.seed_positions board s).length +
            ((SlotSS03.column_matches board 1 s).length +
              (SlotSS03.column_matches board 2 s).length) := by omega
        by_cases c3 : SlotSS03.column_matches board 3 s = []
        · simp [c0, c1, c2, c3, MatchPatterns.find, hlen]
        · have hlen3 : 3 ≤ (SlotSS03.seed_positions board s).length +
              ((SlotSS03.column_matches board 1 s).length +
                ((SlotSS03.column_matches board 2 s).length +
                  (SlotSS03.column_matches board 3 s).length)) := by omega
          by_cases c4 : SlotSS03.column_matches board 4 s = []
          · simp [c0, c1, c2, c3, c4, MatchPatterns.find, hlen, hlen3]
          · have hlen4 : 3 ≤ (SlotSS03.seed_positions board s).length +
                ((SlotSS03.column_matches board 1 s).length +
                  ((SlotSS03.column_matches board 2 s).length +
                    ((SlotSS03.column_matches board 3 s).length +
                      (SlotSS03.column_matches board 4 s).length))) := by omega
            simp [c0, c1, c2, c3, c4, MatchPatterns.find, hlen, hlen3, hlen4]

theorem SlotSS03.seed_positions_ne_nil (board : Board) (s : Int) :
    SlotSS03.seed_positions board s ≠ [] ↔
      ∃ row, row < 4 ∧
        ((0 < board.cell row 0 ∧ board.cell row 0 < 100 ∧ board.cell row 0 = s) ∨
         (100 ≤ board.cell row 0 ∧ board.cell row 0 < 200 ∧ board.cell row 0 = s + 100)) := by
  unfold SlotSS03.seed_positions
  rw [Ne, List.map_eq_nil_iff, List.filter_eq_nil_iff]
  simp only [List.mem_range, decide_eq_true_eq, not_forall, not_not, exists_prop]

theorem SlotSS03.column_matches_ne_nil (board : Board) (col : Nat) (s : Int) :
    SlotSS03.column_matches board col s ≠ [] ↔
      ∃ row, row < SlotSS03.column_height col ∧
        (board.cell row col = s ∨ board.cell row col = s + 100 ∨ board.cell row col = 202) := by
  unfold SlotSS03.column_matches
  rw [Ne, List.map_eq_nil_iff, List.filter_eq_nil_iff]
  simp only [List.mem_range, decide_eq_true_eq, not_forall, not_not, exists_prop]

theorem SlotSS03.chain_ne_none (board : Board) (s : Int) :
    SlotSS03.chain board s ≠ none ↔
      (SlotSS03.seed_positions board s ≠ [] ∧ SlotSS03.column_matches board 1 s ≠ [] ∧
        SlotSS03.column_matches board 2 s ≠ []) := by
  unfold SlotSS03.chain
  by_cases c0 : SlotSS03.seed_positions board s = []
  · simp [c0]
  · by_cases c1 : SlotSS03.column_matches board 1 s = []
    · simp [c0, c1]
    · by_cases c2 : SlotSS03.column_matches board 2 s = []
      · simp [c0, c1, c2]
      · by_cases c3 : SlotSS03.column_matches board 3 s = []
        · simp [c0, c1, c2, c3]
        · by_cases c4 : SlotSS03.column_matches board 4 s = [] <;> simp [c0, c1, c2, c3, c4]

/-- C6: Variant B matcher.  A symbol `s` is a key of the returned patterns exactly when a
chain for `s` is seeded in column 0 (a plain `s` under the guard `0 < s < 100`, or the
golden `s + 100`, in rows `0..3`) and each of columns 1 and 2 holds, within its height, a
cell equal to `s`, `s + 100` or `WILD`; columns 3 and 4 play no part.  The flag
`has_match` is true exactly when the map is non-empty. -/
theorem ss03_find_matches_keys (board : Board) :
    (∀ s : Int, s ∈ (SlotSS03.find_matches board).1.keys ↔
      ((∃ row, row < 4 ∧
          ((0 < board.cell row 0 ∧ board.cell row 0 < 100 ∧ board.cell row 0 = s) ∨
           (100 ≤ board.cell row 0 ∧ board.cell row 0 < 200 ∧
             board.cell row 0 = s + 100))) ∧
       (∃ row, row < 5 ∧
          (board.cell row 1 = s ∨ board.cell row 1 = s + 100 ∨ board.cell row 1 = 202)) ∧
       (∃ row, row < 5 ∧
          (board.cell row 2 = s ∨ board.cell row 2 = s + 100 ∨ board.cell row 2 = 202)))) ∧
    ((SlotSS03.find_matches board).2 = true ↔ (SlotSS03.find_matches board).1 ≠ []) := by
  refine ⟨?_, (SlotSS03.find_matches_find board).2⟩
  intro s
  rw [MatchPatterns.mem_keys_iff, (SlotSS03.find_matches_find board).1 s,
    SlotSS03.chain_ne_none, SlotSS03.seed_positions_ne_nil, SlotSS03.column_matches_ne_nil,
    SlotSS03.column_matches_ne_nil]
  have h1 : SlotSS03.column_height 1 = 5 := by decide
  have h2 : SlotSS03.column_height 2 = 5 := by decide
  rw [h1, h2]

/-- C7 (code evaluated at the failing input): on `zero_mixed_board` column 0 holds a plain
`0` at `(0, 0)` and the golden `100` at `(1, 0)`; the pattern reported for symbol `0`
starts at `(1, 0)` and leaves out the matching cell `(0, 0)`. -/
theorem ss03_pattern_leaves_out_plain_zero :
    zero_mixed_board.cell 0 0 = 0 ∧ zero_mixed_board.cell 1 0 = 0 + 100 ∧
    (SlotSS03.find_matches zero_mixed_board).1.find 0 = some [(1, 0), (0, 1), (0, 2)] ∧
    (0, 0) ∉ ((SlotSS03.find_matches zero_mixed_board).1.find 0).getD [] := by
  decide

/-- C8 (code evaluated at the failing input): on `zero_row_board` the base symbol `0` of
the configured alphabet occurs in column 0 and in columns 1 and 2, yet no chain is seeded
for it and the matcher reports nothing. -/
theorem ss03_plain_zero_not_seeded :
    (0 : Int) ∈ SlotSS03.symbols ∧
    zero_row_board.cell 0 0 = 0 ∧ zero_row_board.cell 0 1 = 0 ∧ zero_row_board.cell 0 2 = 0 ∧
    (SlotSS03.seed_column zero_row_board).find 0 = none ∧
    SlotSS03.find_matches zero_row_board = ([], false) := by
  decide

/-- C9 (code evaluated at the failing input): on `zero_inner_board` the in-profile cell
`(1, 0)` holds the base symbol `0`; replacing it by the golden encoding `100` changes the
result of the matcher from no match to a pattern for `0`. -/
theorem ss03_golden_zero_differs :
    zero_inner_board.cell 1 0 = 0 ∧ 1 < SlotSS03.column_height 0 ∧
    SlotSS03.find_matches zero_inner_board = ([], false) ∧
    SlotSS03.find_matches (zero_inner_board.put 1 0 100) =
      ([(0, [(1, 0), (0, 1), (0, 2)])], true) := by
  decide

/-! ## Variant B scorer -/

theorem SlotSS03.column_counts_fold (positions : MatchPattern) (cc : List Nat)
    (hcc : cc.length = 5) (hpos : ∀ p ∈ positions, p.2 < 5) (c : Nat) (hc : c < 5) :
    ((positions.foldl (fun cc pos => cc.set pos.2 (cc.getD pos.2 0 + 1)) cc).getD c 0
        = cc.getD c 0 + SlotSS03.column_count positions c) ∧
    (positions.foldl (fun cc pos => cc.set pos.2 (cc.getD pos.2 0 + 1)) cc).length = 5 := by
  induction positions generalizing cc with
  | nil => simp [SlotSS03.column_count, hcc]
  | cons p t ih =>
    rw [List.foldl_cons]
    have hp : p.2 < 5 := hpos p (List.mem_cons_self _ _)
    have ht : ∀ q ∈ t, q.2 < 5 := fun q hq => hpos q (List.mem_cons_of_mem _ hq)
    have hlen : (cc.set p.2 (cc.getD p.2 0 + 1)).length = 5 := by rw [List.length_set, hcc]
    obtain ⟨h1, h2⟩ := ih (cc.set p.2 (cc.getD p.2 0 + 1)) hlen ht
    refine ⟨?_, h2⟩
    rw [h1]
    simp only [SlotSS03.column_count, List.filter_cons, List.getD_eq_getElem?_getD,
      List.getElem?_set]
    by_cases hpc : p.2 = c
    · subst hpc
      simp [hcc, hp]
      omega
    · simp [hpc]

theorem SlotSS03.column_counts_getD (positions : MatchPattern) (hpos : ∀ p ∈ positions, p.2 < 5)
    (c : Nat) (hc : c < 5) :
    (SlotSS03.column_counts positions).getD c 0 = SlotSS03.column_count positions c := by
  unfold SlotSS03.column_counts
  rw [(SlotSS03.column_counts_fold positions [0, 0, 0, 0, 0] rfl hpos c hc).1]
  have : ([0, 0, 0, 0, 0] : List Nat).getD c 0 = 0 := by
    interval_cases c <;> rfl
  rw [this, Nat.zero_add]

theorem SlotSS03.consecutive_fold (p : Nat → Bool) (cols : List Nat) (k : Nat) :
    (cols.foldl
        (fun (acc : Nat × Bool) col =>
          if acc.2 then (if p col then (acc.1 + 1, true) else (acc.1, false)) else acc)
        (k, true)).1 = k + (cols.takeWhile p).length ∧
    ∀ k2, (cols.foldl
        (fun (acc : Nat × Bool) col =>
          if acc.2 then (if p col then (acc.1 + 1, true) else (acc.1, false)) else acc)
        (k2, false)).1 = k2 := by
  induction cols generalizing k with
  | nil => simp
  | cons c t ih =>
    have hstop : ∀ k2, (t.foldl
        (fun (acc : Nat × Bool) col =>
          if acc.2 then (if p col then (acc.1 + 1, true) else (acc.1, false)) else acc)
        (k2, false)).1 = k2 := (ih 0).2
    refine ⟨?_, ?_⟩
    · rw [List.foldl_cons]
      by_cases hp : p c = true
      · simp only [hp, if_true]
        rw [(ih (k + 1)).1, List.takeWhile_cons, hp]
        simp only [if_true, List.length_cons]
        omega
      · simp only [hp, Bool.false_eq_true, if_true, if_false]
        rw [hstop k, List.takeWhile_cons]
        simp [hp]
    · intro k2
      rw [List.foldl_cons]
      simpa using hstop k2

theorem takeWhile_congr_mem {α : Type} (p q : α → Bool) (l : List α)
    (h : ∀ a ∈ l, p a = q a) : l.takeWhile p = l.takeWhile q := by
  induction l with
  | nil => rfl
  | cons a t ih =>
    rw [List.takeWhile_cons, List.takeWhile_cons, h a (List.mem_cons_self _ _),
      ih (fun b hb => h b (List.mem_cons_of_mem _ hb))]

theorem SlotSS03.consecutive_columns_eq (positions : MatchPattern)
    (hpos : ∀ p ∈ positions, p.2 < 5) :
    SlotSS03.consecutive_columns (SlotSS03.column_counts positions)
      = SlotSS03.run_length positions := by
  unfold SlotSS03.consecutive_columns SlotSS03.run_length
  have h := (SlotSS03.consecutive_fold
    (fun col => decide (0 < (SlotSS03.column_counts positions).getD col 0)) (List.range 5) 0).1
  simp only [decide_eq_true_eq] at h
  rw [h, Nat.zero_add]
  congr 1
  apply takeWhile_congr_mem
  intro c hc
  rw [SlotSS03.column_counts_getD positions hpos c (List.mem_range.mp hc)]

theorem takeWhile_range_length (p : Nat → Bool) (n a : Nat) :
    ((List.range' a n).takeWhile p).length ≤ n ∧
    (∀ i, i < ((List.range' a n).takeWhile p).length → p (a + i) = true) ∧
    (((List.range' a n).takeWhile p).length < n →
      p (a + ((List.range' a n).takeWhile p).length) = false) := by
  induction n generalizing a with
  | zero => simp
  | succ n ih =>
    rw [List.range'_succ, List.takeWhile_cons]
    obtain ⟨h1, h2, h3⟩ := ih (a + 1)
    by_cases hp : p a = true
    · simp only [hp, if_true, List.length_cons]
      refine ⟨by omega, ?_, ?_⟩
      · intro i hi
        cases i with
        | zero => simpa using hp
        | succ i =>
          have := h2 i (by omega)
          rwa [show a + 1 + i = a + (i + 1) by omega] at this
      · intro hlt
        have := h3 (by omega)
        rwa [show a + 1 + ((List.range' (a + 1) n).takeWhile p).length
          = a + (((List.range' (a + 1) n).takeWhile p).length + 1) by omega] at this
    · simp only [hp, Bool.false_eq_true, if_false, List.length_nil]
      refine ⟨by omega, ?_, ?_⟩
      · intro i hi; omega
      · intro _; simpa using hp

/-- The run length is the only `k ≤ 5` with a positive count in every column before `k`
and, when `k < 5`, no position in column `k`. -/
theorem SlotSS03.run_length_unique (positions : MatchPattern) (k : Nat) :
    SlotSS03.run_length positions = k ↔
      (k ≤ 5 ∧ (∀ c, c < k → 0 < SlotSS03.column_count positions c) ∧
        (k < 5 → SlotSS03.column_count positions k = 0)) := by
  have h := takeWhile_range_length
    (fun c => decide (0 < SlotSS03.column_count positions c)) 5 0
  rw [← List.range_eq_range'] at h
  simp only [Nat.zero_add, decide_eq_true_eq, decide_eq_false_iff_not, Nat.not_lt,
    Nat.le_zero] at h
  obtain ⟨h1', h2', h3'⟩ := h
  have h1 : SlotSS03.run_length positions ≤ 5 := h1'
  have h2 : ∀ i, i < SlotSS03.run_length positions →
      0 < SlotSS03.column_count positions i := h2'
  have h3 : SlotSS03.run_length positions < 5 →
      SlotSS03.column_count positions (SlotSS03.run_length positions) = 0 := h3'
  clear h1' h2' h3'
  constructor
  · intro hk; subst hk; exact ⟨h1, h2, h3⟩
  · rintro ⟨k1, k2, k3⟩
    rcases Nat.lt_trichotomy (SlotSS03.run_length positions) k with hlt | heq | hgt
    · have := k2 _ hlt
      have := h3 (by omega)
      omega
    · exact heq
    · have := h2 _ hgt
      have := k3 (by omega)
      omega

theorem SlotSS03.ways_eq (cc : List Nat) (k : Nat) :
    SlotSS03.ways cc k = ((List.range k).map (fun col => cc.getD col 0)).prod := by
  unfold SlotSS03.ways
  have : ∀ (l : List Nat) (init : Nat),
      l.foldl (fun w col => w * cc.getD col 0) init
        = init * (l.map (fun col => cc.getD col 0)).prod := by
    intro l
    induction l with
    | nil => intro init; simp
    | cons a t ih => intro init; rw [List.foldl_cons, ih]; simp [Nat.mul_assoc]
  rw [this, Nat.one_mul]

theorem foldl_add_eq_sum {α : Type} (f : α → Int) (l : List α) (init : Int) :
    l.foldl (fun total a => total + f a) init = init + (l.map f).sum := by
  induction l generalizing init with
  | nil => simp
  | cons a t ih => rw [List.foldl_cons, ih]; simp [add_assoc]

/-- One iteration of the scoring loop adds the contribution of its entry. -/
theorem SlotSS03.get_score_body (s : Int) (positions : MatchPattern)
    (hpos : ∀ p ∈ positions, p.2 < 5) (total_score : Int) :
    (if positions = [] then total_score
      else
        let cc := SlotSS03.column_counts positions
        let consecutive := SlotSS03.consecutive_columns cc
        if consecutive < 3 then total_score
        else
          let payout : Int :=
            match SlotSS03.pay_table.lookup s consecutive with
            | some pay => pay
            | none => 0
          total_score + payout * (SlotSS03.ways cc consecutive : Nat))
      = total_score + SlotSS03.symbol_score s positions := by
  unfold SlotSS03.symbol_score
  by_cases hnil : positions = []
  · subst hnil
    have : SlotSS03.run_length [] = 0 := by decide
    simp [this]
  · rw [if_neg hnil]
    simp only [SlotSS03.consecutive_columns_eq positions hpos]
    by_cases hk : SlotSS03.run_length positions < 3
    · rw [if_pos hk, if_neg (by omega)]; simp
    · rw [if_neg hk, if_pos (by omega)]
      have hle : SlotSS03.run_length positions ≤ 5 :=
        ((SlotSS03.run_length_unique positions _).mp rfl).1
      have hways : SlotSS03.ways (SlotSS03.column_counts positions)
          (SlotSS03.run_length positions)
          = ((List.range (SlotSS03.run_length positions)).map
              (SlotSS03.column_count positions)).prod := by
        rw [SlotSS03.ways_eq]
        congr 1
        apply List.map_congr_left
        intro c hc
        exact SlotSS03.column_counts_getD positions hpos c
          (by have := List.mem_range.mp hc; omega)
      rw [hways]
      unfold SlotSS03.pay
      cases SlotSS03.pay_table.lookup s (SlotSS03.run_length positions) <;> simp

theorem SlotSS03.column_count_append (p q : MatchPattern) (c : Nat) :
    SlotSS03.column_count (p ++ q) c
      = SlotSS03.column_count p c + SlotSS03.column_count q c := by
  simp [SlotSS03.column_count]

theorem SlotSS03.column_count_eq_zero (q : MatchPattern) (c : Nat)
    (h : ∀ p ∈ q, p.2 ≠ c) : SlotSS03.column_count q c = 0 := by
  unfold SlotSS03.column_count
  rw [List.length_eq_zero, List.filter_eq_nil_iff]
  intro p hp
  simpa using h p hp

/-- In exact arithmetic the Variant B score of a patterns map with columns in `0..4` is the
sum of the contributions `SlotSS03.symbol_score`; positions in columns after the first
empty column leave a contribution unchanged. -/
theorem ss03_score_formula_exact (patterns : MatchPatterns)
    (hcols : ∀ e ∈ patterns, ∀ p ∈ e.2, p.2 < 5) :
    SlotSS03.get_score patterns
      = (patterns.map (fun e => SlotSS03.symbol_score e.1 e.2)).sum ∧
    (∀ (s : Int) (positions extra : MatchPattern),
      (∀ p ∈ extra, SlotSS03.run_length positions < p.2) →
        SlotSS03.symbol_score s (positions ++ extra) = SlotSS03.symbol_score s positions) := by
  constructor
  · unfold SlotSS03.get_score
    rw [List.foldl_ext _ (fun total e => total + SlotSS03.symbol_score e.1 e.2)]
    · rw [foldl_add_eq_sum, zero_add]
    · intro total e he
      exact SlotSS03.get_score_body e.1 e.2 (hcols e he) total
  · intro s positions extra hextra
    obtain ⟨k1, k2, k3⟩ := (SlotSS03.run_length_unique positions _).mp rfl
    have hsame : ∀ c, c ≤ SlotSS03.run_length positions →
        SlotSS03.column_count (positions ++ extra) c = SlotSS03.column_count positions c := by
      intro c hc
      rw [SlotSS03.column_count_append, SlotSS03.column_count_eq_zero extra c, Nat.add_zero]
      intro p hp
      have := hextra p hp
      omega
    have hrun : SlotSS03.run_length (positions ++ extra) = SlotSS03.run_length positions := by
      rw [SlotSS03.run_length_unique]
      refine ⟨k1, ?_, ?_⟩
      · intro c hc; rw [hsame c (by omega)]; exact k2 c hc
      · intro hlt; rw [hsame _ (le_refl _)]; exact k3 hlt
    unfold SlotSS03.symbol_score
    rw [hrun]
    have hprod : (List.range (SlotSS03.run_length positions)).map
        (SlotSS03.column_count (positions ++ extra))
        = (List.range (SlotSS03.run_length positions)).map
            (SlotSS03.column_count positions) := by
      apply List.map_congr_left
      intro c hc
      exact hsame c (by have := List.mem_range.mp hc; omega)
    rw [hprod]

/-! ## Variant B matcher: what holds around the column-0 guard -/

/-- Reading a board after one write. -/
theorem Board.cell_put (b : Board) (r c : Nat) (v : Int) (r2 c2 : Nat) :
    (b.put r c v).cell r2 c2 =
      if r2 = r ∧ c2 = c ∧ r < b.length ∧ c < (b.getD r []).length then v
      else b.cell r2 c2 := by
  unfold Board.cell Board.put
  simp only [List.getD_eq_getElem?_getD, List.getElem?_set]
  by_cases hr : r = r2
  · subst hr
    by_cases hlen : r < b.length
    · simp only [hlen, if_true, Option.getD_some, List.getElem?_set, true_and]
      by_cases hc : c = c2
      · subst hc
        by_cases hcl : c < (b[r]?.getD []).length
        · simp [hcl]
        · have : (b[r]?.getD [])[c]? = none := by
            rw [List.getElem?_eq_none_iff]; omega
          simp [hcl, this]
      · have hc2 : ¬ c2 = c := fun e => hc e.symm
        simp [hc, hc2]
    · have hnone : b[r]? = none := List.getElem?_eq_none_iff.mpr (by omega)
      simp [hlen, hnone]
  · have hr2 : ¬ r2 = r := fun e => hr e.symm
    simp [hr, hr2]

/-- For a symbol in `1..99` the column-0 guard admits exactly the cells holding the symbol
or its golden encoding. -/
theorem SlotSS03.seed_positions_of_pos (board : Board) (s : Int) (h1 : 1 ≤ s) (h2 : s < 100) :
    SlotSS03.seed_positions board s =
      ((List.range 4).filter (fun row => decide
        (board.cell row 0 = s ∨ board.cell row 0 = s + 100))).map (fun row => (row, 0)) := by
  unfold SlotSS03.seed_positions
  congr 1
  apply List.filter_congr
  intro row _
  simp only [decide_eq_decide]
  omega

/-- Only symbols in `0..99` are ever seeded. -/
theorem SlotSS03.seed_positions_range (board : Board) (s : Int)
    (h : SlotSS03.seed_positions board s ≠ []) : 0 ≤ s ∧ s < 100 := by
  rw [SlotSS03.seed_positions_ne_nil] at h
  obtain ⟨row, _, hrow⟩ := h
  omega

/-- For every reported symbol `s ≥ 1` the pattern is the list of all cells of columns
`0..k-1` that hold `s`, `s + 100` or (from column 1 on) `WILD`, column by column and top to
bottom, where `k` in `3..5` is the first column that does not continue the chain; the chain
committed at an earlier column is an initial segment of it. -/
theorem SlotSS03.pattern_of_positive_symbol (board : Board) (s : Int) (hs : 1 ≤ s)
    (pattern : MatchPattern) (h : (SlotSS03.find_matches board).1.find s = some pattern) :
    ∃ k, 3 ≤ k ∧ k ≤ 5 ∧
      (k < 5 → SlotSS03.column_matches board k s = []) ∧
      pattern =
        ((List.range 4).filter (fun row => decide
          (board.cell row 0 = s ∨ board.cell row 0 = s + 100))).map (fun row => (row, 0)) ++
        (List.range' 1 (k - 1)).flatMap (fun col => SlotSS03.column_matches board col s) ∧
      (((List.range 4).filter (fun row => decide
          (board.cell row 0 = s ∨ board.cell row 0 = s + 100))).map (fun row => (row, 0)) ++
        SlotSS03.column_matches board 1 s ++ SlotSS03.column_matches board 2 s) <+: pattern := by
  rw [(SlotSS03.find_matches_find board).1 s] at h
  have hne : SlotSS03.chain board s ≠ none := by rw [h]; simp
  obtain ⟨c0, c1, c2⟩ := (SlotSS03.chain_ne_none board s).mp hne
  have hlt := (SlotSS03.seed_positions_range board s c0).2
  rw [← SlotSS03.seed_positions_of_pos board s hs hlt]
  unfold SlotSS03.chain at h
  by_cases c3 : SlotSS03.column_matches board 3 s = []
  · refine ⟨3, by omega, by omega, fun _ => c3, ?_, ?_⟩
    · simp [c0, c1, c2, c3] at h
      rw [← h]; simp [List.range']
    · simp [c0, c1, c2, c3] at h
      rw [← h]
      exact ⟨[], by simp⟩
  · by_cases c4 : SlotSS03.column_matches board 4 s = []
    · refine ⟨4, by omega, by omega, fun _ => c4, ?_, ?_⟩
      · simp [c0, c1, c2, c3, c4] at h
        rw [← h]; simp [List.range']
      · simp [c0, c1, c2, c3, c4] at h
        rw [← h]
        exact ⟨SlotSS03.column_matches board 3 s, by simp⟩
    · refine ⟨5, by omega, by omega, fun hk => absurd hk (by omega), ?_, ?_⟩
      · simp [c0, c1, c2, c3, c4] at h
        rw [← h]; simp [List.range']
      · simp [c0, c1, c2, c3, c4] at h
        rw [← h]
        exact ⟨SlotSS03.column_matches board 3 s ++ SlotSS03.column_matches board 4 s,
          by simp⟩

theorem MatchPatterns.ne_nil_iff (m : MatchPatterns) : m ≠ [] ↔ ∃ t, m.find t ≠ none := by
  constructor
  · intro hne
    obtain ⟨e, t, he⟩ := List.exists_cons_of_ne_nil hne
    refine ⟨e.1, (MatchPatterns.mem_keys_iff m e.1).mp ?_⟩
    rw [he]; simp [MatchPatterns.keys]
  · rintro ⟨t, ht⟩ hnil
    rw [hnil] at ht
    exact ht rfl

/-- Outside column 0, and in column 0 for the symbols `1..8`, a golden tile matches as its
base symbol: replacing a cell that holds `s` by `s + 100` changes neither the patterns nor
the flag. -/
theorem SlotSS03.golden_as_base (board : Board) (r c : Nat) (s : Int) (hs0 : 0 ≤ s)
    (hs8 : s ≤ 8) (hcell : board.cell r c = s) (hok : 1 ≤ s ∨ 1 ≤ c) :
    (∀ t, (SlotSS03.find_matches (board.put r c (s + 100))).1.find t =
      (SlotSS03.find_matches board).1.find t) ∧
    (SlotSS03.find_matches (board.put r c (s + 100))).2 = (SlotSS03.find_matches board).2 := by
  have hseed : ∀ t, SlotSS03.seed_positions (board.put r c (s + 100)) t
      = SlotSS03.seed_positions board t := by
    intro t
    unfold SlotSS03.seed_positions
    congr 1
    apply List.filter_congr
    intro row _
    rw [Board.cell_put]
    by_cases hhit : row = r ∧ 0 = c ∧ r < board.length ∧ c < (board.getD r []).length
    · rw [if_pos hhit]
      obtain ⟨h1, h2, _, _⟩ := hhit
      subst h1; subst h2
      simp only [decide_eq_decide]
      omega
    · rw [if_neg hhit]
  have hcol : ∀ col t, 1 ≤ col → 0 ≤ t → t < 100 →
      SlotSS03.column_matches (board.put r c (s + 100)) col t
        = SlotSS03.column_matches board col t := by
    intro col t _ ht0 ht1
    unfold SlotSS03.column_matches
    congr 1
    apply List.filter_congr
    intro row _
    rw [Board.cell_put]
    by_cases hhit : row = r ∧ col = c ∧ r < board.length ∧ c < (board.getD r []).length
    · rw [if_pos hhit]
      obtain ⟨h1, h2, _, _⟩ := hhit
      subst h1; subst h2
      simp only [decide_eq_decide]
      omega
    · rw [if_neg hhit]
  have hchain : ∀ t, SlotSS03.chain (board.put r c (s + 100)) t = SlotSS03.chain board t := by
    intro t
    by_cases hrange : 0 ≤ t ∧ t < 100
    · unfold SlotSS03.chain
      rw [hseed, hcol 1 t (by omega) hrange.1 hrange.2, hcol 2 t (by omega) hrange.1 hrange.2,
        hcol 3 t (by omega) hrange.1 hrange.2, hcol 4 t (by omega) hrange.1 hrange.2]
    · have hnil : SlotSS03.seed_positions board t = [] := by
        by_contra hne
        exact hrange (SlotSS03.seed_positions_range board t hne)
      unfold SlotSS03.chain
      rw [hseed, hnil]
      simp
  have hfind : ∀ t, (SlotSS03.find_matches (board.put r c (s + 100))).1.find t =
      (SlotSS03.find_matches board).1.find t := by
    intro t
    rw [(SlotSS03.find_matches_find _).1 t, (SlotSS03.find_matches_find _).1 t, hchain]
  refine ⟨hfind, ?_⟩
  rw [Bool.eq_iff_iff, (SlotSS03.find_matches_find _).2, (SlotSS03.find_matches_find _).2,
    MatchPatterns.ne_nil_iff, MatchPatterns.ne_nil_iff]
  simp only [hfind]

/-! ## Scoring boundaries and the free-game multiplier -/

/-- The Variant B score of a map is the sum of the contributions of its entries. -/
theorem SlotSS03.get_score_eq_sum (patterns : MatchPatterns)
    (hcols : ∀ e ∈ patterns, ∀ p ∈ e.2, p.2 < 5) :
    SlotSS03.get_score patterns
      = (patterns.map (fun e => SlotSS03.symbol_score e.1 e.2)).sum := by
  unfold SlotSS03.get_score
  rw [List.foldl_ext _ (fun total e => total + SlotSS03.symbol_score e.1 e.2)]
  · rw [foldl_add_eq_sum, zero_add]
  · intro total e he
    exact SlotSS03.get_score_body e.1 e.2 (hcols e he) total

/-- A pattern with an empty column among columns 0, 1 and 2 has run length below 3 and
contributes nothing. -/
theorem SlotSS03.symbol_score_gap (s : Int) (positions : MatchPattern) (c : Nat) (hc : c < 3)
    (hgap : ∀ p ∈ positions, p.2 ≠ c) : SlotSS03.symbol_score s positions = 0 := by
  unfold SlotSS03.symbol_score
  obtain ⟨_, k2, _⟩ := (SlotSS03.run_length_unique positions _).mp rfl
  have hzero := SlotSS03.column_count_eq_zero positions c hgap
  have hlt : ¬ 3 ≤ SlotSS03.run_length positions := by
    intro h3
    have := k2 c (by omega)
    omega
  rw [if_neg hlt]

/-- C11: ways-to-win boundary.  A pattern whose positions all lie in columns 0 and 1
scores 0 however many positions it has; more generally an entry whose positions (columns
`0..4`) leave one of the columns 0, 1, 2 empty scores 0 alone and adds nothing to the score
of any map that holds it. -/
theorem ss03_ways_boundary (s : Int) (positions : MatchPattern) (pre post : MatchPatterns)
    (c : Nat) (hc : c < 3) (hgap : ∀ p ∈ positions, p.2 ≠ c)
    (hcols : ∀ p ∈ positions, p.2 < 5)
    (hpre : ∀ e ∈ pre, ∀ p ∈ e.2, p.2 < 5) (hpost : ∀ e ∈ post, ∀ p ∈ e.2, p.2 < 5) :
    (∀ (t : Int) (low : MatchPattern), (∀ p ∈ low, p.2 < 2) →
      SlotSS03.get_score [(t, low)] = 0) ∧
    SlotSS03.get_score [(s, positions)] = 0 ∧
    SlotSS03.get_score (pre ++ (s, positions) :: post) = SlotSS03.get_score (pre ++ post) := by
  refine ⟨?_, ?_, ?_⟩
  · intro t low hlow
    rw [SlotSS03.get_score_eq_sum]
    · simp only [List.map_cons, List.map_nil, List.sum_cons, List.sum_nil, add_zero]
      exact SlotSS03.symbol_score_gap t low 2 (by omega)
        (fun p hp => by have := hlow p hp; omega)
    · intro e he p hp
      simp only [List.mem_singleton] at he
      subst he
      have := hlow p hp
      omega
  · rw [SlotSS03.get_score_eq_sum]
    · simp only [List.map_cons, List.map_nil, List.sum_cons, List.sum_nil, add_zero]
      exact SlotSS03.symbol_score_gap s positions c hc hgap
    · intro e he p hp
      simp only [List.mem_singleton] at he
      subst he
      exact hcols p hp
  · rw [SlotSS03.get_score_eq_sum, SlotSS03.get_score_eq_sum]
    · simp only [List.map_append, List.map_cons, List.sum_append, List.sum_cons]
      rw [SlotSS03.symbol_score_gap s positions c hc hgap, zero_add]
    · intro e he p hp
      rcases List.mem_append.mp he with h | h
      · exact hpre e h p hp
      · exact hpost e h p hp
    · intro e he p hp
      rcases List.mem_append.mp he with h | h
      · exact hpre e h p hp
      · rcases List.mem_cons.mp h with h | h
        · subst h; exact hcols p hp
        · exact hpost e h p hp

/-- The boundary on a pattern with five positions in columns 0 and 1, beside the sample
patterns. -/
theorem ss03_ways_boundary_witness :
    (2 < 3) ∧ (∀ p ∈ [(0, 0), (1, 0), (2, 0), (0, 1), (1, 1)], p.2 ≠ 2) ∧
    (∀ p ∈ [(0, 0), (1, 0), (2, 0), (0, 1), (1, 1)], p.2 < 5) ∧
    (∀ e ∈ sample_patterns, ∀ p ∈ e.2, p.2 < 5) ∧
    (∀ e ∈ ([] : MatchPatterns), ∀ p ∈ e.2, p.2 < 5) ∧
    ((∀ (t : Int) (low : MatchPattern), (∀ p ∈ low, p.2 < 2) →
      SlotSS03.get_score [(t, low)] = 0) ∧
    SlotSS03.get_score [(5, [(0, 0), (1, 0), (2, 0), (0, 1), (1, 1)])] = 0 ∧
    SlotSS03.get_score
        (sample_patterns ++ (5, [(0, 0), (1, 0), (2, 0), (0, 1), (1, 1)]) :: []) =
      SlotSS03.get_score (sample_patterns ++ [])) :=
  ⟨by decide, by decide, by decide, by decide, by decide,
    ss03_ways_boundary 5 [(0, 0), (1, 0), (2, 0), (0, 1), (1, 1)] sample_patterns [] 2
      (by decide) (by decide) (by decide) (by decide) (by decide)⟩

/-- In exact arithmetic the Variant A score is the sum of the contributions: the paytable
entry of `(s, n)` when there is one, `s * n` otherwise, and 0 for an entry with no
position. -/
theorem base_score_formula_exact (pay_table : PayTable) (patterns : MatchPatterns) :
    SlotBase.get_score pay_table patterns
      = (patterns.map (fun e => SlotBase.symbol_score pay_table e.1 e.2)).sum ∧
    (∀ s : Int, SlotBase.symbol_score pay_table s [] = 0) ∧
    (∀ (s : Int) (positions : MatchPattern) (pay : Int), positions ≠ [] →
      pay_table.lookup s positions.length = some pay →
      SlotBase.symbol_score pay_table s positions = pay) ∧
    (∀ (s : Int) (positions : MatchPattern), positions ≠ [] →
      pay_table.lookup s positions.length = none →
      SlotBase.symbol_score pay_table s positions = s * positions.length) := by
  refine ⟨?_, ?_, ?_, ?_⟩
  · unfold SlotBase.get_score
    rw [List.foldl_ext _ (fun total e => total + SlotBase.symbol_score pay_table e.1 e.2)]
    · rw [foldl_add_eq_sum, zero_add]
    · intro total e _
      unfold SlotBase.symbol_score
      by_cases hnil : e.2 = []
      · simp [hnil]
      · simp only [ne_eq, hnil, not_false_eq_true, if_true, if_false]
        cases pay_table.lookup e.1 e.2.length <;> simp
  · intro s; simp [SlotBase.symbol_score]
  · intro s positions pay hne hpay
    simp [SlotBase.symbol_score, hne, hpay]
  · intro s positions hne hpay
    simp [SlotBase.symbol_score, hne, hpay]

/-- C20: terminal boards are fixed points of `step`.  A board is terminal exactly when the
matcher reports no match, and then `step` returns the board itself with score 0, also when
applied again to the board it returned. -/
theorem ss03_step_terminal (cascade : Bool) (board : Board) :
    (SlotSS03.engine.is_terminal board = true ↔ (SlotSS03.find_matches board).2 = false) ∧
    ((SlotSS03.find_matches board).2 = false →
      SlotSS03.step cascade board = (board, 0) ∧
      SlotSS03.step cascade (SlotSS03.step cascade board).1 = (board, 0)) := by
  constructor
  · simp [Engine.is_terminal, SlotSS03.engine]
  · intro h
    have hstep : SlotSS03.step cascade board = (board, 0) := by
      unfold SlotSS03.step
      simp only [h, if_true]
    rw [hstep]
    exact ⟨rfl, hstep⟩

/-- In exact arithmetic the free-game total is `S * (m * f)` when the final board holds
`m > 0` multiplier symbols and `S` itself when it holds none, where `S` is the sum of the
unmultiplied per-step scores. -/
theorem ss02_free_multiplier_exact (script : List Board) (f : Int) (h : script ≠ []) :
    (SlotSS02.steps "free" script f).total_score =
      if 0 < SlotSS02.multiplier_count (SlotSS02.steps "free" script f).final_board then
        ((List.range ((SlotSS02.steps "free" script f).stop - 1)).map
          (fun i => SlotBase.get_score SlotSS02.pay_table
            (SlotSS02.find_matches (script.getD i [])).1)).sum *
          ((SlotSS02.multiplier_count (SlotSS02.steps "free" script f).final_board : Int) * f)
      else
        ((List.range ((SlotSS02.steps "free" script f).stop - 1)).map
          (fun i => SlotBase.get_score SlotSS02.pay_table
            (SlotSS02.find_matches (script.getD i [])).1)).sum := by
  obtain ⟨j, _, _, _, h4⟩ := ss02_steps_spec "free" script f h
  rw [h4]
  simp only [if_true, Nat.add_sub_cancel]
  rfl

/-! ## Boards: writes, dimensions and extensionality -/

theorem Board.dims_put (b : Board) (r c : Nat) (v : Int) : (b.put r c v).dims = b.dims := by
  unfold Board.dims Board.put
  rw [List.map_set, List.length_set]
  apply List.ext_getElem
  · simp
  · intro n h1 h2
    rw [List.getElem_set]
    by_cases hr : r = n
    · subst hr
      simp only [if_true]
      have hlt : r < b.length := by simpa using h2
      rw [List.getElem_map, List.getD_eq_getElem b [] hlt]
    · simp [hr]

theorem Board.length_of_dims {a b : Board} (h : a.dims = b.dims) : a.length = b.length := by
  have := congrArg List.length h
  simpa [Board.dims] using this

theorem Board.row_length_of_dims {a b : Board} (h : a.dims = b.dims) (r : Nat) :
    (a.getD r []).length = (b.getD r []).length := by
  have h1 : ∀ x : Board, (x.getD r []).length = (x.dims).getD r 0 := by
    intro x
    unfold Board.dims
    rw [← List.getD_map x [] List.length]
    rfl
  rw [h1 a, h1 b, h]

theorem Board.hasShape_of_dims {a b : Board} (h : a.dims = b.dims) (H W : Nat)
    (hb : b.hasShape H W) : a.hasShape H W := by
  obtain ⟨h1, h2⟩ := hb
  refine ⟨by rw [Board.length_of_dims h]; exact h1, ?_⟩
  intro row hrow
  obtain ⟨n, hn, rfl⟩ := List.getElem_of_mem hrow
  have hnb : n < b.length := by rw [← Board.length_of_dims h]; exact hn
  have := Board.row_length_of_dims h n
  rw [List.getD_eq_getElem a [] hn, List.getD_eq_getElem b [] hnb] at this
  rw [this]
  exact h2 _ (List.getElem_mem _)

theorem Board.row_length_of_shape {b : Board} {H W : Nat} (hb : b.hasShape H W) (r : Nat)
    (hr : r < H) : (b.getD r []).length = W := by
  obtain ⟨h1, h2⟩ := hb
  have hlt : r < b.length := by omega
  rw [List.getD_eq_getElem b [] hlt]
  exact h2 _ (List.getElem_mem _)

/-- Boards of the same dimensions with the same cells are equal. -/
theorem Board.ext_cells {a b : Board} (hd : a.dims = b.dims)
    (hc : ∀ r c, r < a.length → c < (a.getD r []).length → a.cell r c = b.cell r c) :
    a = b := by
  have hlen := Board.length_of_dims hd
  apply List.ext_getElem hlen
  intro r h1 h2
  have hrow := Board.row_length_of_dims hd r
  rw [List.getD_eq_getElem a [] h1, List.getD_eq_getElem b [] h2] at hrow
  apply List.ext_getElem hrow
  intro c hc1 hc2
  have := hc r c h1 (by rw [List.getD_eq_getElem a [] h1]; exact hc1)
  unfold Board.cell at this
  rw [List.getD_eq_getElem a [] h1, List.getD_eq_getElem b [] h2,
    List.getD_eq_getElem _ 0 hc1, List.getD_eq_getElem _ 0 hc2] at this
  exact this

/-- A run of writes whose value depends on the position only: the result keeps the
dimensions, holds the value at every written position inside the board and the old cell
everywhere else. -/
theorem Board.fold_put_cell (V : Nat × Nat → Int) (ps : List (Nat × Nat)) (b : Board) :
    (ps.foldl (fun acc p => acc.put p.1 p.2 (V p)) b).dims = b.dims ∧
    ∀ r c, (ps.foldl (fun acc p => acc.put p.1 p.2 (V p)) b).cell r c =
      if (r, c) ∈ ps ∧ r < b.length ∧ c < (b.getD r []).length then V (r, c)
      else b.cell r c := by
  induction ps generalizing b with
  | nil => simp
  | cons p t ih =>
    rw [List.foldl_cons]
    obtain ⟨h1, h2⟩ := ih (b.put p.1 p.2 (V p))
    have hd := Board.dims_put b p.1 p.2 (V p)
    refine ⟨h1.trans hd, ?_⟩
    intro r c
    rw [h2, Board.cell_put, Board.length_of_dims hd, Board.row_length_of_dims hd]
    by_cases hin : r < b.length ∧ c < (b.getD r []).length
    · by_cases hp : (r, c) = p
      · subst hp
        have hA : r = (r, c).1 ∧ c = (r, c).2 ∧ (r, c).1 < b.length ∧
            (r, c).2 < (b.getD (r, c).1 []).length := ⟨rfl, rfl, hin.1, hin.2⟩
        have hB : (r, c) ∈ (r, c) :: t ∧ r < b.length ∧ c < (b.getD r []).length :=
          ⟨List.mem_cons_self _ _, hin⟩
        rw [if_pos hA, if_pos hB, ite_self]
      · have hp2 : ¬ (r = p.1 ∧ c = p.2) := by
          rintro ⟨e1, e2⟩; exact hp (by rw [e1, e2])
        have hp3 : ¬ (r = p.1 ∧ c = p.2 ∧ p.1 < b.length ∧ p.2 < (b.getD p.1 []).length) :=
          fun hh => hp2 ⟨hh.1, hh.2.1⟩
        simp only [List.mem_cons, hp, false_or, hin, and_true, if_neg hp3]
    · have hin2 : ¬ ((r, c) ∈ t ∧ r < b.length ∧ c < (b.getD r []).length) :=
        fun hh => hin hh.2
      have hin3 : ¬ ((r, c) ∈ p :: t ∧ r < b.length ∧ c < (b.getD r []).length) :=
        fun hh => hin hh.2
      have hp3 : ¬ (r = p.1 ∧ c = p.2 ∧ p.1 < b.length ∧ p.2 < (b.getD p.1 []).length) := by
        rintro ⟨e1, e2, e3, e4⟩
        subst e1; subst e2
        exact hin ⟨e3, e4⟩
      rw [if_neg hin2, if_neg hin3, if_neg hp3]

theorem foldl_flatMap_eq {α β σ : Type} (f : α → List β) (g : σ → β → σ) (l : List α)
    (init : σ) :
    (l.flatMap f).foldl g init = l.foldl (fun acc a => (f a).foldl g acc) init := by
  induction l generalizing init with
  | nil => rfl
  | cons a t ih => rw [List.flatMap_cons, List.foldl_append, List.foldl_cons, ih]

theorem MatchPatterns.mem_flatMap_covers (patterns : MatchPatterns) (row col : Nat) :
    (row, col) ∈ patterns.flatMap (fun e => e.2) ↔ patterns.covers row col := by
  simp [MatchPatterns.covers, List.mem_flatMap]

/-! ## Elimination -/

theorem SlotSS03.golden_eliminate_flat (board : Board) (patterns : MatchPatterns) :
    SlotSS03.eliminate_matches board patterns =
      (patterns.flatMap (fun e => e.2)).foldl
        (fun acc p => acc.put p.1 p.2
          (if 100 ≤ board.cell p.1 p.2 ∧ board.cell p.1 p.2 < 200 then SlotSS03.WILD else -1))
        board := by
  unfold SlotSS03.eliminate_matches
  rw [foldl_flatMap_eq]
  congr 1
  funext result entry
  congr 1
  funext acc pos
  simp only
  split_ifs <;> rfl

theorem SlotBase.base_eliminate_flat (board : Board) (patterns : MatchPatterns) :
    SlotBase.eliminate_matches board patterns =
      (patterns.flatMap (fun e => e.2)).foldl (fun acc p => acc.put p.1 p.2 (-1)) board := by
  unfold SlotBase.eliminate_matches
  rw [foldl_flatMap_eq]

/-- C14: Variant B elimination.  For positions inside the board, the result holds `WILD`
at every matched position whose original cell is golden (`100 ≤ cell < 200`), `-1` at every
other matched position (a matched `WILD` included), the original cell at every position in
no pattern, and has the dimensions of the board. -/
theorem ss03_eliminate_matches_spec (board : Board) (patterns : MatchPatterns)
    (hin : patterns.inside board) :
    (∀ row col, patterns.covers row col →
      100 ≤ board.cell row col ∧ board.cell row col < 200 →
      (SlotSS03.eliminate_matches board patterns).cell row col = SlotSS03.WILD) ∧
    (∀ row col, patterns.covers row col →
      ¬ (100 ≤ board.cell row col ∧ board.cell row col < 200) →
      (SlotSS03.eliminate_matches board patterns).cell row col = -1) ∧
    (∀ row col, ¬ patterns.covers row col →
      (SlotSS03.eliminate_matches board patterns).cell row col = board.cell row col) ∧
    (SlotSS03.eliminate_matches board patterns).length = board.length ∧
    (∀ row, ((SlotSS03.eliminate_matches board patterns).getD row []).length =
      (board.getD row []).length) := by
  rw [SlotSS03.golden_eliminate_flat]
  obtain ⟨hd, hcell⟩ := Board.fold_put_cell
    (fun p => if 100 ≤ board.cell p.1 p.2 ∧ board.cell p.1 p.2 < 200 then SlotSS03.WILD else -1)
    (patterns.flatMap (fun e => e.2)) board
  have hinside : ∀ row col, patterns.covers row col →
      (row, col) ∈ patterns.flatMap (fun e => e.2) ∧ row < board.length ∧
        col < (board.getD row []).length := by
    intro row col hcov
    refine ⟨(MatchPatterns.mem_flatMap_covers patterns row col).mpr hcov, ?_⟩
    obtain ⟨e, he, hp⟩ := hcov
    exact hin e he (row, col) hp
  refine ⟨?_, ?_, ?_, Board.length_of_dims hd, Board.row_length_of_dims hd⟩
  · intro row col hcov hgold
    rw [hcell, if_pos (hinside row col hcov)]
    simp only [hgold, and_self, if_true]
  · intro row col hcov hgold
    rw [hcell, if_pos (hinside row col hcov)]
    simp only [hgold, if_false]
  · intro row col hcov
    rw [hcell, if_neg]
    intro hh
    exact hcov ((MatchPatterns.mem_flatMap_covers patterns row col).mp hh.1)

/-- The elimination rule on the golden-tile board of the self-test and its own matches. -/
theorem ss03_eliminate_matches_spec_witness :
    (SlotSS03.find_matches golden_board_ss03).1.inside golden_board_ss03 ∧
    ((∀ row col, (SlotSS03.find_matches golden_board_ss03).1.covers row col →
      100 ≤ golden_board_ss03.cell row col ∧ golden_board_ss03.cell row col < 200 →
      (SlotSS03.eliminate_matches golden_board_ss03
        (SlotSS03.find_matches golden_board_ss03).1).cell row col = SlotSS03.WILD) ∧
    (∀ row col, (SlotSS03.find_matches golden_board_ss03).1.covers row col →
      ¬ (100 ≤ golden_board_ss03.cell row col ∧ golden_board_ss03.cell row col < 200) →
      (SlotSS03.eliminate_matches golden_board_ss03
        (SlotSS03.find_matches golden_board_ss03).1).cell row col = -1) ∧
    (∀ row col, ¬ (SlotSS03.find_matches golden_board_ss03).1.covers row col →
      (SlotSS03.eliminate_matches golden_board_ss03
        (SlotSS03.find_matches golden_board_ss03).1).cell row col =
        golden_board_ss03.cell row col) ∧
    (SlotSS03.eliminate_matches golden_board_ss03
      (SlotSS03.find_matches golden_board_ss03).1).length = golden_board_ss03.length ∧
    (∀ row, ((SlotSS03.eliminate_matches golden_board_ss03
      (SlotSS03.find_matches golden_board_ss03).1).getD row []).length =
      (golden_board_ss03.getD row []).length)) :=
  ⟨by decide, ss03_eliminate_matches_spec golden_board_ss03
    (SlotSS03.find_matches golden_board_ss03).1 (by decide)⟩

/-- C15: base elimination.  For positions inside the board, the result holds `-1` at every
position that occurs in some pattern, the original cell at every other position, and has
the dimensions of the board. -/
theorem base_eliminate_matches_spec (board : Board) (patterns : MatchPatterns)
    (hin : patterns.inside board) :
    (∀ row col, patterns.covers row col →
      (SlotBase.eliminate_matches board patterns).cell row col = -1) ∧
    (∀ row col, ¬ patterns.covers row col →
      (SlotBase.eliminate_matches board patterns).cell row col = board.cell row col) ∧
    (SlotBase.eliminate_matches board patterns).length = board.length ∧
    (∀ row, ((SlotBase.eliminate_matches board patterns).getD row []).length =
      (board.getD row []).length) := by
  rw [SlotBase.base_eliminate_flat]
  obtain ⟨hd, hcell⟩ := Board.fold_put_cell (fun _ => -1)
    (patterns.flatMap (fun e => e.2)) board
  refine ⟨?_, ?_, Board.length_of_dims hd, Board.row_length_of_dims hd⟩
  · intro row col hcov
    rw [hcell, if_pos]
    refine ⟨(MatchPatterns.mem_flatMap_covers patterns row col).mpr hcov, ?_⟩
    obtain ⟨e, he, hp⟩ := hcov
    exact hin e he (row, col) hp
  · intro row col hcov
    rw [hcell, if_neg]
    intro hh
    exact hcov ((MatchPatterns.mem_flatMap_covers patterns row col).mp hh.1)

/-- The base elimination rule on the cluster board and its own matches. -/
theorem base_eliminate_matches_spec_witness :
    (SlotSS02.find_matches cluster_board_ss02).1.inside cluster_board_ss02 ∧
    ((∀ row col, (SlotSS02.find_matches cluster_board_ss02).1.covers row col →
      (SlotBase.eliminate_matches cluster_board_ss02
        (SlotSS02.find_matches cluster_board_ss02).1).cell row col = -1) ∧
    (∀ row col, ¬ (SlotSS02.find_matches cluster_board_ss02).1.covers row col →
      (SlotBase.eliminate_matches cluster_board_ss02
        (SlotSS02.find_matches cluster_board_ss02).1).cell row col =
        cluster_board_ss02.cell row col) ∧
    (SlotBase.eliminate_matches cluster_board_ss02
      (SlotSS02.find_matches cluster_board_ss02).1).length = cluster_board_ss02.length ∧
    (∀ row, ((SlotBase.eliminate_matches cluster_board_ss02
      (SlotSS02.find_matches cluster_board_ss02).1).getD row []).length =
      (cluster_board_ss02.getD row []).length)) :=
  ⟨by decide, base_eliminate_matches_spec cluster_board_ss02
    (SlotSS02.find_matches cluster_board_ss02).1 (by decide)⟩

/-! ## Variant B gravity -/

theorem SlotSS03.column_height_le (col : Nat) : SlotSS03.column_height col ≤ 5 := by
  unfold SlotSS03.column_height SlotSS03.COLUMN_HEIGHTS
  by_cases h : col < 5
  · interval_cases col <;> decide
  · have : ([4, 5, 5, 5, 4] : List Nat).getD col 0 = 0 := by
      rw [List.getD_eq_getElem?_getD, List.getElem?_eq_none_iff.mpr (by simp; omega)]
      rfl
    omega

theorem SlotSS03.column_values_length_le (board : Board) (col : Nat) :
    (SlotSS03.column_values board col).length ≤ SlotSS03.column_height col := by
  unfold SlotSS03.column_values
  refine (List.length_filter_le _ _).trans ?_
  simp

theorem SlotSS03.non_empty_eq (board : Board) (col : Nat) :
    (List.range (SlotSS03.column_height col)).foldl
      (fun acc row =>
        if board.cell row col ≠ -1 ∧ board.cell row col ≠ SlotSS03.PADDING_CELL then
          acc ++ [board.cell row col]
        else acc) []
      = SlotSS03.column_values board col := by
  rw [foldl_append_filter (fun row => board.cell row col ≠ -1 ∧
    board.cell row col ≠ SlotSS03.PADDING_CELL) (fun row => board.cell row col)]
  unfold SlotSS03.column_values
  rw [List.filter_map, List.nil_append]
  rfl

/-- One column pass of gravity on a 5x5 board: the column is settled, every other cell and
the dimensions are kept. -/
theorem SlotSS03.gravity_column_spec (b : Board) (hb : b.hasShape 5 5) (col : Nat)
    (hcol : col < 5) :
    (SlotSS03.gravity_column b col).dims = b.dims ∧
    ∀ r c, (SlotSS03.gravity_column b col).cell r c =
      if c = col ∧ r < 5 then SlotSS03.settled_cell b col r else b.cell r c := by
  have hh := SlotSS03.column_height_le col
  have hn := SlotSS03.column_values_length_le b col
  unfold SlotSS03.gravity_column
  simp only [SlotSS03.non_empty_eq]
  have e1 : (List.range (SlotSS03.column_height col)).foldl (fun r row => r.put row col (-1)) b
      = ((List.range (SlotSS03.column_height col)).map (fun row => (row, col))).foldl
          (fun acc p => acc.put p.1 p.2 ((fun _ => (-1 : Int)) p)) b := by
    rw [List.foldl_map]
  rw [e1]
  obtain ⟨d1, c1⟩ := Board.fold_put_cell (fun _ => (-1 : Int))
    ((List.range (SlotSS03.column_height col)).map (fun row => (row, col))) b
  generalize ((List.range (SlotSS03.column_height col)).map (fun row => (row, col))).foldl
    (fun acc p => acc.put p.1 p.2 ((fun _ => (-1 : Int)) p)) b = B1 at d1 c1 ⊢
  have e2 : (List.range (SlotSS03.column_values b col).length).foldl
      (fun r i => r.put (SlotSS03.column_height col - (SlotSS03.column_values b col).length + i)
        col ((SlotSS03.column_values b col).getD i 0)) B1
      = ((List.range (SlotSS03.column_values b col).length).map
          (fun i => (SlotSS03.column_height col - (SlotSS03.column_values b col).length + i,
            col))).foldl
          (fun acc p => acc.put p.1 p.2
            ((fun q : Nat × Nat => (SlotSS03.column_values b col).getD
              (q.1 - (SlotSS03.column_height col - (SlotSS03.column_values b col).length)) 0)
              p)) B1 := by
    rw [List.foldl_map]
    congr 1
    funext r i
    simp only [Nat.add_sub_cancel_left]
  rw [e2]
  obtain ⟨d2, c2⟩ := Board.fold_put_cell
    (fun q : Nat × Nat => (SlotSS03.column_values b col).getD
      (q.1 - (SlotSS03.column_height col - (SlotSS03.column_values b col).length)) 0)
    ((List.range (SlotSS03.column_values b col).length).map
      (fun i => (SlotSS03.column_height col - (SlotSS03.column_values b col).length + i, col)))
    B1
  generalize ((List.range (SlotSS03.column_values b col).length).map
      (fun i => (SlotSS03.column_height col - (SlotSS03.column_values b col).length + i,
        col))).foldl
      (fun acc p => acc.put p.1 p.2
        ((fun q : Nat × Nat => (SlotSS03.column_values b col).getD
          (q.1 - (SlotSS03.column_height col - (SlotSS03.column_values b col).length)) 0)
          p)) B1 = B2 at d2 c2 ⊢
  have e3 : (List.range' (SlotSS03.column_height col)
        (SlotSS03.board_height - SlotSS03.column_height col)).foldl
      (fun r row => r.put row col SlotSS03.PADDING_CELL) B2
      = ((List.range' (SlotSS03.column_height col)
          (SlotSS03.board_height - SlotSS03.column_height col)).map
          (fun row => (row, col))).foldl
          (fun acc p => acc.put p.1 p.2 ((fun _ => SlotSS03.PADDING_CELL) p)) B2 := by
    rw [List.foldl_map]
  rw [e3]
  obtain ⟨d3, c3⟩ := Board.fold_put_cell (fun _ => SlotSS03.PADDING_CELL)
    ((List.range' (SlotSS03.column_height col)
      (SlotSS03.board_height - SlotSS03.column_height col)).map (fun row => (row, col))) B2
  refine ⟨d3.trans (d2.trans d1), ?_⟩
  intro r c
  have hd2 : B2.dims = b.dims := d2.trans d1
  rw [c3, c2, c1, Board.length_of_dims hd2, Board.row_length_of_dims hd2,
    Board.length_of_dims d1, Board.row_length_of_dims d1]
  have hlen : b.length = 5 := hb.1
  have hrow : r < 5 → (b.getD r []).length = 5 := Board.row_length_of_shape hb r
  have m1 : (r, c) ∈ (List.range (SlotSS03.column_height col)).map (fun row => (row, col)) ↔
      r < SlotSS03.column_height col ∧ c = col := by
    simp only [List.mem_map, List.mem_range, Prod.mk.injEq]
    constructor
    · rintro ⟨a, ha, rfl, rfl⟩; exact ⟨ha, rfl⟩
    · rintro ⟨ha, hc⟩; exact ⟨r, ha, rfl, hc.symm⟩
  have m2 : (r, c) ∈ (List.range (SlotSS03.column_values b col).length).map
      (fun i => (SlotSS03.column_height col - (SlotSS03.column_values b col).length + i, col)) ↔
      (SlotSS03.column_height col - (SlotSS03.column_values b col).length ≤ r ∧
        r < SlotSS03.column_height col ∧ c = col) := by
    simp only [List.mem_map, List.mem_range, Prod.mk.injEq]
    constructor
    · rintro ⟨a, ha, rfl, rfl⟩; exact ⟨by omega, by omega, rfl⟩
    · rintro ⟨ha, hb2, hc⟩
      exact ⟨r - (SlotSS03.column_height col - (SlotSS03.column_values b col).length),
        by omega, by omega, hc.symm⟩
  have m3 : (r, c) ∈ (List.range' (SlotSS03.column_height col)
      (SlotSS03.board_height - SlotSS03.column_height col)).map (fun row => (row, col)) ↔
      (SlotSS03.column_height col ≤ r ∧ r < 5 ∧ c = col) := by
    simp only [List.mem_map, List.mem_range'_1, Prod.mk.injEq, SlotSS03.board_height]
    constructor
    · rintro ⟨a, ha, rfl, rfl⟩; exact ⟨by omega, by omega, rfl⟩
    · rintro ⟨ha, hb2, hc⟩; exact ⟨r, by omega, rfl, hc.symm⟩
  simp only [m1, m2, m3, hlen, SlotSS03.PADDING_CELL]
  unfold SlotSS03.settled_cell
  generalize SlotSS03.column_height col = h at hh hn m1 m2 m3 ⊢
  generalize SlotSS03.column_values b col = v at hn m2 ⊢
  generalize hw : (b.getD r []).length = w at hrow ⊢
  split_ifs <;> first | rfl | (exfalso; omega)

theorem SlotSS03.column_values_congr (b1 b2 : Board) (c : Nat)
    (h : ∀ row, row < SlotSS03.column_height c → b1.cell row c = b2.cell row c) :
    SlotSS03.column_values b1 c = SlotSS03.column_values b2 c := by
  unfold SlotSS03.column_values
  congr 1
  apply List.map_congr_left
  intro row hrow
  exact h row (List.mem_range.mp hrow)

theorem SlotSS03.settled_cell_congr (b1 b2 : Board) (c : Nat)
    (h : ∀ row, row < SlotSS03.column_height c → b1.cell row c = b2.cell row c) (r : Nat) :
    SlotSS03.settled_cell b1 c r = SlotSS03.settled_cell b2 c r := by
  unfold SlotSS03.settled_cell
  rw [SlotSS03.column_values_congr b1 b2 c h]

theorem SlotSS03.gravity_prefix_cell (b : Board) (hb : b.hasShape 5 5) (k : Nat) (hk : k ≤ 5) :
    ((List.range k).foldl SlotSS03.gravity_column b).dims = b.dims ∧
    ∀ r c, ((List.range k).foldl SlotSS03.gravity_column b).cell r c =
      if c < k ∧ r < 5 then SlotSS03.settled_cell b c r else b.cell r c := by
  induction k with
  | zero => simp
  | succ k ih =>
    obtain ⟨d1, c1⟩ := ih (by omega)
    rw [List.range_succ, List.foldl_append, List.foldl_cons, List.foldl_nil]
    have hshape := Board.hasShape_of_dims d1 5 5 hb
    obtain ⟨d2, c2⟩ := SlotSS03.gravity_column_spec _ hshape k (by omega)
    refine ⟨d2.trans d1, ?_⟩
    intro r c
    rw [c2, c1]
    have hsame : ∀ row, row < SlotSS03.column_height k →
        ((List.range k).foldl SlotSS03.gravity_column b).cell row k = b.cell row k := by
      intro row _
      rw [c1, if_neg (by omega)]
    rw [SlotSS03.settled_cell_congr _ b k hsame]
    by_cases h1 : c = k ∧ r < 5
    · obtain ⟨rfl, hr⟩ := h1
      rw [if_pos ⟨rfl, hr⟩, if_pos ⟨by omega, hr⟩]
    · rw [if_neg h1]
      by_cases h2 : c < k ∧ r < 5
      · rw [if_pos h2, if_pos ⟨by omega, h2.2⟩]
      · rw [if_neg h2, if_neg (by omega)]

/-- Gravity on a 5x5 board: the dimensions are kept and every cell is the settled cell of
its column. -/
theorem SlotSS03.apply_gravity_cell (b : Board) (hb : b.hasShape 5 5) :
    (SlotSS03.apply_gravity b).dims = b.dims ∧
    ∀ r c, r < 5 → c < 5 → (SlotSS03.apply_gravity b).cell r c = SlotSS03.settled_cell b c r := by
  obtain ⟨d, hc⟩ := SlotSS03.gravity_prefix_cell b hb 5 (le_refl _)
  refine ⟨d, ?_⟩
  intro r c hr hcol
  have := hc r c
  rw [if_pos ⟨hcol, hr⟩] at this
  exact this

theorem SlotSS03.column_values_mem (board : Board) (c : Nat) (x : Int)
    (hx : x ∈ SlotSS03.column_values board c) : x ≠ -1 ∧ x ≠ -2 := by
  unfold SlotSS03.column_values at hx
  have := (List.mem_filter.mp hx).2
  simpa using this

theorem SlotSS03.settled_cell_ne_padding (board : Board) (c r : Nat)
    (hr : r < SlotSS03.column_height c) : SlotSS03.settled_cell board c r ≠ -2 := by
  have hn := SlotSS03.column_values_length_le board c
  unfold SlotSS03.settled_cell
  by_cases h1 : r < SlotSS03.column_height c - (SlotSS03.column_values board c).length
  · rw [if_pos h1]; decide
  · rw [if_neg h1, if_pos hr]
    have hlt : r - (SlotSS03.column_height c - (SlotSS03.column_values board c).length)
        < (SlotSS03.column_values board c).length := by omega
    rw [List.getD_eq_getElem _ 0 hlt]
    exact (SlotSS03.column_values_mem board c _ (List.getElem_mem _)).2

/-- C16: Variant B gravity.  On a 5x5 board, for a column `c` of height `h` whose values
other than `-1` and `-2` in rows `0..h-1` are `v` (top to bottom), the result holds `-1` in
rows `0..h-1-|v|`, the values `v` in order in rows `h-|v|..h-1` and `-2` in rows `h..4`;
the result's column depends on the board's column `c` alone. -/
theorem ss03_apply_gravity_spec (board : Board) (hshape : board.hasShape 5 5) (c : Nat)
    (hc : c < 5) :
    (SlotSS03.column_values board c).length ≤ SlotSS03.column_height c ∧
    (∀ r, r < SlotSS03.column_height c - (SlotSS03.column_values board c).length →
      (SlotSS03.apply_gravity board).cell r c = -1) ∧
    (∀ i, i < (SlotSS03.column_values board c).length →
      (SlotSS03.apply_gravity board).cell
        (SlotSS03.column_height c - (SlotSS03.column_values board c).length + i) c =
        (SlotSS03.column_values board c).getD i 0) ∧
    (∀ r, SlotSS03.column_height c ≤ r → r < 5 →
      (SlotSS03.apply_gravity board).cell r c = -2) ∧
    (∀ board2 : Board, board2.hasShape 5 5 →
      (∀ r, r < 5 → board2.cell r c = board.cell r c) →
      ∀ r, r < 5 →
        (SlotSS03.apply_gravity board2).cell r c = (SlotSS03.apply_gravity board).cell r c) := by
  have hn := SlotSS03.column_values_length_le board c
  have hh := SlotSS03.column_height_le c
  obtain ⟨_, hcell⟩ := SlotSS03.apply_gravity_cell board hshape
  refine ⟨hn, ?_, ?_, ?_, ?_⟩
  · intro r hr
    rw [hcell r c (by omega) hc]
    unfold SlotSS03.settled_cell
    rw [if_pos hr]
  · intro i hi
    have hrow : SlotSS03.column_height c - (SlotSS03.column_values board c).length + i < 5 := by
      omega
    have h1 : ¬ (SlotSS03.column_height c - (SlotSS03.column_values board c).length + i
        < SlotSS03.column_height c - (SlotSS03.column_values board c).length) := by omega
    have h2 : SlotSS03.column_height c - (SlotSS03.column_values board c).length + i
        < SlotSS03.column_height c := by omega
    rw [hcell _ c hrow hc]
    unfold SlotSS03.settled_cell
    rw [if_neg h1, if_pos h2, Nat.add_sub_cancel_left]
  · intro r h1 h2
    have h3 : ¬ (r < SlotSS03.column_height c - (SlotSS03.column_values board c).length) := by
      omega
    have h4 : ¬ (r < SlotSS03.column_height c) := by omega
    rw [hcell r c h2 hc]
    unfold SlotSS03.settled_cell
    rw [if_neg h3, if_neg h4]
  · intro board2 hshape2 hsame r hr
    obtain ⟨_, hcell2⟩ := SlotSS03.apply_gravity_cell board2 hshape2
    rw [hcell r c hr hc, hcell2 r c hr hc]
    exact SlotSS03.settled_cell_congr board2 board c (fun row hrow => hsame row (by omega)) r

/-- The gravity rule on column 2 of the board with holes of the self-test. -/
theorem ss03_apply_gravity_spec_witness :
    holes_board_ss03.hasShape 5 5 ∧ 2 < 5 ∧
    ((SlotSS03.column_values holes_board_ss03 2).length ≤ SlotSS03.column_height 2 ∧
    (∀ r, r < SlotSS03.column_height 2 - (SlotSS03.column_values holes_board_ss03 2).length →
      (SlotSS03.apply_gravity holes_board_ss03).cell r 2 = -1) ∧
    (∀ i, i < (SlotSS03.column_values holes_board_ss03 2).length →
      (SlotSS03.apply_gravity holes_board_ss03).cell
        (SlotSS03.column_height 2 - (SlotSS03.column_values holes_board_ss03 2).length + i) 2 =
        (SlotSS03.column_values holes_board_ss03 2).getD i 0) ∧
    (∀ r, SlotSS03.column_height 2 ≤ r → r < 5 →
      (SlotSS03.apply_gravity holes_board_ss03).cell r 2 = -2) ∧
    (∀ board2 : Board, board2.hasShape 5 5 →
      (∀ r, r < 5 → board2.cell r 2 = holes_board_ss03.cell r 2) →
      ∀ r, r < 5 →
        (SlotSS03.apply_gravity board2).cell r 2 =
          (SlotSS03.apply_gravity holes_board_ss03).cell r 2)) :=
  ⟨by decide, by decide, ss03_apply_gravity_spec holes_board_ss03 (by decide) 2 (by decide)⟩

theorem SlotSS03.settled_column (board : Board) (c : Nat) :
    (List.range (SlotSS03.column_height c)).map (SlotSS03.settled_cell board c) =
      List.replicate
        (SlotSS03.column_height c - (SlotSS03.column_values board c).length) (-1) ++
        SlotSS03.column_values board c := by
  have hn := SlotSS03.column_values_length_le board c
  apply List.ext_getElem
  · simp only [List.length_map, List.length_range, List.length_append, List.length_replicate]
    omega
  · intro i h1 h2
    rw [List.getElem_map, List.getElem_range]
    unfold SlotSS03.settled_cell
    have hi : i < SlotSS03.column_height c := by simpa using h1
    by_cases hlow : i < SlotSS03.column_height c - (SlotSS03.column_values board c).length
    · rw [if_pos hlow, List.getElem_append_left (by simpa using hlow), List.getElem_replicate]
    · rw [if_neg hlow, if_pos hi, List.getElem_append_right (by simp; omega)]
      simp only [List.length_replicate]
      rw [List.getD_eq_getElem _ 0 (by omega)]

/-- Settling a settled column changes nothing: its values are the same. -/
theorem SlotSS03.column_values_settled (board : Board) (hshape : board.hasShape 5 5) (c : Nat)
    (hc : c < 5) :
    SlotSS03.column_values (SlotSS03.apply_gravity board) c = SlotSS03.column_values board c := by
  obtain ⟨_, hcell⟩ := SlotSS03.apply_gravity_cell board hshape
  have hh := SlotSS03.column_height_le c
  have hmap : (List.range (SlotSS03.column_height c)).map
      (fun row => (SlotSS03.apply_gravity board).cell row c)
      = (List.range (SlotSS03.column_height c)).map (SlotSS03.settled_cell board c) := by
    apply List.map_congr_left
    intro row hrow
    exact hcell row c (by have := List.mem_range.mp hrow; omega) hc
  have hself : (SlotSS03.column_values board c).filter (fun x => decide (x ≠ -1 ∧ x ≠ -2))
      = SlotSS03.column_values board c := by
    rw [List.filter_eq_self]
    intro x hx
    simpa using SlotSS03.column_values_mem board c x hx
  have hback : SlotSS03.column_values (SlotSS03.apply_gravity board) c =
      ((List.range (SlotSS03.column_height c)).map
        (fun row => (SlotSS03.apply_gravity board).cell row c)).filter
        (fun x => decide (x ≠ -1 ∧ x ≠ -2)) := rfl
  rw [hback, hmap, SlotSS03.settled_column, List.filter_append, List.filter_replicate, hself]
  simp

/-- C17: Variant B gravity is idempotent on 5x5 boards. -/
theorem ss03_apply_gravity_idempotent (board : Board) (hshape : board.hasShape 5 5) :
    SlotSS03.apply_gravity (SlotSS03.apply_gravity board) = SlotSS03.apply_gravity board := by
  obtain ⟨d1, hcell1⟩ := SlotSS03.apply_gravity_cell board hshape
  have hshape1 := Board.hasShape_of_dims d1 5 5 hshape
  obtain ⟨d2, hcell2⟩ := SlotSS03.apply_gravity_cell _ hshape1
  apply Board.ext_cells d2
  intro r c hr hcol
  have hr5 : r < 5 := by rw [Board.length_of_dims d2, hshape1.1] at hr; exact hr
  have hc5 : c < 5 := by
    rw [Board.row_length_of_dims d2, Board.row_length_of_shape hshape1 r hr5] at hcol
    exact hcol
  rw [hcell2 r c hr5 hc5, hcell1 r c hr5 hc5]
  unfold SlotSS03.settled_cell
  rw [SlotSS03.column_values_settled board hshape c hc5]

/-- Idempotence on the board with holes of the self-test. -/
theorem ss03_apply_gravity_idempotent_witness :
    holes_board_ss03.hasShape 5 5 ∧
    SlotSS03.apply_gravity (SlotSS03.apply_gravity holes_board_ss03) =
      SlotSS03.apply_gravity holes_board_ss03 :=
  ⟨by decide, ss03_apply_gravity_idempotent holes_board_ss03 (by decide)⟩

theorem SlotSS03.is_padding_cell_nat (r c : Nat) (hc : c < 5) :
    SlotSS03.is_padding_cell r c = decide (SlotSS03.column_height c ≤ r) := by
  unfold SlotSS03.is_padding_cell
  have h1 : ¬ ((c : Int) < -1 ∨ (SlotSS03.board_width : Int) ≤ c) := by
    simp only [SlotSS03.board_width]; omega
  rw [if_neg h1]
  simp

/-- C18: Variant B gravity respects the height profile.  On every 5x5 board, also one with
misplaced padding, a cell `(r, c)` of the result holds `-2` exactly when
`r ≥ COLUMN_HEIGHTS[c]`, and the result passes `is_valid_padding`. -/
theorem ss03_apply_gravity_padding (board : Board) (hshape : board.hasShape 5 5) :
    (∀ r c, r < 5 → c < 5 →
      ((SlotSS03.apply_gravity board).cell r c = -2 ↔ SlotSS03.column_height c ≤ r)) ∧
    SlotSS03.is_valid_padding (SlotSS03.apply_gravity board) = true := by
  obtain ⟨d, hcell⟩ := SlotSS03.apply_gravity_cell board hshape
  have hiff : ∀ r c, r < 5 → c < 5 →
      ((SlotSS03.apply_gravity board).cell r c = -2 ↔ SlotSS03.column_height c ≤ r) := by
    intro r c hr hc
    rw [hcell r c hr hc]
    constructor
    · intro h2
      by_contra hlt
      exact SlotSS03.settled_cell_ne_padding board c r (by omega) h2
    · intro hle
      have hn := SlotSS03.column_values_length_le board c
      unfold SlotSS03.settled_cell
      rw [if_neg (by omega), if_neg (by omega)]
  refine ⟨hiff, ?_⟩
  have hshape1 := Board.hasShape_of_dims d 5 5 hshape
  unfold SlotSS03.is_valid_padding
  have hsize : ¬ ((SlotSS03.apply_gravity board).length ≠ SlotSS03.board_height ∨
      ((SlotSS03.apply_gravity board).getD 0 []).length ≠ SlotSS03.board_width) := by
    rw [hshape1.1, Board.row_length_of_shape hshape1 0 (by decide)]
    decide
  rw [if_neg hsize]
  simp only [List.all_eq_true, List.mem_range, decide_eq_true_eq, SlotSS03.board_height,
    SlotSS03.board_width, SlotSS03.PADDING_CELL]
  intro r hr c hc
  rw [SlotSS03.is_padding_cell_nat r c hc]
  rw [decide_eq_decide]
  exact (hiff r c hr hc).symm

/-- The height rule on a board with misplaced padding. -/
theorem ss03_apply_gravity_padding_witness :
    misplaced_padding_board.hasShape 5 5 ∧
    ((∀ r c, r < 5 → c < 5 →
      ((SlotSS03.apply_gravity misplaced_padding_board).cell r c = -2 ↔
        SlotSS03.column_height c ≤ r)) ∧
    SlotSS03.is_valid_padding (SlotSS03.apply_gravity misplaced_padding_board) = true) :=
  ⟨by decide, ss03_apply_gravity_padding misplaced_padding_board (by decide)⟩

/-! ## Refill -/

/-- A loop whose iterations each apply an idempotent cell transform `T` at the positions
they select: the result keeps the dimensions, holds the transformed cell at every selected
position inside the board and the old cell everywhere else. -/
theorem Board.fold_pointwise {α : Type} (T : Int → Nat → Nat → Int)
    (hT : ∀ x r c, T (T x r c) r c = T x r c) (S : α → Nat → Nat → Prop)
    (F : Board → α → Board)
    (hF : ∀ acc a, (F acc a).dims = acc.dims ∧
      (∀ r c, S a r c → r < acc.length → c < (acc.getD r []).length →
        (F acc a).cell r c = T (acc.cell r c) r c) ∧
      (∀ r c, ¬ (S a r c ∧ r < acc.length ∧ c < (acc.getD r []).length) →
        (F acc a).cell r c = acc.cell r c))
    (l : List α) (acc : Board) :
    (l.foldl F acc).dims = acc.dims ∧
    (∀ r c, (∃ a ∈ l, S a r c) → r < acc.length → c < (acc.getD r []).length →
      (l.foldl F acc).cell r c = T (acc.cell r c) r c) ∧
    (∀ r c, ¬ ((∃ a ∈ l, S a r c) ∧ r < acc.length ∧ c < (acc.getD r []).length) →
      (l.foldl F acc).cell r c = acc.cell r c) := by
  induction l generalizing acc with
  | nil =>
    refine ⟨rfl, ?_, ?_⟩
    · rintro r c ⟨a, ha, _⟩; simp at ha
    · intro r c _; rfl
  | cons a t ih =>
    rw [List.foldl_cons]
    obtain ⟨hd, h1, h2⟩ := hF acc a
    obtain ⟨d, i1, i2⟩ := ih (F acc a)
    have hlen := Board.length_of_dims hd
    have hrow := Board.row_length_of_dims hd
    refine ⟨d.trans hd, ?_, ?_⟩
    · intro r c hex hr hc
      by_cases hs : ∃ a2 ∈ t, S a2 r c
      · rw [i1 r c hs (by rw [hlen]; exact hr) (by rw [hrow]; exact hc)]
        by_cases hsa : S a r c
        · rw [h1 r c hsa hr hc, hT]
        · rw [h2 r c (fun hh => hsa hh.1)]
      · have hsa : S a r c := by
          obtain ⟨a2, ha2, hs2⟩ := hex
          rcases List.mem_cons.mp ha2 with e | e
          · rw [← e]; exact hs2
          · exact absurd ⟨a2, e, hs2⟩ hs
        rw [i2 r c (fun hh => hs hh.1), h1 r c hsa hr hc]
    · intro r c hneg
      have ht : ¬ ((∃ a2 ∈ t, S a2 r c) ∧ r < (F acc a).length ∧
          c < ((F acc a).getD r []).length) := by
        rintro ⟨⟨a2, ha2, hs2⟩, hr, hc⟩
        exact hneg ⟨⟨a2, List.mem_cons_of_mem _ ha2, hs2⟩, by rw [← hlen]; exact hr,
          by rw [← hrow]; exact hc⟩
      have ha : ¬ (S a r c ∧ r < acc.length ∧ c < (acc.getD r []).length) := by
        rintro ⟨hs, hr, hc⟩
        exact hneg ⟨⟨a, List.mem_cons_self _ _, hs⟩, hr, hc⟩
      rw [i2 r c ht, h2 r c ha]

/-- The cell transform of refill: an empty cell takes the cell of `next` when the position
lies inside `next`. -/
theorem refill_transform_idem (next : Board) (x : Int) (r c : Nat) :
    (fun (y : Int) (r c : Nat) =>
        if y = -1 ∧ r < next.length ∧ c < (next.getD r []).length then next.cell r c else y)
      ((fun (y : Int) (r c : Nat) =>
        if y = -1 ∧ r < next.length ∧ c < (next.getD r []).length then next.cell r c else y)
        x r c) r c
      = (fun (y : Int) (r c : Nat) =>
        if y = -1 ∧ r < next.length ∧ c < (next.getD r []).length then next.cell r c else y)
        x r c := by
  simp only
  by_cases h : x = -1 ∧ r < next.length ∧ c < (next.getD r []).length
  · rw [if_pos h]
    split_ifs <;> rfl
  · rw [if_neg h, if_neg h]

/-- Refill read cell by cell, for the loop both variants share. -/
theorem SlotSS03.refill_cells (g : Board) (i : Nat) (script : List Board) :
    (SlotSS03.refill g i script).dims = g.dims ∧
    ∀ row col, row < g.length → col < (g.getD row []).length →
      (SlotSS03.refill g i script).cell row col =
        if g.cell row col = -1 ∧ row < (script.getD (i + 1) []).length ∧
            col < ((script.getD (i + 1) []).getD row []).length then
          (script.getD (i + 1) []).cell row col
        else g.cell row col := by
  unfold SlotSS03.refill
  simp only
  generalize script.getD (i + 1) [] = next
  have hinner : ∀ (row : Nat) (acc : Board) (cols : List Nat),
      (cols.foldl (fun result col =>
          if result.cell row col = -1 then
            if row < next.length ∧ col < (next.getD row []).length then
              result.put row col (next.cell row col)
            else result
          else result) acc).dims = acc.dims ∧
      (∀ r c, (∃ a ∈ cols, r = row ∧ c = a) → r < acc.length → c < (acc.getD r []).length →
        (cols.foldl (fun result col =>
          if result.cell row col = -1 then
            if row < next.length ∧ col < (next.getD row []).length then
              result.put row col (next.cell row col)
            else result
          else result) acc).cell r c =
          if acc.cell r c = -1 ∧ r < next.length ∧ c < (next.getD r []).length then
            next.cell r c else acc.cell r c) ∧
      (∀ r c, ¬ ((∃ a ∈ cols, r = row ∧ c = a) ∧ r < acc.length ∧
          c < (acc.getD r []).length) →
        (cols.foldl (fun result col =>
          if result.cell row col = -1 then
            if row < next.length ∧ col < (next.getD row []).length then
              result.put row col (next.cell row col)
            else result
          else result) acc).cell r c = acc.cell r c) := by
    intro row acc cols
    apply Board.fold_pointwise
      (fun (y : Int) (r c : Nat) =>
        if y = -1 ∧ r < next.length ∧ c < (next.getD r []).length then next.cell r c else y)
      (refill_transform_idem next) (fun a r c => r = row ∧ c = a)
    intro acc2 a
    by_cases h1 : acc2.cell row a = -1
    · by_cases h2 : row < next.length ∧ a < (next.getD row []).length
      · simp only [h1, h2, and_self, if_true]
        refine ⟨Board.dims_put _ _ _ _, ?_, ?_⟩
        · rintro r c ⟨rfl, rfl⟩ hr hc
          rw [Board.cell_put, if_pos ⟨rfl, rfl, hr, hc⟩, h1, if_pos ⟨rfl, h2⟩]
        · intro r c hneg
          rw [Board.cell_put, if_neg]
          rintro ⟨e1, e2, e3, e4⟩
          subst e1; subst e2
          exact hneg ⟨⟨rfl, rfl⟩, e3, e4⟩
      · simp only [h1, h2, if_true, if_false]
        refine ⟨trivial, ?_, fun _ _ _ => trivial⟩
        rintro r c ⟨rfl, rfl⟩ _ _
        rw [if_neg (fun hh => h2 hh.2)]
    · simp only [h1, if_false]
      refine ⟨trivial, ?_, fun _ _ _ => trivial⟩
      rintro r c ⟨rfl, rfl⟩ _ _
      rw [if_neg (fun hh => h1 hh.1)]
  obtain ⟨d, p1, _⟩ := Board.fold_pointwise
    (fun (y : Int) (r c : Nat) =>
      if y = -1 ∧ r < next.length ∧ c < (next.getD r []).length then next.cell r c else y)
    (refill_transform_idem next) (fun (a : Nat) (r _ : Nat) => r = a)
    (fun result row =>
      (List.range (result.getD row []).length).foldl
        (fun result col =>
          if result.cell row col = -1 then
            if row < next.length ∧ col < (next.getD row []).length then
              result.put row col (next.cell row col)
            else result
          else result) result)
    (by
      intro acc a
      obtain ⟨hd, q1, q2⟩ := hinner a acc (List.range (acc.getD a []).length)
      refine ⟨hd, ?_, ?_⟩
      · intro r c hra hr hc
        refine q1 r c ⟨c, ?_, hra, rfl⟩ hr hc
        rw [List.mem_range, ← hra]; exact hc
      · intro r c hneg
        apply q2 r c
        rintro ⟨⟨a2, _, hra, _⟩, hr, hc⟩
        exact hneg ⟨hra, hr, hc⟩)
    (List.range g.length) g
  refine ⟨d, ?_⟩
  intro row col hr hc
  exact p1 row col ⟨row, List.mem_range.mpr hr, rfl⟩ hr hc

/-- C19: refill, for both variants.  With `next = script[i+1]`, the result has the
dimensions of `g`; at each position it holds `next[r][c]` when `g[r][c]` is `-1` and the
position lies inside `next`, and `g[r][c]` otherwise, so only empty cells change; only
board `i + 1` of the script is read; `SlotSS02::refill` computes the same board. -/
theorem refill_spec (g : Board) (script : List Board) (i : Nat)
    (hi : i + 1 < script.length) :
    (SlotSS03.refill g i script).length = g.length ∧
    (∀ row, ((SlotSS03.refill g i script).getD row []).length = (g.getD row []).length) ∧
    (∀ row col, row < g.length → col < (g.getD row []).length →
      (SlotSS03.refill g i script).cell row col =
        if g.cell row col = -1 ∧ row < (script.getD (i + 1) []).length ∧
            col < ((script.getD (i + 1) []).getD row []).length then
          (script.getD (i + 1) []).cell row col
        else g.cell row col) ∧
    (∀ row col, row < g.length → col < (g.getD row []).length → g.cell row col ≠ -1 →
      (SlotSS03.refill g i script).cell row col = g.cell row col) ∧
    (∀ script2 : List Board, script2.getD (i + 1) [] = script.getD (i + 1) [] →
      SlotSS03.refill g i script2 = SlotSS03.refill g i script) ∧
    SlotSS02.refill g i script = SlotSS03.refill g i script := by
  have _hi := hi
  obtain ⟨d, hcell⟩ := SlotSS03.refill_cells g i script
  refine ⟨Board.length_of_dims d, Board.row_length_of_dims d, hcell, ?_, ?_, rfl⟩
  · intro row col hr hc hne
    rw [hcell row col hr hc, if_neg (fun hh => hne hh.1)]
  · intro script2 h2
    unfold SlotSS03.refill
    rw [h2]

/-- The refill rule on the board with holes against the second board of the sample
script. -/
theorem refill_spec_witness :
    0 + 1 < sample_script.length ∧
    ((SlotSS03.refill holes_board_ss03 0 sample_script).length = holes_board_ss03.length ∧
    (∀ row, ((SlotSS03.refill holes_board_ss03 0 sample_script).getD row []).length =
      (holes_board_ss03.getD row []).length) ∧
    (∀ row col, row < holes_board_ss03.length → col < (holes_board_ss03.getD row []).length →
      (SlotSS03.refill holes_board_ss03 0 sample_script).cell row col =
        if holes_board_ss03.cell row col = -1 ∧ row < (sample_script.getD (0 + 1) []).length ∧
            col < ((sample_script.getD (0 + 1) []).getD row []).length then
          (sample_script.getD (0 + 1) []).cell row col
        else holes_board_ss03.cell row col) ∧
    (∀ row col, row < holes_board_ss03.length → col < (holes_board_ss03.getD row []).length →
      holes_board_ss03.cell row col ≠ -1 →
      (SlotSS03.refill holes_board_ss03 0 sample_script).cell row col =
        holes_board_ss03.cell row col) ∧
    (∀ script2 : List Board, script2.getD (0 + 1) [] = sample_script.getD (0 + 1) [] →
      SlotSS03.refill holes_board_ss03 0 script2 =
        SlotSS03.refill holes_board_ss03 0 sample_script) ∧
    SlotSS02.refill holes_board_ss03 0 sample_script =
      SlotSS03.refill holes_board_ss03 0 sample_script) :=
  ⟨by decide, refill_spec holes_board_ss03 sample_script 0 (by decide)⟩

theorem SlotSS03.scan_cell_eq (game_type : String) (board : Board) (throw_on_error : Bool)
    (st : SlotSS03.ScanState) (row col : Nat) :
    SlotSS03.scan_cell game_type board throw_on_error st row col =
      match SlotSS03.cell_violation game_type board row col with
      | some e => .stopped (validation_failure throw_on_error e)
      | none => .running (SlotSS03.cell_update game_type board st row col) := by
  unfold SlotSS03.scan_cell SlotSS03.cell_violation SlotSS03.cell_update
    SlotSS03.counts_golden SlotSS03.notes_plain
  by_cases hp : SlotSS03.is_padding_cell row col = true
  · simp [hp]
  · have hp2 : SlotSS03.is_padding_cell row col = false := by simpa using hp
    simp only [hp2, Bool.false_eq_true, if_false, true_and]
    generalize board.cell row col = v
    by_cases he : v = -1 ∨ v = SlotSS03.SCATTER
    · have hng : ¬ (100 ≤ v ∧ v < 200) := by
        simp only [SlotSS03.SCATTER] at he; omega
      have hn1 : ¬ (v ≠ -1 ∧ v ≠ SlotSS03.SCATTER ∧ game_type = "free" ∧ col = 2 ∧
          ¬ (100 ≤ v ∧ v < 200)) := by
        rintro ⟨h1, h2, _⟩
        rcases he with he | he
        · exact h1 he
        · exact h2 he
      simp only [if_pos he, if_neg hng, if_neg hn1]
    · have he1 : v ≠ -1 := fun h => he (Or.inl h)
      have he2 : v ≠ SlotSS03.SCATTER := fun h => he (Or.inr h)
      simp only [if_neg he]
      by_cases hg : 100 ≤ v ∧ v < 200
      · have hn1 : ¬ (v ≠ -1 ∧ v ≠ SlotSS03.SCATTER ∧ game_type = "free" ∧ col = 2 ∧
            ¬ (100 ≤ v ∧ v < 200)) := fun h => h.2.2.2.2 hg
        have hn2 : ¬ ((game_type = "free" ∧ col = 2) ∧ ¬ (100 ≤ v ∧ v < 200)) :=
          fun h => h.2 hg
        have hn3 : ¬ (game_type = "free" ∧ col = 2 ∧ ¬ (100 ≤ v ∧ v < 200)) :=
          fun h => h.2.2 hg
        simp only [if_pos hg, if_neg hn1, if_neg hn3, hg, true_and]
        split_ifs <;> first | rfl | (exfalso; tauto)
      · have hn1 : (v ≠ -1 ∧ v ≠ SlotSS03.SCATTER ∧ game_type = "free" ∧ col = 2 ∧
            ¬ (100 ≤ v ∧ v < 200)) ↔ (game_type = "free" ∧ col = 2 ∧ ¬ (100 ≤ v ∧ v < 200)) :=
          ⟨fun h => h.2.2, fun h => ⟨he1, he2, h⟩⟩
        simp only [if_neg hg, hn1, hg, false_and, if_false]
        split_ifs <;> first | rfl | (exfalso; simp_all)

theorem SlotSS03.scan_step_stopped (game_type : String) (board : Board) (throw_on_error : Bool)
    (result : ValidationResult) (ps : List (Nat × Nat)) :
    ps.foldl (fun acc p => SlotSS03.scan_step game_type board throw_on_error acc p.1 p.2)
      (.stopped result) = .stopped result := by
  induction ps with
  | nil => rfl
  | cons p t ih => rw [List.foldl_cons]; exact ih

theorem SlotSS03.scan_fold_eq (game_type : String) (board : Board) (throw_on_error : Bool)
    (ps : List (Nat × Nat)) (st : SlotSS03.ScanState) :
    ps.foldl (fun acc p => SlotSS03.scan_step game_type board throw_on_error acc p.1 p.2)
      (.running st) =
      match ps.findSome? (fun p => SlotSS03.cell_violation game_type board p.1 p.2) with
      | some e => .stopped (validation_failure throw_on_error e)
      | none => .running
          (ps.foldl (fun st p => SlotSS03.cell_update game_type board st p.1 p.2) st) := by
  induction ps generalizing st with
  | nil => rfl
  | cons p t ih =>
    rw [List.foldl_cons, List.findSome?_cons, List.foldl_cons]
    have hstep : SlotSS03.scan_step game_type board throw_on_error (.running st) p.1 p.2 =
        SlotSS03.scan_cell game_type board throw_on_error st p.1 p.2 := rfl
    rw [hstep, SlotSS03.scan_cell_eq]
    cases hv : SlotSS03.cell_violation game_type board p.1 p.2 with
    | none => exact ih _
    | some e => exact SlotSS03.scan_step_stopped _ _ _ _ _

theorem SlotSS03.scan_eq (game_type : String) (board : Board) (throw_on_error : Bool) :
    SlotSS03.scan game_type board throw_on_error =
      match (all_positions 5 5).findSome?
          (fun p => SlotSS03.cell_violation game_type board p.1 p.2) with
      | some e => .stopped (validation_failure throw_on_error e)
      | none => .running (SlotSS03.scanned game_type board) := by
  have h := SlotSS03.scan_fold_eq game_type board throw_on_error (all_positions 5 5)
    { golden_tile_counts := [0, 0, 0, 0, 0], non_golden_in_col2 := [] }
  unfold SlotSS03.scanned
  rw [← h]
  unfold SlotSS03.scan all_positions
  rw [foldl_flatMap_eq]
  simp only [List.foldl_map, SlotSS03.board_height, SlotSS03.board_width]

/-- The validator reports the first broken rule, as an exception or as `false` according to
`throw_on_error`, and returns `true` when no rule is broken. -/
theorem SlotSS03.is_valid_board_eq (game_type : String) (board : Board)
    (throw_on_error : Bool) :
    SlotSS03.is_valid_board game_type board throw_on_error =
      match SlotSS03.first_violation game_type board with
      | some e => validation_failure throw_on_error e
      | none => .returned true := by
  unfold SlotSS03.is_valid_board SlotSS03.first_violation
  rw [SlotSS03.scan_eq]
  by_cases h1 : board.length ≠ SlotSS03.board_height
  · simp only [if_pos h1]
  · simp only [if_neg h1]
    cases hw : (List.range board.length).find?
        (fun i => decide ((board.getD i []).length ≠ SlotSS03.board_width)) with
    | some i => rfl
    | none =>
      by_cases h2 : SlotSS03.is_valid_padding board = false
      · simp only [if_pos h2]
      · simp only [if_neg h2]
        cases hv : (all_positions 5 5).findSome?
            (fun p => SlotSS03.cell_violation game_type board p.1 p.2) with
        | some e => rfl
        | none =>
          by_cases h3 : (SlotSS03.scanned game_type board).non_golden_in_col2 ≠ []
          · simp only [if_pos h3]
          · simp only [if_neg h3]
            cases hc : (List.range SlotSS03.board_width).find?
                (fun col => decide (¬ (game_type = "free" ∧ col = 2) ∧
                  2 < (SlotSS03.scanned game_type board).golden_tile_counts.getD col 0)) with
            | some col => rfl
            | none => rfl


theorem mem_all_positions (h w : Nat) (p : Nat × Nat) :
    p ∈ all_positions h w ↔ p.1 < h ∧ p.2 < w := by
  unfold all_positions
  simp only [List.mem_flatMap, List.mem_range, List.mem_map]
  constructor
  · rintro ⟨r, hr, c, hc, rfl⟩
    exact ⟨hr, hc⟩
  · rintro ⟨hr, hc⟩
    exact ⟨p.1, hr, p.2, hc, rfl⟩

theorem range_filter_eq (w c : Nat) (hc : c < w) :
    (List.range w).filter (fun col => decide (col = c)) = [c] := by
  induction w with
  | zero => omega
  | succ n ih =>
    rw [List.range_succ, List.filter_append]
    by_cases h : c = n
    · subst h
      have h0 : (List.range c).filter (fun col => decide (col = c)) = [] := by
        rw [List.filter_eq_nil_iff]
        intro a ha
        have := List.mem_range.mp ha
        simp only [decide_eq_true_eq]
        omega
      rw [h0]
      simp
    · rw [ih (by omega)]
      have h1 : [n].filter (fun col => decide (col = c)) = [] := by
        rw [List.filter_eq_nil_iff]
        intro a ha
        have : a = n := by simpa using ha
        simp only [decide_eq_true_eq]
        omega
      rw [h1]
      rfl

/-- Cells of column `c` selected by a test on the row, in scan order. -/
theorem all_positions_filter_col (h w c : Nat) (hc : c < w) (q : Nat → Bool) :
    (all_positions h w).filter (fun p => decide (p.2 = c) && q p.1) =
      ((List.range h).filter q).map (fun r => (r, c)) := by
  unfold all_positions
  induction h with
  | zero => rfl
  | succ n ih =>
    rw [List.range_succ, List.flatMap_append, List.filter_append, ih, List.filter_append,
      List.map_append]
    congr 1
    simp only [List.flatMap_cons, List.flatMap_nil, List.append_nil, List.filter_map]
    by_cases hq : q n = true
    · have h1 : ((fun p : Nat × Nat => decide (p.2 = c) && q p.1) ∘ fun col => (n, col)) =
          fun col => decide (col = c) := by
        funext col
        simp [hq]
      rw [h1, range_filter_eq w c hc]
      simp [hq]
    · have h1 : ((fun p : Nat × Nat => decide (p.2 = c) && q p.1) ∘ fun col => (n, col)) =
          fun _ => false := by
        funext col
        simp [hq]
      rw [h1]
      simp [hq]

theorem getD_set_nat (l : List Nat) (i j v : Nat) :
    (l.set i v).getD j 0 = if i = j ∧ i < l.length then v else l.getD j 0 := by
  rw [List.getD_eq_getElem?_getD, List.getD_eq_getElem?_getD, List.getElem?_set]
  by_cases hij : i = j
  · subst hij
    by_cases hl : i < l.length
    · simp [hl]
    · have hn : l[i]? = none := List.getElem?_eq_none_iff.mpr (by omega)
      simp [hl, hn]
  · simp [hij]

theorem SlotSS03.cell_update_fold (game_type : String) (board : Board)
    (ps : List (Nat × Nat)) (st : SlotSS03.ScanState)
    (hlen : st.golden_tile_counts.length = 5) (hps : ∀ p ∈ ps, p.2 < 5) :
    (ps.foldl (fun st p => SlotSS03.cell_update game_type board st p.1 p.2)
        st).golden_tile_counts.length = 5 ∧
      (∀ c, (ps.foldl (fun st p => SlotSS03.cell_update game_type board st p.1 p.2)
          st).golden_tile_counts.getD c 0 =
        st.golden_tile_counts.getD c 0 + (ps.filter (fun p =>
          decide (p.2 = c) && decide (SlotSS03.counts_golden board p.1 c))).length) ∧
      (ps.foldl (fun st p => SlotSS03.cell_update game_type board st p.1 p.2)
          st).non_golden_in_col2 =
        st.non_golden_in_col2 ++
          ps.filter (fun p => decide (SlotSS03.notes_plain game_type board p.1 p.2)) := by
  induction ps generalizing st with
  | nil => exact ⟨hlen, fun c => by simp, by simp⟩
  | cons p t ih =>
    have hp : p.2 < 5 := hps p (List.mem_cons_self _ _)
    have hlen2 : (SlotSS03.cell_update game_type board st p.1 p.2).golden_tile_counts.length =
        5 := by
      unfold SlotSS03.cell_update
      dsimp only
      split_ifs
      · rw [List.length_set]; exact hlen
      · exact hlen
    obtain ⟨h1, h2, h3⟩ := ih (SlotSS03.cell_update game_type board st p.1 p.2) hlen2
      (fun q hq => hps q (List.mem_cons_of_mem _ hq))
    rw [List.foldl_cons]
    refine ⟨h1, ?_, ?_⟩
    · intro c
      rw [h2 c, List.filter_cons]
      unfold SlotSS03.cell_update
      dsimp only
      by_cases hc : p.2 = c
      · subst hc
        by_cases hg : SlotSS03.counts_golden board p.1 p.2
        · simp only [if_pos hg, getD_set_nat, hlen, hp, and_self, if_true, hg, decide_True,
            Bool.and_self, List.length_cons]
          omega
        · simp only [if_neg hg, hg, decide_True, decide_False, Bool.and_false,
            Bool.false_eq_true, if_false]
      · have hf : (decide (p.2 = c) && decide (SlotSS03.counts_golden board p.1 c)) = false := by
          simp [hc]
        simp only [hf, Bool.false_eq_true, if_false]
        split_ifs
        · rw [getD_set_nat, if_neg (fun h => hc h.1)]
        · rfl
    · rw [h3, List.filter_cons]
      unfold SlotSS03.cell_update
      dsimp only
      by_cases hn : SlotSS03.notes_plain game_type board p.1 p.2
      · simp [hn]
      · simp [hn]

theorem SlotSS03.scanned_counts (game_type : String) (board : Board) (c : Nat) (hc : c < 5) :
    (SlotSS03.scanned game_type board).golden_tile_counts.getD c 0 =
      SlotSS03.golden_count board c := by
  obtain ⟨_, h2, _⟩ := SlotSS03.cell_update_fold game_type board (all_positions 5 5)
    { golden_tile_counts := [0, 0, 0, 0, 0], non_golden_in_col2 := [] } rfl
    (fun p hp => ((mem_all_positions 5 5 p).mp hp).2)
  have hq := all_positions_filter_col 5 5 c hc
    (fun r => decide (SlotSS03.counts_golden board r c))
  unfold SlotSS03.scanned SlotSS03.golden_count
  rw [h2 c, hq, List.length_map]
  have h0 : ([0, 0, 0, 0, 0] : List Nat).getD c 0 = 0 := by
    interval_cases c <;> rfl
  simp only [h0, Nat.zero_add]

theorem SlotSS03.scanned_plain (game_type : String) (board : Board) :
    (SlotSS03.scanned game_type board).non_golden_in_col2 =
      (SlotSS03.plain_rows game_type board).map (fun r => (r, 2)) := by
  obtain ⟨_, _, h3⟩ := SlotSS03.cell_update_fold game_type board (all_positions 5 5)
    { golden_tile_counts := [0, 0, 0, 0, 0], non_golden_in_col2 := [] } rfl
    (fun p hp => ((mem_all_positions 5 5 p).mp hp).2)
  have hq := all_positions_filter_col 5 5 2 (by decide)
    (fun r => decide (SlotSS03.notes_plain game_type board r 2))
  unfold SlotSS03.scanned SlotSS03.plain_rows
  rw [h3, List.nil_append, ← hq]
  apply List.filter_congr
  intro p _
  by_cases h2 : p.2 = 2
  · simp [h2]
  · have hn : ¬ SlotSS03.notes_plain game_type board p.1 p.2 := fun h => h2 h.2.2.2.2.1
    simp [h2, hn]

theorem SlotSS03.cell_violation_none_iff (game_type : String) (board : Board) (row col : Nat)
    (hp : SlotSS03.is_padding_cell row col = false) :
    SlotSS03.cell_violation game_type board row col = none ↔
      SlotSS03.cell_allowed game_type row col (board.cell row col) := by
  unfold SlotSS03.cell_violation SlotSS03.cell_allowed SlotSS03.known_value
  simp only [hp, Bool.false_eq_true, if_false]
  generalize board.cell row col = v
  have hmem : ∀ x : Int, x ∈ SlotSS03.symbols ↔ 0 ≤ x ∧ x ≤ 8 := by
    intro x
    simp only [SlotSS03.symbols, List.mem_cons, List.mem_singleton, List.not_mem_nil, or_false]
    omega
  simp only [SlotSS03.SCATTER, SlotSS03.WILD, SlotSS03.board_height, hmem]
  by_cases he : v = -1 ∨ v = 201
  · rw [if_pos he]
    refine ⟨fun _ => ⟨by omega, fun hg => by omega⟩, fun _ => rfl⟩
  · rw [if_neg he]
    by_cases hg : 100 ≤ v ∧ v < 200
    · by_cases hf : (row = 0 ∨ row = 5 - 1) ∧ ¬ (game_type = "free" ∧ col = 2)
      · rw [if_pos ⟨hg, hf⟩]
        refine ⟨fun h => by simp at h, fun h => ?_⟩
        exact absurd (h.2 hg (by omega)) hf.2
      · have hf2 : ¬ ((100 ≤ v ∧ v < 200) ∧ (row = 0 ∨ row = 5 - 1) ∧
            ¬ (game_type = "free" ∧ col = 2)) := fun h => hf h.2
        rw [if_neg hf2, if_neg (by omega), if_pos hg]
        have hf3 : (row = 0 ∨ row = 4) → (game_type = "free" ∧ col = 2) := by
          intro hr
          by_contra hc
          exact hf ⟨by omega, hc⟩
        by_cases hs : 0 ≤ v - 100 ∧ v - 100 ≤ 8
        · rw [if_pos hs]
          exact ⟨fun _ => ⟨by omega, fun _ => hf3⟩, fun _ => rfl⟩
        · rw [if_neg hs]
          refine ⟨fun h => by simp at h, fun h => ?_⟩
          exfalso; omega
    · have hf2 : ¬ ((100 ≤ v ∧ v < 200) ∧ (row = 0 ∨ row = 5 - 1) ∧
          ¬ (game_type = "free" ∧ col = 2)) := fun h => hg h.1
      rw [if_neg hf2, if_neg hg]
      by_cases hw : v = 202 ∨ v = 201
      · rw [if_pos hw]
        exact ⟨fun _ => ⟨by omega, fun h => absurd h hg⟩, fun _ => rfl⟩
      · rw [if_neg hw]
        by_cases hs : 0 ≤ v ∧ v ≤ 8
        · rw [if_pos hs]
          exact ⟨fun _ => ⟨by omega, fun h => absurd h hg⟩, fun _ => rfl⟩
        · rw [if_neg hs]
          refine ⟨fun h => by simp at h, fun h => ?_⟩
          exfalso; omega


theorem SlotSS03.cell_violation_padding (game_type : String) (board : Board) (row col : Nat)
    (hp : SlotSS03.is_padding_cell row col = true) :
    SlotSS03.cell_violation game_type board row col = none := by
  unfold SlotSS03.cell_violation
  rw [if_pos hp]

theorem SlotSS03.no_cell_violation_iff (game_type : String) (board : Board) :
    (all_positions 5 5).findSome?
        (fun p => SlotSS03.cell_violation game_type board p.1 p.2) = none ↔
      ∀ r : Nat, r < 5 → ∀ c : Nat, c < 5 → SlotSS03.is_padding_cell r c = false →
        SlotSS03.cell_allowed game_type r c (board.cell r c) := by
  rw [List.findSome?_eq_none_iff]
  constructor
  · intro h r hr c hc hp
    have := h (r, c) ((mem_all_positions 5 5 (r, c)).mpr ⟨hr, hc⟩)
    exact (SlotSS03.cell_violation_none_iff game_type board r c hp).mp this
  · intro h p hp
    obtain ⟨hr, hc⟩ := (mem_all_positions 5 5 p).mp hp
    cases hpad : SlotSS03.is_padding_cell p.1 p.2 with
    | true => exact SlotSS03.cell_violation_padding game_type board p.1 p.2 hpad
    | false =>
      exact (SlotSS03.cell_violation_none_iff game_type board p.1 p.2 hpad).mpr
        (h p.1 hr p.2 hc hpad)

/-- A rejected board: `false` without `throw_on_error`, the exception with it. -/
theorem SlotSS03.is_valid_board_rejects (game_type : String) (board : Board)
    (e : BoardValidationError) (h : SlotSS03.first_violation game_type board = some e) :
    SlotSS03.is_valid_board game_type board false = .returned false ∧
      SlotSS03.is_valid_board game_type board true = .thrown e := by
  rw [SlotSS03.is_valid_board_eq, SlotSS03.is_valid_board_eq, h]
  exact ⟨rfl, rfl⟩

theorem SlotSS03.is_valid_board_accepts (game_type : String) (board : Board)
    (h : SlotSS03.first_violation game_type board = none) (throw_on_error : Bool) :
    SlotSS03.is_valid_board game_type board throw_on_error = .returned true := by
  rw [SlotSS03.is_valid_board_eq, h]

theorem SlotSS03.accepts_iff (game_type : String) (board : Board) (throw_on_error : Bool) :
    SlotSS03.is_valid_board game_type board throw_on_error = .returned true ↔
      SlotSS03.first_violation game_type board = none := by
  rw [SlotSS03.is_valid_board_eq]
  cases h : SlotSS03.first_violation game_type board with
  | none => simp
  | some e =>
    cases throw_on_error <;> simp [validation_failure]

/-- On a 5x5 board with correct padding the validator's verdict is that of the scan and of
the two checks after it. -/
theorem SlotSS03.first_violation_wellformed (game_type : String) (board : Board)
    (hshape : board.hasShape 5 5) (hpad : SlotSS03.is_valid_padding board = true) :
    SlotSS03.first_violation game_type board =
      match (all_positions 5 5).findSome?
          (fun p => SlotSS03.cell_violation game_type board p.1 p.2) with
      | some e => some e
      | none =>
        if (SlotSS03.scanned game_type board).non_golden_in_col2 ≠ [] then
          some (.non_gold_in_third_column (SlotSS03.scanned game_type board).non_golden_in_col2)
        else
          match (List.range SlotSS03.board_width).find?
              (fun col => decide (¬ (game_type = "free" ∧ col = 2) ∧
                2 < (SlotSS03.scanned game_type board).golden_tile_counts.getD col 0)) with
          | some col =>
            some (.too_many_golden
              ((SlotSS03.scanned game_type board).golden_tile_counts.getD col 0) col)
          | none => none := by
  unfold SlotSS03.first_violation
  have h1 : ¬ board.length ≠ SlotSS03.board_height := by
    simp only [SlotSS03.board_height, ne_eq, not_not]; exact hshape.1
  have h2 : (List.range board.length).find?
      (fun i => decide ((board.getD i []).length ≠ SlotSS03.board_width)) = none := by
    rw [List.find?_eq_none]
    intro i hi
    have hi5 : i < 5 := by
      have := List.mem_range.mp hi
      rw [hshape.1] at this
      exact this
    simp only [SlotSS03.board_width, ne_eq, decide_not, Bool.not_eq_true', decide_eq_false_iff_not,
      not_not]
    exact Board.row_length_of_shape hshape i hi5
  have h3 : ¬ SlotSS03.is_valid_padding board = false := by simp [hpad]
  rw [if_neg h1, h2]
  dsimp only
  rw [if_neg h3]

theorem SlotSS03.first_violation_of_cell (game_type : String) (board : Board) (r c : Nat)
    (hr : r < 5) (hc : c < 5) (hp : SlotSS03.is_padding_cell r c = false)
    (hbad : ¬ SlotSS03.cell_allowed game_type r c (board.cell r c)) :
    ∃ e, SlotSS03.first_violation game_type board = some e := by
  have hsome : ∃ e, (all_positions 5 5).findSome?
      (fun p => SlotSS03.cell_violation game_type board p.1 p.2) = some e := by
    cases h : (all_positions 5 5).findSome?
        (fun p => SlotSS03.cell_violation game_type board p.1 p.2) with
    | some e => exact ⟨e, rfl⟩
    | none =>
      exact absurd ((SlotSS03.no_cell_violation_iff game_type board).mp h r hr c hc hp) hbad
  obtain ⟨e, he⟩ := hsome
  unfold SlotSS03.first_violation
  by_cases h1 : board.length ≠ SlotSS03.board_height
  · exact ⟨_, if_pos h1⟩
  · rw [if_neg h1]
    cases hw : (List.range board.length).find?
        (fun i => decide ((board.getD i []).length ≠ SlotSS03.board_width)) with
    | some i => exact ⟨_, rfl⟩
    | none =>
      by_cases h2 : SlotSS03.is_valid_padding board = false
      · exact ⟨_, if_pos h2⟩
      · simp only [if_neg h2, he]
        exact ⟨e, rfl⟩

theorem SlotSS03.first_violation_of_padding (game_type : String) (board : Board)
    (hpad : SlotSS03.is_valid_padding board = false) :
    ∃ e, SlotSS03.first_violation game_type board = some e := by
  unfold SlotSS03.first_violation
  by_cases h1 : board.length ≠ SlotSS03.board_height
  · exact ⟨_, if_pos h1⟩
  · rw [if_neg h1]
    cases hw : (List.range board.length).find?
        (fun i => decide ((board.getD i []).length ≠ SlotSS03.board_width)) with
    | some i => exact ⟨_, rfl⟩
    | none => exact ⟨_, if_pos hpad⟩

theorem SlotSS03.is_valid_padding_iff (board : Board) (hshape : board.hasShape 5 5) :
    SlotSS03.is_valid_padding board = true ↔
      ∀ r : Nat, r < 5 → ∀ c : Nat, c < 5 →
        (board.cell r c = -2 ↔ SlotSS03.column_height c ≤ r) := by
  unfold SlotSS03.is_valid_padding
  have h0 : ¬ (board.length ≠ SlotSS03.board_height ∨
      (board.getD 0 []).length ≠ SlotSS03.board_width) := by
    have := Board.row_length_of_shape hshape 0 (by decide)
    simp only [SlotSS03.board_height, SlotSS03.board_width, hshape.1, this, ne_eq,
      not_true_eq_false, or_self, not_false_eq_true]
  rw [if_neg h0]
  simp only [List.all_eq_true, List.mem_range, SlotSS03.board_height, SlotSS03.board_width,
    decide_eq_true_eq, SlotSS03.PADDING_CELL]
  constructor
  · intro h r hr c hc
    have := h r hr c hc
    rw [SlotSS03.is_padding_cell_nat r c hc] at this
    constructor
    · intro hv
      simpa [hv] using this
    · intro hh
      simpa [hh] using this
  · intro h r hr c hc
    rw [SlotSS03.is_padding_cell_nat r c hc]
    have := h r hr c hc
    by_cases hh : SlotSS03.column_height c ≤ r
    · simp [hh, this.mpr hh]
    · have hv : board.cell r c ≠ -2 := fun hv => hh (this.mp hv)
      simp [hh, hv]


theorem SlotSS03.in_profile (r c : Nat) (hc : c < 5) (hin : r < SlotSS03.column_height c) :
    r < 5 ∧ SlotSS03.is_padding_cell r c = false := by
  have hle : SlotSS03.column_height c ≤ 5 := by
    interval_cases c <;> decide
  refine ⟨by omega, ?_⟩
  rw [SlotSS03.is_padding_cell_nat r c hc]
  simp only [decide_eq_false_iff_not, not_le]
  exact hin

theorem SlotSS03.known_value_examples :
    ∀ v ∈ ([99, 9, 109, -3, 203] : List Int), ¬ SlotSS03.known_value v := by
  decide

/-- C21 (counterexample): the board `gold_last_row_board` is 5x5 with correct padding and
holds the golden tile 107 at row 3 of column 0, the last row of that column
(`COLUMN_HEIGHTS[0] - 1 = 3`); the base-game validator accepts it in both result modes. -/
theorem ss03_validator_golden_last_row_counterexample :
    gold_last_row_board.hasShape 5 5 ∧
      SlotSS03.is_valid_padding gold_last_row_board = true ∧
      gold_last_row_board.cell 3 0 = 107 ∧
      SlotSS03.column_height 0 - 1 = 3 ∧
      SlotSS03.is_valid_board "base" gold_last_row_board false = .returned true ∧
      SlotSS03.is_valid_board "base" gold_last_row_board true = .returned true := by
  decide

/-- C21 (amended): a golden tile (value in `[100, 200)`) in an in-profile cell of board row 0
or board row 4 makes `is_valid_board` return false, and throw `BoardValidationError` under
`throw_on_error`, for every board and game type, except in column 2 of the free game.  Board
row 4 is inside the profile for columns 1..3 only, so in columns 0 and 4 only row 0 is
forbidden. -/
theorem ss03_validator_golden_placement (game_type : String) (board : Board) (r c : Nat)
    (hc : c < 5) (hin : r < SlotSS03.column_height c)
    (hg : 100 ≤ board.cell r c ∧ board.cell r c < 200) (hrow : r = 0 ∨ r = 4)
    (hcol : ¬ (game_type = "free" ∧ c = 2)) :
    SlotSS03.is_valid_board game_type board false = .returned false ∧
      ∃ e, SlotSS03.is_valid_board game_type board true = .thrown e := by
  obtain ⟨hr, hp⟩ := SlotSS03.in_profile r c hc hin
  obtain ⟨e, he⟩ := SlotSS03.first_violation_of_cell game_type board r c hr hc hp
    (fun h => hcol (h.2 hg hrow))
  exact ⟨(SlotSS03.is_valid_board_rejects game_type board e he).1, e,
    (SlotSS03.is_valid_board_rejects game_type board e he).2⟩

/-- The golden tile 105 at (0,0) of the self-test board is rejected, also in the free game. -/
theorem ss03_validator_golden_placement_witness :
    SlotSS03.is_valid_board "free" gold_first_row_board false = .returned false ∧
      ∃ e, SlotSS03.is_valid_board "free" gold_first_row_board true = .thrown e :=
  ss03_validator_golden_placement "free" gold_first_row_board 0 0 (by decide) (by decide)
    (by decide) (by decide) (by decide)

/-- C24: for either game type, a board with an in-profile cell whose value is not -1, not
SCATTER (201), not WILD (202), not a base symbol 0..8 and not a golden encoding 100..108 is
rejected: `is_valid_board` returns false, and throws `BoardValidationError` under
`throw_on_error`. -/
theorem ss03_validator_symbol_range (game_type : String) (board : Board) (r c : Nat)
    (hc : c < 5) (hin : r < SlotSS03.column_height c)
    (hbad : ¬ SlotSS03.known_value (board.cell r c)) :
    SlotSS03.is_valid_board game_type board false = .returned false ∧
      ∃ e, SlotSS03.is_valid_board game_type board true = .thrown e := by
  obtain ⟨hr, hp⟩ := SlotSS03.in_profile r c hc hin
  obtain ⟨e, he⟩ := SlotSS03.first_violation_of_cell game_type board r c hr hc hp
    (fun h => hbad h.1)
  exact ⟨(SlotSS03.is_valid_board_rejects game_type board e he).1, e,
    (SlotSS03.is_valid_board_rejects game_type board e he).2⟩

/-- The value 99 at (2,2) of the self-test board is rejected. -/
theorem ss03_validator_symbol_range_witness :
    SlotSS03.is_valid_board "base" invalid_symbol_board false = .returned false ∧
      ∃ e, SlotSS03.is_valid_board "base" invalid_symbol_board true = .thrown e :=
  ss03_validator_symbol_range "base" invalid_symbol_board 2 2 (by decide) (by decide)
    (by decide)

/-- C25: on a board of 5 rows of width 5, `is_valid_padding` returns true exactly when every
cell holds -2 iff its row is at or beyond the column height, that is, only at (4,0) and
(4,4); a board for which `is_valid_padding` is false is rejected by `is_valid_board` with
"incorrect padding", whatever the kind of fault. -/
theorem ss03_validator_padding_rule (board : Board) (hshape : board.hasShape 5 5) :
    (SlotSS03.is_valid_padding board = true ↔
      ∀ r : Nat, r < 5 → ∀ c : Nat, c < 5 →
        (board.cell r c = -2 ↔ SlotSS03.column_height c ≤ r)) ∧
    (∀ r : Nat, r < 5 → ∀ c : Nat, c < 5 →
      (SlotSS03.column_height c ≤ r ↔ r = 4 ∧ (c = 0 ∨ c = 4))) ∧
    (SlotSS03.is_valid_padding board = false → ∀ game_type : String,
      SlotSS03.is_valid_board game_type board false = .returned false ∧
      SlotSS03.is_valid_board game_type board true = .thrown .incorrect_padding) := by
  refine ⟨SlotSS03.is_valid_padding_iff board hshape, by decide, ?_⟩
  intro hpad game_type
  apply SlotSS03.is_valid_board_rejects
  unfold SlotSS03.first_violation
  have h1 : ¬ board.length ≠ SlotSS03.board_height := by
    simp only [SlotSS03.board_height, ne_eq, not_not]; exact hshape.1
  have h2 : (List.range board.length).find?
      (fun i => decide ((board.getD i []).length ≠ SlotSS03.board_width)) = none := by
    rw [List.find?_eq_none]
    intro i hi
    have hi5 : i < 5 := by
      have := List.mem_range.mp hi
      rw [hshape.1] at this
      exact this
    simp only [SlotSS03.board_width, ne_eq, decide_not, Bool.not_eq_true', decide_eq_false_iff_not,
      not_not]
    exact Board.row_length_of_shape hshape i hi5
  rw [if_neg h1, h2]
  dsimp only
  rw [if_pos hpad]

/-- A board with -2 inside the profile and data at (4,0) and (4,4) is rejected for its padding. -/
theorem ss03_validator_padding_rule_witness :
    SlotSS03.is_valid_board "base" misplaced_padding_board false = .returned false ∧
      SlotSS03.is_valid_board "base" misplaced_padding_board true =
        .thrown .incorrect_padding :=
  (ss03_validator_padding_rule misplaced_padding_board (by decide)).2.2 (by decide) "base"

/-- C26: for every board and game type the two result modes of `is_valid_board` agree: the
throwing mode throws exactly when the other mode returns false and returns true exactly when
the other mode returns true; the throwing mode never returns false and the other mode never
throws. -/
theorem ss03_validator_modes_agree (game_type : String) (board : Board) :
    ((∃ e, SlotSS03.is_valid_board game_type board true = .thrown e) ↔
        SlotSS03.is_valid_board game_type board false = .returned false) ∧
      (SlotSS03.is_valid_board game_type board true = .returned true ↔
        SlotSS03.is_valid_board game_type board false = .returned true) ∧
      SlotSS03.is_valid_board game_type board true ≠ .returned false ∧
      (∀ e, SlotSS03.is_valid_board game_type board false ≠ .thrown e) := by
  rw [SlotSS03.is_valid_board_eq, SlotSS03.is_valid_board_eq]
  cases SlotSS03.first_violation game_type board with
  | none => simp
  | some e => simp [validation_failure]

/-- C27: `create_padded_board` is a 5x5 board holding -2 exactly outside the column-height
profile and -1 everywhere else; it has valid padding, `is_valid_board` accepts it in the base
and in the free game type, in both result modes, and it is terminal. -/
theorem ss03_create_padded_board_spec :
    SlotSS03.create_padded_board.hasShape 5 5 ∧
      (∀ r : Nat, r < 5 → ∀ c : Nat, c < 5 →
        SlotSS03.create_padded_board.cell r c =
          if SlotSS03.column_height c ≤ r then -2 else -1) ∧
      SlotSS03.is_valid_padding SlotSS03.create_padded_board = true ∧
      (∀ throw_on_error : Bool,
        SlotSS03.is_valid_board "base" SlotSS03.create_padded_board throw_on_error =
          .returned true ∧
        SlotSS03.is_valid_board "free" SlotSS03.create_padded_board throw_on_error =
          .returned true) ∧
      SlotSS03.engine.is_terminal SlotSS03.create_padded_board = true := by
  decide


theorem range_find_least (n c0 : Nat) (p : Nat → Bool) (h0 : c0 < n) (hp : p c0 = true)
    (hlt : ∀ c, c < c0 → p c = false) : (List.range n).find? p = some c0 := by
  induction n with
  | zero => omega
  | succ n ih =>
    rw [List.range_succ, List.find?_append]
    by_cases h : c0 < n
    · rw [ih h]
      rfl
    · have hn : c0 = n := by omega
      subst hn
      have hnone : (List.range c0).find? p = none := by
        rw [List.find?_eq_none]
        intro x hx
        rw [hlt x (List.mem_range.mp hx)]
        simp
      rw [hnone]
      simp [List.find?, hp]

theorem find_congr_mem {α : Type} (l : List α) (p q : α → Bool)
    (h : ∀ x ∈ l, p x = q x) : l.find? p = l.find? q := by
  induction l with
  | nil => rfl
  | cons a t ih =>
    rw [List.find?_cons, List.find?_cons, h a (List.mem_cons_self _ _),
      ih (fun x hx => h x (List.mem_cons_of_mem _ hx))]

theorem SlotSS03.plain_rows_base (game_type : String) (board : Board)
    (h : game_type ≠ "free") : SlotSS03.plain_rows game_type board = [] := by
  unfold SlotSS03.plain_rows
  rw [List.filter_eq_nil_iff]
  intro r _
  simp only [decide_eq_true_eq]
  exact fun hn => h hn.2.2.2.1

/-- On a 5x5 board with correct padding whose in-profile cells pass the per-cell rules, the
verdict is that of the free-game column rule followed by the golden-count rule. -/
theorem SlotSS03.first_violation_tail (game_type : String) (board : Board)
    (hshape : board.hasShape 5 5) (hpad : SlotSS03.is_valid_padding board = true)
    (hcells : ∀ r : Nat, r < 5 → ∀ c : Nat, c < 5 → SlotSS03.is_padding_cell r c = false →
      SlotSS03.cell_allowed game_type r c (board.cell r c)) :
    SlotSS03.first_violation game_type board =
      if SlotSS03.plain_rows game_type board ≠ [] then
        some (.non_gold_in_third_column
          ((SlotSS03.plain_rows game_type board).map (fun r => (r, 2))))
      else
        ((List.range 5).find? (fun col => decide (¬ (game_type = "free" ∧ col = 2) ∧
            2 < SlotSS03.golden_count board col))).map
          (fun col => .too_many_golden (SlotSS03.golden_count board col) col) := by
  rw [SlotSS03.first_violation_wellformed game_type board hshape hpad,
    (SlotSS03.no_cell_violation_iff game_type board).mpr hcells]
  dsimp only
  rw [SlotSS03.scanned_plain]
  have hne : (SlotSS03.plain_rows game_type board).map (fun r => (r, 2)) ≠ [] ↔
      SlotSS03.plain_rows game_type board ≠ [] := by
    simp
  by_cases h : SlotSS03.plain_rows game_type board ≠ []
  · rw [if_pos (hne.mpr h), if_pos h]
  · rw [if_neg (fun h2 => h (hne.mp h2)), if_neg h]
    have hfind : (List.range SlotSS03.board_width).find?
        (fun col => decide (¬ (game_type = "free" ∧ col = 2) ∧
          2 < (SlotSS03.scanned game_type board).golden_tile_counts.getD col 0)) =
        (List.range 5).find? (fun col => decide (¬ (game_type = "free" ∧ col = 2) ∧
          2 < SlotSS03.golden_count board col)) := by
      apply find_congr_mem
      intro col hcol
      rw [SlotSS03.scanned_counts game_type board col (List.mem_range.mp hcol)]
    rw [hfind]
    cases hf : (List.range 5).find? (fun col => decide (¬ (game_type = "free" ∧ col = 2) ∧
        2 < SlotSS03.golden_count board col)) with
    | none => rfl
    | some col =>
      have hcol : col < 5 := List.mem_range.mp (List.mem_of_find?_eq_some hf)
      simp only [Option.map_some', SlotSS03.scanned_counts game_type board col hcol]

/-- C22: in the base game, on a 5x5 board with correct padding whose in-profile cells pass
the per-cell rules, `is_valid_board` accepts when every column holds at most 2 golden tiles
and rejects when some column holds 3 or more; under `throw_on_error` the error names the
lowest-indexed offending column and its golden count. -/
theorem ss03_validator_golden_count (board : Board)
    (hshape : board.hasShape 5 5) (hpad : SlotSS03.is_valid_padding board = true)
    (hcells : ∀ r : Nat, r < 5 → ∀ c : Nat, c < 5 → SlotSS03.is_padding_cell r c = false →
      SlotSS03.cell_allowed "base" r c (board.cell r c)) :
    ((∀ c : Nat, c < 5 → SlotSS03.golden_count board c ≤ 2) →
      ∀ throw_on_error : Bool,
        SlotSS03.is_valid_board "base" board throw_on_error = .returned true) ∧
    (∀ c0 : Nat, c0 < 5 → 2 < SlotSS03.golden_count board c0 →
      (∀ c : Nat, c < c0 → SlotSS03.golden_count board c ≤ 2) →
      SlotSS03.is_valid_board "base" board false = .returned false ∧
      SlotSS03.is_valid_board "base" board true =
        .thrown (.too_many_golden (SlotSS03.golden_count board c0) c0) ∧
      (BoardValidationError.too_many_golden (SlotSS03.golden_count board c0) c0).what =
        "Invalid board: More than 2 golden tiles (" ++
          toString (SlotSS03.golden_count board c0) ++ ") in column " ++ toString c0) := by
  have htail := SlotSS03.first_violation_tail "base" board hshape hpad hcells
  rw [SlotSS03.plain_rows_base "base" board (by decide)] at htail
  rw [if_neg (by simp)] at htail
  have hbase : ∀ col : Nat, decide (¬ (("base" : String) = "free" ∧ col = 2) ∧
      2 < SlotSS03.golden_count board col) = decide (2 < SlotSS03.golden_count board col) := by
    intro col
    have : ¬ (("base" : String) = "free" ∧ col = 2) := fun h => absurd h.1 (by decide)
    simp only [this, not_false_eq_true, true_and]
  simp only [hbase] at htail
  constructor
  · intro hle throw_on_error
    apply SlotSS03.is_valid_board_accepts
    rw [htail]
    have : (List.range 5).find? (fun col => decide (2 < SlotSS03.golden_count board col)) =
        none := by
      rw [List.find?_eq_none]
      intro c hc
      have := hle c (List.mem_range.mp hc)
      simp only [decide_eq_true_eq]
      omega
    rw [this]
    rfl
  · intro c0 hc0 hgt hlt
    have : (List.range 5).find? (fun col => decide (2 < SlotSS03.golden_count board col)) =
        some c0 := by
      apply range_find_least 5 c0 _ hc0
      · simp only [decide_eq_true_eq]; exact hgt
      · intro c hc
        have := hlt c hc
        simp only [decide_eq_false_iff_not]
        omega
    rw [this] at htail
    have hrej := SlotSS03.is_valid_board_rejects "base" board _ htail
    exact ⟨hrej.1, hrej.2, rfl⟩

/-- Two golden tiles in column 1 are accepted; the three golden tiles of the self-test board are reported for column 1. -/
theorem ss03_validator_golden_count_witness :
    (∀ throw_on_error : Bool,
      SlotSS03.is_valid_board "base" two_golden_board throw_on_error = .returned true) ∧
    SlotSS03.golden_count two_golden_board 1 = 2 ∧
    (SlotSS03.is_valid_board "base" base_game_gold_board false = .returned false ∧
      SlotSS03.is_valid_board "base" base_game_gold_board true =
        .thrown (.too_many_golden (SlotSS03.golden_count base_game_gold_board 1) 1) ∧
      (BoardValidationError.too_many_golden (SlotSS03.golden_count base_game_gold_board 1)
          1).what =
        "Invalid board: More than 2 golden tiles (" ++
          toString (SlotSS03.golden_count base_game_gold_board 1) ++ ") in column " ++
          toString 1) :=
  ⟨(ss03_validator_golden_count two_golden_board (by decide) (by decide) (by decide)).1
      (by decide),
    by decide,
    (ss03_validator_golden_count base_game_gold_board (by decide) (by decide)
      (by decide)).2 1 (by decide) (by decide) (by decide)⟩

theorem SlotSS03.notes_plain_free (board : Board) (r : Nat) (hr : r < 5) :
    SlotSS03.notes_plain "free" board r 2 ↔
      board.cell r 2 ≠ -1 ∧ board.cell r 2 ≠ SlotSS03.SCATTER ∧
        ¬ (100 ≤ board.cell r 2 ∧ board.cell r 2 < 200) := by
  have h5 : SlotSS03.column_height 2 = 5 := by decide
  have hp := (SlotSS03.in_profile r 2 (by decide) (by rw [h5]; exact hr)).2
  unfold SlotSS03.notes_plain
  constructor
  · rintro ⟨_, h1, h2, _, _, h3⟩
    exact ⟨h1, h2, h3⟩
  · rintro ⟨h1, h2, h3⟩
    exact ⟨hp, h1, h2, rfl, rfl, h3⟩

theorem SlotSS03.plain_rows_free (board : Board) :
    SlotSS03.plain_rows "free" board =
      (List.range 5).filter (fun r => decide (board.cell r 2 ≠ -1 ∧
        board.cell r 2 ≠ SlotSS03.SCATTER ∧
        ¬ (100 ≤ board.cell r 2 ∧ board.cell r 2 < 200))) := by
  unfold SlotSS03.plain_rows
  apply List.filter_congr
  intro r hr
  rw [decide_eq_decide]
  exact SlotSS03.notes_plain_free board r (List.mem_range.mp hr)

/-- C23: in the free game, on a 5x5 board with correct padding whose in-profile cells pass
the per-cell rules (golden tiles of column 2 may sit in rows 0 and 4) and whose columns
other than 2 hold at most 2 golden tiles (column 2 is not limited), `is_valid_board` accepts
exactly when every cell of column 2 that is not -1 and not SCATTER is golden; otherwise the
error under `throw_on_error` lists all offending `(row, 2)` positions in increasing row
order. -/
theorem ss03_validator_free_special_column (board : Board)
    (hshape : board.hasShape 5 5) (hpad : SlotSS03.is_valid_padding board = true)
    (hcells : ∀ r : Nat, r < 5 → ∀ c : Nat, c < 5 → SlotSS03.is_padding_cell r c = false →
      SlotSS03.cell_allowed "free" r c (board.cell r c))
    (hcount : ∀ c : Nat, c < 5 → c ≠ 2 → SlotSS03.golden_count board c ≤ 2) :
    (∀ throw_on_error : Bool,
      (SlotSS03.is_valid_board "free" board throw_on_error = .returned true ↔
        ∀ r : Nat, r < 5 → board.cell r 2 ≠ -1 → board.cell r 2 ≠ SlotSS03.SCATTER →
          100 ≤ board.cell r 2 ∧ board.cell r 2 < 200)) ∧
    ((List.range 5).filter (fun r => decide (board.cell r 2 ≠ -1 ∧
        board.cell r 2 ≠ SlotSS03.SCATTER ∧
        ¬ (100 ≤ board.cell r 2 ∧ board.cell r 2 < 200))) ≠ [] →
      SlotSS03.is_valid_board "free" board false = .returned false ∧
      SlotSS03.is_valid_board "free" board true =
        .thrown (.non_gold_in_third_column
          (((List.range 5).filter (fun r => decide (board.cell r 2 ≠ -1 ∧
            board.cell r 2 ≠ SlotSS03.SCATTER ∧
            ¬ (100 ≤ board.cell r 2 ∧ board.cell r 2 < 200)))).map (fun r => (r, 2)))) ∧
      (BoardValidationError.non_gold_in_third_column
          (((List.range 5).filter (fun r => decide (board.cell r 2 ≠ -1 ∧
            board.cell r 2 ≠ SlotSS03.SCATTER ∧
            ¬ (100 ≤ board.cell r 2 ∧ board.cell r 2 < 200)))).map (fun r => (r, 2)))).what =
        "Invalid board: In free game, non-gold tile(s) in 3rd column at " ++
          positions_text
            (((List.range 5).filter (fun r => decide (board.cell r 2 ≠ -1 ∧
              board.cell r 2 ≠ SlotSS03.SCATTER ∧
              ¬ (100 ≤ board.cell r 2 ∧ board.cell r 2 < 200)))).map (fun r => (r, 2)))) := by
  have htail := SlotSS03.first_violation_tail "free" board hshape hpad hcells
  rw [SlotSS03.plain_rows_free] at htail
  have hfind : (List.range 5).find? (fun col => decide (¬ (("free" : String) = "free" ∧
      col = 2) ∧ 2 < SlotSS03.golden_count board col)) = none := by
    rw [List.find?_eq_none]
    intro c hc
    simp only [decide_eq_true_eq, true_and, not_and, not_lt]
    intro hc2
    exact hcount c (List.mem_range.mp hc) hc2
  rw [hfind] at htail
  constructor
  · intro throw_on_error
    rw [SlotSS03.accepts_iff, htail]
    constructor
    · intro h r hr h1 h2
      by_contra hg
      have hmem : r ∈ (List.range 5).filter (fun r => decide (board.cell r 2 ≠ -1 ∧
          board.cell r 2 ≠ SlotSS03.SCATTER ∧
          ¬ (100 ≤ board.cell r 2 ∧ board.cell r 2 < 200))) := by
        rw [List.mem_filter]
        exact ⟨List.mem_range.mpr hr, by simp only [decide_eq_true_eq]; exact ⟨h1, h2, hg⟩⟩
      have hne : (List.range 5).filter (fun r => decide (board.cell r 2 ≠ -1 ∧
          board.cell r 2 ≠ SlotSS03.SCATTER ∧
          ¬ (100 ≤ board.cell r 2 ∧ board.cell r 2 < 200))) ≠ [] :=
        List.ne_nil_of_mem hmem
      rw [if_pos hne] at h
      exact absurd h (by simp)
    · intro h
      have hnil : (List.range 5).filter (fun r => decide (board.cell r 2 ≠ -1 ∧
          board.cell r 2 ≠ SlotSS03.SCATTER ∧
          ¬ (100 ≤ board.cell r 2 ∧ board.cell r 2 < 200))) = [] := by
        rw [List.filter_eq_nil_iff]
        intro r hr
        simp only [decide_eq_true_eq]
        rintro ⟨h1, h2, h3⟩
        exact h3 (h r (List.mem_range.mp hr) h1 h2)
      rw [if_neg (by rw [hnil]; simp)]
      rfl
  · intro hne
    rw [if_pos hne] at htail
    have hrej := SlotSS03.is_valid_board_rejects "free" board _ htail
    exact ⟨hrej.1, hrej.2, rfl⟩

/-- The all-golden third column of the self-test board is accepted with five golden tiles; the plain cells of the other self-test board are reported in row order. -/
theorem ss03_validator_free_special_column_witness :
    SlotSS03.is_valid_board "free" free_game_board true = .returned true ∧
    SlotSS03.golden_count free_game_board 2 = 5 ∧
    (SlotSS03.is_valid_board "free" free_game_invalid_board false = .returned false ∧
      SlotSS03.is_valid_board "free" free_game_invalid_board true =
        .thrown (.non_gold_in_third_column [(0, 2), (2, 2), (4, 2)])) :=
  ⟨((ss03_validator_free_special_column free_game_board (by decide) (by decide) (by decide)
      (by decide)).1 true).mpr (by decide),
    by decide,
    ((ss03_validator_free_special_column free_game_invalid_board (by decide) (by decide)
      (by decide) (by decide)).2 (by decide)).1,
    ((ss03_validator_free_special_column free_game_invalid_board (by decide) (by decide)
      (by decide) (by decide)).2 (by decide)).2.1⟩


/-! ## A single three-column win -/

theorem range_filter_unique (n r0 : Nat) (p : Nat → Bool) (h0 : r0 < n)
    (hp : ∀ r, r < n → (p r = true ↔ r = r0)) : (List.range n).filter p = [r0] := by
  rw [← range_filter_eq n r0 h0]
  apply List.filter_congr
  intro r hr
  have := hp r (List.mem_range.mp hr)
  by_cases h : r = r0
  · rw [this.mpr h]
    simp [h]
  · have hf : p r = false := by
      cases hpr : p r with
      | false => rfl
      | true => exact absurd (this.mp hpr) h
    simp [h, hf]

theorem range_filter_none (n : Nat) (p : Nat → Bool) (hp : ∀ r, r < n → p r = false) :
    (List.range n).filter p = [] := by
  rw [List.filter_eq_nil_iff]
  intro r hr
  rw [hp r (List.mem_range.mp hr)]
  simp

/-- C28: a single win.  On a 5x5 board on which the plain symbol `s` in 1..8 occurs exactly
once in each of columns 0, 1 and 2 (cells within the column heights, at rows `r0`, `r1`,
`r2`), no cell of columns 0..3 holds `s + 100`, no cell of columns 1..3 holds `WILD` and
column 3 does not hold `s`, `find_matches` reports for `s` the three positions, `get_score`
of the map holding that pattern is `pay_table[s][3] * 1` (3 for `s = 5`), and
`eliminate_matches` sets exactly those three cells to -1. -/
theorem ss03_single_win (board : Board) (s : Int) (r0 r1 r2 : Nat)
    (hshape : board.hasShape 5 5) (hs : 1 ≤ s ∧ s ≤ 8)
    (hr0 : r0 < 4) (hr1 : r1 < 5) (hr2 : r2 < 5)
    (h0 : ∀ r : Nat, r < 4 → (board.cell r 0 = s ↔ r = r0))
    (h1 : ∀ r : Nat, r < 5 → (board.cell r 1 = s ↔ r = r1))
    (h2 : ∀ r : Nat, r < 5 → (board.cell r 2 = s ↔ r = r2))
    (hg : ∀ c : Nat, c < 4 → ∀ r : Nat, r < SlotSS03.column_height c →
      board.cell r c ≠ s + 100)
    (hw : ∀ c : Nat, 1 ≤ c → c < 4 → ∀ r : Nat, r < 5 → board.cell r c ≠ SlotSS03.WILD)
    (h3 : ∀ r : Nat, r < 5 → board.cell r 3 ≠ s) :
    (SlotSS03.find_matches board).1.find s = some [(r0, 0), (r1, 1), (r2, 2)] ∧
    SlotSS03.get_score [(s, [(r0, 0), (r1, 1), (r2, 2)])] = SlotSS03.pay s 3 * 1 ∧
    SlotSS03.pay_table.lookup s 3 = some (SlotSS03.pay s 3) ∧
    SlotSS03.pay 5 3 = 3 ∧
    (∀ r c : Nat,
      (SlotSS03.eliminate_matches board [(s, [(r0, 0), (r1, 1), (r2, 2)])]).cell r c =
        if (r, c) ∈ [(r0, 0), (r1, 1), (r2, 2)] then -1 else board.cell r c) ∧
    (SlotSS03.eliminate_matches board [(s, [(r0, 0), (r1, 1), (r2, 2)])]).dims =
      board.dims := by
  have hh0 : SlotSS03.column_height 0 = 4 := by decide
  have hh1 : SlotSS03.column_height 1 = 5 := by decide
  have hh2 : SlotSS03.column_height 2 = 5 := by decide
  have hh3 : SlotSS03.column_height 3 = 5 := by decide
  have hseed : SlotSS03.seed_positions board s = [(r0, 0)] := by
    unfold SlotSS03.seed_positions
    rw [range_filter_unique 4 r0 _ hr0]
    · rfl
    · intro r hr
      have hA := h0 r hr
      have hB := hg 0 (by decide) r (by rw [hh0]; exact hr)
      simp only [decide_eq_true_eq]
      constructor
      · rintro (⟨_, _, h⟩ | ⟨_, _, h⟩)
        · exact hA.mp h
        · exact absurd h hB
      · intro h
        have := hA.mpr h
        exact Or.inl ⟨by omega, by omega, this⟩
  have hcol1 : SlotSS03.column_matches board 1 s = [(r1, 1)] := by
    unfold SlotSS03.column_matches
    rw [hh1, range_filter_unique 5 r1 _ hr1]
    · rfl
    · intro r hr
      have hA := h1 r hr
      have hB := hg 1 (by decide) r (by rw [hh1]; exact hr)
      have hC := hw 1 (by decide) (by decide) r hr
      simp only [decide_eq_true_eq]
      constructor
      · rintro (h | h | h)
        · exact hA.mp h
        · exact absurd h hB
        · exact absurd h hC
      · intro h
        exact Or.inl (hA.mpr h)
  have hcol2 : SlotSS03.column_matches board 2 s = [(r2, 2)] := by
    unfold SlotSS03.column_matches
    rw [hh2, range_filter_unique 5 r2 _ hr2]
    · rfl
    · intro r hr
      have hA := h2 r hr
      have hB := hg 2 (by decide) r (by rw [hh2]; exact hr)
      have hC := hw 2 (by decide) (by decide) r hr
      simp only [decide_eq_true_eq]
      constructor
      · rintro (h | h | h)
        · exact hA.mp h
        · exact absurd h hB
        · exact absurd h hC
      · intro h
        exact Or.inl (hA.mpr h)
  have hcol3 : SlotSS03.column_matches board 3 s = [] := by
    unfold SlotSS03.column_matches
    rw [hh3, range_filter_none 5]
    · rfl
    · intro r hr
      have hA := h3 r hr
      have hB := hg 3 (by decide) r (by rw [hh3]; exact hr)
      have hC := hw 3 (by decide) (by decide) r hr
      simp only [decide_eq_false_iff_not]
      rintro (h | h | h)
      · exact hA h
      · exact hB h
      · exact hC h
  have hpay : SlotSS03.pay_table.lookup s 3 = some (SlotSS03.pay s 3) ∧
      SlotSS03.pay 5 3 = 3 := by
    obtain ⟨hs1, hs2⟩ := hs
    interval_cases s <;> decide
  refine ⟨?_, ?_, hpay.1, hpay.2, ?_, ?_⟩
  · rw [(SlotSS03.find_matches_find board).1 s]
    unfold SlotSS03.chain
    rw [hseed, hcol1, hcol2, hcol3]
    simp
  · rw [SlotSS03.get_score_eq_sum]
    · have hrun : SlotSS03.run_length [(r0, 0), (r1, 1), (r2, 2)] = 3 := by
        rw [SlotSS03.run_length_unique]
        refine ⟨by decide, ?_, fun _ => ?_⟩
        · intro c hc
          interval_cases c <;> simp [SlotSS03.column_count]
        · simp [SlotSS03.column_count]
      simp only [List.map_cons, List.map_nil, List.sum_cons, List.sum_nil, add_zero]
      unfold SlotSS03.symbol_score
      rw [hrun]
      simp [SlotSS03.column_count, List.range_succ]
    · intro e he p hp
      simp only [List.mem_singleton] at he
      subst he
      simp only [List.mem_cons, List.mem_singleton, List.not_mem_nil, or_false] at hp
      rcases hp with rfl | rfl | rfl <;> simp
  · intro r c
    rw [SlotSS03.golden_eliminate_flat]
    obtain ⟨_, hcell⟩ := Board.fold_put_cell
      (fun p => if 100 ≤ board.cell p.1 p.2 ∧ board.cell p.1 p.2 < 200 then SlotSS03.WILD
        else -1)
      (([(s, [(r0, 0), (r1, 1), (r2, 2)])] : MatchPatterns).flatMap (fun e => e.2)) board
    rw [hcell]
    have hflat : (([(s, [(r0, 0), (r1, 1), (r2, 2)])] : MatchPatterns).flatMap
        (fun e => e.2)) = [(r0, 0), (r1, 1), (r2, 2)] := by
      simp
    rw [hflat]
    by_cases hmem : (r, c) ∈ [(r0, 0), (r1, 1), (r2, 2)]
    · have hval : board.cell r c = s ∧ r < 5 ∧ c < 5 := by
        simp only [List.mem_cons, List.mem_singleton, List.not_mem_nil, or_false,
          Prod.mk.injEq] at hmem
        rcases hmem with ⟨rfl, rfl⟩ | ⟨rfl, rfl⟩ | ⟨rfl, rfl⟩
        · exact ⟨(h0 r hr0).mpr rfl, by omega, by decide⟩
        · exact ⟨(h1 r hr1).mpr rfl, hr1, by decide⟩
        · exact ⟨(h2 r hr2).mpr rfl, hr2, by decide⟩
      have hin : r < board.length ∧ c < (board.getD r []).length := by
        rw [hshape.1, Board.row_length_of_shape hshape r hval.2.1]
        exact hval.2
      have hng : ¬ (100 ≤ board.cell r c ∧ board.cell r c < 200) := by
        rw [hval.1]; omega
      rw [if_pos ⟨hmem, hin⟩, if_pos hmem]
      simp only [if_neg hng]
    · rw [if_neg (fun h => hmem h.1), if_neg hmem]
  · rw [SlotSS03.golden_eliminate_flat]
    exact (Board.fold_put_cell _ _ board).1

/-- Symbol 5 on the single-win board: three positions, score 3, three cells cleared. -/
theorem ss03_single_win_witness :
    (SlotSS03.find_matches single_win_board).1.find 5 = some [(1, 0), (0, 1), (2, 2)] ∧
    SlotSS03.get_score [(5, [(1, 0), (0, 1), (2, 2)])] = SlotSS03.pay 5 3 * 1 ∧
    SlotSS03.pay_table.lookup 5 3 = some (SlotSS03.pay 5 3) ∧
    SlotSS03.pay 5 3 = 3 ∧
    (∀ r c : Nat,
      (SlotSS03.eliminate_matches single_win_board [(5, [(1, 0), (0, 1), (2, 2)])]).cell r c =
        if (r, c) ∈ [(1, 0), (0, 1), (2, 2)] then -1 else single_win_board.cell r c) ∧
    (SlotSS03.eliminate_matches single_win_board [(5, [(1, 0), (0, 1), (2, 2)])]).dims =
      single_win_board.dims :=
  ss03_single_win single_win_board 5 1 0 2 (by decide) (by decide) (by decide) (by decide)
    (by decide) (by decide) (by decide) (by decide) (by decide) (by decide) (by decide)


/-! ## The analysis harness -/

theorem greedy_match_le (previous current : List Int) :
    greedy_match previous current ≤ current.length := by
  induction current generalizing previous with
  | nil => simp [greedy_match]
  | cons x rest ih =>
    unfold greedy_match
    cases previous.dropWhile (fun y => decide (y ≠ x)) with
    | nil => simp
    | cons y later =>
      have := ih later
      simp only [List.length_cons]
      omega

theorem sublist_after_skip (x : Int) (skipped later rest : List Int)
    (h : ∀ a ∈ skipped, a ≠ x) :
    (x :: rest).Sublist (skipped ++ x :: later) ↔ rest.Sublist later := by
  induction skipped with
  | nil => simp
  | cons a t ih =>
    have ha : a ≠ x := h a (List.mem_cons_self _ _)
    have ht : ∀ b ∈ t, b ≠ x := fun b hb => h b (List.mem_cons_of_mem _ hb)
    rw [← ih ht]
    constructor
    · intro hs
      cases hs with
      | cons _ h1 => exact h1
      | cons₂ _ h1 => exact absurd rfl ha
    · intro hs
      exact List.Sublist.cons a hs

/-- The subsequence scan matches the whole prefix exactly when the prefix is a subsequence
of the previous column. -/
theorem greedy_match_eq_length_iff (previous current : List Int) :
    greedy_match previous current = current.length ↔ current.Sublist previous := by
  induction current generalizing previous with
  | nil => simp [greedy_match]
  | cons x rest ih =>
    unfold greedy_match
    have hsplit := List.takeWhile_append_dropWhile (fun y => decide (y ≠ x)) previous
    cases hd : previous.dropWhile (fun y => decide (y ≠ x)) with
    | nil =>
      simp only [List.length_cons]
      constructor
      · intro h; omega
      · intro hs
        have hx : x ∈ previous := hs.subset (List.mem_cons_self _ _)
        have hall : ∀ y ∈ previous, decide (y ≠ x) = true := by
          have := List.dropWhile_eq_nil_iff.mp hd
          exact this
        have := hall x hx
        simp at this
    | cons y later =>
      have hy : y = x := by
        have := List.head_dropWhile_not (fun y => decide (y ≠ x)) previous
          (by rw [hd]; simp)
        simp only [hd, List.head_cons] at this
        simpa using this
      subst hy
      have hskip : ∀ a ∈ previous.takeWhile (fun z => decide (z ≠ y)), a ≠ y := by
        intro a ha
        have := List.mem_takeWhile_imp ha
        simpa using this
      rw [hd] at hsplit
      simp only [List.length_cons]
      have hiff := sublist_after_skip y _ later rest hskip
      rw [hsplit] at hiff
      rw [hiff, ← ih later]
      omega

theorem descending_succ (n : Nat) :
    (List.range (n + 1)).reverse.map (fun k => k + 1) =
      (n + 1) :: (List.range n).reverse.map (fun k => k + 1) := by
  rw [List.range_succ, List.reverse_append]
  rfl

/-- A search from `n` down to 1 that fails above `m` and succeeds at `m` returns `m`; with
`m = 0` it finds nothing. -/
theorem find_descending (n m : Nat) (p : Nat → Bool) (hm : m ≤ n)
    (habove : ∀ L, m < L → L ≤ n → p L = false) (hat : 0 < m → p m = true) :
    (((List.range n).reverse.map (fun k => k + 1)).find? p).getD 0 = m := by
  induction n with
  | zero =>
    have : m = 0 := by omega
    subst this
    rfl
  | succ n ih =>
    rw [descending_succ, List.find?_cons]
    by_cases h : m = n + 1
    · subst h
      rw [hat (by omega)]
      rfl
    · rw [habove (n + 1) (by omega) (le_refl _)]
      exact ih (by omega) (fun L h1 h2 => habove L h1 (by omega))

/-- The overlap of a column with the column it came from: when the current column is the
survivors of the previous one, in order, followed by anything, `findBoardOverlap` returns
the number of survivors.  A symbol survives when no pattern of it lies in the column. -/
theorem findBoardOverlap_survivors (previousBoard currentBoard : List Int)
    (eliminationPatterns : MatchPatterns) (currentCol : Nat) (fresh : List Int)
    (hcur : currentBoard =
      previousBoard.filter
        (fun x => !ends_with_eliminated eliminationPatterns currentCol x) ++ fresh) :
    findBoardOverlap previousBoard currentBoard eliminationPatterns currentCol =
      (previousBoard.filter
        (fun x => !ends_with_eliminated eliminationPatterns currentCol x)).length := by
  generalize hS : previousBoard.filter
    (fun x => !ends_with_eliminated eliminationPatterns currentCol x) = S at hcur ⊢
  have hlen : currentBoard.length = S.length + fresh.length := by
    rw [hcur, List.length_append]
  have hSmem : ∀ x ∈ S, ends_with_eliminated eliminationPatterns currentCol x = false := by
    intro x hx
    rw [← hS] at hx
    have := (List.mem_filter.mp hx).2
    simpa using this
  have hSsub : S.Sublist previousBoard := by
    rw [← hS]
    exact List.filter_sublist _
  have hSfix : S.filter (fun x => !ends_with_eliminated eliminationPatterns currentCol x) =
      S := by
    rw [List.filter_eq_self]
    intro x hx
    rw [hSmem x hx]
    rfl
  unfold findBoardOverlap
  apply find_descending
  · omega
  · intro L h1 h2
    by_contra hp
    have hp2 : (!ends_with_eliminated eliminationPatterns currentCol
          (currentBoard.getD (L - 1) 0) &&
        decide (greedy_match previousBoard (currentBoard.take L) = L)) = true := by
      simpa using hp
    rw [Bool.and_eq_true] at hp2
    obtain ⟨hlast, hgreedy⟩ := hp2
    have hgreedy2 : greedy_match previousBoard (currentBoard.take L) = L := by
      simpa using hgreedy
    have htake : currentBoard.take L = S ++ fresh.take (L - S.length) := by
      rw [hcur, List.take_append_eq_append_take, List.take_of_length_le (by omega)]
    have htl : (currentBoard.take L).length = L := by
      rw [List.length_take]; omega
    have hsub : (currentBoard.take L).Sublist previousBoard := by
      rw [← greedy_match_eq_length_iff, htl]
      exact hgreedy2
    have hfsub := hsub.filter
      (fun x => !ends_with_eliminated eliminationPatterns currentCol x)
    rw [hS, htake, List.filter_append, hSfix] at hfsub
    have hle := hfsub.length_le
    rw [List.length_append] at hle
    have hx : currentBoard.getD (L - 1) 0 ∈ fresh.take (L - S.length) := by
      have hget : (fresh.take (L - S.length))[L - 1 - S.length]? =
          some (currentBoard.getD (L - 1) 0) := by
        rw [List.getD_eq_getElem?_getD, hcur, List.getElem?_append_right (by omega),
          List.getElem?_take_of_lt (by omega)]
        have hlt : L - 1 - S.length < fresh.length := by omega
        rw [List.getElem?_eq_getElem hlt]
        rfl
      exact List.getElem?_mem hget
    have hx2 : currentBoard.getD (L - 1) 0 ∈ (fresh.take (L - S.length)).filter
        (fun x => !ends_with_eliminated eliminationPatterns currentCol x) :=
      List.mem_filter.mpr ⟨hx, hlast⟩
    have hpos := List.length_pos_of_mem hx2
    omega
  · intro hpos
    have htake : currentBoard.take S.length = S := by
      rw [hcur, List.take_left]
    have hlast : currentBoard.getD (S.length - 1) 0 ∈ S := by
      have hget : S[S.length - 1]? = some (currentBoard.getD (S.length - 1) 0) := by
        rw [List.getD_eq_getElem?_getD, hcur, List.getElem?_append_left (by omega)]
        have hlt : S.length - 1 < S.length := by omega
        rw [List.getElem?_eq_getElem hlt]
        rfl
      exact List.getElem?_mem hget
    rw [hSmem _ hlast, htake, (greedy_match_eq_length_iff previousBoard S).mpr hSsub]
    simp


/-! ## Variant A gravity -/

theorem SlotSS02.values_length_le (board : Board) (c : Nat) :
    (SlotSS02.column_values board c).length ≤ 5 := by
  unfold SlotSS02.column_values
  have := List.length_filter_le (fun x : Int => decide (x ≠ -1))
    ((List.range 5).map (fun row => board.cell row c))
  simpa using this

theorem SlotSS02.non_empty_values (board : Board) (col : Nat) :
    (List.range SlotSS02.board_height).foldl
      (fun acc row => if board.cell row col ≠ -1 then acc ++ [board.cell row col] else acc) []
      = SlotSS02.column_values board col := by
  rw [foldl_append_filter (fun row => board.cell row col ≠ -1) (fun row => board.cell row col)]
  unfold SlotSS02.column_values
  rw [List.filter_map, List.nil_append]
  rfl

/-- One column pass of Variant A gravity on a 5x6 board: the column is settled, every other
cell and the dimensions are kept. -/
theorem SlotSS02.gravity_column_cells (b : Board) (hb : b.hasShape 5 6) (col : Nat)
    (hcol : col < 6) :
    (SlotSS02.gravity_column b col).dims = b.dims ∧
    ∀ r c, (SlotSS02.gravity_column b col).cell r c =
      if c = col ∧ r < 5 then SlotSS02.settled_cell b col r else b.cell r c := by
  have hn := SlotSS02.values_length_le b col
  unfold SlotSS02.gravity_column
  simp only [SlotSS02.non_empty_values]
  simp only [SlotSS02.board_height]
  have e1 : (List.range 5).foldl (fun r row => r.put row col (-1)) b
      = ((List.range 5).map (fun row => (row, col))).foldl
          (fun acc p => acc.put p.1 p.2 ((fun _ => (-1 : Int)) p)) b := by
    rw [List.foldl_map]
  rw [e1]
  obtain ⟨d1, c1⟩ := Board.fold_put_cell (fun _ => (-1 : Int))
    ((List.range 5).map (fun row => (row, col))) b
  generalize ((List.range 5).map (fun row => (row, col))).foldl
    (fun acc p => acc.put p.1 p.2 ((fun _ => (-1 : Int)) p)) b = B1 at d1 c1 ⊢
  have e2 : (List.range (SlotSS02.column_values b col).length).foldl
      (fun r i => r.put (5 - (SlotSS02.column_values b col).length + i)
        col ((SlotSS02.column_values b col).getD i 0)) B1
      = ((List.range (SlotSS02.column_values b col).length).map
          (fun i => (5 - (SlotSS02.column_values b col).length + i,
            col))).foldl
          (fun acc p => acc.put p.1 p.2
            ((fun q : Nat × Nat => (SlotSS02.column_values b col).getD
              (q.1 - (5 - (SlotSS02.column_values b col).length)) 0)
              p)) B1 := by
    rw [List.foldl_map]
    congr 1
    funext r i
    simp only [Nat.add_sub_cancel_left]
  rw [e2]
  obtain ⟨d2, c2⟩ := Board.fold_put_cell
    (fun q : Nat × Nat => (SlotSS02.column_values b col).getD
      (q.1 - (5 - (SlotSS02.column_values b col).length)) 0)
    ((List.range (SlotSS02.column_values b col).length).map
      (fun i => (5 - (SlotSS02.column_values b col).length + i, col)))
    B1
  refine ⟨d2.trans d1, ?_⟩
  intro r c
  rw [c2, c1, Board.length_of_dims d1, Board.row_length_of_dims d1]
  have hlen : b.length = 5 := hb.1
  have hrow : r < 5 → (b.getD r []).length = 6 := Board.row_length_of_shape hb r
  have m1 : (r, c) ∈ (List.range 5).map (fun row => (row, col)) ↔
      r < 5 ∧ c = col := by
    simp only [List.mem_map, List.mem_range, Prod.mk.injEq]
    constructor
    · rintro ⟨a, ha, rfl, rfl⟩; exact ⟨ha, rfl⟩
    · rintro ⟨ha, hc⟩; exact ⟨r, ha, rfl, hc.symm⟩
  have m2 : (r, c) ∈ (List.range (SlotSS02.column_values b col).length).map
      (fun i => (5 - (SlotSS02.column_values b col).length + i, col)) ↔
      (5 - (SlotSS02.column_values b col).length ≤ r ∧ r < 5 ∧ c = col) := by
    simp only [List.mem_map, List.mem_range, Prod.mk.injEq]
    constructor
    · rintro ⟨a, ha, rfl, rfl⟩; exact ⟨by omega, by omega, rfl⟩
    · rintro ⟨ha, hb2, hc⟩
      exact ⟨r - (5 - (SlotSS02.column_values b col).length), by omega, by omega, hc.symm⟩
  simp only [m1, m2, hlen]
  unfold SlotSS02.settled_cell
  generalize SlotSS02.column_values b col = v at hn m2 ⊢
  generalize hw : (b.getD r []).length = w at hrow ⊢
  split_ifs <;> first | rfl | (exfalso; omega)

theorem SlotSS02.values_congr (b1 b2 : Board) (c : Nat)
    (h : ∀ row, row < 5 → b1.cell row c = b2.cell row c) :
    SlotSS02.column_values b1 c = SlotSS02.column_values b2 c := by
  unfold SlotSS02.column_values
  congr 1
  apply List.map_congr_left
  intro row hrow
  exact h row (List.mem_range.mp hrow)

theorem SlotSS02.settled_congr (b1 b2 : Board) (c : Nat)
    (h : ∀ row, row < 5 → b1.cell row c = b2.cell row c) (r : Nat) :
    SlotSS02.settled_cell b1 c r = SlotSS02.settled_cell b2 c r := by
  unfold SlotSS02.settled_cell
  rw [SlotSS02.values_congr b1 b2 c h]

theorem SlotSS02.gravity_columns_cell (b : Board) (hb : b.hasShape 5 6) (k : Nat) (hk : k ≤ 6) :
    ((List.range k).foldl SlotSS02.gravity_column b).dims = b.dims ∧
    ∀ r c, ((List.range k).foldl SlotSS02.gravity_column b).cell r c =
      if c < k ∧ r < 5 then SlotSS02.settled_cell b c r else b.cell r c := by
  induction k with
  | zero => simp
  | succ k ih =>
    obtain ⟨d1, c1⟩ := ih (by omega)
    rw [List.range_succ, List.foldl_append, List.foldl_cons, List.foldl_nil]
    have hshape := Board.hasShape_of_dims d1 5 6 hb
    obtain ⟨d2, c2⟩ := SlotSS02.gravity_column_cells _ hshape k (by omega)
    refine ⟨d2.trans d1, ?_⟩
    intro r c
    rw [c2, c1]
    have hsame : ∀ row, row < 5 →
        ((List.range k).foldl SlotSS02.gravity_column b).cell row k = b.cell row k := by
      intro row _
      rw [c1, if_neg (by omega)]
    rw [SlotSS02.settled_congr _ b k hsame]
    by_cases h1 : c = k ∧ r < 5
    · obtain ⟨rfl, hr⟩ := h1
      rw [if_pos ⟨rfl, hr⟩, if_pos ⟨by omega, hr⟩]
    · rw [if_neg h1]
      by_cases h2 : c < k ∧ r < 5
      · rw [if_pos h2, if_pos ⟨by omega, h2.2⟩]
      · rw [if_neg h2, if_neg (by omega)]

/-- Variant A gravity on a 5x6 board: the dimensions are kept and every cell is the settled
cell of its column. -/
theorem SlotSS02.gravity_cells (b : Board) (hb : b.hasShape 5 6) :
    (SlotSS02.apply_gravity b).dims = b.dims ∧
    ∀ r c, r < 5 → c < 6 →
      (SlotSS02.apply_gravity b).cell r c = SlotSS02.settled_cell b c r := by
  obtain ⟨d, hc⟩ := SlotSS02.gravity_columns_cell b hb 6 (le_refl _)
  refine ⟨d, ?_⟩
  intro r c hr hcol
  have := hc r c
  rw [if_pos ⟨hcol, hr⟩] at this
  exact this


/-! ## Variant A: the patterns of one step, column by column -/

theorem MatchPatterns.assign_of_not_mem (m : MatchPatterns) (k : Int) (v : MatchPattern)
    (h : k ∉ m.keys) : m.assign k v = m ++ [(k, v)] := by
  induction m with
  | nil => rfl
  | cons e t ih =>
    obtain ⟨k2, v2⟩ := e
    simp only [MatchPatterns.keys, List.map_cons, List.mem_cons, not_or] at h
    unfold MatchPatterns.assign
    rw [if_neg (fun h2 => h.1 h2.symm)]
    rw [ih h.2]
    rfl

theorem SlotSS02.symbol_loop_explicit (board : Board) (syms : List Int) (hnd : syms.Nodup)
    (init : MatchPatterns × Bool) (hdis : ∀ s ∈ syms, s ∉ init.1.keys) :
    (syms.foldl
      (fun acc symbol =>
        let positions := SlotSS02.positions_of board symbol
        if SlotSS02.min_match_size ≤ positions.length then
          (acc.1.assign symbol positions, true) else acc) init).1 =
      init.1 ++ (syms.filter (fun s => decide
        (SlotSS02.min_match_size ≤ (SlotSS02.occurrences board s).length))).map
        (fun s => (s, SlotSS02.occurrences board s)) := by
  induction syms generalizing init with
  | nil => simp
  | cons a t ih =>
    rw [List.foldl_cons]
    have hat : a ∉ t := (List.nodup_cons.mp hnd).1
    have hndt : t.Nodup := (List.nodup_cons.mp hnd).2
    have ha : a ∉ init.1.keys := hdis a (List.mem_cons_self _ _)
    simp only [SlotSS02.positions_of_eq]
    by_cases hq : SlotSS02.min_match_size ≤ (SlotSS02.occurrences board a).length
    · rw [if_pos hq]
      have hkeys : ∀ s ∈ t,
          s ∉ (init.1.assign a (SlotSS02.occurrences board a), true).1.keys := by
        intro s hs
        simp only [MatchPatterns.assign_of_not_mem _ _ _ ha, MatchPatterns.keys,
          List.map_append, List.map_cons, List.map_nil, List.mem_append, List.mem_singleton,
          not_or]
        refine ⟨hdis s (List.mem_cons_of_mem _ hs), ?_⟩
        rintro rfl
        exact hat hs
      have := ih hndt (init.1.assign a (SlotSS02.occurrences board a), true) hkeys
      simp only [SlotSS02.positions_of_eq] at this
      rw [this, MatchPatterns.assign_of_not_mem _ _ _ ha, List.filter_cons]
      simp [hq]
    · rw [if_neg hq]
      have := ih hndt init (fun s hs => hdis s (List.mem_cons_of_mem _ hs))
      simp only [SlotSS02.positions_of_eq] at this
      rw [this, List.filter_cons]
      simp [hq]

/-- The map returned by the Variant A matcher: one entry per matched symbol, in the order of
the alphabet, holding all positions of the symbol. -/
theorem SlotSS02.patterns_eq (board : Board) :
    (SlotSS02.find_matches board).1 =
      (SlotSS02.matched_symbols board).map (fun s => (s, SlotSS02.occurrences board s)) := by
  unfold SlotSS02.find_matches SlotSS02.matched_symbols
  rw [SlotSS02.symbol_loop_explicit board SlotSS02.symbols (by decide) ([], false)
    (fun s _ => by simp [MatchPatterns.keys])]
  rfl

theorem SlotSS02.matched_symbols_nodup (board : Board) :
    (SlotSS02.matched_symbols board).Nodup := by
  unfold SlotSS02.matched_symbols
  exact List.Nodup.filter _ (by decide)

theorem SlotSS02.matched_ne_empty (board : Board) : (-1 : Int) ∉
    SlotSS02.matched_symbols board := by
  unfold SlotSS02.matched_symbols
  intro h
  have := (List.mem_filter.mp h).1
  revert this
  decide

/-- A position is in some pattern of the step exactly when it is on the 5x6 grid and its
cell holds a matched symbol. -/
theorem SlotSS02.covers_iff (board : Board) (row col : Nat) :
    (SlotSS02.find_matches board).1.covers row col ↔
      row < 5 ∧ col < 6 ∧ board.cell row col ∈ SlotSS02.matched_symbols board := by
  rw [SlotSS02.patterns_eq]
  unfold MatchPatterns.covers
  simp only [List.mem_map, exists_exists_and_eq_and, SlotSS02.mem_occurrences]
  constructor
  · rintro ⟨s, hs, hr, hc, hcell⟩
    exact ⟨hr, hc, by rw [hcell]; exact hs⟩
  · rintro ⟨hr, hc, hm⟩
    exact ⟨board.cell row col, hm, hr, hc, rfl⟩

/-- The test `endsWithEliminatedSymbol` against the patterns of the step on `board`: the
symbol is matched and occurs in the column. -/
theorem SlotSS02.ends_with_eliminated_iff (board : Board) (col : Nat) (hcol : col < 6)
    (x : Int) :
    ends_with_eliminated (SlotSS02.find_matches board).1 col x = true ↔
      x ∈ SlotSS02.matched_symbols board ∧ ∃ r, r < 5 ∧ board.cell r col = x := by
  rw [SlotSS02.patterns_eq]
  unfold ends_with_eliminated
  simp only [List.any_eq_true, List.mem_map, decide_eq_true_eq, exists_exists_and_eq_and,
    Prod.exists, SlotSS02.mem_occurrences]
  constructor
  · rintro ⟨s, hs, r, c, ⟨hr, _, hcell⟩, hc, rfl⟩
    subst hc
    exact ⟨hs, r, hr, hcell⟩
  · rintro ⟨hx, r, hr, hcell⟩
    exact ⟨x, hx, r, col, ⟨hr, hcol, hcell⟩, rfl, rfl⟩


theorem SlotSS02.eliminated_cell (board : Board) (hb : board.hasShape 5 6) :
    (SlotBase.eliminate_matches board (SlotSS02.find_matches board).1).dims = board.dims ∧
    ∀ r c, r < 5 → c < 6 →
      (SlotBase.eliminate_matches board (SlotSS02.find_matches board).1).cell r c =
        if board.cell r c ∈ SlotSS02.matched_symbols board then -1 else board.cell r c := by
  rw [SlotBase.base_eliminate_flat]
  obtain ⟨hd, hcell⟩ := Board.fold_put_cell (fun _ => (-1 : Int))
    ((SlotSS02.find_matches board).1.flatMap (fun e => e.2)) board
  refine ⟨hd, ?_⟩
  intro r c hr hc
  rw [hcell]
  have hcond : ((r, c) ∈ (SlotSS02.find_matches board).1.flatMap (fun e => e.2) ∧
      r < board.length ∧ c < (board.getD r []).length) ↔
      board.cell r c ∈ SlotSS02.matched_symbols board := by
    rw [MatchPatterns.mem_flatMap_covers, SlotSS02.covers_iff, hb.1,
      Board.row_length_of_shape hb r hr]
    exact ⟨fun h => h.1.2.2, fun h => ⟨⟨hr, hc, h⟩, hr, hc⟩⟩
  by_cases hm : board.cell r c ∈ SlotSS02.matched_symbols board
  · rw [if_pos (hcond.mpr hm), if_pos hm]
  · rw [if_neg (fun h => hm (hcond.mp h)), if_neg hm]

theorem filter_map_mask (l : List Int) (M : Int → Prop) [DecidablePred M]
    (h : ∀ x ∈ l, x ≠ -1) :
    (l.map (fun x => if M x then -1 else x)).filter (fun x => decide (x ≠ -1)) =
      l.filter (fun x => decide (¬ M x)) := by
  induction l with
  | nil => rfl
  | cons a t ih =>
    have ha : a ≠ -1 := h a (List.mem_cons_self _ _)
    have iht := ih (fun x hx => h x (List.mem_cons_of_mem _ hx))
    rw [List.map_cons, List.filter_cons, List.filter_cons, iht]
    by_cases hm : M a
    · simp [hm]
    · simp [hm, ha]

/-- On a 5x6 board without empty cell, the values that gravity moves in column `c` after
the elimination are the cells of the column that hold no matched symbol, top to bottom. -/
theorem SlotSS02.survivors_eq (board : Board) (hb : board.hasShape 5 6)
    (hfull : ∀ r, r < 5 → ∀ c, c < 6 → board.cell r c ≠ -1) (c : Nat) (hc : c < 6) :
    SlotSS02.column_values
        (SlotBase.eliminate_matches board (SlotSS02.find_matches board).1) c =
      ((List.range 5).map (fun r => board.cell r c)).filter
        (fun x => decide (¬ x ∈ SlotSS02.matched_symbols board)) := by
  unfold SlotSS02.column_values
  rw [← filter_map_mask _ (fun x => x ∈ SlotSS02.matched_symbols board)]
  · congr 1
    rw [List.map_map]
    apply List.map_congr_left
    intro r hr
    exact (SlotSS02.eliminated_cell board hb).2 r c (List.mem_range.mp hr) hc
  · intro x hx
    obtain ⟨r, hr, rfl⟩ := List.mem_map.mp hx
    exact hfull r (List.mem_range.mp hr) c hc

theorem column_bottom_up_shape (board : Board) (hb : board.hasShape 5 6) (c : Nat)
    (hc : c < 6) :
    column_bottom_up board c = ((List.range 5).map (fun r => board.cell r c)).reverse := by
  unfold column_bottom_up
  rw [foldl_append_filter (fun row => c < (board.getD row []).length)
    (fun row => board.cell row c), List.nil_append, hb.1]
  have hall : (List.range 5).reverse.filter
      (fun row => decide (c < (board.getD row []).length)) = (List.range 5).reverse := by
    rw [List.filter_eq_self]
    intro row hrow
    have hr : row < 5 := List.mem_range.mp (List.mem_reverse.mp hrow)
    rw [Board.row_length_of_shape hb row hr]
    simpa using hc
  rw [hall, List.map_reverse]

theorem map_getD_range (v : List Int) :
    (List.range v.length).map (fun i => v.getD i 0) = v := by
  apply List.ext_getElem
  · simp
  · intro n h1 h2
    rw [List.getElem_map, List.getElem_range]
    exact List.getD_eq_getElem v 0 h2

/-- The column of the next board in a cascade, read bottom-up: the survivors of the column,
in their order from the bottom, followed by the freshly drawn cells. -/
theorem SlotSS02.next_column (board next : Board) (hb : board.hasShape 5 6)
    (hn : next.hasShape 5 6)
    (hfull : ∀ r, r < 5 → ∀ c, c < 6 → board.cell r c ≠ -1)
    (hcascade : cascade_match
      (SlotSS02.apply_gravity
        (SlotBase.eliminate_matches board (SlotSS02.find_matches board).1)) next = true)
    (c : Nat) (hc : c < 6) :
    column_bottom_up next c =
      (column_bottom_up board c).filter
          (fun x => !ends_with_eliminated (SlotSS02.find_matches board).1 c x) ++
        ((List.range (SlotSS02.eliminated_in_column board c)).map
          (fun r => next.cell r c)).reverse ∧
    ((column_bottom_up board c).filter
        (fun x => !ends_with_eliminated (SlotSS02.find_matches board).1 c x)).length +
      SlotSS02.eliminated_in_column board c = 5 := by
  obtain ⟨hde, _⟩ := SlotSS02.eliminated_cell board hb
  have hes : (SlotBase.eliminate_matches board (SlotSS02.find_matches board).1).hasShape 5 6 :=
    Board.hasShape_of_dims hde 5 6 hb
  obtain ⟨hdf, hfc⟩ := SlotSS02.gravity_cells _ hes
  have hfs := Board.hasShape_of_dims hdf 5 6 hes
  have hv := SlotSS02.survivors_eq board hb hfull c hc
  have hagree := (cascade_match_iff _ _).mp hcascade
  generalize hvdef : SlotSS02.column_values
    (SlotBase.eliminate_matches board (SlotSS02.find_matches board).1) c = v at hv
  have hvlen : v.length ≤ 5 := by
    rw [← hvdef]; exact SlotSS02.values_length_le _ c
  have hvne : ∀ x ∈ v, x ≠ -1 := by
    intro x hx
    rw [← hvdef] at hx
    unfold SlotSS02.column_values at hx
    simpa using (List.mem_filter.mp hx).2
  -- the survivors, as the overlap test sees them
  have hsurv : (column_bottom_up board c).filter
      (fun x => !ends_with_eliminated (SlotSS02.find_matches board).1 c x) = v.reverse := by
    have h1 : ((List.range 5).map (fun r => board.cell r c)).filter
        (fun x => !ends_with_eliminated (SlotSS02.find_matches board).1 c x) =
        ((List.range 5).map (fun r => board.cell r c)).filter
          (fun x => decide (¬ x ∈ SlotSS02.matched_symbols board)) := by
      apply List.filter_congr
      intro x hx
      obtain ⟨r, hr, rfl⟩ := List.mem_map.mp hx
      have hiff := SlotSS02.ends_with_eliminated_iff board c hc (board.cell r c)
      by_cases hm : board.cell r c ∈ SlotSS02.matched_symbols board
      · have : ends_with_eliminated (SlotSS02.find_matches board).1 c (board.cell r c) =
            true := hiff.mpr ⟨hm, r, List.mem_range.mp hr, rfl⟩
        rw [this, decide_eq_false (not_not.mpr hm)]
        rfl
      · have : ends_with_eliminated (SlotSS02.find_matches board).1 c (board.cell r c) =
            false := by
          cases he : ends_with_eliminated (SlotSS02.find_matches board).1 c (board.cell r c)
          · rfl
          · exact absurd (hiff.mp he).1 hm
        rw [this, decide_eq_true hm]
        rfl
    rw [column_bottom_up_shape board hb c hc, List.filter_reverse, h1, ← hv]
  -- the count of eliminated cells
  have hcount : v.length + SlotSS02.eliminated_in_column board c = 5 := by
    unfold SlotSS02.eliminated_in_column
    rw [hv, List.filter_map, List.length_map]
    have := List.length_eq_length_filter_add
      (fun r => decide (board.cell r c ∈ SlotSS02.matched_symbols board)) (l := List.range 5)
    simp only [List.length_range] at this
    have hcongr : (List.range 5).filter
        ((fun x => decide (¬ x ∈ SlotSS02.matched_symbols board)) ∘ fun r => board.cell r c) =
        (List.range 5).filter
          (fun r => !decide (board.cell r c ∈ SlotSS02.matched_symbols board)) := by
      apply List.filter_congr
      intro r _
      simp
    rw [hcongr]
    omega
  have hk : SlotSS02.eliminated_in_column board c = 5 - v.length := by omega
  have hsplit : List.range 5 = List.range (5 - v.length) ++
      (List.range v.length).map (fun i => 5 - v.length + i) := by
    have h1 := List.range_add (5 - v.length) v.length
    have h2 : 5 - v.length + v.length = 5 := by omega
    rw [h2] at h1
    exact h1
  have htop : ((List.range v.length).map (fun i => 5 - v.length + i)).map
      (fun r => next.cell r c) = v := by
    rw [List.map_map]
    have hpoint : ∀ i ∈ List.range v.length,
        ((fun r => next.cell r c) ∘ fun i => 5 - v.length + i) i = v.getD i 0 := by
      intro i hi
      have hi2 : i < v.length := List.mem_range.mp hi
      have hr : 5 - v.length + i < 5 := by omega
      have hcell := hfc (5 - v.length + i) c hr hc
      unfold SlotSS02.settled_cell at hcell
      rw [hvdef] at hcell
      have hnot : ¬ 5 - v.length + i < 5 - v.length := by omega
      rw [if_neg hnot, Nat.add_sub_cancel_left] at hcell
      have hne : v.getD i 0 ≠ -1 := by
        apply hvne
        rw [List.getD_eq_getElem v 0 hi2]
        exact List.getElem_mem _
      have hlt1 : 5 - v.length + i < (SlotSS02.apply_gravity
          (SlotBase.eliminate_matches board (SlotSS02.find_matches board).1)).length := by
        rw [hfs.1]; exact hr
      have hlt2 : c < ((SlotSS02.apply_gravity
          (SlotBase.eliminate_matches board (SlotSS02.find_matches board).1)).getD
            (5 - v.length + i) []).length := by
        rw [Board.row_length_of_shape hfs _ hr]; exact hc
      have := hagree (5 - v.length + i) c hlt1 hlt2 (by rw [hcell]; exact hne)
      simp only [Function.comp]
      rw [← this, hcell]
    rw [List.map_congr_left hpoint]
    exact map_getD_range v
  have hmain : (List.range 5).map (fun r => next.cell r c) =
      (List.range (5 - v.length)).map (fun r => next.cell r c) ++ v := by
    rw [hsplit, List.map_append, htop]
  constructor
  · rw [hsurv, column_bottom_up_shape next hn c hc, hmain, List.reverse_append, hk]
  · rw [hsurv, List.length_reverse]
    exact hcount


/-! ## Counting the positions of a step by column -/

theorem filter_or_disjoint {α : Type} (l : List α) (p q : α → Bool)
    (h : ∀ a ∈ l, ¬ (p a = true ∧ q a = true)) :
    (l.filter (fun a => p a || q a)).length = (l.filter p).length + (l.filter q).length := by
  induction l with
  | nil => rfl
  | cons a t ih =>
    have iht := ih (fun x hx => h x (List.mem_cons_of_mem _ hx))
    have ha := h a (List.mem_cons_self _ _)
    simp only [List.filter_cons]
    cases hp : p a <;> cases hq : q a
    · simp only [Bool.or_self, Bool.false_eq_true, if_false]; exact iht
    · simp only [Bool.or_true, Bool.false_or, if_true, Bool.false_eq_true, if_false,
        List.length_cons]
      omega
    · simp only [Bool.or_false, Bool.true_or, if_true, Bool.false_eq_true, if_false,
        List.length_cons]
      omega
    · exact absurd ⟨hp, hq⟩ ha

/-- Counting the elements of a list by the value of a key, over distinct key values. -/
theorem partition_count {α β : Type} [DecidableEq β] (l : List α) (f : α → β) (ks : List β)
    (hnd : ks.Nodup) :
    (ks.map (fun s => (l.filter (fun a => decide (f a = s))).length)).sum =
      (l.filter (fun a => decide (f a ∈ ks))).length := by
  induction ks with
  | nil => simp
  | cons k t ih =>
    have hk : k ∉ t := (List.nodup_cons.mp hnd).1
    rw [List.map_cons, List.sum_cons, ih (List.nodup_cons.mp hnd).2]
    rw [← filter_or_disjoint l (fun a => decide (f a = k)) (fun a => decide (f a ∈ t))]
    · congr 1
      apply List.filter_congr
      intro a _
      simp only [List.mem_cons, Bool.decide_or]
    · intro a _ hboth
      simp only [decide_eq_true_eq] at hboth
      exact hk (hboth.1 ▸ hboth.2)

theorem foldl_add_length {α : Type} (f : α → Nat) (l : List α) (init : Nat) :
    l.foldl (fun total a => total + f a) init = init + (l.map f).sum := by
  induction l generalizing init with
  | nil => simp
  | cons a t ih => rw [List.foldl_cons, ih]; simp [Nat.add_assoc]

theorem total_eliminated_symbols_eq (patterns : List MatchPatterns) :
    total_eliminated_symbols patterns =
      (patterns.map (fun step_patterns => (step_patterns.map (fun e => e.2.length)).sum)).sum := by
  unfold total_eliminated_symbols
  have hinner : ∀ (total : Nat) (step_patterns : MatchPatterns),
      step_patterns.foldl (fun total e => total + e.2.length) total =
        total + (step_patterns.map (fun e => e.2.length)).sum :=
    fun total step_patterns => foldl_add_length (fun e => e.2.length) step_patterns total
  simp only [hinner]
  rw [foldl_add_length, Nat.zero_add]

/-- The positions of the patterns of one step, counted column by column. -/
theorem SlotSS02.step_positions_by_column (board : Board) :
    ((SlotSS02.find_matches board).1.map (fun e => e.2.length)).sum =
      ((List.range 6).map (SlotSS02.eliminated_in_column board)).sum := by
  rw [SlotSS02.patterns_eq, List.map_map]
  have h1 : ((SlotSS02.matched_symbols board).map
      ((fun e : Int × MatchPattern => e.2.length) ∘
        fun s => (s, SlotSS02.occurrences board s))).sum =
      ((SlotSS02.matched_symbols board).map (fun s => ((all_positions 5 6).filter
        (fun p => decide (board.cell p.1 p.2 = s))).length)).sum := rfl
  rw [h1, partition_count (all_positions 5 6) (fun p => board.cell p.1 p.2)
    (SlotSS02.matched_symbols board) (SlotSS02.matched_symbols_nodup board)]
  have h2 := partition_count
    ((all_positions 5 6).filter
      (fun p => decide (board.cell p.1 p.2 ∈ SlotSS02.matched_symbols board)))
    (fun p : Nat × Nat => p.2) (List.range 6) (List.nodup_range 6)
  have h3 : ((all_positions 5 6).filter
      (fun p => decide (board.cell p.1 p.2 ∈ SlotSS02.matched_symbols board))).filter
      (fun p => decide (p.2 ∈ List.range 6)) =
      (all_positions 5 6).filter
        (fun p => decide (board.cell p.1 p.2 ∈ SlotSS02.matched_symbols board)) := by
    rw [List.filter_eq_self]
    intro p hp
    have := ((mem_all_positions 5 6 p).mp (List.mem_filter.mp hp).1).2
    simpa using this
  rw [h3] at h2
  rw [← h2]
  congr 1
  apply List.map_congr_left
  intro c hc
  have hc6 : c < 6 := List.mem_range.mp hc
  unfold SlotSS02.eliminated_in_column
  rw [List.filter_filter]
  have h4 := all_positions_filter_col 5 6 c hc6
    (fun r => decide (board.cell r c ∈ SlotSS02.matched_symbols board))
  have h5 : (all_positions 5 6).filter (fun p => decide (p.2 = c) &&
      decide (board.cell p.1 p.2 ∈ SlotSS02.matched_symbols board)) =
      (all_positions 5 6).filter (fun p => decide (p.2 = c) &&
        decide (board.cell p.1 c ∈ SlotSS02.matched_symbols board)) := by
    apply List.filter_congr
    intro p _
    by_cases hpc : p.2 = c
    · rw [hpc]
    · simp [hpc]
  rw [h5, h4, List.length_map]

theorem sum_map_comm {α β : Type} (l1 : List α) (l2 : List β) (g : α → β → Nat) :
    (l1.map (fun a => (l2.map (g a)).sum)).sum =
      (l2.map (fun b => (l1.map (fun a => g a b)).sum)).sum := by
  induction l1 with
  | nil => simp
  | cons a t ih =>
    simp only [List.map_cons, List.sum_cons]
    rw [ih, List.sum_map_add]


/-! ## The reels of a cascade -/

/-- Length of the reel of a column after the first `m` boards of a cascade: the five cells
of the first board, then for every step the number of cells that the step eliminated in the
column. -/
theorem final_reel_length (script : List Board) (elimination_data : List MatchPatterns)
    (c : Nat) (hc : c < 6)
    (hshape : ∀ i, i < script.length → (script.getD i []).hasShape 5 6)
    (hfull : ∀ i, i < script.length → ∀ r, r < 5 → ∀ k, k < 6 →
      (script.getD i []).cell r k ≠ -1)
    (hdata : ∀ i, i + 1 < script.length → i < elimination_data.length ∧
      elimination_data.getD i [] = (SlotSS02.find_matches (script.getD i [])).1)
    (hcascade : ∀ i, i + 1 < script.length →
      cascade_match (SlotSS02.engine.fallen script i) (script.getD (i + 1) []) = true)
    (m : Nat) (hm : m ≤ script.length) :
    ((List.range m).foldl
      (fun finalReel boardIdx =>
        let currentBoardColumn := column_bottom_up (script.getD boardIdx []) c
        if boardIdx = 0 then finalReel ++ currentBoardColumn
        else
          let previousBoardColumn := column_bottom_up (script.getD (boardIdx - 1) []) c
          let eliminationPatterns : MatchPatterns :=
            if boardIdx - 1 < elimination_data.length then
              elimination_data.getD (boardIdx - 1) []
            else []
          let maxOverlap :=
            findBoardOverlap previousBoardColumn currentBoardColumn eliminationPatterns c
          finalReel ++ currentBoardColumn.drop maxOverlap)
      []).length =
      if m = 0 then 0
      else 5 + ((List.range (m - 1)).map
        (fun i => SlotSS02.eliminated_in_column (script.getD i []) c)).sum := by
  induction m with
  | zero => rfl
  | succ m ih =>
    rw [List.range_succ, List.foldl_append, List.foldl_cons, List.foldl_nil]
    have ihm := ih (Nat.le_of_succ_le hm)
    have hnz : ¬ m + 1 = 0 := Nat.succ_ne_zero m
    rw [if_neg hnz, Nat.add_sub_cancel]
    by_cases h0 : m = 0
    · subst h0
      simp only [List.range_zero, List.foldl_nil, if_true, List.nil_append, List.map_nil,
        List.sum_nil, Nat.add_zero]
      rw [column_bottom_up_shape _ (hshape 0 hm) c hc]
      simp
    · obtain ⟨i, rfl⟩ : ∃ i, m = i + 1 := Nat.exists_eq_succ_of_ne_zero h0
      have hi : i + 1 < script.length := hm
      have hi0 : i < script.length := Nat.lt_of_succ_lt hi
      rw [if_neg h0, Nat.add_sub_cancel] at ihm
      obtain ⟨hlen, hget⟩ := hdata i hi
      have hcas := hcascade i hi
      unfold Engine.fallen at hcas
      simp only [SlotSS02.engine] at hcas
      have hnext := SlotSS02.next_column (script.getD i []) (script.getD (i + 1) [])
        (hshape i hi0) (hshape (i + 1) hi) (hfull i hi0) hcas c hc
      obtain ⟨hcur, hcount⟩ := hnext
      have hover := findBoardOverlap_survivors (column_bottom_up (script.getD i []) c)
        (column_bottom_up (script.getD (i + 1) []) c)
        (SlotSS02.find_matches (script.getD i [])).1 c _ hcur
      simp only [if_neg h0, Nat.add_sub_cancel, if_pos hlen, hget, hover]
      rw [List.length_append, ihm, List.length_drop]
      have hcurlen : (column_bottom_up (script.getD (i + 1) []) c).length = 5 := by
        rw [column_bottom_up_shape _ (hshape (i + 1) hi) c hc]
        simp
      rw [hcurlen, List.range_succ, List.map_append, List.sum_append]
      simp only [List.map_cons, List.map_nil, List.sum_cons, List.sum_nil, Nat.add_zero]
      omega

/-- C29 (amended): symbol conservation on a cascade.  For a non-empty SS02 script of 5x6
boards without empty cell, replayed by `steps` up to its last board (`stop` is the script
length) with the cascade flag true, the number of positions in all per-step patterns equals
the sum of the six reel lengths of the smart conversion minus 30. -/
theorem ss02_elimination_conservation (script : List Board) (special_multipliers : Int)
    (hne : script ≠ [])
    (hshape : ∀ b ∈ script, b.hasShape 5 6)
    (hfull : ∀ b ∈ script, ∀ r, r < 5 → ∀ c, c < 6 → b.cell r c ≠ -1)
    (hstop : (SlotSS02.steps "base" script special_multipliers).stop = script.length)
    (hcascade :
      (SlotSS02.steps "base" script special_multipliers).all_steps_cascade_matched = true) :
    (total_eliminated_symbols
        (SlotSS02.steps "base" script special_multipliers).all_patterns : Int) =
      (total_reel_symbols script special_multipliers : Int) - 30 := by
  obtain ⟨j, hj1, _, _, hsteps⟩ := ss02_steps_spec "base" script special_multipliers hne
  have hlenpos : 0 < script.length := List.length_pos.mpr hne
  unfold total_reel_symbols
  rw [hsteps] at hstop hcascade ⊢
  simp only at hstop hcascade ⊢
  have hjn : j = script.length - 1 := by omega
  have hgetmem : ∀ i, i < script.length → script.getD i [] ∈ script := by
    intro i hi
    rw [List.getD_eq_getElem script [] hi]
    exact List.getElem_mem _
  have hreel : ∀ c ∈ List.range 6,
      (final_reel script ((List.range j).map (SlotSS02.engine.step_patterns script)) c).length =
        5 + ((List.range j).map
          (fun i => SlotSS02.eliminated_in_column (script.getD i []) c)).sum := by
    intro c hc
    have := final_reel_length script ((List.range j).map (SlotSS02.engine.step_patterns script))
      c (List.mem_range.mp hc)
      (fun i hi => hshape _ (hgetmem i hi))
      (fun i hi => hfull _ (hgetmem i hi))
      (fun i hi => by
        have hij : i < j := by omega
        refine ⟨by simpa using hij, ?_⟩
        rw [List.getD_eq_getElem _ _ (by simpa using hij)]
        simp [Engine.step_patterns, SlotSS02.engine])
      (fun i hi => by
        have hij : i < j := by omega
        have := List.all_eq_true.mp hcascade i (List.mem_range.mpr hij)
        exact this)
      script.length (le_refl _)
    unfold final_reel
    rw [this, if_neg (by omega), ← hjn]
  rw [List.map_congr_left hreel, total_eliminated_symbols_eq, List.map_map]
  have hsteps2 : ((List.range j).map
      ((fun step_patterns : MatchPatterns => (step_patterns.map (fun e => e.2.length)).sum) ∘
        SlotSS02.engine.step_patterns script)) =
      (List.range j).map (fun i => ((List.range 6).map
        (fun c => SlotSS02.eliminated_in_column (script.getD i []) c)).sum) := by
    apply List.map_congr_left
    intro i _
    exact SlotSS02.step_positions_by_column (script.getD i [])
  rw [hsteps2, sum_map_comm, List.sum_map_add]
  simp

/-- The cascade of the cluster board: 17 eliminated positions, reels of 47 symbols. -/
theorem ss02_elimination_conservation_witness :
    total_eliminated_symbols (SlotSS02.steps "base" cascade_script_ss02 1).all_patterns = 17 ∧
    total_reel_symbols cascade_script_ss02 1 = 47 ∧
    (total_eliminated_symbols
        (SlotSS02.steps "base" cascade_script_ss02 1).all_patterns : Int) =
      (total_reel_symbols cascade_script_ss02 1 : Int) - 30 :=
  ⟨by decide, by decide,
    ss02_elimination_conservation cascade_script_ss02 1 (by decide) (by decide) (by decide)
      (by decide) (by decide)⟩

/-- C29 (counterexample): the script `unrelated_script_ss02` has two 5x6 boards; its first
board has no cluster, so `steps` returns no pattern, while the smart conversion finds no
overlap between the two boards and writes six reels of ten symbols: 0 eliminated positions
against 60 - 30. -/
theorem ss02_elimination_conservation_counterexample :
    (∀ b ∈ unrelated_script_ss02, b.hasShape 5 6) ∧
    total_eliminated_symbols
      (SlotSS02.steps "base" unrelated_script_ss02 1).all_patterns = 0 ∧
    total_reel_symbols unrelated_script_ss02 1 = 60 ∧
    (total_eliminated_symbols
        (SlotSS02.steps "base" unrelated_script_ss02 1).all_patterns : Int) ≠
      (total_reel_symbols unrelated_script_ss02 1 : Int) - 30 := by
  decide


/-! ## The analysis harness: empty scripts and replay errors -/

theorem script_loop_body_returned (replay : ScriptData → ReplayOutcome)
    (is_terminal : Board → Bool) (st : ScriptSetLocals) (index : Int)
    (scriptData : ScriptData) (h : st.returned = true) :
    script_loop_body replay is_terminal st index scriptData = st := by
  unfold script_loop_body
  rw [if_pos h]

theorem script_loop_fold_returned (replay : ScriptData → ReplayOutcome)
    (is_terminal : Board → Bool) (scripts : List (Int × ScriptData)) (st : ScriptSetLocals)
    (h : st.returned = true) :
    scripts.foldl (fun st e => script_loop_body replay is_terminal st e.1 e.2) st = st := by
  induction scripts with
  | nil => rfl
  | cons e t ih =>
    rw [List.foldl_cons, script_loop_body_returned replay is_terminal st e.1 e.2 h]
    exact ih

/-- The script loop on a set that holds a script without boards ends with the `return`
taken. -/
theorem script_loop_fold_empty (replay : ScriptData → ReplayOutcome)
    (is_terminal : Board → Bool) (scripts : List (Int × ScriptData)) (st : ScriptSetLocals)
    (h : ∃ e ∈ scripts, e.2.script = []) :
    (scripts.foldl (fun st e => script_loop_body replay is_terminal st e.1 e.2)
      st).returned = true := by
  induction scripts generalizing st with
  | nil =>
    obtain ⟨e, he, _⟩ := h
    simp at he
  | cons a t ih =>
    rw [List.foldl_cons]
    by_cases hr : st.returned = true
    · rw [script_loop_body_returned replay is_terminal st a.1 a.2 hr,
        script_loop_fold_returned replay is_terminal t st hr]
      exact hr
    · by_cases ha : a.2.script = []
      · have hbody : (script_loop_body replay is_terminal st a.1 a.2).returned = true := by
          unfold script_loop_body
          rw [if_neg hr, if_pos ha]
        rw [script_loop_fold_returned replay is_terminal t _ hbody]
        exact hbody
      · apply ih
        obtain ⟨e, he, hempty⟩ := h
        rcases List.mem_cons.mp he with rfl | ht
        · exact absurd hempty ha
        · exact ⟨e, ht, hempty⟩

theorem analyzeScriptSetWith_empty_script (replay : ScriptData → ReplayOutcome)
    (is_terminal : Board → Bool) (scripts : List (Int × ScriptData))
    (context : AnalysisContext) (h : ∃ e ∈ scripts, e.2.script = []) :
    analyzeScriptSetWith replay is_terminal scripts context = context := by
  unfold analyzeScriptSetWith
  by_cases hs : scripts = []
  · rw [if_pos hs]
  · rw [if_neg hs]
    simp only [script_loop_fold_empty replay is_terminal scripts _ h, if_true]

/-- C31: an empty script aborts the batch atomically.  When some script of the collection
has no boards, `analyzeScriptSet` returns inside the loop at the first such script: the
scripts after it leave no trace, and the `AnalysisContext` is exactly the one before the
call: no record of the collection is appended, also for the scripts replayed before the
empty one, and no counter or total changes.  This holds for any replay, and so for the SS03
and the SS02 harness. -/
theorem analyze_script_set_empty_script (scripts : List (Int × ScriptData))
    (gameType : String) (context : AnalysisContext) (h : ∃ e ∈ scripts, e.2.script = []) :
    (∀ (replay : ScriptData → ReplayOutcome) (is_terminal : Board → Bool),
      analyzeScriptSetWith replay is_terminal scripts context = context) ∧
    SS03_test.analyzeScriptSet scripts gameType context = context ∧
    SS02_test.analyzeScriptSet scripts gameType context = context ∧
    (∀ (replay : ScriptData → ReplayOutcome) (is_terminal : Board → Bool)
        (before after : List (Int × ScriptData)) (e : Int × ScriptData)
        (st : ScriptSetLocals),
      scripts = before ++ e :: after → e.2.script = [] →
      (e :: after).foldl (fun st e => script_loop_body replay is_terminal st e.1 e.2) st =
        [e].foldl (fun st e => script_loop_body replay is_terminal st e.1 e.2) st) := by
  refine ⟨fun replay is_terminal =>
      analyzeScriptSetWith_empty_script replay is_terminal scripts context h,
    analyzeScriptSetWith_empty_script _ _ scripts context h,
    analyzeScriptSetWith_empty_script _ _ scripts context h, ?_⟩
  intro replay is_terminal before after e st _ he
  rw [List.foldl_cons, List.foldl_cons, List.foldl_nil]
  apply script_loop_fold_returned
  unfold script_loop_body
  by_cases hr : st.returned = true
  · rw [if_pos hr]; exact hr
  · rw [if_neg hr, if_pos he]

/-- The sample set with an empty script in the middle leaves a used context as it was. -/
theorem analyze_script_set_empty_script_witness :
    SS03_test.analyzeScriptSet broken_script_set "base" used_context = used_context :=
  (analyze_script_set_empty_script broken_script_set "base" used_context
    ⟨(5, { script := [], stop := 1, payout := 0, special_multipliers := 1 }),
      by decide, rfl⟩).2.1

/-- A script whose replay raises changes nothing: the loop body leaves the locals as they
are and the loop goes on with the next script. -/
theorem script_loop_body_raised (replay : ScriptData → ReplayOutcome)
    (is_terminal : Board → Bool) (st : ScriptSetLocals) (index : Int)
    (scriptData : ScriptData) (w : String) (hne : scriptData.script ≠ [])
    (h : replay scriptData = .raised w) :
    script_loop_body replay is_terminal st index scriptData = st := by
  unfold script_loop_body
  by_cases hr : st.returned = true
  · rw [if_pos hr]
  · rw [if_neg hr, if_neg hne, h]

/-- C32 (amended): a replay error is logged and skipped.  When the replay of a non-empty
script raises an error, the batch is not aborted: the scripts after it are replayed and
recorded as if the failing script were not in the collection.  The failing script itself
gets no `ScriptResult` and changes no counter or total: the locals of the loop are the same
before and after it. -/
theorem analyze_script_set_replay_error (replay : ScriptData → ReplayOutcome)
    (is_terminal : Board → Bool) (before after : List (Int × ScriptData))
    (e : Int × ScriptData) (w : String) (context : AnalysisContext)
    (hne : e.2.script ≠ []) (h : replay e.2 = .raised w) :
    (∀ st : ScriptSetLocals, script_loop_body replay is_terminal st e.1 e.2 = st) ∧
    (∀ st : ScriptSetLocals,
      (before ++ e :: after).foldl
          (fun st e => script_loop_body replay is_terminal st e.1 e.2) st =
        (before ++ after).foldl
          (fun st e => script_loop_body replay is_terminal st e.1 e.2) st) ∧
    (before ++ after ≠ [] →
      analyzeScriptSetWith replay is_terminal (before ++ e :: after) context =
        analyzeScriptSetWith replay is_terminal (before ++ after) context) := by
  have hbody : ∀ st : ScriptSetLocals,
      script_loop_body replay is_terminal st e.1 e.2 = st :=
    fun st => script_loop_body_raised replay is_terminal st e.1 e.2 w hne h
  have hfold : ∀ st : ScriptSetLocals,
      (before ++ e :: after).foldl
          (fun st e => script_loop_body replay is_terminal st e.1 e.2) st =
        (before ++ after).foldl
          (fun st e => script_loop_body replay is_terminal st e.1 e.2) st := by
    intro st
    rw [List.foldl_append, List.foldl_cons, hbody, List.foldl_append]
  refine ⟨hbody, hfold, ?_⟩
  intro hrest
  unfold analyzeScriptSetWith
  rw [if_neg (by simp), if_neg hrest, hfold]

/-- On the sample set, with a replay that raises on script 7, the result is that of the set
holding script 3 alone. -/
theorem analyze_script_set_replay_error_witness :
    analyzeScriptSetWith raising_replay SlotSS03.engine.is_terminal sample_script_set
        fresh_context =
      analyzeScriptSetWith raising_replay SlotSS03.engine.is_terminal
        [(3, sample_script_3)] fresh_context :=
  (analyze_script_set_replay_error raising_replay SlotSS03.engine.is_terminal
    [(3, sample_script_3)] [] (7, sample_script_7)
    "replay failed" fresh_context (by decide) (by decide)).2.2 (by decide)

/-- C32 (counterexample): on the sample set, with a replay that raises on script 7, the
batch ends with one record, that of script 3; there is no record for script 7 and the
mismatch counters do not count it: the stop and payout counters are 0. -/
theorem analyze_script_set_replay_error_counterexample :
    sample_script_set = [(3, sample_script_3), (7, sample_script_7)] ∧
    raising_replay sample_script_7 = .raised "replay failed" ∧
    ((analyzeScriptSetWith raising_replay SlotSS03.engine.is_terminal sample_script_set
      fresh_context).allResults.map (fun record => record.index)) = [3] ∧
    (analyzeScriptSetWith raising_replay SlotSS03.engine.is_terminal sample_script_set
      fresh_context).stopMismatches = 0 ∧
    (analyzeScriptSetWith raising_replay SlotSS03.engine.is_terminal sample_script_set
      fresh_context).payoutMismatches = 0 ∧
    (analyzeScriptSetWith raising_replay SlotSS03.engine.is_terminal sample_script_set
      fresh_context).cascadingMismatches = 1 := by
  decide


/-! ## `findBoardOverlap` on arbitrary columns -/

theorem ends_with_eliminated_spec (eliminationPatterns : MatchPatterns) (currentCol : Nat)
    (lastSymbol : Int) :
    ends_with_eliminated eliminationPatterns currentCol lastSymbol = true ↔
      ∃ e ∈ eliminationPatterns, e.1 = lastSymbol ∧ ∃ p ∈ e.2, p.2 = currentCol := by
  unfold ends_with_eliminated
  simp only [List.any_eq_true, decide_eq_true_eq]
  constructor
  · rintro ⟨e, he, p, hp, hc, hs⟩
    exact ⟨e, he, hs, p, hp, hc⟩
  · rintro ⟨e, he, hs, p, hp, hc⟩
    exact ⟨e, he, p, hp, hc, hs⟩

/-- A search from `n` down to 1 returns the largest value at which the test holds, and 0
when there is none. -/
theorem find_descending_spec (n : Nat) (p : Nat → Bool) :
    (((List.range n).reverse.map (fun k => k + 1)).find? p).getD 0 ≤ n ∧
    ((((List.range n).reverse.map (fun k => k + 1)).find? p).getD 0 ≠ 0 →
      p ((((List.range n).reverse.map (fun k => k + 1)).find? p).getD 0) = true) ∧
    (∀ L, 1 ≤ L → L ≤ n → p L = true →
      L ≤ (((List.range n).reverse.map (fun k => k + 1)).find? p).getD 0) := by
  induction n with
  | zero =>
    refine ⟨le_refl _, fun h => absurd rfl h, ?_⟩
    intro L h1 h2 _
    omega
  | succ n ih =>
    rw [descending_succ, List.find?_cons]
    cases hp : p (n + 1) with
    | true =>
      refine ⟨le_refl _, fun _ => hp, ?_⟩
      intro L _ h2 _
      exact h2
    | false =>
      obtain ⟨h1, h2, h3⟩ := ih
      refine ⟨Nat.le_succ_of_le h1, h2, ?_⟩
      intro L hL1 hL2 hpL
      by_cases hL : L = n + 1
      · rw [hL, hp] at hpL
        exact absurd hpL (by simp)
      · exact h3 L hL1 (by omega) hpL

/-- C33: `findBoardOverlap`.  The result is at most `|current|`; when it is not 0 it is a
prefix length `L` with a last symbol `current[L-1]` that has no position in column `col` of
the patterns and a prefix `current[0..L-1]` that is a subsequence of `previous`; every
prefix length in `1..|current|` with these two properties is at most the result, so the
result is the largest one and is 0 when there is none.  The greedy scan matches the whole
prefix exactly when the prefix is a subsequence, and the test on the last symbol holds
exactly when a pattern of that symbol has a position in the column. -/
theorem find_board_overlap_spec (previous current : List Int) (patterns : MatchPatterns)
    (col : Nat) :
    findBoardOverlap previous current patterns col ≤ current.length ∧
    (findBoardOverlap previous current patterns col ≠ 0 →
      (¬ ∃ e ∈ patterns,
        e.1 = current.getD (findBoardOverlap previous current patterns col - 1) 0 ∧
          ∃ p ∈ e.2, p.2 = col) ∧
      (current.take (findBoardOverlap previous current patterns col)).Sublist previous) ∧
    (∀ L, 1 ≤ L → L ≤ current.length →
      (¬ ∃ e ∈ patterns, e.1 = current.getD (L - 1) 0 ∧ ∃ p ∈ e.2, p.2 = col) →
      (current.take L).Sublist previous →
      L ≤ findBoardOverlap previous current patterns col) ∧
    (∀ L, L ≤ current.length →
      (greedy_match previous (current.take L) = L ↔ (current.take L).Sublist previous)) ∧
    (∀ x : Int, ends_with_eliminated patterns col x = true ↔
      ∃ e ∈ patterns, e.1 = x ∧ ∃ p ∈ e.2, p.2 = col) := by
  have hgreedy : ∀ L, L ≤ current.length →
      (greedy_match previous (current.take L) = L ↔ (current.take L).Sublist previous) := by
    intro L hL
    have hlen : (current.take L).length = L := by
      rw [List.length_take]; omega
    have := greedy_match_eq_length_iff previous (current.take L)
    rw [hlen] at this
    exact this
  have hends := ends_with_eliminated_spec patterns col
  obtain ⟨h1, h2, h3⟩ := find_descending_spec current.length (fun prefixLen =>
    !ends_with_eliminated patterns col (current.getD (prefixLen - 1) 0) &&
      decide (greedy_match previous (current.take prefixLen) = prefixLen))
  refine ⟨h1, ?_, ?_, hgreedy, hends⟩
  · intro hne
    have := h2 hne
    simp only [Bool.and_eq_true, Bool.not_eq_true', decide_eq_true_eq] at this
    obtain ⟨ha, hb⟩ := this
    refine ⟨?_, (hgreedy _ h1).mp hb⟩
    intro hex
    have := (hends _).mpr hex
    unfold findBoardOverlap at this
    rw [ha] at this
    exact absurd this (by simp)
  · intro L hL1 hL2 hnot hsub
    apply h3 L hL1 hL2
    simp only [Bool.and_eq_true, Bool.not_eq_true', decide_eq_true_eq]
    refine ⟨?_, (hgreedy L hL2).mpr hsub⟩
    cases he : ends_with_eliminated patterns col (current.getD (L - 1) 0) with
    | false => rfl
    | true => exact absurd ((hends _).mp he) hnot


/-! ## The acceptance set of the validator -/

theorem Board.hasShape_of_rows (board : Board) (h w : Nat) (hlen : board.length = h)
    (hrows : ∀ i, i < board.length → (board.getD i []).length = w) : board.hasShape h w := by
  refine ⟨hlen, ?_⟩
  intro row hrow
  obtain ⟨i, hi, rfl⟩ := List.getElem_of_mem hrow
  have := hrows i hi
  rw [List.getD_eq_getElem board [] hi] at this
  exact this

/-- The validator finds no broken rule exactly on the 5x5 boards with valid padding whose
in-profile cells pass the per-cell rules, with no plain cell in the free-game column and at
most two golden tiles in every counted column. -/
theorem SlotSS03.first_violation_none_iff (game_type : String) (board : Board) :
    SlotSS03.first_violation game_type board = none ↔
      board.hasShape 5 5 ∧ SlotSS03.is_valid_padding board = true ∧
      (∀ r : Nat, r < 5 → ∀ c : Nat, c < 5 → SlotSS03.is_padding_cell r c = false →
        SlotSS03.cell_allowed game_type r c (board.cell r c)) ∧
      SlotSS03.plain_rows game_type board = [] ∧
      (∀ c : Nat, c < 5 → ¬ (game_type = "free" ∧ c = 2) →
        SlotSS03.golden_count board c ≤ 2) := by
  constructor
  · intro hnone
    have hshape : board.hasShape 5 5 := by
      unfold SlotSS03.first_violation at hnone
      by_cases h1 : board.length ≠ SlotSS03.board_height
      · rw [if_pos h1] at hnone
        exact absurd hnone (by simp)
      · rw [if_neg h1] at hnone
        have hlen : board.length = 5 := by
          simpa [SlotSS03.board_height] using h1
        cases hw : (List.range board.length).find?
            (fun i => decide ((board.getD i []).length ≠ SlotSS03.board_width)) with
        | some i =>
          rw [hw] at hnone
          exact absurd hnone (by simp)
        | none =>
          apply Board.hasShape_of_rows board 5 5 hlen
          intro i hi
          have := List.find?_eq_none.mp hw i (List.mem_range.mpr hi)
          simpa [SlotSS03.board_width] using this
    have hpad : SlotSS03.is_valid_padding board = true := by
      cases hp : SlotSS03.is_valid_padding board with
      | true => rfl
      | false =>
        obtain ⟨e, he⟩ := SlotSS03.first_violation_of_padding game_type board hp
        rw [he] at hnone
        exact absurd hnone (by simp)
    have hcells : ∀ r : Nat, r < 5 → ∀ c : Nat, c < 5 → SlotSS03.is_padding_cell r c = false →
        SlotSS03.cell_allowed game_type r c (board.cell r c) := by
      intro r hr c hc hp
      by_contra hbad
      obtain ⟨e, he⟩ := SlotSS03.first_violation_of_cell game_type board r c hr hc hp hbad
      rw [he] at hnone
      exact absurd hnone (by simp)
    rw [SlotSS03.first_violation_tail game_type board hshape hpad hcells] at hnone
    by_cases hplain : SlotSS03.plain_rows game_type board ≠ []
    · rw [if_pos hplain] at hnone
      exact absurd hnone (by simp)
    · rw [if_neg hplain] at hnone
      refine ⟨hshape, hpad, hcells, not_not.mp hplain, ?_⟩
      intro c hc hnot
      have hfind := Option.map_eq_none'.mp hnone
      have := List.find?_eq_none.mp hfind c (List.mem_range.mpr hc)
      simp only [decide_eq_true_eq, not_and, not_lt] at this
      exact this (fun h1 h2 => hnot ⟨h1, h2⟩)
  · rintro ⟨hshape, hpad, hcells, hplain, hcount⟩
    rw [SlotSS03.first_violation_tail game_type board hshape hpad hcells, hplain,
      if_neg (by simp)]
    have hfind : (List.range 5).find? (fun col => decide (¬ (game_type = "free" ∧ col = 2) ∧
        2 < SlotSS03.golden_count board col)) = none := by
      rw [List.find?_eq_none]
      intro c hc
      simp only [decide_eq_true_eq, not_and, not_lt]
      intro hnot
      exact hcount c (List.mem_range.mp hc) (fun h => hnot h.1 h.2)
    rw [hfind]
    rfl

theorem SlotSS03.plain_rows_nil_iff (game_type : String) (board : Board) :
    SlotSS03.plain_rows game_type board = [] ↔
      (game_type = "free" → ∀ r : Nat, r < 5 →
        board.cell r 2 = -1 ∨ board.cell r 2 = 201 ∨
          (100 ≤ board.cell r 2 ∧ board.cell r 2 < 200)) := by
  by_cases hfree : game_type = "free"
  · subst hfree
    rw [SlotSS03.plain_rows_free, List.filter_eq_nil_iff]
    simp only [List.mem_range, decide_eq_true_eq, SlotSS03.SCATTER, true_implies]
    constructor
    · intro h r hr
      have := h r hr
      by_cases h1 : board.cell r 2 = -1
      · exact Or.inl h1
      · by_cases h2 : board.cell r 2 = 201
        · exact Or.inr (Or.inl h2)
        · by_contra h3
          exact this ⟨h1, h2, fun hg => h3 (Or.inr (Or.inr hg))⟩
    · intro h r hr
      rintro ⟨h1, h2, h3⟩
      rcases h r hr with h4 | h4 | h4
      · exact h1 h4
      · exact h2 h4
      · exact h3 h4
  · rw [SlotSS03.plain_rows_base game_type board hfree]
    exact ⟨fun _ h => absurd h hfree, fun _ => rfl⟩

/-- C35: the exact acceptance set of the validator.  `is_valid_board(b, false)` returns true
exactly when `b` has 5 rows of width 5, holds -2 exactly at the positions at or below the
column heights, every in-profile cell holds -1, 201, 202, a value in 0..8 or in 100..108, no
golden cell lies in board row 0 or 4 except in column 2 of the free game, every column
(every column other than 2 in the free game) holds at most 2 golden cells and, in the free
game, every cell of column 2 is -1, 201 or golden. -/
theorem ss03_validator_acceptance_set (game_type : String) (board : Board) :
    SlotSS03.is_valid_board game_type board false = .returned true ↔
      (board.hasShape 5 5 ∧
        (∀ r : Nat, r < 5 → ∀ c : Nat, c < 5 →
          (board.cell r c = -2 ↔ SlotSS03.column_height c ≤ r)) ∧
        (∀ c : Nat, c < 5 → ∀ r : Nat, r < SlotSS03.column_height c →
          (board.cell r c = -1 ∨ board.cell r c = 201 ∨ board.cell r c = 202 ∨
            (0 ≤ board.cell r c ∧ board.cell r c ≤ 8) ∨
            (100 ≤ board.cell r c ∧ board.cell r c ≤ 108))) ∧
        (∀ c : Nat, c < 5 → ∀ r : Nat, r < SlotSS03.column_height c →
          100 ≤ board.cell r c ∧ board.cell r c < 200 → (r = 0 ∨ r = 4) →
          (game_type = "free" ∧ c = 2)) ∧
        (∀ c : Nat, c < 5 → ¬ (game_type = "free" ∧ c = 2) →
          SlotSS03.golden_count board c ≤ 2) ∧
        (game_type = "free" → ∀ r : Nat, r < 5 →
          board.cell r 2 = -1 ∨ board.cell r 2 = 201 ∨
            (100 ≤ board.cell r 2 ∧ board.cell r 2 < 200))) := by
  rw [SlotSS03.accepts_iff, SlotSS03.first_violation_none_iff, SlotSS03.plain_rows_nil_iff]
  have hprofile : ∀ r c : Nat, r < 5 → c < 5 →
      (SlotSS03.is_padding_cell r c = false ↔ r < SlotSS03.column_height c) := by
    intro r c _ hc
    rw [SlotSS03.is_padding_cell_nat r c hc]
    simp
  have hle : ∀ c : Nat, SlotSS03.column_height c ≤ 5 := SlotSS03.column_height_le
  constructor
  · rintro ⟨hshape, hpad, hcells, hplain, hcount⟩
    refine ⟨hshape, (SlotSS03.is_valid_padding_iff board hshape).mp hpad, ?_, ?_, hcount,
      hplain⟩
    · intro c hc r hr
      have hr5 : r < 5 := lt_of_lt_of_le hr (hle c)
      have := (hcells r hr5 c hc ((hprofile r c hr5 hc).mpr hr)).1
      unfold SlotSS03.known_value at this
      simpa [SlotSS03.SCATTER, SlotSS03.WILD] using this
    · intro c hc r hr hg hrow
      have hr5 : r < 5 := lt_of_lt_of_le hr (hle c)
      exact (hcells r hr5 c hc ((hprofile r c hr5 hc).mpr hr)).2 hg hrow
  · rintro ⟨hshape, hpad, hknown, hgold, hcount, hplain⟩
    refine ⟨hshape, (SlotSS03.is_valid_padding_iff board hshape).mpr hpad, ?_, hplain,
      hcount⟩
    intro r hr c hc hp
    have hin := (hprofile r c hr hc).mp hp
    refine ⟨?_, hgold c hc r hin⟩
    unfold SlotSS03.known_value
    simpa [SlotSS03.SCATTER, SlotSS03.WILD] using hknown c hc r hin


/-! ## Variant A: the scorer on the patterns of the matcher -/

theorem SlotSS02.pay_table_total :
    ∀ s ∈ SlotSS02.symbols, ∀ n ∈ List.range' 8 23,
      (SlotSS02.pay_table.lookup s (n : Nat)).isSome = true ∧
        0 < (SlotSS02.pay_table.lookup s (n : Nat)).getD 0 := by
  decide

theorem SlotSS02.occurrences_length_le (board : Board) (s : Int) :
    (SlotSS02.occurrences board s).length ≤ 30 := by
  unfold SlotSS02.occurrences
  have h := List.length_filter_le (fun p : Nat × Nat => decide (board.cell p.1 p.2 = s))
    (all_positions 5 6)
  have h30 : (all_positions 5 6).length = 30 := by decide
  omega

/-- Every entry of the map of the Variant A matcher: an alphabet symbol with all its
occurrences, between 8 and 30 of them, and a positive paytable entry for that count. -/
theorem SlotSS02.pattern_entry (board : Board) (e : Int × MatchPattern)
    (he : e ∈ (SlotSS02.find_matches board).1) :
    (0 ≤ e.1 ∧ e.1 ≤ 8) ∧ e.2 = SlotSS02.occurrences board e.1 ∧
    8 ≤ e.2.length ∧ e.2.length ≤ 30 ∧
    ∃ pay, SlotSS02.pay_table.lookup e.1 e.2.length = some pay ∧ 0 < pay := by
  rw [SlotSS02.patterns_eq] at he
  obtain ⟨s, hs, rfl⟩ := List.mem_map.mp he
  unfold SlotSS02.matched_symbols at hs
  obtain ⟨hsym, hmin⟩ := List.mem_filter.mp hs
  have hmin2 : 8 ≤ (SlotSS02.occurrences board s).length := by
    simpa [SlotSS02.min_match_size] using hmin
  have hmax := SlotSS02.occurrences_length_le board s
  have hrange : 0 ≤ s ∧ s ≤ 8 := by
    simp only [SlotSS02.symbols, List.mem_cons, List.mem_singleton, List.not_mem_nil,
      or_false] at hsym
    omega
  have hn : (SlotSS02.occurrences board s).length ∈ List.range' 8 23 := by
    rw [List.mem_range'_1]
    omega
  obtain ⟨h1, h2⟩ := SlotSS02.pay_table_total s hsym _ hn
  refine ⟨hrange, rfl, hmin2, hmax, ?_⟩
  obtain ⟨pay, hpay⟩ := Option.isSome_iff_exists.mp h1
  refine ⟨pay, hpay, ?_⟩
  rw [hpay] at h2
  exact h2

theorem sum_pos_of_pos (l : List Int) (hne : l ≠ []) (hpos : ∀ x ∈ l, 0 < x) : 0 < l.sum := by
  induction l with
  | nil => exact absurd rfl hne
  | cons a t ih =>
    rw [List.sum_cons]
    have ha := hpos a (List.mem_cons_self _ _)
    by_cases ht : t = []
    · subst ht
      simpa using ha
    · have := ih ht (fun x hx => hpos x (List.mem_cons_of_mem _ hx))
      omega

/-- C37: Variant A never reaches the scoring fallback.  On every board, every pattern of
`SlotSS02::find_matches` has a symbol in 0..8 and between 8 and 30 positions, the SS02
paytable has an entry for every such symbol and count, so `get_score` of these patterns is
the sum of the paytable entries `pay_table[s][count_s]`, the fallback `symbol * count` is
not used, and the score is positive whenever `has_match` is true. -/
theorem ss02_score_without_fallback (board : Board) :
    (∀ e ∈ (SlotSS02.find_matches board).1,
      (0 ≤ e.1 ∧ e.1 ≤ 8) ∧ 8 ≤ e.2.length ∧ e.2.length ≤ 30) ∧
    (∀ (s : Int) (n : Nat), 0 ≤ s → s ≤ 8 → 8 ≤ n → n ≤ 30 →
      ∃ pay, SlotSS02.pay_table.lookup s n = some pay ∧ 0 < pay) ∧
    (∀ e ∈ (SlotSS02.find_matches board).1,
      SlotSS02.pay_table.lookup e.1 e.2.length ≠ none) ∧
    SlotBase.get_score SlotSS02.pay_table (SlotSS02.find_matches board).1 =
      ((SlotSS02.find_matches board).1.map
        (fun e => (SlotSS02.pay_table.lookup e.1 e.2.length).getD 0)).sum ∧
    ((SlotSS02.find_matches board).2 = true →
      0 < SlotBase.get_score SlotSS02.pay_table (SlotSS02.find_matches board).1) := by
  have hscore : SlotBase.get_score SlotSS02.pay_table (SlotSS02.find_matches board).1 =
      ((SlotSS02.find_matches board).1.map
        (fun e => (SlotSS02.pay_table.lookup e.1 e.2.length).getD 0)).sum := by
    unfold SlotBase.get_score
    rw [List.foldl_ext _ (fun total e =>
      total + (SlotSS02.pay_table.lookup e.1 e.2.length).getD 0)]
    · rw [foldl_add_eq_sum, zero_add]
    · intro total e he
      obtain ⟨_, _, hmin, _, pay, hpay, _⟩ := SlotSS02.pattern_entry board e he
      have hne : e.2 ≠ [] := by
        intro h
        rw [h] at hmin
        simp at hmin
      simp only [ne_eq, hne, not_false_eq_true, if_true, hpay, Option.getD_some]
  refine ⟨?_, ?_, ?_, hscore, ?_⟩
  · intro e he
    obtain ⟨h1, _, h2, h3, _⟩ := SlotSS02.pattern_entry board e he
    exact ⟨h1, h2, h3⟩
  · intro s n hs0 hs8 hn8 hn30
    have hsym : s ∈ SlotSS02.symbols := by
      simp only [SlotSS02.symbols, List.mem_cons, List.mem_singleton, List.not_mem_nil,
        or_false]
      omega
    have hn : n ∈ List.range' 8 23 := by
      rw [List.mem_range'_1]
      omega
    obtain ⟨h1, h2⟩ := SlotSS02.pay_table_total s hsym n hn
    obtain ⟨pay, hpay⟩ := Option.isSome_iff_exists.mp h1
    refine ⟨pay, hpay, ?_⟩
    rw [hpay] at h2
    exact h2
  · intro e he
    obtain ⟨_, _, _, _, pay, hpay, _⟩ := SlotSS02.pattern_entry board e he
    rw [hpay]
    simp
  · intro hmatch
    rw [hscore]
    have hflag : (SlotSS02.find_matches board).2 = true ↔
        (SlotSS02.find_matches board).1 ≠ [] := by
      unfold SlotSS02.find_matches
      exact (SlotSS02.symbol_loop_spec board SlotSS02.symbols ([], false) 0).2
        (by simp)
    apply sum_pos_of_pos
    · intro hnil
      exact (hflag.mp hmatch) (List.map_eq_nil_iff.mp hnil)
    · intro x hx
      obtain ⟨e, he, rfl⟩ := List.mem_map.mp hx
      obtain ⟨_, _, _, _, pay, hpay, hpos⟩ := SlotSS02.pattern_entry board e he
      rw [hpay]
      exact hpos


/-! ## Variant B: the shape of the patterns of the matcher -/

theorem MatchPatterns.find_of_mem (m : MatchPatterns) (hnd : m.keys.Nodup)
    (e : Int × MatchPattern) (he : e ∈ m) : m.find e.1 = some e.2 := by
  induction m with
  | nil => simp at he
  | cons a t ih =>
    obtain ⟨k, v⟩ := a
    simp only [MatchPatterns.keys, List.map_cons, List.nodup_cons] at hnd
    rcases List.mem_cons.mp he with rfl | ht
    · simp [MatchPatterns.find]
    · have hne : k ≠ e.1 := by
        intro h
        apply hnd.1
        rw [h]
        exact List.mem_map_of_mem Prod.fst ht
      simp only [MatchPatterns.find, if_neg hne]
      exact ih hnd.2 ht

theorem SlotSS03.process_column_committed_nodup (board : Board) (st : MatchState) (col : Nat)
    (h : st.match_patterns.keys.Nodup) :
    (SlotSS03.process_column board st col).match_patterns.keys.Nodup := by
  unfold SlotSS03.process_column
  by_cases hc : col ≤ 2
  · rw [if_pos hc]
    exact h
  · rw [if_neg hc]
    apply foldl_keeps (fun acc : MatchState => acc.match_patterns.keys.Nodup)
    · intro acc e hacc
      dsimp only
      split_ifs <;> first | exact hacc | exact MatchPatterns.keys_assign_nodup _ _ _ hacc
    · exact h

/-- The map returned by the Variant B matcher has one entry per symbol. -/
theorem SlotSS03.find_matches_keys_nodup (board : Board) :
    (SlotSS03.find_matches board).1.keys.Nodup := by
  unfold SlotSS03.find_matches SlotSS03.collect_remaining
  apply foldl_keeps (fun acc : MatchPatterns × Bool => acc.1.keys.Nodup)
  · intro acc e hacc
    dsimp only
    split_ifs <;> first | exact hacc | exact MatchPatterns.keys_assign_nodup _ _ _ hacc
  · apply foldl_keeps (fun st : MatchState => st.match_patterns.keys.Nodup)
    · intro st col hst
      exact SlotSS03.process_column_committed_nodup board st col hst
    · simp [MatchPatterns.keys]

/-- Every entry of the map of the Variant B matcher is the chain of its symbol. -/
theorem SlotSS03.entry_chain (board : Board) (e : Int × MatchPattern)
    (he : e ∈ (SlotSS03.find_matches board).1) : SlotSS03.chain board e.1 = some e.2 := by
  rw [← (SlotSS03.find_matches_find board).1 e.1]
  exact MatchPatterns.find_of_mem _ (SlotSS03.find_matches_keys_nodup board) e he

theorem SlotSS03.seed_positions_mem (board : Board) (s : Int) (p : Nat × Nat)
    (hp : p ∈ SlotSS03.seed_positions board s) : p.2 = 0 ∧ p.1 < 4 := by
  unfold SlotSS03.seed_positions at hp
  obtain ⟨r, hr, rfl⟩ := List.mem_map.mp hp
  exact ⟨rfl, List.mem_range.mp (List.mem_filter.mp hr).1⟩

theorem SlotSS03.column_matches_mem (board : Board) (col : Nat) (s : Int) (p : Nat × Nat)
    (hp : p ∈ SlotSS03.column_matches board col s) :
    p.2 = col ∧ p.1 < SlotSS03.column_height col := by
  unfold SlotSS03.column_matches at hp
  obtain ⟨r, hr, rfl⟩ := List.mem_map.mp hp
  exact ⟨rfl, List.mem_range.mp (List.mem_filter.mp hr).1⟩

theorem SlotSS03.column_count_single (q : MatchPattern) (col c : Nat)
    (h : ∀ p ∈ q, p.2 = col) :
    SlotSS03.column_count q c = if c = col then q.length else 0 := by
  by_cases hc : c = col
  · rw [if_pos hc]
    unfold SlotSS03.column_count
    rw [List.filter_eq_self.mpr]
    intro p hp
    simp [h p hp, hc]
  · rw [if_neg hc]
    apply SlotSS03.column_count_eq_zero
    intro p hp
    rw [h p hp]
    exact fun h2 => hc h2.symm

theorem SlotSS03.column_count_pos_iff (q : MatchPattern) (c : Nat) :
    0 < SlotSS03.column_count q c ↔ ∃ p ∈ q, p.2 = c := by
  unfold SlotSS03.column_count
  rw [List.length_pos_iff_exists_mem]
  constructor
  · rintro ⟨p, hp⟩
    obtain ⟨h1, h2⟩ := List.mem_filter.mp hp
    exact ⟨p, h1, by simpa using h2⟩
  · rintro ⟨p, hp, hc⟩
    exact ⟨p, List.mem_filter.mpr ⟨hp, by simpa using hc⟩⟩

/-- The chain of a symbol, when there is one: its positions lie inside the column profile,
and the columns with a position are exactly `0..k-1` for some `k` from 3 to 5. -/
theorem SlotSS03.chain_shape (board : Board) (s : Int) (positions : MatchPattern)
    (h : SlotSS03.chain board s = some positions) :
    (∀ p ∈ positions, p.2 < 5 ∧ p.1 < SlotSS03.column_height p.2) ∧
    ∃ k, 3 ≤ k ∧ k ≤ 5 ∧ ∀ c, (0 < SlotSS03.column_count positions c ↔ c < k) := by
  have hseed := SlotSS03.seed_positions_mem board s
  have hcol := SlotSS03.column_matches_mem board
  have hcs : ∀ c, SlotSS03.column_count (SlotSS03.seed_positions board s) c =
      if c = 0 then (SlotSS03.seed_positions board s).length else 0 :=
    fun c => SlotSS03.column_count_single _ 0 c (fun p hp => (hseed p hp).1)
  have hcc : ∀ col c, SlotSS03.column_count (SlotSS03.column_matches board col s) c =
      if c = col then (SlotSS03.column_matches board col s).length else 0 :=
    fun col c => SlotSS03.column_count_single _ col c (fun p hp => (hcol col s p hp).1)
  have hh0 : SlotSS03.column_height 0 = 4 := by decide
  have hin0 : ∀ p ∈ SlotSS03.seed_positions board s,
      p.2 < 5 ∧ p.1 < SlotSS03.column_height p.2 := by
    intro p hp
    obtain ⟨h1, h2⟩ := hseed p hp
    rw [h1, hh0]
    exact ⟨by decide, h2⟩
  have hin : ∀ col, col < 5 → ∀ p ∈ SlotSS03.column_matches board col s,
      p.2 < 5 ∧ p.1 < SlotSS03.column_height p.2 := by
    intro col hc p hp
    obtain ⟨h1, h2⟩ := hcol col s p hp
    rw [h1]
    exact ⟨hc, h2⟩
  unfold SlotSS03.chain at h
  by_cases c012 : SlotSS03.seed_positions board s = [] ∨
      SlotSS03.column_matches board 1 s = [] ∨ SlotSS03.column_matches board 2 s = []
  · rw [if_pos c012] at h
    exact absurd h (by simp)
  · rw [if_neg c012] at h
    have n0 : 0 < (SlotSS03.seed_positions board s).length :=
      List.length_pos.mpr (fun hh => c012 (Or.inl hh))
    have n1 : 0 < (SlotSS03.column_matches board 1 s).length :=
      List.length_pos.mpr (fun hh => c012 (Or.inr (Or.inl hh)))
    have n2 : 0 < (SlotSS03.column_matches board 2 s).length :=
      List.length_pos.mpr (fun hh => c012 (Or.inr (Or.inr hh)))
    by_cases c3 : SlotSS03.column_matches board 3 s = []
    · rw [if_pos c3] at h
      have hpos := (Option.some.inj h).symm
      subst hpos
      refine ⟨?_, 3, le_refl _, by decide, ?_⟩
      · intro p hp
        simp only [List.mem_append] at hp
        rcases hp with (hp | hp) | hp
        · exact hin0 p hp
        · exact hin 1 (by decide) p hp
        · exact hin 2 (by decide) p hp
      · intro c
        simp only [SlotSS03.column_count_append, hcs, hcc]
        split_ifs <;> omega
    · rw [if_neg c3] at h
      have n3 : 0 < (SlotSS03.column_matches board 3 s).length := List.length_pos.mpr c3
      by_cases c4 : SlotSS03.column_matches board 4 s = []
      · rw [if_pos c4] at h
        have hpos := (Option.some.inj h).symm
        subst hpos
        refine ⟨?_, 4, by decide, by decide, ?_⟩
        · intro p hp
          simp only [List.mem_append] at hp
          rcases hp with ((hp | hp) | hp) | hp
          · exact hin0 p hp
          · exact hin 1 (by decide) p hp
          · exact hin 2 (by decide) p hp
          · exact hin 3 (by decide) p hp
        · intro c
          simp only [SlotSS03.column_count_append, hcs, hcc]
          split_ifs <;> omega
      · rw [if_neg c4] at h
        have n4 : 0 < (SlotSS03.column_matches board 4 s).length := List.length_pos.mpr c4
        have hpos := (Option.some.inj h).symm
        subst hpos
        refine ⟨?_, 5, by decide, le_refl _, ?_⟩
        · intro p hp
          simp only [List.mem_append] at hp
          rcases hp with (((hp | hp) | hp) | hp) | hp
          · exact hin0 p hp
          · exact hin 1 (by decide) p hp
          · exact hin 2 (by decide) p hp
          · exact hin 3 (by decide) p hp
          · exact hin 4 (by decide) p hp
        · intro c
          simp only [SlotSS03.column_count_append, hcs, hcc]
          split_ifs <;> omega

/-- C36: matcher and scorer agree on the run length (Variant B).  On every board, every
pattern of `SlotSS03::find_matches` has a position in each of columns 0, 1 and 2, and the
columns with a position are exactly `0..k-1` for some `k` from 3 to 5; `k` is the run length
the scorer computes, so `get_score` drops no pattern of the matcher for a short run: the
score is the sum over all patterns of the payout of `(s, k)` times the product of the
per-column position counts over the columns of the pattern. -/
theorem ss03_matcher_scorer_run_length (board : Board) :
    (∀ e ∈ (SlotSS03.find_matches board).1,
      (∀ c, c < 3 → ∃ p ∈ e.2, p.2 = c) ∧
      ∃ k, 3 ≤ k ∧ k ≤ 5 ∧ (∀ c, (∃ p ∈ e.2, p.2 = c) ↔ c < k) ∧
        SlotSS03.run_length e.2 = k ∧
        SlotSS03.symbol_score e.1 e.2 =
          SlotSS03.pay e.1 k *
            (((List.range k).map (SlotSS03.column_count e.2)).prod : Nat)) ∧
    SlotSS03.get_score (SlotSS03.find_matches board).1 =
      ((SlotSS03.find_matches board).1.map (fun e =>
        SlotSS03.pay e.1 (SlotSS03.run_length e.2) *
          (((List.range (SlotSS03.run_length e.2)).map
            (SlotSS03.column_count e.2)).prod : Nat))).sum := by
  have hentry : ∀ e ∈ (SlotSS03.find_matches board).1,
      (∀ p ∈ e.2, p.2 < 5) ∧
      ∃ k, 3 ≤ k ∧ k ≤ 5 ∧ (∀ c, (∃ p ∈ e.2, p.2 = c) ↔ c < k) ∧
        SlotSS03.run_length e.2 = k := by
    intro e he
    obtain ⟨hin, k, hk3, hk5, hcols⟩ :=
      SlotSS03.chain_shape board e.1 e.2 (SlotSS03.entry_chain board e he)
    refine ⟨fun p hp => (hin p hp).1, k, hk3, hk5, ?_, ?_⟩
    · intro c
      rw [← SlotSS03.column_count_pos_iff]
      exact hcols c
    · rw [SlotSS03.run_length_unique]
      refine ⟨hk5, fun c hc => (hcols c).mpr hc, fun _ => ?_⟩
      have := (hcols k).not.mpr (lt_irrefl k)
      omega
  constructor
  · intro e he
    obtain ⟨_, k, hk3, hk5, hcols, hrun⟩ := hentry e he
    refine ⟨fun c hc => (hcols c).mpr (by omega), k, hk3, hk5, hcols, hrun, ?_⟩
    unfold SlotSS03.symbol_score
    rw [hrun, if_pos hk3]
  · rw [SlotSS03.get_score_eq_sum _ (fun e he => (hentry e he).1)]
    congr 1
    apply List.map_congr_left
    intro e he
    obtain ⟨_, k, hk3, _, _, hrun⟩ := hentry e he
    unfold SlotSS03.symbol_score
    rw [hrun, if_pos hk3]

/-- C40: matched positions are in range.  Every position of a pattern of
`SlotSS03::find_matches` has a column below 5 and a row below the height of its column, so
it is not a padding position; every position of a pattern of `SlotSS02::find_matches` has a
row below 5 and a column below 6.  Hence on a 5x5 (5x6) board the patterns lie inside the
board, every column index is inside the five counters of the scorer, and the Variant B
elimination leaves every cell at or below the column heights as it was. -/
theorem matched_positions_in_range (b5 b6 : Board) (h5 : b5.hasShape 5 5)
    (h6 : b6.hasShape 5 6) :
    (∀ e ∈ (SlotSS03.find_matches b5).1, ∀ p ∈ e.2,
      p.2 < 5 ∧ p.1 < SlotSS03.column_height p.2 ∧
        SlotSS03.is_padding_cell p.1 p.2 = false) ∧
    (∀ e ∈ (SlotSS02.find_matches b6).1, ∀ p ∈ e.2, p.1 < 5 ∧ p.2 < 6) ∧
    (SlotSS03.find_matches b5).1.inside b5 ∧
    (SlotSS02.find_matches b6).1.inside b6 ∧
    (∀ e ∈ (SlotSS03.find_matches b5).1, ∀ p ∈ e.2,
      p.2 < ([0, 0, 0, 0, 0] : List Nat).length) ∧
    (∀ r c, SlotSS03.column_height c ≤ r →
      (SlotSS03.eliminate_matches b5 (SlotSS03.find_matches b5).1).cell r c =
        b5.cell r c) := by
  have hB : ∀ e ∈ (SlotSS03.find_matches b5).1, ∀ p ∈ e.2,
      p.2 < 5 ∧ p.1 < SlotSS03.column_height p.2 :=
    fun e he => (SlotSS03.chain_shape b5 e.1 e.2 (SlotSS03.entry_chain b5 e he)).1
  have hA : ∀ e ∈ (SlotSS02.find_matches b6).1, ∀ p ∈ e.2, p.1 < 5 ∧ p.2 < 6 := by
    intro e he p hp
    rw [SlotSS02.patterns_eq] at he
    obtain ⟨s, _, rfl⟩ := List.mem_map.mp he
    have := (SlotSS02.mem_occurrences b6 s p.1 p.2).mp hp
    exact ⟨this.1, this.2.1⟩
  refine ⟨?_, hA, ?_, ?_, fun e he p hp => (hB e he p hp).1, ?_⟩
  · intro e he p hp
    obtain ⟨h1, h2⟩ := hB e he p hp
    exact ⟨h1, h2, (SlotSS03.in_profile p.1 p.2 h1 h2).2⟩
  · intro e he p hp
    obtain ⟨h1, h2⟩ := hB e he p hp
    have hr : p.1 < 5 := lt_of_lt_of_le h2 (SlotSS03.column_height_le p.2)
    rw [h5.1, Board.row_length_of_shape h5 p.1 hr]
    exact ⟨hr, h1⟩
  · intro e he p hp
    obtain ⟨h1, h2⟩ := hA e he p hp
    rw [h6.1, Board.row_length_of_shape h6 p.1 h1]
    exact ⟨h1, h2⟩
  · intro r c hrc
    rw [SlotSS03.golden_eliminate_flat]
    obtain ⟨_, hcell⟩ := Board.fold_put_cell
      (fun p => if 100 ≤ b5.cell p.1 p.2 ∧ b5.cell p.1 p.2 < 200 then SlotSS03.WILD else -1)
      ((SlotSS03.find_matches b5).1.flatMap (fun e => e.2)) b5
    rw [hcell, if_neg]
    rintro ⟨hmem, _, _⟩
    obtain ⟨e, he, hp⟩ := List.mem_flatMap.mp hmem
    have := (hB e he (r, c) hp).2
    exact absurd hrc (not_le.mpr this)

/-- The patterns of the two sample win boards lie inside their boards. -/
theorem matched_positions_in_range_witness :
    (SlotSS03.find_matches sample_board_ss03).1.inside sample_board_ss03 ∧
    (SlotSS02.find_matches cluster_board_ss02).1.inside cluster_board_ss02 :=
  ⟨(matched_positions_in_range sample_board_ss03 cluster_board_ss02 (by decide)
      (by decide)).2.2.1,
    (matched_positions_in_range sample_board_ss03 cluster_board_ss02 (by decide)
      (by decide)).2.2.2.1⟩


/-- Rows 0..4 of a column after Variant A gravity: `-1` on top, then the values. -/
theorem SlotSS02.settled_values (board : Board) (c : Nat) :
    (List.range 5).map (SlotSS02.settled_cell board c) =
      List.replicate (5 - (SlotSS02.column_values board c).length) (-1) ++
        SlotSS02.column_values board c := by
  have hn := SlotSS02.values_length_le board c
  apply List.ext_getElem
  · simp only [List.length_map, List.length_range, List.length_append, List.length_replicate]
    omega
  · intro i h1 h2
    rw [List.getElem_map, List.getElem_range]
    unfold SlotSS02.settled_cell
    have hi : i < 5 := by simpa using h1
    by_cases hlow : i < 5 - (SlotSS02.column_values board c).length
    · rw [if_pos hlow, List.getElem_append_left (by simpa using hlow), List.getElem_replicate]
    · rw [if_neg hlow, List.getElem_append_right (by simp; omega)]
      simp only [List.length_replicate]
      rw [List.getD_eq_getElem _ 0 (by omega)]

/-- Column `c` of the result of Variant A gravity. -/
theorem SlotSS02.settled_column_list (board : Board) (hb : board.hasShape 5 6) (c : Nat)
    (hc : c < 6) :
    (List.range 5).map (fun r => (SlotSS02.apply_gravity board).cell r c) =
      List.replicate (5 - (SlotSS02.column_values board c).length) (-1) ++
        SlotSS02.column_values board c := by
  rw [← SlotSS02.settled_values]
  apply List.map_congr_left
  intro r hr
  exact (SlotSS02.gravity_cells board hb).2 r c (List.mem_range.mp hr) hc

/-- The values of a column are the same after Variant A gravity. -/
theorem SlotSS02.values_settled (board : Board) (hb : board.hasShape 5 6) (c : Nat)
    (hc : c < 6) :
    SlotSS02.column_values (SlotSS02.apply_gravity board) c =
      SlotSS02.column_values board c := by
  have hself : (SlotSS02.column_values board c).filter (fun x => decide (x ≠ -1))
      = SlotSS02.column_values board c := by
    unfold SlotSS02.column_values
    rw [List.filter_filter]
    simp
  have hback : SlotSS02.column_values (SlotSS02.apply_gravity board) c =
      ((List.range 5).map (fun r => (SlotSS02.apply_gravity board).cell r c)).filter
        (fun x => decide (x ≠ -1)) := rfl
  rw [hback, SlotSS02.settled_column_list board hb c hc, List.filter_append, List.filter_replicate,
    hself]
  simp

/-- A list is a permutation of its `-1` entries followed by its other entries. -/
theorem holes_first_perm (l : List Int) :
    List.Perm (List.replicate (l.length - (l.filter (fun x => decide (x ≠ -1))).length) (-1) ++
      l.filter (fun x => decide (x ≠ -1))) l := by
  have hsplit := List.filter_append_perm (fun x : Int => decide (x ≠ -1)) l
  have hlen := hsplit.length_eq
  rw [List.length_append] at hlen
  have hrep : l.filter (fun x => !decide (x ≠ -1)) =
      List.replicate (l.length - (l.filter (fun x => decide (x ≠ -1))).length) (-1) := by
    rw [List.eq_replicate_iff]
    refine ⟨by omega, ?_⟩
    intro x hx
    have := (List.mem_filter.mp hx).2
    simpa using this
  rw [← hrep]
  exact List.perm_append_comm.trans hsplit

/-- C34: Variant A gravity (`SlotSS02::apply_gravity`).  For every 5x6 board `b` and every
column `c`, with `v` the values of column `c` different from `-1` read top to bottom, column
`c` of the result is `5 - |v|` cells of `-1` followed by `v`; it depends only on column `c`
of `b`; it is a permutation of column `c` of `b`; the result is again a 5x6 board, and
gravity applied to it changes nothing. -/
theorem ss02_apply_gravity_spec (b : Board) (hb : b.hasShape 5 6) (c : Nat) (hc : c < 6) :
    (List.range 5).map (fun r => (SlotSS02.apply_gravity b).cell r c) =
      List.replicate (5 - (SlotSS02.column_values b c).length) (-1) ++
        SlotSS02.column_values b c ∧
    (SlotSS02.column_values b c).length ≤ 5 ∧
    (∀ b2 : Board, b2.hasShape 5 6 → (∀ r : Nat, r < 5 → b2.cell r c = b.cell r c) →
      ∀ r : Nat, r < 5 →
        (SlotSS02.apply_gravity b2).cell r c = (SlotSS02.apply_gravity b).cell r c) ∧
    List.Perm ((List.range 5).map (fun r => (SlotSS02.apply_gravity b).cell r c))
      ((List.range 5).map (fun r => b.cell r c)) ∧
    (SlotSS02.apply_gravity b).hasShape 5 6 ∧
    SlotSS02.apply_gravity (SlotSS02.apply_gravity b) = SlotSS02.apply_gravity b := by
  obtain ⟨d1, hcell1⟩ := SlotSS02.gravity_cells b hb
  have hshape1 := Board.hasShape_of_dims d1 5 6 hb
  refine ⟨SlotSS02.settled_column_list b hb c hc, SlotSS02.values_length_le b c, ?_, ?_, hshape1, ?_⟩
  · intro b2 hb2 hsame r hr
    rw [(SlotSS02.gravity_cells b2 hb2).2 r c hr hc, hcell1 r c hr hc]
    exact SlotSS02.settled_congr b2 b c hsame r
  · rw [SlotSS02.settled_column_list b hb c hc]
    have := holes_first_perm ((List.range 5).map (fun r => b.cell r c))
    simpa [SlotSS02.column_values] using this
  · obtain ⟨d2, hcell2⟩ := SlotSS02.gravity_cells _ hshape1
    apply Board.ext_cells d2
    intro r c2 hr hcol
    have hr5 : r < 5 := by rw [Board.length_of_dims d2, hshape1.1] at hr; exact hr
    have hc6 : c2 < 6 := by
      rw [Board.row_length_of_dims d2, Board.row_length_of_shape hshape1 r hr5] at hcol
      exact hcol
    rw [hcell2 r c2 hr5 hc6, hcell1 r c2 hr5 hc6]
    unfold SlotSS02.settled_cell
    rw [SlotSS02.values_settled b hb c2 hc6]

/-- Variant A gravity on the cluster board after its clusters are removed, column 0. -/
theorem ss02_apply_gravity_spec_witness :
    (SlotBase.eliminate_matches cluster_board_ss02
      (SlotSS02.find_matches cluster_board_ss02).1).hasShape 5 6 ∧ 0 < 6 ∧
    SlotSS02.apply_gravity (SlotSS02.apply_gravity
      (SlotBase.eliminate_matches cluster_board_ss02
        (SlotSS02.find_matches cluster_board_ss02).1)) =
      SlotSS02.apply_gravity (SlotBase.eliminate_matches cluster_board_ss02
        (SlotSS02.find_matches cluster_board_ss02).1) :=
  ⟨by decide, by decide,
    (ss02_apply_gravity_spec (SlotBase.eliminate_matches cluster_board_ss02
      (SlotSS02.find_matches cluster_board_ss02).1) (by decide) 0 (by decide)).2.2.2.2.2⟩


/-- Cells of the 5x6 grid that satisfy a test, counted column by column. -/
theorem SlotSS02.count_by_column (P : Nat × Nat → Bool) :
    ((all_positions 5 6).filter P).length =
      ((List.range 6).map
        (fun c => ((List.range 5).filter (fun r => P (r, c))).length)).sum := by
  have h2 := partition_count ((all_positions 5 6).filter P)
    (fun p : Nat × Nat => p.2) (List.range 6) (List.nodup_range 6)
  have h3 : ((all_positions 5 6).filter P).filter (fun p => decide (p.2 ∈ List.range 6)) =
      (all_positions 5 6).filter P := by
    rw [List.filter_eq_self]
    intro p hp
    have := ((mem_all_positions 5 6 p).mp (List.mem_filter.mp hp).1).2
    simpa using this
  rw [h3] at h2
  rw [← h2]
  congr 1
  apply List.map_congr_left
  intro c hc
  have hc6 : c < 6 := List.mem_range.mp hc
  rw [List.filter_filter]
  have h4 := all_positions_filter_col 5 6 c hc6 (fun r => P (r, c))
  have h5 : (all_positions 5 6).filter (fun p => decide (p.2 = c) && P p) =
      (all_positions 5 6).filter (fun p => decide (p.2 = c) && P (p.1, c)) := by
    apply List.filter_congr
    intro p _
    by_cases hpc : p.2 = c
    · rw [← hpc]
    · simp [hpc]
  rw [h5, h4, List.length_map]

theorem count_holes_map (f : Nat → Int) (l : List Nat) :
    (l.map f).count (-1) = (l.filter (fun r => decide (f r = -1))).length := by
  induction l with
  | nil => rfl
  | cons a t ih =>
    rw [List.map_cons, List.count_cons, ih, List.filter_cons]
    by_cases h : f a = -1
    · simp [h]
    · simp [h]

/-- Variant A gravity permutes every column of a 5x6 board. -/
theorem SlotSS02.gravity_column_perm (g : Board) (hg : g.hasShape 5 6) (c : Nat)
    (hc : c < 6) :
    List.Perm ((List.range 5).map (fun r => (SlotSS02.apply_gravity g).cell r c))
      ((List.range 5).map (fun r => g.cell r c)) := by
  rw [SlotSS02.settled_column_list g hg c hc]
  have := holes_first_perm ((List.range 5).map (fun r => g.cell r c))
  simpa [SlotSS02.column_values] using this

/-- Variant A gravity keeps the number of empty cells of a 5x6 board. -/
theorem SlotSS02.gravity_holes (g : Board) (hg : g.hasShape 5 6) :
    (SlotSS02.occurrences (SlotSS02.apply_gravity g) (-1)).length =
      (SlotSS02.occurrences g (-1)).length := by
  unfold SlotSS02.occurrences
  rw [SlotSS02.count_by_column, SlotSS02.count_by_column]
  have hcols : ∀ c ∈ List.range 6,
      ((List.range 5).filter
        (fun r => decide ((SlotSS02.apply_gravity g).cell r c = -1))).length =
      ((List.range 5).filter (fun r => decide (g.cell r c = -1))).length := by
    intro c hc
    have hc6 : c < 6 := List.mem_range.mp hc
    have := (SlotSS02.gravity_column_perm g hg c hc6).count_eq (-1)
    rw [count_holes_map, count_holes_map] at this
    exact this
  exact congrArg List.sum (List.map_congr_left hcols)

/-- The elimination of the patterns of a step empties as many cells as the patterns have
positions. -/
theorem SlotSS02.eliminated_holes (b : Board) (hb : b.hasShape 5 6) :
    (SlotSS02.occurrences
        (SlotBase.eliminate_matches b (SlotSS02.find_matches b).1) (-1)).length =
      (SlotSS02.occurrences b (-1)).length +
        ((SlotSS02.find_matches b).1.map (fun e => e.2.length)).sum := by
  have hsum : ((SlotSS02.find_matches b).1.map (fun e => e.2.length)).sum =
      ((all_positions 5 6).filter
        (fun p => decide (b.cell p.1 p.2 ∈ SlotSS02.matched_symbols b))).length := by
    rw [SlotSS02.patterns_eq, List.map_map]
    have h1 : ((SlotSS02.matched_symbols b).map
        ((fun e : Int × MatchPattern => e.2.length) ∘
          fun s => (s, SlotSS02.occurrences b s))).sum =
        ((SlotSS02.matched_symbols b).map (fun s => ((all_positions 5 6).filter
          (fun p => decide (b.cell p.1 p.2 = s))).length)).sum := rfl
    rw [h1, partition_count (all_positions 5 6) (fun p => b.cell p.1 p.2)
      (SlotSS02.matched_symbols b) (SlotSS02.matched_symbols_nodup b)]
  rw [hsum]
  unfold SlotSS02.occurrences
  rw [← filter_or_disjoint]
  · congr 1
    apply List.filter_congr
    intro p hp
    obtain ⟨hr, hc⟩ := (mem_all_positions 5 6 p).mp hp
    rw [(SlotSS02.eliminated_cell b hb).2 p.1 p.2 hr hc]
    by_cases hm : b.cell p.1 p.2 ∈ SlotSS02.matched_symbols b
    · simp [hm]
    · simp [hm]
  · intro p _ hboth
    simp only [decide_eq_true_eq] at hboth
    exact SlotSS02.matched_ne_empty b (hboth.1 ▸ hboth.2)

theorem flatMap_congr_mem {α β : Type} (l : List α) (f g : α → List β)
    (h : ∀ a ∈ l, f a = g a) : l.flatMap f = l.flatMap g := by
  induction l with
  | nil => rfl
  | cons a t ih =>
    rw [List.flatMap_cons, List.flatMap_cons, h a (List.mem_cons_self _ _),
      ih (fun x hx => h x (List.mem_cons_of_mem _ hx))]

/-- On 5x6 boards `refill` overwrites exactly the empty cells. -/
theorem SlotSS02.refill_drawn_eq (g : Board) (hg : g.hasShape 5 6) (i : Nat)
    (script : List Board) (hnext : (script.getD (i + 1) []).hasShape 5 6) :
    SlotSS02.refill_drawn g i script = SlotSS02.occurrences g (-1) := by
  unfold SlotSS02.refill_drawn SlotSS02.occurrences all_positions
  simp only
  rw [hg.1, List.filter_flatMap]
  apply flatMap_congr_mem
  intro row hrow
  have hr : row < 5 := List.mem_range.mp hrow
  rw [Board.row_length_of_shape hg row hr, List.filter_map]
  congr 1
  apply List.filter_congr
  intro col hcol
  have hc : col < 6 := List.mem_range.mp hcol
  have h1 : row < (script.getD (i + 1) []).length := by rw [hnext.1]; exact hr
  have h2 : col < ((script.getD (i + 1) []).getD row []).length := by
    rw [Board.row_length_of_shape hnext row hr]; exact hc
  show decide (g.cell row col = -1 ∧ row < (script.getD (i + 1) []).length ∧
    col < ((script.getD (i + 1) []).getD row []).length) = decide (g.cell row col = -1)
  rw [decide_eq_decide]
  exact ⟨fun h => h.1, fun h => ⟨h, h1, h2⟩⟩

/-- C39 (amended): per-step symbol conservation of Variant A.  For every 5x6 board `b` with
patterns `P` of `SlotSS02::find_matches`: no position list of `P` has a duplicate and the
lists of distinct symbols are pairwise disjoint; the board after elimination and gravity has
as many `-1` cells as `b` plus the number of positions of `P`; gravity alone keeps the
number of `-1` cells of every column of every 5x6 board.  A refill of the fallen board from
a 5x6 next board overwrites exactly its `-1` cells, so it draws the number of `-1` cells of
`b` plus the number of eliminated symbols; that is the number of eliminated symbols exactly
when `b` has no `-1` cell. -/
theorem ss02_step_conservation (b : Board) (hb : b.hasShape 5 6) :
    (∀ e ∈ (SlotSS02.find_matches b).1, e.2.Nodup) ∧
    (SlotSS02.find_matches b).1.Pairwise (fun e1 e2 => List.Disjoint e1.2 e2.2) ∧
    (SlotSS02.occurrences (SlotSS02.apply_gravity
        (SlotBase.eliminate_matches b (SlotSS02.find_matches b).1)) (-1)).length =
      (SlotSS02.occurrences b (-1)).length +
        ((SlotSS02.find_matches b).1.map (fun e => e.2.length)).sum ∧
    (∀ g : Board, g.hasShape 5 6 → ∀ c : Nat, c < 6 →
      ((List.range 5).map (fun r => (SlotSS02.apply_gravity g).cell r c)).count (-1) =
        ((List.range 5).map (fun r => g.cell r c)).count (-1)) ∧
    (∀ (i : Nat) (script : List Board), (script.getD (i + 1) []).hasShape 5 6 →
      (∀ r c : Nat, r < 5 → c < 6 →
        (SlotSS02.refill (SlotSS02.apply_gravity
          (SlotBase.eliminate_matches b (SlotSS02.find_matches b).1)) i script).cell r c =
          if (r, c) ∈ SlotSS02.refill_drawn (SlotSS02.apply_gravity
              (SlotBase.eliminate_matches b (SlotSS02.find_matches b).1)) i script then
            (script.getD (i + 1) []).cell r c
          else (SlotSS02.apply_gravity
            (SlotBase.eliminate_matches b (SlotSS02.find_matches b).1)).cell r c) ∧
      (SlotSS02.refill_drawn (SlotSS02.apply_gravity
          (SlotBase.eliminate_matches b (SlotSS02.find_matches b).1)) i script).length =
        (SlotSS02.occurrences b (-1)).length +
          ((SlotSS02.find_matches b).1.map (fun e => e.2.length)).sum ∧
      ((SlotSS02.refill_drawn (SlotSS02.apply_gravity
          (SlotBase.eliminate_matches b (SlotSS02.find_matches b).1)) i script).length =
          ((SlotSS02.find_matches b).1.map (fun e => e.2.length)).sum ↔
        ∀ r c : Nat, r < 5 → c < 6 → b.cell r c ≠ -1)) := by
  have hshapeE : (SlotBase.eliminate_matches b (SlotSS02.find_matches b).1).hasShape 5 6 :=
    Board.hasShape_of_dims (SlotSS02.eliminated_cell b hb).1 5 6 hb
  have hshapeF : (SlotSS02.apply_gravity
      (SlotBase.eliminate_matches b (SlotSS02.find_matches b).1)).hasShape 5 6 :=
    Board.hasShape_of_dims (SlotSS02.gravity_cells _ hshapeE).1 5 6 hshapeE
  have hcount : (SlotSS02.occurrences (SlotSS02.apply_gravity
        (SlotBase.eliminate_matches b (SlotSS02.find_matches b).1)) (-1)).length =
      (SlotSS02.occurrences b (-1)).length +
        ((SlotSS02.find_matches b).1.map (fun e => e.2.length)).sum := by
    rw [SlotSS02.gravity_holes _ hshapeE, SlotSS02.eliminated_holes b hb]
  refine ⟨?_, ?_, hcount, ?_, ?_⟩
  · intro e he
    rw [SlotSS02.patterns_eq] at he
    obtain ⟨s, _, rfl⟩ := List.mem_map.mp he
    exact List.Nodup.filter _ (all_positions_nodup 5 6)
  · rw [SlotSS02.patterns_eq, List.pairwise_map]
    refine (SlotSS02.matched_symbols_nodup b).imp ?_
    intro s1 s2 hne p hp1 hp2
    have h1 := ((SlotSS02.mem_occurrences b s1 p.1 p.2).mp hp1).2.2
    have h2 := ((SlotSS02.mem_occurrences b s2 p.1 p.2).mp hp2).2.2
    exact hne (h1.symm.trans h2)
  · intro g hg c hc
    exact (SlotSS02.gravity_column_perm g hg c hc).count_eq (-1)
  · intro i script hnext
    have hdrawn := SlotSS02.refill_drawn_eq _ hshapeF i script hnext
    refine ⟨?_, ?_, ?_⟩
    · intro r c hr hc
      have hcell := (SlotSS03.refill_cells (SlotSS02.apply_gravity
        (SlotBase.eliminate_matches b (SlotSS02.find_matches b).1)) i script).2 r c
        (by rw [hshapeF.1]; exact hr)
        (by rw [Board.row_length_of_shape hshapeF r hr]; exact hc)
      have hsame : SlotSS02.refill (SlotSS02.apply_gravity
          (SlotBase.eliminate_matches b (SlotSS02.find_matches b).1)) i script =
          SlotSS03.refill (SlotSS02.apply_gravity
          (SlotBase.eliminate_matches b (SlotSS02.find_matches b).1)) i script := rfl
      have h1 : r < (script.getD (i + 1) []).length := by rw [hnext.1]; exact hr
      have h2 : c < ((script.getD (i + 1) []).getD r []).length := by
        rw [Board.row_length_of_shape hnext r hr]; exact hc
      rw [hsame, hcell]
      by_cases hx : (SlotSS02.apply_gravity
          (SlotBase.eliminate_matches b (SlotSS02.find_matches b).1)).cell r c = -1
      · rw [if_pos ⟨hx, h1, h2⟩,
          if_pos (by rw [hdrawn]; exact (SlotSS02.mem_occurrences _ _ r c).mpr ⟨hr, hc, hx⟩)]
      · rw [if_neg (fun h => hx h.1),
          if_neg (fun h => hx (by
            rw [hdrawn] at h; exact ((SlotSS02.mem_occurrences _ _ r c).mp h).2.2))]
    · rw [hdrawn, hcount]
    · rw [hdrawn, hcount]
      constructor
      · intro h r c hr hc hcell
        have hzero : (SlotSS02.occurrences b (-1)).length = 0 := by omega
        have hmem := (SlotSS02.mem_occurrences b (-1) r c).mpr ⟨hr, hc, hcell⟩
        rw [List.length_eq_zero] at hzero
        rw [hzero] at hmem
        exact List.not_mem_nil _ hmem
      · intro h
        have hnil : SlotSS02.occurrences b (-1) = [] := by
          rw [List.eq_nil_iff_forall_not_mem]
          rintro ⟨r, c⟩ hp
          obtain ⟨hr, hc, hcell⟩ := (SlotSS02.mem_occurrences b (-1) r c).mp hp
          exact h r c hr hc hcell
        rw [hnil]
        simp

/-- The step on the cluster board: 17 positions are eliminated and the fallen board has 17
empty cells. -/
theorem ss02_step_conservation_witness :
    cluster_board_ss02.hasShape 5 6 ∧
    ((SlotSS02.find_matches cluster_board_ss02).1.map (fun e => e.2.length)).sum = 17 ∧
    (SlotSS02.occurrences (SlotSS02.apply_gravity
        (SlotBase.eliminate_matches cluster_board_ss02
          (SlotSS02.find_matches cluster_board_ss02).1)) (-1)).length =
      (SlotSS02.occurrences cluster_board_ss02 (-1)).length +
        ((SlotSS02.find_matches cluster_board_ss02).1.map (fun e => e.2.length)).sum :=
  ⟨by decide, by decide, (ss02_step_conservation cluster_board_ss02 (by decide)).2.2.1⟩

/-- C39 (counterexample): the 5x6 board `holed_cluster_board_ss02` has one `-1` cell, eight
`0` and nine `1`.  The step eliminates 17 symbols, and a refill of the fallen board from the
next board of `holed_script_ss02` overwrites 18 cells. -/
theorem ss02_step_conservation_counterexample :
    holed_cluster_board_ss02.hasShape 5 6 ∧
    (holed_script_ss02.getD 1 []).hasShape 5 6 ∧
    ((SlotSS02.find_matches holed_cluster_board_ss02).1.map (fun e => e.2.length)).sum = 17 ∧
    (SlotSS02.refill_drawn (SlotSS02.apply_gravity
      (SlotBase.eliminate_matches holed_cluster_board_ss02
        (SlotSS02.find_matches holed_cluster_board_ss02).1)) 0 holed_script_ss02).length
      = 18 ∧
    (SlotSS02.refill_drawn (SlotSS02.apply_gravity
      (SlotBase.eliminate_matches holed_cluster_board_ss02
        (SlotSS02.find_matches holed_cluster_board_ss02).1)) 0 holed_script_ss02).length ≠
      ((SlotSS02.find_matches holed_cluster_board_ss02).1.map (fun e => e.2.length)).sum := by
  decide


/-- Refill gives the next board exactly when the non-empty cells agree with it. -/
theorem refill_eq_next_iff (g : Board) (i : Nat) (script : List Board)
    (hd : g.dims = (script.getD (i + 1) []).dims) :
    SlotSS03.refill g i script = script.getD (i + 1) [] ↔
      cells_agree g (script.getD (i + 1) []) := by
  obtain ⟨hdims, hcell⟩ := SlotSS03.refill_cells g i script
  constructor
  · intro h row col hrow hcol hne
    have := hcell row col hrow hcol
    rw [if_neg (fun hc => hne hc.1), h] at this
    exact this.symm
  · intro h
    apply Board.ext_cells (hdims.trans hd)
    intro r c hr hc
    have hr2 : r < g.length := by rw [← Board.length_of_dims hdims]; exact hr
    have hc2 : c < (g.getD r []).length := by
      rw [← Board.row_length_of_dims hdims]; exact hc
    rw [hcell r c hr2 hc2]
    by_cases hx : g.cell r c = -1
    · have h1 : r < (script.getD (i + 1) []).length := by
        rw [← Board.length_of_dims hd]; exact hr2
      have h2 : c < ((script.getD (i + 1) []).getD r []).length := by
        rw [← Board.row_length_of_dims hd]; exact hc2
      rw [if_pos ⟨hx, h1, h2⟩]
    · rw [if_neg (fun hc3 => hx hc3.1)]
      exact h r c hr2 hc2 hx

theorem Engine.run_loop_flag (E : Engine) (script : List Board) :
    ∀ (fuel : Nat) (st : StepsState),
      (E.run_loop script fuel st).all_cascade_match = true → st.all_cascade_match = true := by
  intro fuel
  induction fuel with
  | zero => intro st h; exact h
  | succ fuel ih =>
    intro st h
    simp only [Engine.run_loop] at h
    by_cases hc : E.is_terminal st.current_board = false ∧ st.actual_stop < script.length - 1
    · rw [if_pos hc] at h
      have hb := ih _ h
      simp only [Engine.loop_body] at hb
      split_ifs at hb with hm
      · exact hb
    · rw [if_neg hc] at h
      exact h

theorem Engine.run_loop_flag_prefix (E : Engine) (script : List Board) (k : Nat) :
    ∀ (n : Nat) (st : StepsState),
      (E.run_loop script (n + k) st).all_cascade_match = true →
        (E.run_loop script n st).all_cascade_match = true := by
  intro n
  induction n with
  | zero =>
    intro st h
    rw [Nat.zero_add] at h
    exact Engine.run_loop_flag E script k st h
  | succ n ih =>
    intro st h
    rw [Nat.succ_add] at h
    simp only [Engine.run_loop] at h ⊢
    by_cases hc : E.is_terminal st.current_board = false ∧ st.actual_stop < script.length - 1
    · rw [if_pos hc] at h ⊢
      exact ih _ h
    · rw [if_neg hc] at h ⊢
      exact h

/-- While the cascade flag stays true, the refilling loop and the adopting loop of `steps`
run through the same states. -/
theorem Engine.run_loop_refill_eq (E : Engine) (refill : Board → Nat → List Board → Board)
    (script : List Board)
    (hrefill : ∀ i, i + 1 < script.length →
      cascade_match (E.fallen script i) (script.getD (i + 1) []) = true →
      refill (E.fallen script i) i script = script.getD (i + 1) []) :
    ∀ (fuel : Nat) (st : StepsState),
      st.current_board = script.getD st.actual_stop [] →
      (E.run_loop script fuel st).all_cascade_match = true →
      E.run_loop_refill refill script fuel st = E.run_loop script fuel st := by
  intro fuel
  induction fuel with
  | zero => intro st _ _; rfl
  | succ fuel ih =>
    intro st hcur h
    simp only [Engine.run_loop, Engine.run_loop_refill] at h ⊢
    by_cases hc : E.is_terminal st.current_board = false ∧ st.actual_stop < script.length - 1
    · rw [if_pos hc] at h ⊢
      rw [if_pos hc]
      have hflag := Engine.run_loop_flag E script fuel _ h
      have hmatch : cascade_match (E.fallen script st.actual_stop)
          (script.getD (st.actual_stop + 1) []) = true := by
        simp only [Engine.loop_body] at hflag
        unfold Engine.fallen
        rw [← hcur]
        by_cases hm : cascade_match (E.apply_gravity (E.eliminate_matches st.current_board
            (E.find_matches st.current_board).1)) (script.getD (st.actual_stop + 1) []) = true
        · exact hm
        · rw [if_neg hm] at hflag
          exact absurd hflag (by decide)
      have hbody : E.loop_body_refill refill script st = E.loop_body script st := by
        have := hrefill st.actual_stop (by omega) hmatch
        unfold Engine.fallen at this
        rw [← hcur] at this
        simp only [Engine.loop_body_refill, Engine.loop_body]
        rw [this]
      rw [hbody]
      exact ih _ rfl h
    · rw [if_neg hc, if_neg hc]

theorem Board.dims_of_shape {b : Board} {H W : Nat} (hb : b.hasShape H W) :
    b.dims = List.replicate H W := by
  unfold Board.dims
  rw [List.eq_replicate_iff]
  refine ⟨by rw [List.length_map]; exact hb.1, ?_⟩
  intro x hx
  obtain ⟨r, hr, rfl⟩ := List.mem_map.mp hx
  exact hb.2 r hr

theorem getD_mem_of_lt (script : List Board) (i : Nat) (hi : i < script.length) :
    script.getD i [] ∈ script := by
  rw [List.getD_eq_getElem _ _ hi]
  exact List.getElem_mem hi

/-- On a script of 5x5 boards the post-gravity board of Variant B has the dimensions of the
next script board. -/
theorem SlotSS03.fallen_dims_ss03 (script : List Board) (hshape : ∀ b ∈ script, b.hasShape 5 5)
    (i : Nat) (hi : i + 1 < script.length) :
    (SlotSS03.engine.fallen script i).dims = (script.getD (i + 1) []).dims := by
  have hb := hshape _ (getD_mem_of_lt script i (by omega))
  have hn := hshape _ (getD_mem_of_lt script (i + 1) hi)
  have hE : (SlotSS03.eliminate_matches (script.getD i [])
      (SlotSS03.find_matches (script.getD i [])).1).dims = (script.getD i []).dims := by
    rw [SlotSS03.golden_eliminate_flat]
    exact (Board.fold_put_cell _ _ _).1
  have hF := (SlotSS03.apply_gravity_cell _ (Board.hasShape_of_dims hE 5 5 hb)).1
  unfold Engine.fallen
  simp only [SlotSS03.engine]
  rw [hF, hE, Board.dims_of_shape hb, Board.dims_of_shape hn]

/-- On a script of 5x6 boards the post-gravity board of Variant A has the dimensions of the
next script board. -/
theorem SlotSS02.fallen_dims_ss02 (script : List Board) (hshape : ∀ b ∈ script, b.hasShape 5 6)
    (i : Nat) (hi : i + 1 < script.length) :
    (SlotSS02.engine.fallen script i).dims = (script.getD (i + 1) []).dims := by
  have hb := hshape _ (getD_mem_of_lt script i (by omega))
  have hn := hshape _ (getD_mem_of_lt script (i + 1) hi)
  have hE := (SlotSS02.eliminated_cell (script.getD i []) hb).1
  have hF := (SlotSS02.gravity_cells _ (Board.hasShape_of_dims hE 5 6 hb)).1
  unfold Engine.fallen
  simp only [SlotSS02.engine]
  rw [hF, hE, Board.dims_of_shape hb, Board.dims_of_shape hn]

/-- C38: adopting the script board equals refilling exactly when the cascade matches.  For
every board `g` and index `i` with `i + 1` inside the script and `next = script[i+1]` of the
dimensions of `g`, `refill(g, i, script)` of either variant equals `next` exactly when every
cell of `g` that is not `-1` equals the cell of `next`, which is what the comparison of
`steps` tests.  On a script of 5x5 (5x6) boards whose run ends with the cascade flag true,
the loop that refills the post-gravity board passes, after every number of iterations,
through the same state as the loop of `steps` that adopts the script board, and the
refilling `steps` returns the same result. -/
theorem refill_adoption_equivalence (script : List Board) (game_type : String)
    (special_multipliers : Int) :
    (∀ (g : Board) (i : Nat), i + 1 < script.length →
      g.dims = (script.getD (i + 1) []).dims →
      (SlotSS03.refill g i script = script.getD (i + 1) [] ↔
        cells_agree g (script.getD (i + 1) [])) ∧
      (SlotSS02.refill g i script = script.getD (i + 1) [] ↔
        cells_agree g (script.getD (i + 1) [])) ∧
      (cascade_match g (script.getD (i + 1) []) = true ↔
        cells_agree g (script.getD (i + 1) []))) ∧
    ((∀ b ∈ script, b.hasShape 5 5) →
      (SlotSS03.steps script).all_steps_cascade_matched = true →
      (∀ n, n ≤ script.length →
        SlotSS03.engine.run_loop_refill SlotSS03.refill script n (Engine.initial script) =
          SlotSS03.engine.run_loop script n (Engine.initial script)) ∧
      SlotSS03.steps_refill script = SlotSS03.steps script) ∧
    ((∀ b ∈ script, b.hasShape 5 6) →
      (SlotSS02.steps game_type script special_multipliers).all_steps_cascade_matched = true →
      (∀ n, n ≤ script.length →
        SlotSS02.engine.run_loop_refill SlotSS02.refill script n (Engine.initial script) =
          SlotSS02.engine.run_loop script n (Engine.initial script)) ∧
      SlotSS02.steps_refill game_type script special_multipliers =
        SlotSS02.steps game_type script special_multipliers) := by
  refine ⟨?_, ?_, ?_⟩
  · intro g i _ hd
    exact ⟨refill_eq_next_iff g i script hd, refill_eq_next_iff g i script hd,
      cascade_match_iff g _⟩
  · intro hshape hflag
    have hloops : ∀ n, n ≤ script.length →
        SlotSS03.engine.run_loop_refill SlotSS03.refill script n (Engine.initial script) =
          SlotSS03.engine.run_loop script n (Engine.initial script) := by
      intro n hn
      by_cases hs : script = []
      · subst hs
        have : n = 0 := by simpa using hn
        subst this
        rfl
      · have hfull : (SlotSS03.engine.run_loop script script.length
            (Engine.initial script)).all_cascade_match = true := by
          unfold SlotSS03.steps at hflag
          rw [if_neg hs] at hflag
          exact hflag
        apply Engine.run_loop_refill_eq SlotSS03.engine SlotSS03.refill script
        · intro i hi hm
          exact (refill_eq_next_iff _ i script (SlotSS03.fallen_dims_ss03 script hshape i hi)).mpr
            ((cascade_match_iff _ _).mp hm)
        · rfl
        · apply Engine.run_loop_flag_prefix SlotSS03.engine script (script.length - n) n
          rw [Nat.add_sub_cancel' hn]
          exact hfull
    refine ⟨hloops, ?_⟩
    unfold SlotSS03.steps_refill SlotSS03.steps Engine.replay
    rw [hloops script.length (le_refl _)]
    rfl
  · intro hshape hflag
    have hloops : ∀ n, n ≤ script.length →
        SlotSS02.engine.run_loop_refill SlotSS02.refill script n (Engine.initial script) =
          SlotSS02.engine.run_loop script n (Engine.initial script) := by
      intro n hn
      by_cases hs : script = []
      · subst hs
        have : n = 0 := by simpa using hn
        subst this
        rfl
      · have hfull : (SlotSS02.engine.run_loop script script.length
            (Engine.initial script)).all_cascade_match = true := by
          unfold SlotSS02.steps at hflag
          rw [if_neg hs] at hflag
          exact hflag
        apply Engine.run_loop_refill_eq SlotSS02.engine SlotSS02.refill script
        · intro i hi hm
          exact (refill_eq_next_iff _ i script (SlotSS02.fallen_dims_ss02 script hshape i hi)).mpr
            ((cascade_match_iff _ _).mp hm)
        · rfl
        · apply Engine.run_loop_flag_prefix SlotSS02.engine script (script.length - n) n
          rw [Nat.add_sub_cancel' hn]
          exact hfull
    refine ⟨hloops, ?_⟩
    unfold SlotSS02.steps_refill SlotSS02.steps Engine.replay
    rw [hloops script.length (le_refl _)]
    rfl

/-- The two cascade scripts: the run keeps the cascade flag, takes one step, and the
refilling `steps` returns the result of `steps`. -/
theorem refill_adoption_equivalence_witness :
    ((∀ b ∈ cascade_script_ss03, b.hasShape 5 5) ∧
      (SlotSS03.steps cascade_script_ss03).all_steps_cascade_matched = true ∧
      (SlotSS03.steps cascade_script_ss03).stop = 2 ∧
      SlotSS03.steps_refill cascade_script_ss03 = SlotSS03.steps cascade_script_ss03) ∧
    ((∀ b ∈ cascade_script_ss02, b.hasShape 5 6) ∧
      (SlotSS02.steps "base" cascade_script_ss02 1).all_steps_cascade_matched = true ∧
      (SlotSS02.steps "base" cascade_script_ss02 1).stop = 2 ∧
      SlotSS02.steps_refill "base" cascade_script_ss02 1 =
        SlotSS02.steps "base" cascade_script_ss02 1) :=
  ⟨⟨by decide, by decide, by decide,
      ((refill_adoption_equivalence cascade_script_ss03 "base" 1).2.1
        (by decide) (by decide)).2⟩,
    ⟨by decide, by decide, by decide,
      ((refill_adoption_equivalence cascade_script_ss02 "base" 1).2.2
        (by decide) (by decide)).2⟩⟩


/-! ## Machine arithmetic: where `int` and `float` are exact -/

theorem float_round_exact (x : Int) (h : -FLOAT_EXACT ≤ x ∧ x ≤ FLOAT_EXACT) :
    float_round x = some x := by
  unfold FLOAT_EXACT at h
  unfold float_round
  rw [if_pos (by omega)]

theorem int_result_exact (x : Int) (h : INT_MIN ≤ x ∧ x ≤ INT_MAX) : int_result x = some x := by
  unfold int_result
  rw [if_pos h]

theorem size_to_int_exact (n : Nat) (h : (n : Int) ≤ INT_MAX) : size_to_int n = n := by
  unfold INT_MAX at h
  unfold size_to_int
  omega

/-- The exponent of the last place: either 0 or `2^e * 2^23` is at most the magnitude. -/
theorem float_ulp_exponent_le (fuel a : Nat) :
    float_ulp_exponent fuel a = 0 ∨ 2 ^ float_ulp_exponent fuel a * 8388608 ≤ a := by
  induction fuel generalizing a with
  | zero => left; rfl
  | succ fuel ih =>
    unfold float_ulp_exponent
    by_cases ha : a < 16777216
    · left; rw [if_pos ha]
    · right
      rw [if_neg ha]
      rcases ih (a / 2) with h0 | hle
      · rw [h0]; simp; omega
      · rw [pow_succ]
        have : 2 * (a / 2) ≤ a := Nat.mul_div_le a 2
        calc 2 ^ float_ulp_exponent fuel (a / 2) * 2 * 8388608
            = 2 * (2 ^ float_ulp_exponent fuel (a / 2) * 8388608) := by ring
          _ ≤ 2 * (a / 2) := Nat.mul_le_mul_left 2 hle
          _ ≤ a := this

/-- Every `int` converts to a finite `float`. -/
theorem float_round_int (x : Int) (h : INT_MIN ≤ x ∧ x ≤ INT_MAX) :
    ∃ y, float_round x = some y := by
  unfold INT_MIN INT_MAX at h
  unfold float_round
  by_cases hx : x.natAbs ≤ 16777216
  · exact ⟨x, by rw [if_pos hx]⟩
  · rw [if_neg hx]
    simp only
    have ha : x.natAbs ≤ 2147483648 := by omega
    generalize x.natAbs = a at hx ha ⊢
    generalize hE : float_ulp_exponent 128 a = e
    have hpos : 0 < 2 ^ e := Nat.two_pow_pos e
    have hle : 2 ^ e ≤ a := by
      rcases float_ulp_exponent_le 128 a with h0 | h1
      · rw [hE] at h0; rw [h0]; simp; omega
      · rw [hE] at h1; omega
    have hq : a / 2 ^ e * 2 ^ e ≤ a := Nat.div_mul_le_self a (2 ^ e)
    have hy : (if 2 ^ e < 2 * (a % 2 ^ e) ∨ 2 * (a % 2 ^ e) = 2 ^ e ∧ a / 2 ^ e % 2 = 1
        then a / 2 ^ e + 1 else a / 2 ^ e) * 2 ^ e ≤ 2 * a := by
      split_ifs
      · rw [Nat.add_mul, Nat.one_mul]; omega
      · omega
    have hbig : (2 : Nat) * 2147483648 < 2 ^ 128 := by norm_num
    rw [if_neg (by omega)]
    split_ifs <;> exact ⟨_, rfl⟩

/-- A fold of partial additions is the exact sum when every addition along the way is. -/
theorem foldlM_exact {α : Type} (f : Int → α → Option Int) (t : α → Int) (ok : Int → Prop) :
    ∀ (l : List α) (init : Int),
      (∀ a ∈ l, ∀ total, ok total → ok (total + t a) → f total a = some (total + t a)) →
      (∀ k, k ≤ l.length → ok (init + ((l.take k).map t).sum)) →
      l.foldlM f init = some (init + (l.map t).sum) := by
  intro l
  induction l with
  | nil => intro init _ _; simp
  | cons a tl ih =>
    intro init hf hok
    have h0 : ok init := by simpa using hok 0 (Nat.zero_le _)
    have h1 : ok (init + t a) := by simpa using hok 1 (by simp)
    rw [List.foldlM_cons, hf a (List.mem_cons_self _ _) init h0 h1]
    simp only [Option.pure_def, Option.bind_eq_bind, Option.some_bind]
    rw [ih (init + t a) (fun b hb => hf b (List.mem_cons_of_mem _ hb))]
    · simp [add_assoc]
    · intro k hk
      have := hok (k + 1) (by simpa using hk)
      simpa [add_assoc] using this

/-- Partial sums of non-negative terms lie between 0 and the whole sum. -/
theorem prefix_sum_bounds {α : Type} (t : α → Int) (l : List α) (h : ∀ a ∈ l, 0 ≤ t a)
    (k : Nat) : 0 ≤ ((l.take k).map t).sum ∧ ((l.take k).map t).sum ≤ (l.map t).sum := by
  induction l generalizing k with
  | nil => simp
  | cons a tl ih =>
    have ha := h a (List.mem_cons_self _ _)
    have iht := ih (fun b hb => h b (List.mem_cons_of_mem _ hb))
    cases k with
    | zero =>
      simp only [List.take_zero, List.map_nil, List.sum_nil, List.map_cons, List.sum_cons]
      have := (iht tl.length)
      rw [List.take_length] at this
      omega
    | succ k =>
      simp only [List.take_succ_cons, List.map_cons, List.sum_cons]
      have := iht k
      omega

/-- One iteration of the scoring loop of `SlotBase::get_score` in machine arithmetic adds
the contribution of its entry when the values involved are exact. -/
theorem SlotBase.base_score_machine_body (pay_table : PayTable) (e : Int × MatchPattern)
    (hlen : (e.2.length : Int) ≤ INT_MAX)
    (hfallback : e.2 ≠ [] → pay_table.lookup e.1 e.2.length = none →
      INT_MIN ≤ e.1 * e.2.length ∧ e.1 * e.2.length ≤ INT_MAX)
    (hterm : -FLOAT_EXACT ≤ SlotBase.symbol_score pay_table e.1 e.2 ∧
      SlotBase.symbol_score pay_table e.1 e.2 ≤ FLOAT_EXACT)
    (total : Int)
    (hok : -FLOAT_EXACT ≤ total + SlotBase.symbol_score pay_table e.1 e.2 ∧
      total + SlotBase.symbol_score pay_table e.1 e.2 ≤ FLOAT_EXACT) :
    (if e.2 ≠ [] then
        let count : Int := size_to_int e.2.length
        match pay_table.lookup e.1 count with
        | some pay => (float_round pay).bind (fun pay => float_add total pay)
        | none =>
          (int_result (e.1 * count)).bind (fun product =>
            (int_to_float product).bind (fun term => float_add total term))
      else some total) = some (total + SlotBase.symbol_score pay_table e.1 e.2) := by
  unfold SlotBase.symbol_score at hterm hok ⊢
  by_cases hnil : e.2 = []
  · simp [hnil]
  · rw [if_neg hnil] at hterm hok ⊢
    rw [if_pos hnil]
    simp only [size_to_int_exact _ hlen]
    cases hl : pay_table.lookup e.1 e.2.length with
    | some pay =>
      rw [hl] at hterm hok
      simp only at hterm hok ⊢
      rw [float_round_exact pay hterm]
      simp only [Option.some_bind]
      unfold float_add
      exact float_round_exact _ hok
    | none =>
      rw [hl] at hterm hok
      simp only at hterm hok ⊢
      rw [int_result_exact _ (hfallback hnil hl)]
      simp only [Option.some_bind]
      unfold int_to_float
      rw [float_round_exact _ hterm]
      simp only [Option.some_bind]
      unfold float_add
      exact float_round_exact _ hok

/-- In machine arithmetic `SlotBase::get_score` is the exact sum of the contributions when
the sizes and fallback products are `int` and the contributions and partial sums are at
most 2^24 in magnitude. -/
theorem SlotBase.base_score_machine_exact (pay_table : PayTable) (patterns : MatchPatterns)
    (hlen : ∀ e ∈ patterns, (e.2.length : Int) ≤ INT_MAX)
    (hfallback : ∀ e ∈ patterns, e.2 ≠ [] → pay_table.lookup e.1 e.2.length = none →
      INT_MIN ≤ e.1 * e.2.length ∧ e.1 * e.2.length ≤ INT_MAX)
    (hterm : ∀ e ∈ patterns, -FLOAT_EXACT ≤ SlotBase.symbol_score pay_table e.1 e.2 ∧
      SlotBase.symbol_score pay_table e.1 e.2 ≤ FLOAT_EXACT)
    (hsum : ∀ k, k ≤ patterns.length →
      -FLOAT_EXACT ≤ ((patterns.take k).map
        (fun e => SlotBase.symbol_score pay_table e.1 e.2)).sum ∧
      ((patterns.take k).map
        (fun e => SlotBase.symbol_score pay_table e.1 e.2)).sum ≤ FLOAT_EXACT) :
    SlotBase.get_score_machine pay_table patterns =
      some ((patterns.map (fun e => SlotBase.symbol_score pay_table e.1 e.2)).sum) := by
  unfold SlotBase.get_score_machine
  have := foldlM_exact
    (fun total_score entry =>
      if entry.2 ≠ [] then
        let count : Int := size_to_int entry.2.length
        match pay_table.lookup entry.1 count with
        | some pay => (float_round pay).bind (fun pay => float_add total_score pay)
        | none =>
          (int_result (entry.1 * count)).bind (fun product =>
            (int_to_float product).bind (fun term => float_add total_score term))
      else some total_score)
    (fun e => SlotBase.symbol_score pay_table e.1 e.2)
    (fun x => -FLOAT_EXACT ≤ x ∧ x ≤ FLOAT_EXACT) patterns 0
    (fun e he total _ hok2 =>
      SlotBase.base_score_machine_body pay_table e (hlen e he) (hfallback e he) (hterm e he)
        total hok2)
    (fun k hk => by simpa using hsum k hk)
  simpa using this

theorem lookup_mem {α β : Type} [BEq α] [LawfulBEq α] (a : α) (b : β) (l : List (α × β))
    (h : List.lookup a l = some b) : (a, b) ∈ l := by
  induction l with
  | nil => simp at h
  | cons hd tl ih =>
    obtain ⟨k, v⟩ := hd
    rw [List.lookup_cons] at h
    by_cases hk : a == k
    · rw [hk] at h
      simp only [Option.some.injEq] at h
      have : a = k := by simpa using hk
      rw [this, h]
      exact List.mem_cons_self _ _
    · have hk2 : (a == k) = false := by simpa using hk
      rw [hk2] at h
      exact List.mem_cons_of_mem _ (ih h)

/-- An entry read from a paytable is one of its entries. -/
theorem PayTable.lookup_mem_entry (t : PayTable) (s k v : Int)
    (h : t.lookup s k = some v) : ∃ row ∈ t, (k, v) ∈ row.2 := by
  unfold PayTable.lookup at h
  cases hrow : List.lookup s t with
  | none => rw [hrow] at h; simp at h
  | some row =>
    rw [hrow] at h
    exact ⟨(s, row), lookup_mem s row t hrow, lookup_mem k v row h⟩

/-- The payouts of Variant B lie between 0 and 50. -/
theorem SlotSS03.pay_bounds (s : Int) (k : Nat) :
    0 ≤ SlotSS03.pay s k ∧ SlotSS03.pay s k ≤ 50 := by
  unfold SlotSS03.pay
  cases h : SlotSS03.pay_table.lookup s k with
  | none => simp
  | some v =>
    obtain ⟨row, hrow, hentry⟩ := PayTable.lookup_mem_entry _ _ _ _ h
    have hall : ∀ row ∈ SlotSS03.pay_table, ∀ entry ∈ row.2, 0 ≤ entry.2 ∧ entry.2 ≤ 50 := by
      decide
    simpa using hall row hrow _ hentry

theorem SlotSS03.symbol_score_nonneg (s : Int) (positions : MatchPattern) :
    0 ≤ SlotSS03.symbol_score s positions := by
  unfold SlotSS03.symbol_score
  split_ifs
  · exact mul_nonneg (SlotSS03.pay_bounds s _).1 (Int.ofNat_nonneg _)
  · exact le_refl _

theorem SlotSS03.column_count_le_length (positions : MatchPattern) (c : Nat) :
    SlotSS03.column_count positions c ≤ positions.length := by
  unfold SlotSS03.column_count
  exact List.length_filter_le _ _

/-- The `int` counters hold the column counts when the list has at most `INT_MAX`
positions. -/
theorem SlotSS03.column_counts_machine_eq (positions : MatchPattern)
    (hpos : ∀ p ∈ positions, p.2 < 5) (hlen : (positions.length : Int) ≤ INT_MAX) :
    SlotSS03.column_counts_machine positions = some (SlotSS03.column_counts positions) := by
  unfold SlotSS03.column_counts_machine
  rw [if_pos]
  rw [List.all_eq_true]
  intro n hn
  obtain ⟨i, hi, rfl⟩ := List.getElem_of_mem hn
  have hlen5 : (SlotSS03.column_counts positions).length = 5 := by
    unfold SlotSS03.column_counts
    exact (SlotSS03.column_counts_fold positions [0, 0, 0, 0, 0] rfl hpos 0 (by decide)).2
  have hget := SlotSS03.column_counts_getD positions hpos i (by omega)
  rw [List.getD_eq_getElem _ 0 hi] at hget
  rw [hget]
  have := SlotSS03.column_count_le_length positions i
  simp only [decide_eq_true_eq]
  omega

/-- The `int` product of positive factors is the product when the product is an `int`. -/
theorem SlotSS03.ways_fold_machine (cc : List Nat) :
    ∀ (l : List Nat) (init : Nat),
      (∀ c ∈ l, 0 < cc.getD c 0) →
      ((init * (l.map (fun c => cc.getD c 0)).prod : Nat) : Int) ≤ INT_MAX →
      l.foldlM (fun (ways : Int) col => int_result (ways * (cc.getD col 0 : Nat)))
          (init : Int) =
        some ((init * (l.map (fun c => cc.getD c 0)).prod : Nat) : Int) := by
  intro l
  induction l with
  | nil => intro init _ _; simp
  | cons a tl ih =>
    intro init hpos hle
    have hprod : 0 < (tl.map (fun c => cc.getD c 0)).prod := by
      apply List.prod_pos
      intro x hx
      obtain ⟨c, hc, rfl⟩ := List.mem_map.mp hx
      exact hpos c (List.mem_cons_of_mem _ hc)
    rw [List.map_cons, List.prod_cons, ← Nat.mul_assoc] at hle ⊢
    have hstep : ((init * cc.getD a 0 : Nat) : Int) ≤ INT_MAX := by
      have : init * cc.getD a 0 ≤ init * cc.getD a 0 * (tl.map (fun c => cc.getD c 0)).prod :=
        Nat.le_mul_of_pos_right _ hprod
      have h2 : ((init * cc.getD a 0 : Nat) : Int) ≤
          ((init * cc.getD a 0 * (tl.map (fun c => cc.getD c 0)).prod : Nat) : Int) :=
        Int.ofNat_le.mpr this
      exact le_trans h2 hle
    rw [List.foldlM_cons]
    have hres : int_result ((init : Int) * (cc.getD a 0 : Nat)) =
        some ((init * cc.getD a 0 : Nat) : Int) := by
      rw [← Int.natCast_mul]
      apply int_result_exact
      refine ⟨?_, hstep⟩
      have : (0 : Int) ≤ ((init * cc.getD a 0 : Nat) : Int) := Int.ofNat_nonneg _
      unfold INT_MIN
      omega
    rw [hres]
    simp only [Option.pure_def, Option.bind_eq_bind, Option.some_bind]
    exact ih (init * cc.getD a 0) (fun c hc => hpos c (List.mem_cons_of_mem _ hc)) hle

/-- One iteration of the scoring loop of `SlotSS03::get_score` in machine arithmetic adds
the contribution of its entry when the product of the counts is an `int` and the new total
is at most 2^24. -/
theorem SlotSS03.ways_score_machine_body (s : Int) (positions : MatchPattern)
    (hpos : ∀ p ∈ positions, p.2 < 5) (hlen : (positions.length : Int) ≤ INT_MAX)
    (hways : ((((List.range (SlotSS03.run_length positions)).map
      (SlotSS03.column_count positions)).prod : Nat) : Int) ≤ INT_MAX)
    (total : Int) (h0 : 0 ≤ total)
    (hok : total + SlotSS03.symbol_score s positions ≤ FLOAT_EXACT) :
    (if positions = [] then some total
      else
        (SlotSS03.column_counts_machine positions).bind (fun cc =>
          let consecutive := SlotSS03.consecutive_columns cc
          if consecutive < 3 then some total
          else
            (SlotSS03.ways_machine cc consecutive).bind (fun ways =>
              let payout : Int :=
                match SlotSS03.pay_table.lookup s consecutive with
                | some pay => pay
                | none => 0
              (int_to_float ways).bind (fun ways_float =>
                (float_mul payout ways_float).bind (fun term =>
                  float_add total term)))))
      = some (total + SlotSS03.symbol_score s positions) := by
  unfold SlotSS03.symbol_score at hok ⊢
  by_cases hnil : positions = []
  · subst hnil
    have : SlotSS03.run_length [] = 0 := by decide
    simp [this]
  · rw [if_neg hnil, SlotSS03.column_counts_machine_eq positions hpos hlen]
    simp only [Option.some_bind, SlotSS03.consecutive_columns_eq positions hpos]
    by_cases hk : SlotSS03.run_length positions < 3
    · rw [if_pos hk, if_neg (by omega)]; simp
    · rw [if_neg hk, if_pos (by omega)]
      rw [if_pos (by omega)] at hok
      obtain ⟨hle, hposrun, _⟩ := (SlotSS03.run_length_unique positions _).mp rfl
      have hmap : (List.range (SlotSS03.run_length positions)).map
          (fun c => (SlotSS03.column_counts positions).getD c 0)
          = (List.range (SlotSS03.run_length positions)).map
              (SlotSS03.column_count positions) := by
        apply List.map_congr_left
        intro c hc
        exact SlotSS03.column_counts_getD positions hpos c
          (by have := List.mem_range.mp hc; omega)
      have hwm : SlotSS03.ways_machine (SlotSS03.column_counts positions)
          (SlotSS03.run_length positions) =
          some ((((List.range (SlotSS03.run_length positions)).map
            (SlotSS03.column_count positions)).prod : Nat) : Int) := by
        unfold SlotSS03.ways_machine
        have := SlotSS03.ways_fold_machine (SlotSS03.column_counts positions)
          (List.range (SlotSS03.run_length positions)) 1
          (fun c hc => by
            have hc2 := List.mem_range.mp hc
            rw [SlotSS03.column_counts_getD positions hpos c (by omega)]
            exact hposrun c hc2)
          (by rw [Nat.one_mul, hmap]; exact hways)
        rw [Nat.one_mul, hmap] at this
        simpa using this
      rw [hwm]
      simp only [Option.some_bind]
      have hpay : (match SlotSS03.pay_table.lookup s (SlotSS03.run_length positions) with
          | some pay => pay
          | none => 0) = SlotSS03.pay s (SlotSS03.run_length positions) := by
        unfold SlotSS03.pay
        cases SlotSS03.pay_table.lookup s (SlotSS03.run_length positions) <;> rfl
      rw [hpay]
      generalize hW : (((List.range (SlotSS03.run_length positions)).map
        (SlotSS03.column_count positions)).prod : Nat) = W at hways hok ⊢
      obtain ⟨hp0, _⟩ := SlotSS03.pay_bounds s (SlotSS03.run_length positions)
      generalize SlotSS03.pay s (SlotSS03.run_length positions) = pay at hp0 hok ⊢
      have hW0 : (0 : Int) ≤ (W : Int) := Int.ofNat_nonneg _
      unfold int_to_float float_mul float_add
      by_cases hpz : pay = 0
      · subst hpz
        obtain ⟨y, hy⟩ := float_round_int (W : Int) ⟨by unfold INT_MIN; omega, hways⟩
        rw [hy]
        simp only [Option.some_bind, zero_mul]
        rw [float_round_exact 0 (by unfold FLOAT_EXACT; omega)]
        simp only [Option.some_bind, add_zero]
        simp only [zero_mul, add_zero] at hok
        exact float_round_exact total ⟨by unfold FLOAT_EXACT; omega, hok⟩
      · have hp1 : 1 ≤ pay := by omega
        have hterm0 : 0 ≤ pay * (W : Int) := mul_nonneg hp0 hW0
        have hWle : (W : Int) ≤ pay * (W : Int) := by nlinarith
        have hFE : (0 : Int) ≤ FLOAT_EXACT := by unfold FLOAT_EXACT; omega
        rw [float_round_exact (W : Int) ⟨by omega, by omega⟩]
        simp only [Option.some_bind]
        rw [float_round_exact (pay * (W : Int)) ⟨by omega, by omega⟩]
        simp only [Option.some_bind]
        exact float_round_exact _ ⟨by omega, hok⟩

/-- In machine arithmetic `SlotSS03::get_score` is the exact sum of the contributions when
every list has at most `INT_MAX` positions, every product of counts is an `int` and the sum
is at most 2^24. -/
theorem SlotSS03.ways_score_machine_exact (patterns : MatchPatterns)
    (hcols : ∀ e ∈ patterns, ∀ p ∈ e.2, p.2 < 5)
    (hlen : ∀ e ∈ patterns, (e.2.length : Int) ≤ INT_MAX)
    (hways : ∀ e ∈ patterns, ((((List.range (SlotSS03.run_length e.2)).map
      (SlotSS03.column_count e.2)).prod : Nat) : Int) ≤ INT_MAX)
    (hsum : (patterns.map (fun e => SlotSS03.symbol_score e.1 e.2)).sum ≤ FLOAT_EXACT) :
    SlotSS03.get_score_machine patterns =
      some ((patterns.map (fun e => SlotSS03.symbol_score e.1 e.2)).sum) := by
  unfold SlotSS03.get_score_machine
  have := foldlM_exact
    (fun total_score (entry : Int × MatchPattern) =>
      if entry.2 = [] then some total_score
      else
        (SlotSS03.column_counts_machine entry.2).bind (fun cc =>
          let consecutive := SlotSS03.consecutive_columns cc
          if consecutive < 3 then some total_score
          else
            (SlotSS03.ways_machine cc consecutive).bind (fun ways =>
              let payout : Int :=
                match SlotSS03.pay_table.lookup entry.1 consecutive with
                | some pay => pay
                | none => 0
              (int_to_float ways).bind (fun ways_float =>
                (float_mul payout ways_float).bind (fun term =>
                  float_add total_score term)))))
    (fun e => SlotSS03.symbol_score e.1 e.2)
    (fun x => 0 ≤ x ∧ x ≤ FLOAT_EXACT) patterns 0
    (fun e he total hok1 hok2 =>
      SlotSS03.ways_score_machine_body e.1 e.2 (hcols e he) (hlen e he) (hways e he) total
        hok1.1 hok2.2)
    (fun k hk => by
      have := prefix_sum_bounds (fun e : Int × MatchPattern => SlotSS03.symbol_score e.1 e.2)
        patterns (fun e _ => SlotSS03.symbol_score_nonneg e.1 e.2) k
      simp only [zero_add]
      exact ⟨this.1, le_trans this.2 hsum⟩)
  simpa using this


/-! ## The scores of the matchers are exact in machine arithmetic -/

theorem prod_range_le (f : Nat → Nat) (b : Nat) (h : ∀ c, f c ≤ b) (k : Nat) :
    ((List.range k).map f).prod ≤ b ^ k := by
  induction k with
  | zero => simp
  | succ k ih =>
    rw [List.range_succ, List.map_append, List.prod_append, pow_succ]
    simp only [List.map_cons, List.map_nil, List.prod_cons, List.prod_nil, Nat.mul_one]
    exact Nat.mul_le_mul ih (h k)

theorem sum_le_length_mul {α : Type} (t : α → Int) (b : Int) (l : List α)
    (h : ∀ a ∈ l, t a ≤ b) : (l.map t).sum ≤ l.length * b := by
  induction l with
  | nil => simp
  | cons a tl ih =>
    have ha := h a (List.mem_cons_self _ _)
    have iht := ih (fun x hx => h x (List.mem_cons_of_mem _ hx))
    simp only [List.map_cons, List.sum_cons, List.length_cons, Nat.cast_add, Nat.cast_one]
    linarith

/-- A chain of the Variant B matcher has at most five positions in a column and at most 24
positions. -/
theorem SlotSS03.chain_counts (board : Board) (s : Int) (positions : MatchPattern)
    (h : SlotSS03.chain board s = some positions) :
    (∀ c, SlotSS03.column_count positions c ≤ 5) ∧ positions.length ≤ 24 := by
  have hseed := SlotSS03.seed_positions_mem board s
  have hcol := SlotSS03.column_matches_mem board
  have hcs : ∀ c, SlotSS03.column_count (SlotSS03.seed_positions board s) c =
      if c = 0 then (SlotSS03.seed_positions board s).length else 0 :=
    fun c => SlotSS03.column_count_single _ 0 c (fun p hp => (hseed p hp).1)
  have hcc : ∀ col c, SlotSS03.column_count (SlotSS03.column_matches board col s) c =
      if c = col then (SlotSS03.column_matches board col s).length else 0 :=
    fun col c => SlotSS03.column_count_single _ col c (fun p hp => (hcol col s p hp).1)
  have m0 : (SlotSS03.seed_positions board s).length ≤ 4 := by
    unfold SlotSS03.seed_positions
    rw [List.length_map]
    have := List.length_filter_le (fun row => decide
      ((0 < board.cell row 0 ∧ board.cell row 0 < 100 ∧ board.cell row 0 = s) ∨
       (100 ≤ board.cell row 0 ∧ board.cell row 0 < 200 ∧ board.cell row 0 = s + 100)))
      (List.range 4)
    simpa using this
  have mcol : ∀ col, (SlotSS03.column_matches board col s).length ≤ 5 := by
    intro col
    unfold SlotSS03.column_matches
    rw [List.length_map]
    have := List.length_filter_le (fun row => decide
      (board.cell row col = s ∨ board.cell row col = s + 100 ∨ board.cell row col = 202))
      (List.range (SlotSS03.column_height col))
    have hh := SlotSS03.column_height_le col
    rw [List.length_range] at this
    omega
  have m1 := mcol 1
  have m2 := mcol 2
  have m3 := mcol 3
  have m4 := mcol 4
  unfold SlotSS03.chain at h
  split_ifs at h
  all_goals
    have hpos := (Option.some.inj h).symm
    subst hpos
    refine ⟨?_, ?_⟩
    · intro c
      simp only [SlotSS03.column_count_append, hcs, hcc]
      split_ifs <;> omega
    · simp only [List.length_append]
      omega

/-- Every entry of the map of the Variant B matcher: columns below 5, at most 24 positions,
and a product of counts of at most 3125. -/
theorem SlotSS03.matcher_entry_bounds (board : Board) (e : Int × MatchPattern)
    (he : e ∈ (SlotSS03.find_matches board).1) :
    (∀ p ∈ e.2, p.2 < 5) ∧ e.2.length ≤ 24 ∧
    ((List.range (SlotSS03.run_length e.2)).map (SlotSS03.column_count e.2)).prod ≤ 3125 := by
  have hchain := SlotSS03.entry_chain board e he
  obtain ⟨hin, _⟩ := SlotSS03.chain_shape board e.1 e.2 hchain
  obtain ⟨hcount, hlen⟩ := SlotSS03.chain_counts board e.1 e.2 hchain
  refine ⟨fun p hp => (hin p hp).1, hlen, ?_⟩
  have hk : SlotSS03.run_length e.2 ≤ 5 := ((SlotSS03.run_length_unique e.2 _).mp rfl).1
  calc ((List.range (SlotSS03.run_length e.2)).map (SlotSS03.column_count e.2)).prod
      ≤ 5 ^ SlotSS03.run_length e.2 := prod_range_le _ 5 hcount _
    _ ≤ 5 ^ 5 := Nat.pow_le_pow_right (by decide) hk
    _ = 3125 := by norm_num

/-- The map of the Variant B matcher has at most eight entries: every key is the value of
one of the four cells of column 0, or that value minus 100. -/
theorem SlotSS03.matcher_length_le (board : Board) :
    (SlotSS03.find_matches board).1.length ≤ 8 := by
  have hnd := SlotSS03.find_matches_keys_nodup board
  have hsub : (SlotSS03.find_matches board).1.keys ⊆
      (List.range 4).flatMap (fun row => [board.cell row 0, board.cell row 0 - 100]) := by
    intro s hs
    unfold MatchPatterns.keys at hs
    obtain ⟨e, he, rfl⟩ := List.mem_map.mp hs
    have hchain := SlotSS03.entry_chain board e he
    have hne : SlotSS03.chain board e.1 ≠ none := by rw [hchain]; simp
    obtain ⟨row, hrow, hcell⟩ :=
      (SlotSS03.seed_positions_ne_nil board e.1).mp ((SlotSS03.chain_ne_none board e.1).mp hne).1
    rw [List.mem_flatMap]
    refine ⟨row, List.mem_range.mpr hrow, ?_⟩
    rcases hcell with ⟨_, _, h3⟩ | ⟨_, _, h3⟩
    · simp [h3]
    · simp only [List.mem_cons, List.mem_singleton, List.not_mem_nil, or_false]
      right; omega
  have hlen := (List.subperm_of_subset hnd hsub).length_le
  unfold MatchPatterns.keys at hlen
  rw [List.length_map] at hlen
  have h8 : ((List.range 4).flatMap
      (fun row => [board.cell row 0, board.cell row 0 - 100])).length = 8 := by
    simp [List.range_succ]
  omega

/-- On every board the `float` score of the map of the Variant B matcher is the exact
score: it is at most 1250000. -/
theorem ss03_matcher_score_machine (board : Board) :
    SlotSS03.get_score_machine (SlotSS03.find_matches board).1 =
      some (SlotSS03.get_score (SlotSS03.find_matches board).1) ∧
    0 ≤ SlotSS03.get_score (SlotSS03.find_matches board).1 ∧
    SlotSS03.get_score (SlotSS03.find_matches board).1 ≤ 1250000 := by
  have hb := SlotSS03.matcher_entry_bounds board
  have hcols : ∀ e ∈ (SlotSS03.find_matches board).1, ∀ p ∈ e.2, p.2 < 5 :=
    fun e he => (hb e he).1
  have hterm : ∀ e ∈ (SlotSS03.find_matches board).1,
      SlotSS03.symbol_score e.1 e.2 ≤ 156250 := by
    intro e he
    unfold SlotSS03.symbol_score
    split_ifs
    · obtain ⟨hp0, hp50⟩ := SlotSS03.pay_bounds e.1 (SlotSS03.run_length e.2)
      have hW : ((((List.range (SlotSS03.run_length e.2)).map
          (SlotSS03.column_count e.2)).prod : Nat) : Int) ≤ 3125 := by
        exact_mod_cast (hb e he).2.2
      have hW0 : (0 : Int) ≤ ((((List.range (SlotSS03.run_length e.2)).map
          (SlotSS03.column_count e.2)).prod : Nat) : Int) := Int.ofNat_nonneg _
      nlinarith
    · decide
  have hsum : ((SlotSS03.find_matches board).1.map
      (fun e => SlotSS03.symbol_score e.1 e.2)).sum ≤ 1250000 := by
    have h1 := sum_le_length_mul (fun e : Int × MatchPattern => SlotSS03.symbol_score e.1 e.2)
      156250 _ hterm
    have h2 : (((SlotSS03.find_matches board).1.length : Nat) : Int) ≤ 8 := by
      exact_mod_cast SlotSS03.matcher_length_le board
    linarith
  have hnonneg : 0 ≤ ((SlotSS03.find_matches board).1.map
      (fun e => SlotSS03.symbol_score e.1 e.2)).sum :=
    (prefix_sum_bounds (fun e : Int × MatchPattern => SlotSS03.symbol_score e.1 e.2) _
      (fun e _ => SlotSS03.symbol_score_nonneg e.1 e.2) 0).2
  rw [SlotSS03.get_score_eq_sum _ hcols]
  refine ⟨?_, hnonneg, hsum⟩
  apply SlotSS03.ways_score_machine_exact _ hcols
  · intro e he
    have := (hb e he).2.1
    unfold INT_MAX
    omega
  · intro e he
    have : ((((List.range (SlotSS03.run_length e.2)).map
        (SlotSS03.column_count e.2)).prod : Nat) : Int) ≤ 3125 := by
      exact_mod_cast (hb e he).2.2
    unfold INT_MAX
    omega
  · unfold FLOAT_EXACT
    omega

/-- The payouts of Variant A lie between 0 and 1000. -/
theorem SlotSS02.pay_bounds_table (s k v : Int)
    (h : SlotSS02.pay_table.lookup s k = some v) : 0 ≤ v ∧ v ≤ 1000 := by
  obtain ⟨row, hrow, hentry⟩ := PayTable.lookup_mem_entry _ _ _ _ h
  have hall : ∀ row ∈ SlotSS02.pay_table, ∀ entry ∈ row.2, 0 ≤ entry.2 ∧ entry.2 ≤ 1000 := by
    decide
  simpa using hall row hrow _ hentry

/-- On every board the `float` score of the map of the Variant A matcher is the exact
score: it is at most 9000. -/
theorem ss02_matcher_score_machine (board : Board) :
    SlotBase.get_score_machine SlotSS02.pay_table (SlotSS02.find_matches board).1 =
      some (SlotBase.get_score SlotSS02.pay_table (SlotSS02.find_matches board).1) ∧
    0 ≤ SlotBase.get_score SlotSS02.pay_table (SlotSS02.find_matches board).1 ∧
    SlotBase.get_score SlotSS02.pay_table (SlotSS02.find_matches board).1 ≤ 9000 := by
  have hentry := SlotSS02.pattern_entry board
  have hterm : ∀ e ∈ (SlotSS02.find_matches board).1,
      0 ≤ SlotBase.symbol_score SlotSS02.pay_table e.1 e.2 ∧
      SlotBase.symbol_score SlotSS02.pay_table e.1 e.2 ≤ 1000 := by
    intro e he
    obtain ⟨_, _, h8, _, pay, hpay, _⟩ := hentry e he
    unfold SlotBase.symbol_score
    have hne : e.2 ≠ [] := by
      intro h0; rw [h0] at h8; simp at h8
    rw [if_neg hne, hpay]
    exact SlotSS02.pay_bounds_table _ _ _ hpay
  have hlen9 : (SlotSS02.find_matches board).1.length ≤ 9 := by
    rw [SlotSS02.patterns_eq, List.length_map]
    unfold SlotSS02.matched_symbols
    have := List.length_filter_le
      (fun s => decide (SlotSS02.min_match_size ≤ (SlotSS02.occurrences board s).length))
      SlotSS02.symbols
    have h9 : SlotSS02.symbols.length = 9 := by decide
    omega
  have hsum : ((SlotSS02.find_matches board).1.map
      (fun e => SlotBase.symbol_score SlotSS02.pay_table e.1 e.2)).sum ≤ 9000 := by
    have h1 := sum_le_length_mul
      (fun e : Int × MatchPattern => SlotBase.symbol_score SlotSS02.pay_table e.1 e.2)
      1000 _ (fun e he => (hterm e he).2)
    have h2 : (((SlotSS02.find_matches board).1.length : Nat) : Int) ≤ 9 := by
      exact_mod_cast hlen9
    linarith
  have hpre := prefix_sum_bounds
    (fun e : Int × MatchPattern => SlotBase.symbol_score SlotSS02.pay_table e.1 e.2)
    (SlotSS02.find_matches board).1 (fun e he => (hterm e he).1)
  rw [(base_score_formula_exact SlotSS02.pay_table (SlotSS02.find_matches board).1).1]
  refine ⟨?_, (hpre 0).2, hsum⟩
  apply SlotBase.base_score_machine_exact
  · intro e he
    obtain ⟨_, _, _, h30, _⟩ := hentry e he
    unfold INT_MAX
    omega
  · intro e he _ hnone
    obtain ⟨_, _, _, _, pay, hpay, _⟩ := hentry e he
    rw [hpay] at hnone
    exact absurd hnone (by simp)
  · intro e he
    have := hterm e he
    unfold FLOAT_EXACT
    omega
  · intro k _
    have := hpre k
    unfold FLOAT_EXACT
    omega


/-! ## The replay loop in machine arithmetic -/

theorem Engine.run_loop_total_mono (E : Engine) (script : List Board)
    (hnonneg : ∀ board, 0 ≤ E.get_score (E.find_matches board).1) :
    ∀ (fuel : Nat) (st : StepsState),
      st.total_score ≤ (E.run_loop script fuel st).total_score := by
  intro fuel
  induction fuel with
  | zero => intro st; exact le_refl _
  | succ fuel ih =>
    intro st
    simp only [Engine.run_loop]
    by_cases hc : E.is_terminal st.current_board = false ∧ st.actual_stop < script.length - 1
    · rw [if_pos hc]
      have h1 := ih (E.loop_body script st)
      have h2 : st.total_score ≤ (E.loop_body script st).total_score := by
        simp only [Engine.loop_body]
        have := hnonneg st.current_board
        omega
      exact le_trans h2 h1
    · rw [if_neg hc]

/-- While the total stays at most 2^24, the loop of `steps` in machine arithmetic passes
through the states of the loop in exact arithmetic. -/
theorem Engine.run_loop_machine_exact (E : Engine) (score : MatchPatterns → Option Int)
    (accumulate : Int → Int → Option Int) (script : List Board)
    (hnonneg : ∀ board, 0 ≤ E.get_score (E.find_matches board).1)
    (hscore : ∀ board,
      score (E.find_matches board).1 = some (E.get_score (E.find_matches board).1))
    (hacc : ∀ total s, 0 ≤ total → 0 ≤ s → total + s ≤ FLOAT_EXACT →
      accumulate total s = some (total + s)) :
    ∀ (fuel : Nat) (st : StepsState), 0 ≤ st.total_score →
      (E.run_loop script fuel st).total_score ≤ FLOAT_EXACT →
      E.run_loop_machine score accumulate script fuel st =
        some (E.run_loop script fuel st) := by
  intro fuel
  induction fuel with
  | zero => intro st _ _; rfl
  | succ fuel ih =>
    intro st h0 hb
    simp only [Engine.run_loop, Engine.run_loop_machine] at hb ⊢
    by_cases hc : E.is_terminal st.current_board = false ∧ st.actual_stop < script.length - 1
    · rw [if_pos hc] at hb ⊢
      rw [if_pos hc]
      have hs := hnonneg st.current_board
      have hmono := Engine.run_loop_total_mono E script hnonneg fuel (E.loop_body script st)
      have hbody_total : (E.loop_body script st).total_score =
          st.total_score + E.get_score (E.find_matches st.current_board).1 := rfl
      have hbody : E.loop_body_machine score accumulate script st =
          some (E.loop_body script st) := by
        unfold Engine.loop_body_machine
        simp only [hscore st.current_board, Option.some_bind]
        rw [hacc _ _ h0 hs (by rw [← hbody_total]; exact le_trans hmono hb)]
        rfl
      rw [hbody]
      simp only [Option.some_bind]
      exact ih _ (by rw [hbody_total]; omega) hb
    · rw [if_neg hc, if_neg hc]

theorem float_add_exact (total s : Int) (h0 : 0 ≤ total) (hs : 0 ≤ s)
    (hb : total + s ≤ FLOAT_EXACT) : float_add total s = some (total + s) := by
  unfold float_add
  exact float_round_exact _ ⟨by unfold FLOAT_EXACT; omega, hb⟩

theorem SlotSS02.accumulate_exact (total s : Int) (h0 : 0 ≤ total) (hs : 0 ≤ s)
    (hb : total + s ≤ FLOAT_EXACT) : SlotSS02.accumulate total s = some (total + s) := by
  unfold SlotSS02.accumulate int_to_float float_to_int
  have hFE : FLOAT_EXACT = 16777216 := rfl
  rw [float_round_exact total ⟨by omega, by omega⟩]
  simp only [Option.some_bind]
  rw [float_add_exact total s h0 hs hb]
  simp only [Option.some_bind]
  exact int_result_exact _ ⟨by unfold INT_MIN; omega, by unfold INT_MAX; omega⟩

/-- While the total is at most 2^24, `SlotSS03::steps` in machine arithmetic returns the
result of the exact reading. -/
theorem ss03_steps_machine_exact (script : List Board)
    (hb : (SlotSS03.steps script).total_score ≤ FLOAT_EXACT) :
    SlotSS03.steps_machine script = some (SlotSS03.steps script) := by
  unfold SlotSS03.steps_machine
  unfold SlotSS03.steps at hb ⊢
  by_cases h : script = []
  · rw [if_pos h, if_pos h]
  · rw [if_neg h] at hb ⊢
    rw [if_neg h]
    have := Engine.run_loop_machine_exact SlotSS03.engine SlotSS03.get_score_machine float_add
      script (fun board => (ss03_matcher_score_machine board).2.1)
      (fun board => (ss03_matcher_score_machine board).1) float_add_exact script.length
      { current_board := script.getD 0 [], total_score := 0, actual_stop := 0,
        all_patterns := [], all_cascade_match := true } (le_refl _) hb
    rw [this]
    rfl

/-- While the values are exact, `SlotSS02::steps` in machine arithmetic returns the result
of the exact reading: the accumulated total is at most 2^24 and, when the multiplier is
applied, the factor `m * f` is an `int` and the product is at most 2^24 in magnitude. -/
theorem ss02_steps_machine_exact (game_type : String) (script : List Board) (f : Int)
    (hb : (SlotSS02.engine.replay script).total_score ≤ FLOAT_EXACT)
    (hfree : game_type = "free" →
      0 < SlotSS02.multiplier_count (SlotSS02.engine.replay script).current_board →
      (INT_MIN ≤ (SlotSS02.multiplier_count (SlotSS02.engine.replay script).current_board
          : Int) * f ∧
        (SlotSS02.multiplier_count (SlotSS02.engine.replay script).current_board : Int) * f
          ≤ INT_MAX) ∧
      (-FLOAT_EXACT ≤ (SlotSS02.engine.replay script).total_score *
          ((SlotSS02.multiplier_count (SlotSS02.engine.replay script).current_board : Int)
            * f) ∧
        (SlotSS02.engine.replay script).total_score *
          ((SlotSS02.multiplier_count (SlotSS02.engine.replay script).current_board : Int)
            * f) ≤ FLOAT_EXACT)) :
    SlotSS02.steps_machine game_type script f = some (SlotSS02.steps game_type script f) := by
  unfold SlotSS02.steps_machine SlotSS02.steps
  by_cases h : script = []
  · rw [if_pos h, if_pos h]
  · rw [if_neg h, if_neg h]
    have hloop := Engine.run_loop_machine_exact SlotSS02.engine
      (SlotBase.get_score_machine SlotSS02.pay_table) SlotSS02.accumulate
      script (fun board => (ss02_matcher_score_machine board).2.1)
      (fun board => (ss02_matcher_score_machine board).1) SlotSS02.accumulate_exact
      script.length
      { current_board := script.getD 0 [], total_score := 0, actual_stop := 0,
        all_patterns := [], all_cascade_match := true } (le_refl _) hb
    have h0 : 0 ≤ (SlotSS02.engine.replay script).total_score :=
      Engine.run_loop_total_mono SlotSS02.engine script
        (fun board => (ss02_matcher_score_machine board).2.1) script.length
        { current_board := script.getD 0 [], total_score := 0, actual_stop := 0,
          all_patterns := [], all_cascade_match := true }
    have hrep : SlotSS02.engine.run_loop script script.length
        { current_board := script.getD 0 [], total_score := 0, actual_stop := 0,
          all_patterns := [], all_cascade_match := true } = SlotSS02.engine.replay script := rfl
    rw [hloop, hrep]
    simp only [Option.some_bind]
    have hFE : FLOAT_EXACT = 16777216 := rfl
    have hMAX : INT_MAX = 2147483647 := rfl
    have hMIN : INT_MIN = -2147483648 := rfl
    by_cases hg : game_type = "free"
    · simp only [if_pos hg]
      by_cases hm : 0 < SlotSS02.multiplier_count (SlotSS02.engine.replay script).current_board
      · obtain ⟨hint, hfl⟩ := hfree hg hm
        simp only [if_pos hm]
        rw [int_result_exact _ hint]
        simp only [Option.some_bind]
        rw [int_result_exact _ ⟨by omega, by omega⟩]
        simp only [Option.some_bind]
        unfold int_to_float
        rw [float_round_exact _ hfl]
        simp only [Option.some_bind]
      · simp only [if_neg hm, Option.some_bind]
        unfold int_to_float
        rw [float_round_exact _ ⟨by omega, hb⟩]
        simp only [Option.some_bind]
    · simp only [if_neg hg, Option.some_bind]
      unfold int_to_float
      rw [float_round_exact _ ⟨by omega, hb⟩]
      simp only [Option.some_bind]

/-! ## Scores and totals of the source: the claims in machine arithmetic -/

/-- C10 (amended): Variant B scoring in the arithmetic of the source.  For a patterns map
whose positions have columns in `0..4`, whose lists have at most `INT_MAX` positions, whose
products of counts are `int` values and whose exact score is at most 2^24, `get_score` is
the sum over the entries of `[k_s >= 3] * pay(s, k_s) * product over c < k_s of n_s(c)`,
with `n_s(c)` the number of positions in column `c`, `k_s` the number of leading columns
with a positive count and `pay` the paytable entry or 0; positions in columns after the
first empty column leave the contribution unchanged. -/
theorem ss03_get_score_spec (patterns : MatchPatterns)
    (hcols : ∀ e ∈ patterns, ∀ p ∈ e.2, p.2 < 5)
    (hlen : ∀ e ∈ patterns, (e.2.length : Int) ≤ INT_MAX)
    (hways : ∀ e ∈ patterns, ((((List.range (SlotSS03.run_length e.2)).map
      (SlotSS03.column_count e.2)).prod : Nat) : Int) ≤ INT_MAX)
    (hsum : (patterns.map (fun e => SlotSS03.symbol_score e.1 e.2)).sum ≤ FLOAT_EXACT) :
    SlotSS03.get_score_machine patterns =
      some ((patterns.map (fun e => SlotSS03.symbol_score e.1 e.2)).sum) ∧
    (∀ (s : Int) (positions extra : MatchPattern),
      (∀ p ∈ extra, SlotSS03.run_length positions < p.2) →
        SlotSS03.symbol_score s (positions ++ extra) = SlotSS03.symbol_score s positions) := by
  refine ⟨?_, (ss03_score_formula_exact patterns hcols).2⟩
  exact SlotSS03.ways_score_machine_exact patterns hcols hlen hways hsum

/-- The scoring formula on the sample patterns map: the score is 20. -/
theorem ss03_get_score_spec_witness :
    (∀ e ∈ sample_patterns, ∀ p ∈ e.2, p.2 < 5) ∧
    (sample_patterns.map (fun e => SlotSS03.symbol_score e.1 e.2)).sum ≤ FLOAT_EXACT ∧
    SlotSS03.get_score_machine sample_patterns = some 20 ∧
    SlotSS03.get_score_machine sample_patterns =
      some ((sample_patterns.map (fun e => SlotSS03.symbol_score e.1 e.2)).sum) :=
  ⟨by decide, by decide, by decide,
    (ss03_get_score_spec sample_patterns (by decide) (by decide) (by decide) (by decide)).1⟩

set_option maxRecDepth 100000 in
/-- C10 (counterexample): symbol 1 with 30 positions in each of the five columns has
24300000 ways and the payout 50, so the formula gives 1215000000; the `float` product of
the source is 1215000064.  With 74 positions in each column the `int` product of the counts
overflows and the source has no defined score. -/
theorem ss03_get_score_spec_counterexample :
    (∀ e ∈ wide_patterns, ∀ p ∈ e.2, p.2 < 5) ∧
    (wide_patterns.map (fun e => SlotSS03.symbol_score e.1 e.2)).sum = 1215000000 ∧
    SlotSS03.get_score_machine wide_patterns = some 1215000064 ∧
    (∀ e ∈ overflow_patterns, ∀ p ∈ e.2, p.2 < 5) ∧
    SlotSS03.get_score_machine overflow_patterns = none := by
  decide

/-- C12 (amended): Variant A scoring in the arithmetic of the source.  For a patterns map
whose lists have at most `INT_MAX` positions, whose fallback products `s * n` are `int`
values and whose contributions and partial sums, in the order of the map, are at most 2^24
in magnitude, `get_score` is the sum over the entries of the paytable entry of `(s, n)` when
there is one and of `s * n` otherwise, `n` being the number of positions; an entry with no
position contributes 0. -/
theorem base_get_score_spec (pay_table : PayTable) (patterns : MatchPatterns)
    (hlen : ∀ e ∈ patterns, (e.2.length : Int) ≤ INT_MAX)
    (hfallback : ∀ e ∈ patterns, e.2 ≠ [] → pay_table.lookup e.1 e.2.length = none →
      INT_MIN ≤ e.1 * e.2.length ∧ e.1 * e.2.length ≤ INT_MAX)
    (hterm : ∀ e ∈ patterns, -FLOAT_EXACT ≤ SlotBase.symbol_score pay_table e.1 e.2 ∧
      SlotBase.symbol_score pay_table e.1 e.2 ≤ FLOAT_EXACT)
    (hsum : ∀ k, k ≤ patterns.length →
      -FLOAT_EXACT ≤ ((patterns.take k).map
        (fun e => SlotBase.symbol_score pay_table e.1 e.2)).sum ∧
      ((patterns.take k).map
        (fun e => SlotBase.symbol_score pay_table e.1 e.2)).sum ≤ FLOAT_EXACT) :
    SlotBase.get_score_machine pay_table patterns
      = some ((patterns.map (fun e => SlotBase.symbol_score pay_table e.1 e.2)).sum) ∧
    (∀ s : Int, SlotBase.symbol_score pay_table s [] = 0) ∧
    (∀ (s : Int) (positions : MatchPattern) (pay : Int), positions ≠ [] →
      pay_table.lookup s positions.length = some pay →
      SlotBase.symbol_score pay_table s positions = pay) ∧
    (∀ (s : Int) (positions : MatchPattern), positions ≠ [] →
      pay_table.lookup s positions.length = none →
      SlotBase.symbol_score pay_table s positions = s * positions.length) := by
  refine ⟨?_, (base_score_formula_exact pay_table patterns).2⟩
  exact SlotBase.base_score_machine_exact pay_table patterns hlen hfallback hterm hsum

/-- The scoring rule on a map with a paytable entry (200) and a fallback (12 * 2). -/
theorem base_get_score_spec_witness :
    (∀ e ∈ mixed_patterns_ss02, (e.2.length : Int) ≤ INT_MAX) ∧
    SlotBase.get_score_machine SlotSS02.pay_table mixed_patterns_ss02 = some 224 ∧
    SlotBase.get_score_machine SlotSS02.pay_table mixed_patterns_ss02 =
      some ((mixed_patterns_ss02.map
        (fun e => SlotBase.symbol_score SlotSS02.pay_table e.1 e.2)).sum) :=
  ⟨by decide, by decide,
    (base_get_score_spec SlotSS02.pay_table mixed_patterns_ss02 (by decide) (by decide)
      (by decide) (by decide)).1⟩

/-- C12 (counterexample): the symbol 16777217 with one position has no paytable entry, so
the rule gives `16777217 * 1`; the source converts the `int` product to `float` and returns
16777216.  For the symbol 2^30 with two positions the `int` product overflows and the source
has no defined score. -/
theorem base_get_score_spec_counterexample :
    (odd_symbol_patterns.map
      (fun e => SlotBase.symbol_score SlotSS02.pay_table e.1 e.2)).sum = 16777217 ∧
    SlotBase.get_score_machine SlotSS02.pay_table odd_symbol_patterns = some 16777216 ∧
    (large_symbol_patterns.map
      (fun e => SlotBase.symbol_score SlotSS02.pay_table e.1 e.2)).sum = 2147483648 ∧
    SlotBase.get_score_machine SlotSS02.pay_table large_symbol_patterns = none := by
  decide

/-- C2 (amended): the total of `steps` in the arithmetic of the source.  For
`SlotSS03::steps`, and for `SlotSS02::steps` in the base game with any `special_multipliers`,
on a non-empty script with stop index `s`: every step score is the exact score of the map
of the matcher; when the sum over `i = 0..s-2` of `get_score(find_matches(script[i]))` is at
most 2^24, `steps` returns the result of the exact reading, whose total is that sum: each
step is scored on the recorded board, independently of elimination, gravity and the cascade
flag, and no multiplier is applied. -/
theorem steps_total_score (script : List Board) (special_multipliers : Int)
    (h : script ≠ []) :
    ((∀ board, SlotSS03.get_score_machine (SlotSS03.find_matches board).1 =
        some (SlotSS03.get_score (SlotSS03.find_matches board).1)) ∧
      (((List.range ((SlotSS03.steps script).stop - 1)).map
          (fun i => SlotSS03.get_score (SlotSS03.find_matches (script.getD i [])).1)).sum
          ≤ FLOAT_EXACT →
        SlotSS03.steps_machine script = some (SlotSS03.steps script)) ∧
      (SlotSS03.steps script).total_score =
        ((List.range ((SlotSS03.steps script).stop - 1)).map
          (fun i => SlotSS03.get_score (SlotSS03.find_matches (script.getD i [])).1)).sum) ∧
    ((∀ board, SlotBase.get_score_machine SlotSS02.pay_table (SlotSS02.find_matches board).1 =
        some (SlotBase.get_score SlotSS02.pay_table (SlotSS02.find_matches board).1)) ∧
      (((List.range ((SlotSS02.steps "base" script special_multipliers).stop - 1)).map
          (fun i => SlotBase.get_score SlotSS02.pay_table
            (SlotSS02.find_matches (script.getD i [])).1)).sum ≤ FLOAT_EXACT →
        SlotSS02.steps_machine "base" script special_multipliers =
          some (SlotSS02.steps "base" script special_multipliers)) ∧
      (SlotSS02.steps "base" script special_multipliers).total_score =
        ((List.range ((SlotSS02.steps "base" script special_multipliers).stop - 1)).map
          (fun i => SlotBase.get_score SlotSS02.pay_table
            (SlotSS02.find_matches (script.getD i [])).1)).sum) := by
  obtain ⟨e3, e2⟩ := steps_total_score_exact script special_multipliers h
  refine ⟨⟨fun board => (ss03_matcher_score_machine board).1, ?_, e3⟩,
    ⟨fun board => (ss02_matcher_score_machine board).1, ?_, e2⟩⟩
  · intro hb
    rw [← e3] at hb
    exact ss03_steps_machine_exact script hb
  · intro hb
    rw [← e2] at hb
    apply ss02_steps_machine_exact "base" script special_multipliers
    · unfold SlotSS02.steps at hb
      rw [if_neg h] at hb
      have hne : ¬ ("base" = "free") := by decide
      simp only [if_neg hne] at hb
      exact hb
    · intro hfree
      exact absurd hfree (by decide)

/-- The total on the two-board sample script: 80 for Variant B. -/
theorem steps_total_score_witness :
    sample_script ≠ [] ∧
    ((List.range ((SlotSS03.steps sample_script).stop - 1)).map
      (fun i => SlotSS03.get_score
        (SlotSS03.find_matches (sample_script.getD i [])).1)).sum ≤ FLOAT_EXACT ∧
    (SlotSS03.steps sample_script).total_score = 80 ∧
    SlotSS03.steps_machine sample_script = some (SlotSS03.steps sample_script) ∧
    SlotSS02.steps_machine "base" sample_script 7 =
      some (SlotSS02.steps "base" sample_script 7) :=
  ⟨by decide, by decide, by decide,
    (steps_total_score sample_script 7 (by decide)).1.2.1 (by decide),
    (steps_total_score sample_script 7 (by decide)).2.2.1 (by decide)⟩

set_option maxRecDepth 1000000 in
/-- C2 (counterexample): on `long_script_ss03` the recorded boards score 168 times 100000
and then 1, so the sum over `i = 0..168` is 16800001, while `SlotSS03::steps` returns the
`float` total 16800000 with stop index 170: the last addition is rounded. -/
theorem steps_total_score_counterexample :
    long_script_ss03 ≠ [] ∧
    SlotSS03.get_score (SlotSS03.find_matches full_board_ss03).1 = 100000 ∧
    SlotSS03.get_score (SlotSS03.find_matches small_win_board_ss03).1 = 1 ∧
    SlotSS03.is_valid_board "base" full_board_ss03 false = .returned true ∧
    SlotSS03.is_valid_board "base" small_win_board_ss03 false = .returned true ∧
    (SlotSS03.steps_machine long_script_ss03).map (fun r => (r.total_score, r.stop)) =
      some (16800000, 170) ∧
    ((List.range (170 - 1)).map
      (fun i => SlotSS03.get_score
        (SlotSS03.find_matches (long_script_ss03.getD i [])).1)).sum = 16800001 := by
  decide

theorem ss02_steps_fields (game_type : String) (script : List Board) (f : Int)
    (h : script ≠ []) :
    (SlotSS02.steps game_type script f).final_board =
      (SlotSS02.engine.replay script).current_board ∧
    (SlotSS02.steps game_type script f).stop - 1 = (SlotSS02.engine.replay script).actual_stop ∧
    (SlotSS02.engine.replay script).total_score =
      ((List.range (SlotSS02.engine.replay script).actual_stop).map
        (fun i => SlotBase.get_score SlotSS02.pay_table
          (SlotSS02.find_matches (script.getD i [])).1)).sum := by
  refine ⟨?_, ?_, ?_⟩
  · unfold SlotSS02.steps
    rw [if_neg h]
  · unfold SlotSS02.steps
    rw [if_neg h]
    simp only [Nat.add_sub_cancel]
  · obtain ⟨j, _, _, _, h4⟩ := SlotSS02.engine.replay_spec script
    rw [h4]
    rfl

/-- C13 (amended): the free-game multiplier in the arithmetic of the source.  For SlotSS02
in the free game and a non-empty script, let `S` be the sum of the per-step scores, `m` the
number of multiplier symbols on the final board and `f` the factor.  When `S` is at most
2^24 and, for `m > 0`, the factor `m * f` is an `int` and `S * (m * f)` is at most 2^24 in
magnitude, `steps(script, f)` returns the result of the exact reading, whose total is
`S * (m * f)` when `m > 0` and `S` itself when `m = 0`; the per-step scores are not
multiplied. -/
theorem ss02_free_multiplier (script : List Board) (f : Int) (h : script ≠ [])
    (hS : ((List.range ((SlotSS02.steps "free" script f).stop - 1)).map
      (fun i => SlotBase.get_score SlotSS02.pay_table
        (SlotSS02.find_matches (script.getD i [])).1)).sum ≤ FLOAT_EXACT)
    (hm : 0 < SlotSS02.multiplier_count (SlotSS02.steps "free" script f).final_board →
      (INT_MIN ≤
          (SlotSS02.multiplier_count (SlotSS02.steps "free" script f).final_board : Int) * f ∧
        (SlotSS02.multiplier_count (SlotSS02.steps "free" script f).final_board : Int) * f
          ≤ INT_MAX) ∧
      (-FLOAT_EXACT ≤
          ((List.range ((SlotSS02.steps "free" script f).stop - 1)).map
            (fun i => SlotBase.get_score SlotSS02.pay_table
              (SlotSS02.find_matches (script.getD i [])).1)).sum *
            ((SlotSS02.multiplier_count (SlotSS02.steps "free" script f).final_board : Int)
              * f) ∧
        ((List.range ((SlotSS02.steps "free" script f).stop - 1)).map
            (fun i => SlotBase.get_score SlotSS02.pay_table
              (SlotSS02.find_matches (script.getD i [])).1)).sum *
            ((SlotSS02.multiplier_count (SlotSS02.steps "free" script f).final_board : Int)
              * f) ≤ FLOAT_EXACT)) :
    SlotSS02.steps_machine "free" script f = some (SlotSS02.steps "free" script f) ∧
    (SlotSS02.steps "free" script f).total_score =
      if 0 < SlotSS02.multiplier_count (SlotSS02.steps "free" script f).final_board then
        ((List.range ((SlotSS02.steps "free" script f).stop - 1)).map
          (fun i => SlotBase.get_score SlotSS02.pay_table
            (SlotSS02.find_matches (script.getD i [])).1)).sum *
          ((SlotSS02.multiplier_count (SlotSS02.steps "free" script f).final_board : Int) * f)
      else
        ((List.range ((SlotSS02.steps "free" script f).stop - 1)).map
          (fun i => SlotBase.get_score SlotSS02.pay_table
            (SlotSS02.find_matches (script.getD i [])).1)).sum := by
  refine ⟨?_, ss02_free_multiplier_exact script f h⟩
  obtain ⟨hfb, hstop, htot⟩ := ss02_steps_fields "free" script f h
  rw [hfb, hstop, ← htot] at hm
  rw [hstop, ← htot] at hS
  exact ss02_steps_machine_exact "free" script f hS (fun _ => hm)

/-- The multiplier rule on a script that wins 5 and ends on a board with one multiplier
symbol, with the factor 3: the total is 15. -/
theorem ss02_free_multiplier_witness :
    rounding_script_ss02 ≠ [] ∧
    SlotSS02.multiplier_count (SlotSS02.steps "free" rounding_script_ss02 3).final_board = 1 ∧
    (SlotSS02.steps "free" rounding_script_ss02 3).total_score = 15 ∧
    SlotSS02.steps_machine "free" rounding_script_ss02 3 =
      some (SlotSS02.steps "free" rounding_script_ss02 3) :=
  ⟨by decide, by decide, by decide,
    (ss02_free_multiplier rounding_script_ss02 3 (by decide) (by decide) (by decide)).1⟩

/-- C13 (counterexample): in the free game, on a script whose first board wins 250 and whose
final board holds no multiplier symbol, `steps` returns 250 and not `250 * (0 * 3)`.  On a
script that wins 5 and ends on a board with one multiplier symbol, with the factor 3355445,
`steps` returns the `float` 16777224 and not `5 * (1 * 3355445) = 16777225`, and with the
factor 2147483647 the `int` product overflows and the source has no defined total. -/
theorem ss02_free_multiplier_counterexample :
    SlotSS02.multiplier_count (free_script_ss02.getD 1 []) = 0 ∧
    SlotBase.get_score SlotSS02.pay_table
      (SlotSS02.find_matches (free_script_ss02.getD 0 [])).1 = 250 ∧
    (SlotSS02.steps_machine "free" free_script_ss02 3).map
      (fun r => (r.total_score, r.stop)) = some (250, 2) ∧
    SlotSS02.multiplier_count (rounding_script_ss02.getD 1 []) = 1 ∧
    SlotBase.get_score SlotSS02.pay_table
      (SlotSS02.find_matches (rounding_script_ss02.getD 0 [])).1 = 5 ∧
    (SlotSS02.steps_machine "free" rounding_script_ss02 3355445).map
      (fun r => (r.total_score, r.stop)) = some (16777224, 2) ∧
    (5 : Int) * (1 * 3355445) = 16777225 ∧
    SlotSS02.steps_machine "free" rounding_script_ss02 2147483647 = none := by
  decide

end Slot
